import Mathlib

/-!
# SamaVM ledger state machine: shallow embedding and verified properties

The ledger of `chain/` is embedded as pure functions over explicit state.
Go maps are finite maps with pairwise distinct keys, `uint64` quantities are
natural numbers with explicit reduction modulo `2^64` where the source can
wrap, and every Go function that returns an `error` returns the state it
leaves behind together with an optional error.
-/

namespace SamaVM

/-! ## Go maps -/

/-- A Go `map[K]V`: a finite list of entries whose keys are pairwise distinct.
The order of the entries stands for the (unspecified) iteration order. -/
structure GoMap (K V : Type) where
  entries : List (K × V)
  nodup : (entries.map Prod.fst).Nodup

namespace GoMap

variable {K V : Type}

instance [DecidableEq K] [DecidableEq V] : DecidableEq (GoMap K V) := fun a b =>
  decidable_of_iff (a.entries = b.entries)
    ⟨fun h => by cases a; cases b; simp at h; subst h; rfl, fun h => by rw [h]⟩

/-- The map `make(map[K]V)`. -/
def empty : GoMap K V := ⟨[], List.nodup_nil⟩

/-- The value of `len(m)`. -/
def len (m : GoMap K V) : Nat := m.entries.length

/-- The keys in iteration order. -/
def keys (m : GoMap K V) : List K := m.entries.map Prod.fst

/-- The values in iteration order. -/
def elems (m : GoMap K V) : List V := m.entries.map Prod.snd

variable [DecidableEq K]

/-- Lookup in a list of entries. -/
def lookupList : List (K × V) → K → Option V
  | [], _ => none
  | (k1, v) :: rest, k => if k1 = k then some v else lookupList rest k

/-- The value of `v, ok := m[k]`, `none` when `ok` is false. -/
def get (m : GoMap K V) (k : K) : Option V := lookupList m.entries k

/-- The `ok` of `_, ok := m[k]`. -/
def has (m : GoMap K V) (k : K) : Bool := (m.get k).isSome

/-- The effect of `delete(m, k)`. -/
def del (m : GoMap K V) (k : K) : GoMap K V :=
  ⟨m.entries.filter (fun e => !decide (e.1 = k)),
    m.nodup.sublist ((List.filter_sublist m.entries).map Prod.fst)⟩

/-- The effect of `m[k] = v`. -/
def put (m : GoMap K V) (k : K) (v : V) : GoMap K V :=
  ⟨(k, v) :: m.entries.filter (fun e => !decide (e.1 = k)), by
    simp only [List.map_cons, List.nodup_cons]
    refine ⟨?_, m.nodup.sublist ((List.filter_sublist m.entries).map Prod.fst)⟩
    intro hmem
    rcases List.mem_map.1 hmem with ⟨e, he, hk⟩
    have := (List.mem_filter.1 he).2
    simp at this
    exact this hk⟩

/-- The effect of `for a := range m { delete(m, a) }`. -/
def clear (m : GoMap K V) : GoMap K V := m.keys.foldl del m

/-- The effect of `for k, v := range src { delete(dst, k); dst[k] = v }`. -/
def mergeAdd (dst src : GoMap K V) : GoMap K V :=
  src.entries.foldl (fun c e => (c.del e.1).put e.1 e.2) dst

/-- The effect of `for k := range src { delete(dst, k) }`. -/
def mergeDel (dst src : GoMap K V) : GoMap K V :=
  src.keys.foldl del dst

/-- The effect of assigning through the pointer `m[k]` (the map itself is not
touched): the record stored under `k`, if any, is replaced where it stands. -/
def set (m : GoMap K V) (k : K) (v : V) : GoMap K V :=
  ⟨m.entries.map (fun e => if e.1 = k then (k, v) else e), by
    have h : (m.entries.map (fun e => if e.1 = k then (k, v) else e)).map Prod.fst =
        m.entries.map Prod.fst := by
      rw [List.map_map]
      apply List.map_congr_left
      intro e _
      simp only [Function.comp]
      split_ifs with h
      · exact h.symm
      · rfl
    rw [h]
    exact m.nodup⟩

end GoMap

/-! ## Machine integers, identifiers, time and errors -/

/-- A 20-byte `common.Address`, as the number its bytes spell big-endian. -/
abbrev Address := Nat

/-- A 32-byte `ids.ID`. -/
abbrev ID := Nat

/-- A 20-byte `ids.ShortID`. -/
abbrev ShortID := Nat

/-- Wrapping `uint64` addition. -/
def add64 (a b : Nat) : Nat := (a + b) % 2 ^ 64

/-- Wrapping `uint64` subtraction. -/
def sub64 (a b : Nat) : Nat := (a % 2 ^ 64 + 2 ^ 64 - b % 2 ^ 64) % 2 ^ 64

/-- Wrapping `uint64` multiplication. -/
def mul64 (a b : Nat) : Nat := (a * b) % 2 ^ 64

/-- The conversion `byte(x)`. -/
def toByte (x : Nat) : Nat := x % 256

/-- The conversion `uint32(x)`. -/
def toUint32 (x : Nat) : Nat := x % 2 ^ 32

/-- The conversion `int64(x)` of a `uint64`. -/
def toInt64 (x : Nat) : Int :=
  if x % 2 ^ 64 < 2 ^ 63 then ((x % 2 ^ 64 : Nat) : Int) else ((x % 2 ^ 64 : Nat) : Int) - 2 ^ 64

/-- The `n` big-endian bytes of `x`. -/
def bytesBE (n x : Nat) : List Nat := (List.range n).map (fun i => x / 256 ^ (n - 1 - i) % 256)

/-- The instant returned by `time.Now()`: whole seconds since the epoch and the
nanoseconds within the second. One transaction reads one instant. -/
structure Time where
  sec : Nat
  nsec : Nat
  deriving DecidableEq, Repr

/-- The value of `uint64(now.Unix())`. -/
def Time.Unix (now : Time) : Nat := now.sec

/-- The constant `unixToInternal` of the `time` package: the seconds from
January 1 of the year 1 to the Unix epoch. -/
def unixToInternal : Int := 62135596800

/-- The value an `int64` addition leaves: the sum reduced into
`[-2^63, 2^63)`. -/
def wrapInt64 (x : Int) : Int := (x + 2 ^ 63) % 2 ^ 64 - 2 ^ 63

/-- The seconds `sec()` of the instant `time.Unix(t, 0)`, which stores
`t + unixToInternal` in an `int64`. -/
def unixSec (t : Int) : Int := wrapInt64 (t + unixToInternal)

/-- The seconds `sec()` of the instant `now`, counted from the year 1. -/
def Time.internalSec (now : Time) : Int := wrapInt64 ((now.sec : Int) + unixToInternal)

/-- The value of `now.After(time.Unix(t, 0))`: the instants are compared by
`sec()` and then by the nanoseconds, which are 0 for `time.Unix(t, 0)`. -/
def Time.After (now : Time) (t : Int) : Bool :=
  decide (now.internalSec > unixSec t ∨ (now.internalSec = unixSec t ∧ now.nsec > 0))

/-- The value of `now.Before(time.Unix(t, 0))`: the nanoseconds of `now`
are never below the 0 of `time.Unix(t, 0)`. -/
def Time.Before (now : Time) (t : Int) : Bool :=
  decide (now.internalSec < unixSec t ∨ (now.internalSec = unixSec t ∧ now.nsec < 0))

/-- The errors of the package: its sentinel values, the messages built with
`fmt.Errorf`, errors handed up from libraries, and a run-time panic (a write
to a nil map, a nil dereference, an integer division by zero). -/
inductive Error where
  | ErrIDErr
  | ErrStakerType
  | ErrStakeAmount
  | ErrNonActionable
  | ErrEndTimeTooEarly
  | ErrEndTimeTooLate
  | ErrNotFound
  | Errorf (msg : String)
  | lib (msg : String)
  | panic (msg : String)
  deriving DecidableEq, Repr

def SecondsYear : Nat := 364 * 24 * 60 * 60
def SecondsMonth : Nat := 30 * 24 * 60 * 60
def SecondsDay : Nat := 24 * 60 * 60
def Seconds7Day : Nat := 7 * 24 * 60 * 60
def SecondsMinute : Nat := 60
def HoursYear : Nat := 364 * 24
def EffectiveSecs : Nat := 100

/-! ## Records -/

structure StakerMeta where
  TxID : ID
  StakerType : Nat
  StakeAmount : Nat
  StakeTime : Nat
  StakerAddr : Address
  deriving DecidableEq, Repr

structure ActionMeta where
  ActionID : ShortID
  ActionType : Nat
  StartTime : Nat
  EndTime : Nat
  TxIDs : List ID
  Voters : List Address
  Key : String
  NewValue : String
  deriving DecidableEq, Repr

structure ProofMeta where
  Netflow : Nat
  WorkTime : Nat
  Miner : Address
  TxID : ID
  UpdateTime : Nat
  deriving DecidableEq, Repr

structure PowMeta where
  PowType : Nat
  TotalTime : Nat
  Totalflow : Nat
  LastUpdateTime : Nat
  LastUpdateTXID : ID
  Miner : Address
  deriving DecidableEq, Repr

structure RewardGlobal where
  LastOprTime : Nat
  LastOprTXID : ID
  deriving DecidableEq, Repr

structure RewardMeta where
  YieldReward : Nat
  BaseReward : Nat
  MeritReward : Nat
  LastOprTime : Nat
  LastOprTXID : ID
  LastClaimTime : Nat
  LastClaimTXID : ID
  RewardAddr : Address
  deriving DecidableEq, Repr

structure YieldMeta where
  Total : Nat
  Undistributed : Nat
  LastOprTime : Nat
  LastOprTXID : ID
  deriving DecidableEq, Repr

structure UserType where
  TypeName : String
  TypeID : Nat
  FeeUnits : Nat
  deriving DecidableEq, Repr

structure UserMeta where
  StartTime : Nat
  EndTime : Nat
  Connections : Nat
  PayAmount : Nat
  TxsID : List ID
  UserType : Nat
  Address : Address
  deriving DecidableEq, Repr

structure DetailMeta where
  StakerType : Nat
  Country : String
  LocalIP : String
  PublicIP : String
  MinPort : Nat
  MaxPort : Nat
  CheckPort : Nat
  WorkKey : String
  TxID : ID
  LastUpdateTime : Nat
  WorkAddress : Address
  StakeAddress : Address
  deriving DecidableEq, Repr

structure SysParamsMeta where
  Symbol : String
  TotalTokens : Nat
  ClaimMinUnits : Nat
  ClaimMinInterval : Nat
  TotalYears : Nat
  RateSustainYears : Nat
  ChainCreateTime : Nat
  MinerPerc : Nat
  FoundationPerc : Nat
  RoutePerc : Nat
  SerPerc : Nat
  ValidatorPerc : Nat
  BaseSerPerc : Nat
  MeritSerPerc : Nat
  BaseRoutePerc : Nat
  MeritRoutePerc : Nat
  RouteStakeAmount : Nat
  SerStakeAmount : Nat
  MinStakeTime : Nat
  MonthCard : Nat
  SeasonCard : Nat
  AnnualCard : Nat
  BurnPerc : Nat
  RootAddress : String
  FoundationAddr : String
  UpdateTime : Nat
  UpdateTxID : ID
  deriving DecidableEq, Repr

/-- The chain parameters of `Genesis` (the block and fee parameters of the
host are left out). -/
structure Genesis where
  TotalTokens : Nat
  ClaimMinUnits : Nat
  ClaimMinInterval : Nat
  TotalYears : Nat
  RateSustainYears : Nat
  ChainCreateTime : Nat
  MinerPerc : Nat
  FoundationPerc : Nat
  RoutePerc : Nat
  SerPerc : Nat
  ValidatorPerc : Nat
  BaseSerPerc : Nat
  MeritSerPerc : Nat
  BaseRoutePerc : Nat
  MeritRoutePerc : Nat
  BurnPerc : Nat
  RouteStake : Nat
  SerStake : Nat
  MonthCard : Nat
  SeasonCard : Nat
  AnnualCard : Nat
  MinStakeTime : Nat
  RootAddress : String
  FoundationAddr : String
  deriving DecidableEq, Repr

def StakerMeta.zero : StakerMeta := ⟨0, 0, 0, 0, 0⟩
def ActionMeta.zero : ActionMeta := ⟨0, 0, 0, 0, [], [], "", ""⟩
def PowMeta.zero : PowMeta := ⟨0, 0, 0, 0, 0, 0⟩
def RewardMeta.zero : RewardMeta := ⟨0, 0, 0, 0, 0, 0, 0, 0⟩
def UserType.zero : UserType := ⟨"", 0, 0⟩
def UserMeta.zero : UserMeta := ⟨0, 0, 0, 0, [], 0, 0⟩
def DetailMeta.zero : DetailMeta := ⟨0, "", "", "", 0, 0, 0, "", 0, 0, 0, 0⟩

/-! ## The persisted store -/

/-- What `Marshal` writes: the codec is injective and keeps the record type,
so a stored value is the record under a tag; `raw` is any other byte string. -/
inductive DbValue where
  | staker (m : StakerMeta)
  | action (m : ActionMeta)
  | pow (m : PowMeta)
  | reward (m : RewardMeta)
  | rewardGlobal (m : RewardGlobal)
  | yields (m : YieldMeta)
  | sysParams (m : SysParamsMeta)
  | userType (m : UserType)
  | user (m : UserMeta)
  | detail (m : DetailMeta)
  | raw (b : List Nat)
  deriving DecidableEq, Repr

/-- The `database.Database` handed to the engine: byte-string keys, `Get`,
`Put` and `Delete`. A store that is open does not fail on `Put` or `Delete`. -/
abbrev Database := GoMap (List Nat) DbValue

/-- The call `db.Put(k, v)`. -/
def Database.Put (db : Database) (k : List Nat) (v : DbValue) : Database := GoMap.put db k v

/-- The call `db.Delete(k)`. -/
def Database.Delete (db : Database) (k : List Nat) : Database := GoMap.del db k

/-- The call `db.Get(k)`; `none` is `database.ErrNotFound`. -/
def Database.Get (db : Database) (k : List Nat) : Option DbValue := GoMap.get db k

/-- The order of byte strings in which the store iterates its keys. -/
def keyLe : List Nat → List Nat → Bool
  | [], _ => true
  | _ :: _, [] => false
  | x :: xs, y :: ys => if x < y then true else if y < x then false else keyLe xs ys

/-- One entry put in its place in a list of entries sorted by key. -/
def insertByKey (e : List Nat × DbValue) :
    List (List Nat × DbValue) → List (List Nat × DbValue)
  | [] => [e]
  | f :: rest => if keyLe e.1 f.1 then e :: f :: rest else f :: insertByKey e rest

/-- The values that the cursor of `db.NewIteratorWithPrefix(pre)` meets: those
of the entries whose key starts with `pre`, in the order of the keys. -/
def Database.iterate (db : Database) (pre : List Nat) : List DbValue :=
  (((db.entries.filter (fun e => pre.isPrefixOf e.1)).foldr insertByKey []).map Prod.snd)

/-- What a state-changing function leaves behind: the sub-ledger state, the
store, and the returned `error` (`none` for `nil`). -/
structure Res (σ : Type) where
  st : σ
  db : Database
  err : Option Error

/-- The constants of the storage layer (declared outside the files at hand)
and the library and host functions the engine calls. -/
structure Env where
  routePrefix : Nat
  serPrefix : Nat
  validatorPrefix : Nat
  stakerPrefix : Nat
  powPrefix : Nat
  rewardPrefix : Nat
  yieldsPrefix : Nat
  usersPrefix : Nat
  userTypesPrefix : Nat
  detailsPrefix : Nat
  actionsPrefix : Nat
  sysParamPrefix : Nat
  ByteDelimiter : Nat
  HexToAddress : String → Address
  Hex : Address → String
  WorkKeyAddress : String → Except Error Address
  ModifyBalance : Database → Address → Bool → Nat → Database × Option Error
  ModifyStakeBalance : Database → Address → Bool → Nat → Database × Option Error
  RewardFloat : Nat → Nat → Nat → Nat

/-- The role constants are bytes and, being the cases of one `switch`,
pairwise different. -/
def Env.valid (E : Env) : Prop :=
  E.routePrefix < 256 ∧ E.serPrefix < 256 ∧ E.validatorPrefix < 256 ∧
  E.routePrefix ≠ E.serPrefix ∧ E.routePrefix ≠ E.validatorPrefix ∧
  E.serPrefix ≠ E.validatorPrefix

instance (E : Env) : Decidable E.valid := by unfold Env.valid; infer_instance

/-! ## StakerRegistry (`stake_status.go`) -/

def stakerTypeRoute (E : Env) : Nat := E.routePrefix
def stakerTypeSer (E : Env) : Nat := E.serPrefix
def stakerTypeValidator (E : Env) : Nat := E.validatorPrefix

def PrefixStaker4Key (E : Env) (stakerType : Nat) (address : Address) : List Nat :=
  [E.stakerPrefix, E.ByteDelimiter, stakerType, E.ByteDelimiter] ++ bytesBE 20 address

def StakerTypes (E : Env) : List Nat :=
  [stakerTypeRoute E, stakerTypeSer E, stakerTypeValidator E]

structure stakerState where
  curRoute : GoMap Address StakerMeta
  curSer : GoMap Address StakerMeta
  curValidator : GoMap Address StakerMeta
  pendingRouteAdd : GoMap Address StakerMeta
  pendingSerAdd : GoMap Address StakerMeta
  pendingValidatorAdd : GoMap Address StakerMeta
  pendingRouteDel : GoMap Address StakerMeta
  pendingSerDel : GoMap Address StakerMeta
  pendingValidatorDel : GoMap Address StakerMeta
  deriving DecidableEq

/-- The maps `GetPendingStakers` returns; `none` is the pair of nil maps it
returns with `ErrIDErr`. -/
def stakerState.GetPendingStakers (E : Env) (s : stakerState) (stakerType : Nat) :
    Option (GoMap Address StakerMeta × GoMap Address StakerMeta) :=
  if stakerType = stakerTypeSer E then some (s.pendingSerAdd, s.pendingSerDel)
  else if stakerType = stakerTypeRoute E then some (s.pendingRouteAdd, s.pendingRouteDel)
  else if stakerType = stakerTypeValidator E then some (s.pendingValidatorAdd, s.pendingValidatorDel)
  else none

/-- Writing through the map references `GetPendingStakers` returned. -/
def stakerState.setPendingStakers (E : Env) (s : stakerState) (stakerType : Nat)
    (add del : GoMap Address StakerMeta) : stakerState :=
  if stakerType = stakerTypeSer E then { s with pendingSerAdd := add, pendingSerDel := del }
  else if stakerType = stakerTypeRoute E then { s with pendingRouteAdd := add, pendingRouteDel := del }
  else if stakerType = stakerTypeValidator E then
    { s with pendingValidatorAdd := add, pendingValidatorDel := del }
  else s

/-- The map `GetCurStakes` returns; `none` is the nil map it returns with
`ErrIDErr`. -/
def stakerState.GetCurStakes (E : Env) (s : stakerState) (stakerType : Nat) :
    Option (GoMap Address StakerMeta) :=
  if stakerType = stakerTypeSer E then some s.curSer
  else if stakerType = stakerTypeRoute E then some s.curRoute
  else if stakerType = stakerTypeValidator E then some s.curValidator
  else none

/-- Writing through the map reference `GetCurStakes` returned. -/
def stakerState.setCurStakes (E : Env) (s : stakerState) (stakerType : Nat)
    (cur : GoMap Address StakerMeta) : stakerState :=
  if stakerType = stakerTypeSer E then { s with curSer := cur }
  else if stakerType = stakerTypeRoute E then { s with curRoute := cur }
  else if stakerType = stakerTypeValidator E then { s with curValidator := cur }
  else s

/-- Reading a possibly nil map. -/
def curGet {V : Type} (m : Option (GoMap Address V)) (address : Address) : Option V :=
  match m with
  | some cur => cur.get address
  | none => none

def stakerState.GetStakersNum (s : stakerState) : Nat × Nat × Nat :=
  (s.curRoute.len, s.curSer.len, s.curValidator.len)

/-- The first role, in the order of `StakerTypes`, under which the address is
staked. -/
def stakerState.IsStakerLoop (E : Env) (s : stakerState) (address : Address) :
    List Nat → Bool × Nat
  | [] => (false, 0)
  | stakerType :: rest =>
    if (curGet (s.GetCurStakes E stakerType) address).isSome then (true, stakerType)
    else stakerState.IsStakerLoop E s address rest

def stakerState.IsStaker (E : Env) (s : stakerState) (address : Address) : Bool × Nat :=
  s.IsStakerLoop E address (StakerTypes E)

def stakerState.IsRoute (E : Env) (s : stakerState) (address : Address) : Bool :=
  (curGet (s.GetCurStakes E (stakerTypeRoute E)) address).isSome

def stakerState.IsSer (E : Env) (s : stakerState) (address : Address) : Bool :=
  (curGet (s.GetCurStakes E (stakerTypeSer E)) address).isSome

def stakerState.IsValidator (E : Env) (s : stakerState) (address : Address) : Bool :=
  (curGet (s.GetCurStakes E (stakerTypeValidator E)) address).isSome

/-- The record `GetStakerMeta` returns, `none` when its flag is false. -/
def stakerState.GetStakerMeta (E : Env) (s : stakerState) (stakerType : Nat)
    (address : Address) : Option StakerMeta :=
  curGet (s.GetCurStakes E stakerType) address

def stakerState.PutStaker (E : Env) (s : stakerState) (db : Database) (staker : StakerMeta) :
    Res stakerState :=
  match s.GetPendingStakers E (toByte staker.StakerType) with
  | none => ⟨s, db, some (Error.panic "assignment to entry in nil map")⟩
  | some (pendingAdd, pendingDel) =>
    let pendingDel := pendingDel.del staker.StakerAddr
    let pendingAdd := pendingAdd.put staker.StakerAddr staker
    let k := PrefixStaker4Key E (toByte staker.StakerType) staker.StakerAddr
    ⟨s.setPendingStakers E (toByte staker.StakerType) pendingAdd pendingDel,
      db.Put k (DbValue.staker staker), none⟩

def stakerState.GetStakers (E : Env) (s : stakerState) (stakerType : Nat) : List StakerMeta :=
  match s.GetCurStakes E stakerType with
  | some curMap => curMap.elems
  | none => []

def stakerState.DelStaker (E : Env) (s : stakerState) (db : Database) (stakerType : Nat)
    (address : Address) : Res stakerState :=
  match s.GetPendingStakers E stakerType with
  | none => ⟨s, db, some (Error.panic "assignment to entry in nil map")⟩
  | some (pendingAdd, pendingDel) =>
    let pendingAdd := pendingAdd.del address
    let pendingDel := pendingDel.put address StakerMeta.zero
    let k := PrefixStaker4Key E stakerType address
    ⟨s.setPendingStakers E stakerType pendingAdd pendingDel, db.Delete k, none⟩

/-- One round of the loop of `CacheStakersCommit`. -/
def stakerState.commitType (E : Env) (s : stakerState) (stakerType : Nat) : stakerState :=
  match s.GetPendingStakers E stakerType, s.GetCurStakes E stakerType with
  | some (pendingAdd, pendingDel), some curMap =>
    let curMap := curMap.mergeAdd pendingAdd
    let curMap := curMap.mergeDel pendingDel
    (s.setCurStakes E stakerType curMap).setPendingStakers E stakerType
      pendingAdd.clear pendingDel.clear
  | _, _ => s

def stakerState.CacheStakersCommit (E : Env) (s : stakerState) : stakerState :=
  (StakerTypes E).foldl (stakerState.commitType E) s

/-- One round of the loop of `CacheStakersAbort`. -/
def stakerState.abortType (E : Env) (s : stakerState) (stakerType : Nat) : stakerState :=
  match s.GetPendingStakers E stakerType with
  | some (pendingAdd, pendingDel) =>
    s.setPendingStakers E stakerType pendingAdd.clear pendingDel.clear
  | none => s

def stakerState.CacheStakersAbort (E : Env) (s : stakerState) : stakerState :=
  (StakerTypes E).foldl (stakerState.abortType E) s

/-- A call of `PutStaker` or `DelStaker` for one role. -/
inductive StakerCall where
  | put (staker : StakerMeta)
  | del (address : Address)
  deriving DecidableEq, Repr

/-- The address a call is about. -/
def StakerCall.addr : StakerCall → Address
  | StakerCall.put staker => staker.StakerAddr
  | StakerCall.del address => address

/-- The call is for the role: a put carries a record whose type byte is it. -/
def StakerCall.forRole (role : Nat) : StakerCall → Prop
  | StakerCall.put staker => toByte staker.StakerType = role
  | StakerCall.del _ => True

instance (role : Nat) (c : StakerCall) : Decidable (c.forRole role) := by
  cases c <;> unfold StakerCall.forRole <;> infer_instance

/-- Running one call. -/
def stakerState.call (E : Env) (role : Nat) (r : Res stakerState) : StakerCall → Res stakerState
  | StakerCall.put staker => r.st.PutStaker E r.db staker
  | StakerCall.del address => r.st.DelStaker E r.db role address

/-- Running the calls in order. -/
def stakerState.calls (E : Env) (role : Nat) (s : stakerState) (db : Database)
    (cs : List StakerCall) : Res stakerState :=
  cs.foldl (stakerState.call E role) ⟨s, db, none⟩

/-- The last call about an address, if any. -/
def lastCall (address : Address) : List StakerCall → Option StakerCall
  | [] => none
  | c :: rest =>
    match lastCall address rest with
    | some c1 => some c1
    | none => if c.addr = address then some c else none

/-- The pending-add map of a role (empty for an unknown role). -/
def stakerState.pendingAdd (E : Env) (s : stakerState) (stakerType : Nat) :
    GoMap Address StakerMeta :=
  match s.GetPendingStakers E stakerType with
  | some (pendingAdd, _) => pendingAdd
  | none => GoMap.empty

/-- The pending-delete map of a role (empty for an unknown role). -/
def stakerState.pendingDel (E : Env) (s : stakerState) (stakerType : Nat) :
    GoMap Address StakerMeta :=
  match s.GetPendingStakers E stakerType with
  | some (_, pendingDel) => pendingDel
  | none => GoMap.empty

/-- What a call does to the pending-add map of its role. -/
def StakerCall.onAdd (m : GoMap Address StakerMeta) : StakerCall → GoMap Address StakerMeta
  | StakerCall.put staker => m.put staker.StakerAddr staker
  | StakerCall.del address => m.del address

/-- What a call does to the pending-delete map of its role. -/
def StakerCall.onDel (m : GoMap Address StakerMeta) : StakerCall → GoMap Address StakerMeta
  | StakerCall.put staker => m.del staker.StakerAddr
  | StakerCall.del address => m.put address StakerMeta.zero

/-- One step on the staker registry: a `PutStaker`, a `DelStaker`,
`CacheStakersCommit` or `CacheStakersAbort`. -/
inductive StakerOp where
  | put (staker : StakerMeta)
  | del (stakerType : Nat) (address : Address)
  | commit
  | abort
  deriving DecidableEq, Repr

/-- The registry and the store after one step. -/
def StakerOp.run (E : Env) (x : stakerState × Database) : StakerOp → stakerState × Database
  | StakerOp.put staker => ((x.1.PutStaker E x.2 staker).st, (x.1.PutStaker E x.2 staker).db)
  | StakerOp.del stakerType address =>
    ((x.1.DelStaker E x.2 stakerType address).st, (x.1.DelStaker E x.2 stakerType address).db)
  | StakerOp.commit => (x.1.CacheStakersCommit E, x.2)
  | StakerOp.abort => (x.1.CacheStakersAbort E, x.2)

/-- The registry and the store after the steps in order. -/
def runStakerOps (E : Env) (x : stakerState × Database) (ops : List StakerOp) :
    stakerState × Database :=
  ops.foldl (StakerOp.run E) x

/-- No key of a pending-add map is a key of the pending-delete map of the same
role. -/
def stakerState.pendingDisjoint (s : stakerState) : Prop :=
  (∀ a ∈ s.pendingRouteAdd.keys, s.pendingRouteDel.has a = false) ∧
    (∀ a ∈ s.pendingSerAdd.keys, s.pendingSerDel.has a = false) ∧
    (∀ a ∈ s.pendingValidatorAdd.keys, s.pendingValidatorDel.has a = false)

instance (s : stakerState) : Decidable s.pendingDisjoint := by
  unfold stakerState.pendingDisjoint; infer_instance

/-- The six pending buffers are empty. -/
def stakerState.pendingEmpty (s : stakerState) : Prop :=
  s.pendingRouteAdd = GoMap.empty ∧ s.pendingSerAdd = GoMap.empty ∧
    s.pendingValidatorAdd = GoMap.empty ∧ s.pendingRouteDel = GoMap.empty ∧
    s.pendingSerDel = GoMap.empty ∧ s.pendingValidatorDel = GoMap.empty

instance (s : stakerState) : Decidable s.pendingEmpty := by
  unfold stakerState.pendingEmpty; infer_instance


/-! ## ActionRegistry (`action_status.go`) -/

def actionTypeStart : Nat := 0
def actionTypeAddStaker : Nat := 1
def actionTypeModifySysParam : Nat := 2
def actionTypeAddUserType : Nat := 3
def actionTypeModifyUserType : Nat := 4
def actionTypeModifyFoundation : Nat := 5
def actionTypeEnd : Nat := 6

def PrefixActionsKey (E : Env) (actionID : ShortID) : List Nat :=
  [E.actionsPrefix, E.ByteDelimiter] ++ bytesBE 20 actionID

structure actionsState where
  curActions : GoMap ShortID ActionMeta
  pendingActionsAdd : GoMap ShortID ActionMeta
  pendingActionsDel : GoMap ShortID ActionMeta
  deriving DecidableEq

/-- The result of `GetActionMeta`: an error for an action past its end time,
otherwise the record, `none` when the flag is false. -/
def actionsState.GetActionMeta (s : actionsState) (now : Time) (actionID : ShortID) :
    Except Error (Option ActionMeta) :=
  match s.curActions.get actionID with
  | none => Except.ok none
  | some pmeta =>
    if pmeta.EndTime < now.Unix then Except.error (Error.Errorf "action is overdue ")
    else Except.ok (some pmeta)

def actionsState.PutAction (E : Env) (s : actionsState) (db : Database) (actionID : ShortID)
    (pmeta : ActionMeta) : Res actionsState :=
  ⟨{ s with pendingActionsDel := s.pendingActionsDel.del actionID,
            pendingActionsAdd := s.pendingActionsAdd.put actionID pmeta },
    db.Put (PrefixActionsKey E actionID) (DbValue.action pmeta), none⟩

def actionsState.GetActions (s : actionsState) : List ActionMeta := s.curActions.elems

/-- The loop of `GetVotersNum` over the current actions in iteration order. -/
def GetVotersNumLoop (actionType : Nat) (key : String) :
    List ActionMeta → Except Error (Nat × ShortID)
  | [] => Except.error (Error.Errorf "not found ")
  | action :: rest =>
    if action.ActionType = actionType ∧ action.Key = key then
      Except.ok (action.Voters.length, action.ActionID)
    else GetVotersNumLoop actionType key rest

def actionsState.GetVotersNum (s : actionsState) (actionType : Nat) (key : String) :
    Except Error (Nat × ShortID) :=
  GetVotersNumLoop actionType key s.curActions.elems

def actionsState.DelAction (E : Env) (s : actionsState) (db : Database) (actionID : ShortID) :
    Res actionsState :=
  ⟨{ s with pendingActionsAdd := s.pendingActionsAdd.del actionID,
            pendingActionsDel := s.pendingActionsDel.put actionID ActionMeta.zero },
    db.Delete (PrefixActionsKey E actionID), none⟩

def actionsState.CacheActionsCommit (s : actionsState) : actionsState :=
  { curActions := (s.curActions.mergeAdd s.pendingActionsAdd).mergeDel s.pendingActionsDel,
    pendingActionsAdd := s.pendingActionsAdd.clear,
    pendingActionsDel := s.pendingActionsDel.clear }

def actionsState.CacheActionsAbort (s : actionsState) : actionsState :=
  { s with pendingActionsAdd := s.pendingActionsAdd.clear,
           pendingActionsDel := s.pendingActionsDel.clear }

def actionsState.ProposalRepeat (s : actionsState) (actionID : ShortID) (key : String)
    (_newValue : String) : Option Error :=
  if s.curActions.has actionID then some (Error.Errorf "action exist curActions")
  else if s.curActions.elems.any (fun action => decide (action.Key = key)) then
    some (Error.Errorf "key exist curActions")
  else if s.pendingActionsAdd.has actionID then some (Error.Errorf "action id exist pending")
  else if s.pendingActionsAdd.elems.any (fun action => decide (action.Key = key)) then
    some (Error.Errorf "key exist pending")
  else none

def actionsState.CheckActionType (actionType : Nat) : Bool :=
  if actionType > actionTypeStart ∧ actionType < actionTypeEnd then true else false

/-! ## ProofMeterRegistry (`pow_status.go`) -/

def powTypeSer (E : Env) : Nat := E.serPrefix
def powTypeRoute (E : Env) : Nat := E.routePrefix

def PrefixPowKey (E : Env) (powType : Nat) (address : Address) : List Nat :=
  [E.powPrefix, E.ByteDelimiter, powType, E.ByteDelimiter] ++ bytesBE 20 address

def powTypes (E : Env) : List Nat := [powTypeSer E, powTypeRoute E]

structure powState where
  updateTime : Nat
  curSer : GoMap Address PowMeta
  curRoute : GoMap Address PowMeta
  pendingRouteAdd : GoMap Address PowMeta
  pendingSerAdd : GoMap Address PowMeta
  pendingRouteDel : GoMap Address PowMeta
  pendingSerDel : GoMap Address PowMeta
  deriving DecidableEq

/-- The maps `GetPendingPow` returns: for the ser type the fields named
`pendingRoute*`, for the route type the fields named `pendingSer*`, as in the
source; `none` is the pair of nil maps. -/
def powState.GetPendingPow (E : Env) (f : powState) (powType : Nat) :
    Option (GoMap Address PowMeta × GoMap Address PowMeta) :=
  if powType = powTypeSer E then some (f.pendingRouteAdd, f.pendingRouteDel)
  else if powType = powTypeRoute E then some (f.pendingSerAdd, f.pendingSerDel)
  else none

/-- Writing through the map references `GetPendingPow` returned. -/
def powState.setPendingPow (E : Env) (f : powState) (powType : Nat)
    (add del : GoMap Address PowMeta) : powState :=
  if powType = powTypeSer E then { f with pendingRouteAdd := add, pendingRouteDel := del }
  else if powType = powTypeRoute E then { f with pendingSerAdd := add, pendingSerDel := del }
  else f

def powState.GetCurPow (E : Env) (f : powState) (powType : Nat) :
    Option (GoMap Address PowMeta) :=
  if powType = powTypeSer E then some f.curSer
  else if powType = powTypeRoute E then some f.curRoute
  else none

/-- Writing through the map reference `GetCurPow` returned. -/
def powState.setCurPow (E : Env) (f : powState) (powType : Nat)
    (cur : GoMap Address PowMeta) : powState :=
  if powType = powTypeSer E then { f with curSer := cur }
  else if powType = powTypeRoute E then { f with curRoute := cur }
  else f

def powState.GetPowMeta (E : Env) (f : powState) (powType : Nat) (address : Address) :
    Option PowMeta :=
  curGet (f.GetCurPow E powType) address

def powState.PutPow (E : Env) (f : powState) (db : Database) (powType : Nat)
    (proof : ProofMeta) : Res powState :=
  let k := PrefixPowKey E powType proof.Miner
  match f.GetPendingPow E powType with
  | none => ⟨f, db, some (Error.panic "assignment to entry in nil map")⟩
  | some (pendingAdd, pendingDel) =>
    let pendingDel := pendingDel.del proof.Miner
    match pendingAdd.get proof.Miner with
    | some pendingMeta =>
      let pendingMeta : PowMeta :=
        { pendingMeta with
          Totalflow := add64 pendingMeta.Totalflow proof.Netflow,
          TotalTime := add64 pendingMeta.TotalTime proof.WorkTime,
          LastUpdateTXID := proof.TxID,
          LastUpdateTime := proof.UpdateTime }
      ⟨f.setPendingPow E powType (pendingAdd.put proof.Miner pendingMeta) pendingDel,
        db.Put k (DbValue.pow pendingMeta), none⟩
    | none =>
      match curGet (f.GetCurPow E powType) proof.Miner with
      | some curMeta =>
        if curMeta.PowType ≠ powType then
          ⟨f.setPendingPow E powType pendingAdd pendingDel, db, some (Error.Errorf "pow type err")⟩
        else
          let pmeta : PowMeta :=
            { PowType := powType,
              TotalTime := add64 curMeta.TotalTime proof.WorkTime,
              Totalflow := add64 curMeta.Totalflow proof.Netflow,
              LastUpdateTime := proof.UpdateTime,
              LastUpdateTXID := proof.TxID,
              Miner := proof.Miner }
          ⟨f.setPendingPow E powType (pendingAdd.put proof.Miner pmeta) pendingDel,
            db.Put k (DbValue.pow pmeta), none⟩
      | none =>
        let pmeta : PowMeta :=
          { PowType := powType,
            TotalTime := proof.WorkTime,
            Totalflow := proof.Netflow,
            LastUpdateTime := proof.UpdateTime,
            LastUpdateTXID := proof.TxID,
            Miner := proof.Miner }
        ⟨f.setPendingPow E powType (pendingAdd.put proof.Miner pmeta) pendingDel,
          db.Put k (DbValue.pow pmeta), none⟩

/-- The sum of `TotalPowTime`, wrapping as `uint64`. -/
def powState.TotalPowTime (E : Env) (f : powState) (powType : Nat) : Nat :=
  match f.GetCurPow E powType with
  | some curMap => curMap.elems.foldl (fun total pow => add64 total pow.TotalTime) 0
  | none => 0

def powState.GetPows (E : Env) (f : powState) (powType : Nat) : List PowMeta :=
  match f.GetCurPow E powType with
  | some curMap => curMap.elems
  | none => []

def powState.DelPow (E : Env) (f : powState) (db : Database) (powType : Nat)
    (address : Address) : Res powState :=
  match f.GetPendingPow E powType with
  | none => ⟨f, db, some (Error.panic "assignment to entry in nil map")⟩
  | some (pendingAdd, pendingDel) =>
    ⟨f.setPendingPow E powType (pendingAdd.del address) (pendingDel.put address PowMeta.zero),
      db.Delete (PrefixPowKey E powType address), none⟩

/-- One round of the loop of `CachePowsCommit`. -/
def powState.commitType (E : Env) (f : powState) (powType : Nat) : powState :=
  match f.GetPendingPow E powType, f.GetCurPow E powType with
  | some (pendingAdd, pendingDel), some curMap =>
    let curMap := curMap.mergeAdd pendingAdd
    let curMap := curMap.mergeDel pendingDel
    (f.setCurPow E powType curMap).setPendingPow E powType pendingAdd.clear pendingDel.clear
  | _, _ => f

def powState.CachePowsCommit (E : Env) (f : powState) : powState :=
  (powTypes E).foldl (powState.commitType E) f

/-- One round of the loop of `CachePowsAbort`. -/
def powState.abortType (E : Env) (f : powState) (powType : Nat) : powState :=
  match f.GetPendingPow E powType with
  | some (pendingAdd, pendingDel) => f.setPendingPow E powType pendingAdd.clear pendingDel.clear
  | none => f

def powState.CachePowsAbort (E : Env) (f : powState) : powState :=
  (powTypes E).foldl (powState.abortType E) f

/-! ## RewardLedger (`reward_status.go`) -/

def LocalPrefix : Nat := 0
def GlobalPrefix : Nat := 1

def PrefixRewardKey (E : Env) (address : Address) : List Nat :=
  [E.rewardPrefix, E.ByteDelimiter, LocalPrefix, E.ByteDelimiter] ++ bytesBE 20 address

def RewardGlobalPrefix (E : Env) : List Nat :=
  [E.rewardPrefix, E.ByteDelimiter, GlobalPrefix, E.ByteDelimiter]

structure rewardState where
  curGlobal : RewardGlobal
  pendigGlobal : RewardGlobal
  curRewards : GoMap Address RewardMeta
  pendingRewardsAdd : GoMap Address RewardMeta
  pendingRewardsDel : GoMap Address RewardMeta
  deriving DecidableEq

def rewardState.GetLastUpdateTime (r : rewardState) : Nat :=
  if r.pendigGlobal.LastOprTime > r.curGlobal.LastOprTime then r.pendigGlobal.LastOprTime
  else r.curGlobal.LastOprTime

def rewardState.GetLastClaimTime (r : rewardState) (address : Address) : Nat :=
  match r.curRewards.get address with
  | none => 0
  | some pmeta => pmeta.LastClaimTime

def rewardState.GetRewardMeta (r : rewardState) (address : Address) : Option RewardMeta :=
  r.curRewards.get address

def rewardState.UpdateReward (E : Env) (r : rewardState) (db : Database) (pG : RewardGlobal)
    (pmeta : RewardMeta) : Res rewardState :=
  let address := pmeta.RewardAddr
  ⟨{ r with pendingRewardsDel := r.pendingRewardsDel.del address,
            pendingRewardsAdd := r.pendingRewardsAdd.put address pmeta },
    (db.Put (PrefixRewardKey E address) (DbValue.reward pmeta)).Put (RewardGlobalPrefix E)
      (DbValue.rewardGlobal pG), none⟩

def rewardState.UpdateOwner (E : Env) (r : rewardState) (db : Database) (pmeta : RewardMeta) :
    Res rewardState :=
  let address := pmeta.RewardAddr
  ⟨{ r with pendingRewardsDel := r.pendingRewardsDel.del address,
            pendingRewardsAdd := r.pendingRewardsAdd.put address pmeta },
    db.Put (PrefixRewardKey E address) (DbValue.reward pmeta), none⟩

def rewardState.UpdateGlobal (E : Env) (r : rewardState) (db : Database) (pG : RewardGlobal) :
    Res rewardState :=
  ⟨r, db.Put (RewardGlobalPrefix E) (DbValue.rewardGlobal pG), none⟩

def rewardState.GetRewards (r : rewardState) : List RewardMeta := r.curRewards.elems

def rewardState.DelReward (E : Env) (r : rewardState) (db : Database) (address : Address) :
    Res rewardState :=
  ⟨{ r with pendingRewardsAdd := r.pendingRewardsAdd.del address,
            pendingRewardsDel := r.pendingRewardsDel.put address RewardMeta.zero },
    db.Delete (PrefixRewardKey E address), none⟩

def rewardState.CacheRewardsCommit (r : rewardState) : rewardState :=
  let curRewards := (r.curRewards.mergeAdd r.pendingRewardsAdd).mergeDel r.pendingRewardsDel
  let pendingRewardsAdd := r.pendingRewardsAdd.clear
  let pendingRewardsDel := r.pendingRewardsDel.clear
  if r.pendigGlobal.LastOprTime ≠ 0 then
    { curGlobal := r.pendigGlobal,
      pendigGlobal := { LastOprTime := 0, LastOprTXID := 0 },
      curRewards := curRewards,
      pendingRewardsAdd := pendingRewardsAdd,
      pendingRewardsDel := pendingRewardsDel }
  else
    { r with curRewards := curRewards,
             pendingRewardsAdd := pendingRewardsAdd,
             pendingRewardsDel := pendingRewardsDel }

def rewardState.CacheRewardsAbort (r : rewardState) : rewardState :=
  { r with pendingRewardsAdd := r.pendingRewardsAdd.clear,
           pendingRewardsDel := r.pendingRewardsDel.clear,
           pendigGlobal := { LastOprTime := 0, LastOprTXID := 0 } }

/-! ## YieldPool (`yields_status.go`) -/

def PrefixYieldsKey (E : Env) : List Nat := [E.yieldsPrefix, E.ByteDelimiter]

structure yieldsState where
  curYields : YieldMeta
  pendingYields : YieldMeta
  deriving DecidableEq

def yieldsState.GetChainYields (y : yieldsState) : Nat := y.curYields.Total

def yieldsState.ModifyYields (E : Env) (y : yieldsState) (db : Database) (yield : Nat)
    (txID : ID) (blkTime : Nat) : Res yieldsState :=
  let pendingYields : YieldMeta :=
    { Total := add64 y.curYields.Total yield,
      Undistributed := if yield = 0 then 0 else add64 y.curYields.Undistributed yield,
      LastOprTXID := txID,
      LastOprTime := blkTime }
  ⟨{ y with pendingYields := pendingYields },
    db.Put (PrefixYieldsKey E) (DbValue.yields pendingYields), none⟩

def yieldsState.CacheYieldsCommit (y : yieldsState) : yieldsState :=
  if y.pendingYields.Total ≠ 0 then
    { curYields := y.pendingYields, pendingYields := { y.pendingYields with Total := 0 } }
  else y

def yieldsState.CacheYieldsAbort (y : yieldsState) : yieldsState :=
  { y with pendingYields := { y.pendingYields with Total := 0 } }

/-! ## SystemParameters (`system_params.go`) -/

def ParamPercRoute : Nat := 1
def ParamPercSer : Nat := 2
def ParamPercBase : Nat := 3
def ParamPercMerit : Nat := 4
def ParamPercBurn : Nat := 5
def MinPercentage : Nat := 5
def MaxPercentage : Nat := 95

def PrefixSysParamsKey (E : Env) : List Nat := [E.sysParamPrefix, E.ByteDelimiter]

/-- The digits of a decimal numeral read left to right. -/
def parseDigits : List Char → Nat → Option Nat
  | [], acc => some acc
  | c :: rest, acc =>
    if 48 ≤ c.toNat ∧ c.toNat ≤ 57 then parseDigits rest (acc * 10 + (c.toNat - 48)) else none

/-- The call `strconv.ParseUint(s, 10, 64)`: a non-empty string of decimal
digits whose value fits 64 bits; `none` is a syntax or range error. -/
def ParseUint (s : String) : Option Nat :=
  if s.data = [] then none
  else
    match parseDigits s.data 0 with
    | some n => if n < 2 ^ 64 then some n else none
    | none => none

structure sysParams where
  curParams : SysParamsMeta
  pendingParams : SysParamsMeta
  deriving DecidableEq

def sysParams.GetChainSymbol (s : sysParams) : String := s.curParams.Symbol
def sysParams.GetChainTokenAmount (s : sysParams) : Nat :=
  mul64 (s.curParams.TotalTokens / 100) s.curParams.MinerPerc
def sysParams.GetPercRoute (s : sysParams) : Nat := s.curParams.RoutePerc
def sysParams.GetPercSer (s : sysParams) : Nat := s.curParams.SerPerc
def sysParams.GetPercValidator (s : sysParams) : Nat := s.curParams.ValidatorPerc
def sysParams.GetRoutePercBase (s : sysParams) : Nat := s.curParams.BaseRoutePerc
def sysParams.GetRoutePercMerit (s : sysParams) : Nat := s.curParams.MeritRoutePerc
def sysParams.GetSerPercBase (s : sysParams) : Nat := s.curParams.BaseSerPerc
def sysParams.GetSerPercMerit (s : sysParams) : Nat := s.curParams.MeritSerPerc
def sysParams.GetPercBurn (s : sysParams) : Nat := s.curParams.BurnPerc
def sysParams.GetPercFoundation (s : sysParams) : Nat := s.curParams.FoundationPerc
def sysParams.GetTotalYears (s : sysParams) : Nat := s.curParams.TotalYears
def sysParams.GetRateSustainYears (s : sysParams) : Nat := s.curParams.RateSustainYears
def sysParams.GetChainCreateTime (s : sysParams) : Nat := s.curParams.ChainCreateTime
def sysParams.GetMonthCardPrice (s : sysParams) : Nat := s.curParams.MonthCard
def sysParams.GetSeasonCardPrice (s : sysParams) : Nat := s.curParams.SeasonCard
def sysParams.GetAnnualCardPrice (s : sysParams) : Nat := s.curParams.AnnualCard
def sysParams.GetRootAddress (s : sysParams) : String := s.curParams.RootAddress
def sysParams.GetFoundationAddress (s : sysParams) : String := s.curParams.FoundationAddr
def sysParams.GetMinStakeTime (s : sysParams) : Nat := s.curParams.MinStakeTime
def sysParams.GetSysParams (s : sysParams) : SysParamsMeta := s.curParams

/-- The wrapping `uint32` value of `100 - newPerc`. -/
def sub32From100 (newPerc : Nat) : Nat := (100 + 2 ^ 32 - newPerc % 2 ^ 32) % 2 ^ 32

def sysParams.ModifyParams (E : Env) (s : sysParams) (db : Database) (key : String)
    (newValue : String) (txID : ID) (updateTime : Nat) : Res sysParams :=
  let ymeta := s.curParams
  match ParseUint newValue with
  | none => ⟨s, db, some (Error.lib "failed to parse newValue")⟩
  | some perc =>
    let newPerc := toUint32 perc
    if newPerc > MaxPercentage ∨ newPerc < MinPercentage then
      ⟨s, db, some (Error.Errorf "percentage err")⟩
    else
      let ymeta := { ymeta with UpdateTxID := txID, UpdateTime := updateTime }
      let changed : Option SysParamsMeta :=
        if key = "routePerc" then
          some { ymeta with RoutePerc := newPerc, SerPerc := sub32From100 newPerc }
        else if key = "serPerc" then
          some { ymeta with SerPerc := newPerc, RoutePerc := sub32From100 newPerc }
        else if key = "routeBase" then
          some { ymeta with BaseRoutePerc := newPerc, MeritRoutePerc := sub32From100 newPerc }
        else if key = "routeMerit" then
          some { ymeta with MeritRoutePerc := newPerc, BaseRoutePerc := sub32From100 newPerc }
        else if key = "serBase" then
          some { ymeta with BaseSerPerc := newPerc, MeritSerPerc := sub32From100 newPerc }
        else if key = "serMerit" then
          some { ymeta with MeritSerPerc := newPerc, BaseSerPerc := sub32From100 newPerc }
        else if key = "burn" then
          some { ymeta with BurnPerc := newPerc }
        else none
      match changed with
      | none => ⟨s, db, some (Error.Errorf "err key")⟩
      | some ymeta =>
        ⟨{ s with pendingParams := ymeta },
          db.Put (PrefixSysParamsKey E) (DbValue.sysParams ymeta), none⟩

def sysParams.CacheParamsCommit (s : sysParams) : sysParams :=
  if s.pendingParams.TotalTokens ≠ 0 then
    { curParams := s.pendingParams, pendingParams := { s.pendingParams with TotalTokens := 0 } }
  else s

def sysParams.CacheParamsAbort (s : sysParams) : sysParams :=
  { s with pendingParams := { s.pendingParams with TotalTokens := 0 } }

def sysParams.CompCurParam (s : sysParams) (key : String) (newValue : String) : Option Error :=
  match ParseUint newValue with
  | none => some (Error.lib "failed to parse newValue")
  | some newPerc =>
    let oldPerc : Option Nat :=
      if key = "routePerc" then some s.curParams.RoutePerc
      else if key = "serPerc" then some s.curParams.SerPerc
      else if key = "routeBase" then some s.curParams.BaseRoutePerc
      else if key = "routeMerit" then some s.curParams.MeritRoutePerc
      else if key = "serBase" then some s.curParams.BaseSerPerc
      else if key = "serMerit" then some s.curParams.MeritSerPerc
      else if key = "burn" then some s.curParams.BurnPerc
      else none
    match oldPerc with
    | none => some (Error.Errorf "err key")
    | some oldPerc => if oldPerc = newPerc then some (Error.Errorf "equal CurParam") else none

/-- The run of `ReloadParams`: when the key is not in the store the error of
`db.Get` is dropped and the current record stays as it is; a stored record
replaces the current one. -/
def sysParams.ReloadParams (E : Env) (s : sysParams) (db : Database) :
    sysParams × Option Error :=
  match db.Get (PrefixSysParamsKey E) with
  | none => (s, none)
  | some (DbValue.sysParams ymeta) => ({ s with curParams := ymeta }, none)
  | some _ => (s, some (Error.lib "unmarshal"))

/-- The parameter state `NewSysParamsState` builds from the genesis and the
store; the fields the struct literal does not list have their zero value. -/
def NewSysParamsState (E : Env) (db : Database) (genesis : Genesis) : Except Error sysParams :=
  let curParams : SysParamsMeta :=
    { Symbol := "",
      TotalTokens := genesis.TotalTokens,
      ClaimMinUnits := genesis.ClaimMinUnits,
      ChainCreateTime := genesis.ChainCreateTime,
      ClaimMinInterval := genesis.ClaimMinInterval,
      TotalYears := genesis.TotalYears,
      RateSustainYears := genesis.RateSustainYears,
      RoutePerc := genesis.RoutePerc,
      SerPerc := genesis.SerPerc,
      MinerPerc := genesis.MinerPerc,
      BaseSerPerc := genesis.BaseSerPerc,
      MeritSerPerc := genesis.MeritSerPerc,
      BaseRoutePerc := genesis.BaseRoutePerc,
      MeritRoutePerc := genesis.MeritRoutePerc,
      RouteStakeAmount := genesis.RouteStake,
      SerStakeAmount := genesis.SerStake,
      RootAddress := genesis.RootAddress,
      BurnPerc := genesis.BurnPerc,
      MonthCard := genesis.MonthCard,
      SeasonCard := genesis.SeasonCard,
      AnnualCard := genesis.AnnualCard,
      MinStakeTime := genesis.MinStakeTime,
      FoundationPerc := 0,
      ValidatorPerc := 0,
      FoundationAddr := "",
      UpdateTime := 0,
      UpdateTxID := 0 }
  let pendingParams : SysParamsMeta :=
    { Symbol := "", TotalTokens := 0, ClaimMinUnits := 0, ClaimMinInterval := 0, TotalYears := 0,
      RateSustainYears := 0, ChainCreateTime := 0, MinerPerc := 0, FoundationPerc := 0,
      RoutePerc := 0, SerPerc := 0, ValidatorPerc := 0, BaseSerPerc := 0, MeritSerPerc := 0,
      BaseRoutePerc := 0, MeritRoutePerc := 0, RouteStakeAmount := 0, SerStakeAmount := 0,
      MinStakeTime := 0, MonthCard := 0, SeasonCard := 0, AnnualCard := 0, BurnPerc := 0,
      RootAddress := "", FoundationAddr := "", UpdateTime := 0, UpdateTxID := 0 }
  let state : sysParams := ⟨curParams, pendingParams⟩
  match state.ReloadParams E db with
  | (state1, some err) =>
    if err ≠ Error.ErrNotFound then Except.error err else Except.ok state1
  | (state1, none) => Except.ok state1


/-- One step on the parameter state and the store: a `ModifyParams`,
`CacheParamsCommit`, `CacheParamsAbort`, or a restart of the process, which
builds the state anew with `NewSysParamsState` from the store at hand. -/
inductive ParamOp where
  | modify (key newValue : String) (txID : ID) (updateTime : Nat)
  | commit
  | abort
  | restart
  deriving DecidableEq, Repr

/-- The parameter state and the store after one step; a restart that fails
leaves both as they are. -/
def ParamOp.run (E : Env) (genesis : Genesis) (x : sysParams × Database) :
    ParamOp → sysParams × Database
  | ParamOp.modify key newValue txID updateTime =>
    ((x.1.ModifyParams E x.2 key newValue txID updateTime).st,
      (x.1.ModifyParams E x.2 key newValue txID updateTime).db)
  | ParamOp.commit => (x.1.CacheParamsCommit, x.2)
  | ParamOp.abort => (x.1.CacheParamsAbort, x.2)
  | ParamOp.restart =>
    match NewSysParamsState E x.2 genesis with
    | Except.ok state => (state, x.2)
    | Except.error _ => x

def PrefixUserTypesKey (E : Env) (id : Nat) : List Nat :=
  [E.usersPrefix, E.ByteDelimiter] ++ bytesBE 8 id

def baseUserTypesPrefix (E : Env) : List Nat := [E.userTypesPrefix, E.ByteDelimiter]

structure userTypesState where
  curUserTypes : GoMap Nat UserType
  pendingUserTypesAdd : GoMap Nat UserType
  pendingUserTypesDel : GoMap Nat UserType
  deriving DecidableEq

def userTypesState.GetUserType (s : userTypesState) (id : Nat) : Option UserType :=
  s.curUserTypes.get id

def userTypesState.CheckUserType (s : userTypesState) (id : Nat) : Bool :=
  s.curUserTypes.has id

def userTypesState.CheckFee (s : userTypesState) (id : Nat) (fee : Nat) : Bool :=
  match s.curUserTypes.get id with
  | none => false
  | some userType => decide (fee = userType.FeeUnits)

def userTypesState.AddUserType (E : Env) (s : userTypesState) (db : Database)
    (pmeta : UserType) : Res userTypesState :=
  let id := pmeta.TypeID
  ⟨{ s with pendingUserTypesDel := s.pendingUserTypesDel.del id,
            pendingUserTypesAdd := s.pendingUserTypesAdd.put id pmeta },
    db.Put (PrefixUserTypesKey E id) (DbValue.userType pmeta), none⟩

def userTypesState.DelUserType (E : Env) (s : userTypesState) (db : Database) (id : Nat) :
    Res userTypesState :=
  ⟨{ s with pendingUserTypesAdd := s.pendingUserTypesAdd.del id,
            pendingUserTypesDel := s.pendingUserTypesDel.put id UserType.zero },
    db.Delete (PrefixUserTypesKey E id), none⟩

def userTypesState.GetUserTypes (s : userTypesState) : GoMap Nat UserType := s.curUserTypes

def userTypesState.CacheUserTypesCommit (s : userTypesState) : userTypesState :=
  { curUserTypes :=
      (s.curUserTypes.mergeAdd s.pendingUserTypesAdd).mergeDel s.pendingUserTypesDel,
    pendingUserTypesAdd := s.pendingUserTypesAdd.clear,
    pendingUserTypesDel := s.pendingUserTypesDel.clear }

def userTypesState.CacheUserTypesAbort (s : userTypesState) : userTypesState :=
  { s with pendingUserTypesAdd := s.pendingUserTypesAdd.clear,
           pendingUserTypesDel := s.pendingUserTypesDel.clear }

def baseUsersPrefix (E : Env) : List Nat := [E.usersPrefix, E.ByteDelimiter]

/-- The loop of `ReloadUserTypes` over the values the cursor meets. -/
def userTypesState.ReloadUserTypesLoop : List DbValue → userTypesState →
    userTypesState × Option Error
  | [], s => (s, none)
  | DbValue.userType pmeta :: rest, s =>
    userTypesState.ReloadUserTypesLoop rest
      { s with curUserTypes := s.curUserTypes.put pmeta.TypeID pmeta }
  | _ :: _, s => (s, some (Error.lib "unmarshal"))

def userTypesState.ReloadUserTypes (E : Env) (s : userTypesState) (db : Database) :
    userTypesState × Option Error :=
  userTypesState.ReloadUserTypesLoop (db.iterate (baseUserTypesPrefix E)) s

def NewUserTypesState (E : Env) (db : Database) : userTypesState × Option Error :=
  userTypesState.ReloadUserTypes E ⟨GoMap.empty, GoMap.empty, GoMap.empty⟩ db

/-! ## NodeDetailRegistry (`node_params.go`) -/

def PrefixDetailsKey (E : Env) (address : Address) : List Nat :=
  [E.detailsPrefix, E.ByteDelimiter] ++ bytesBE 20 address

structure detailsState where
  curNodes : GoMap Address DetailMeta
  pendingNodesAdd : GoMap Address DetailMeta
  pendingNodesDel : GoMap Address DetailMeta
  deriving DecidableEq

def detailsState.GetDetailMeta (d : detailsState) (address : Address) : Option DetailMeta :=
  d.curNodes.get address

def detailsState.PutDetail (E : Env) (d : detailsState) (db : Database) (address : Address)
    (pmeta : DetailMeta) : Res detailsState :=
  ⟨{ d with pendingNodesDel := d.pendingNodesDel.del address,
            pendingNodesAdd := d.pendingNodesAdd.put address pmeta },
    db.Put (PrefixDetailsKey E address) (DbValue.detail pmeta), none⟩

def detailsState.GetDetails (d : detailsState) : List DetailMeta := d.curNodes.elems

def detailsState.DelDetail (E : Env) (d : detailsState) (db : Database) (address : Address) :
    Res detailsState :=
  ⟨{ d with pendingNodesAdd := d.pendingNodesAdd.del address,
            pendingNodesDel := d.pendingNodesDel.put address DetailMeta.zero },
    db.Delete (PrefixDetailsKey E address), none⟩

def detailsState.CacheDetailsCommit (d : detailsState) : detailsState :=
  { curNodes := (d.curNodes.mergeAdd d.pendingNodesAdd).mergeDel d.pendingNodesDel,
    pendingNodesAdd := d.pendingNodesAdd.clear,
    pendingNodesDel := d.pendingNodesDel.clear }

def detailsState.CacheDetailsAbort (d : detailsState) : detailsState :=
  { d with pendingNodesAdd := d.pendingNodesAdd.clear,
           pendingNodesDel := d.pendingNodesDel.clear }

def baseDetailsPrefix (E : Env) : List Nat := [E.detailsPrefix, E.ByteDelimiter]

/-- The loop of `ReloadDetails` over the values the cursor meets. -/
def detailsState.ReloadDetailsLoop : List DbValue → detailsState → detailsState × Option Error
  | [], d => (d, none)
  | DbValue.detail pmeta :: rest, d =>
    detailsState.ReloadDetailsLoop rest
      { d with curNodes := d.curNodes.put pmeta.StakeAddress pmeta }
  | _ :: _, d => (d, some (Error.lib "unmarshal"))

def detailsState.ReloadDetails (E : Env) (d : detailsState) (db : Database) :
    detailsState × Option Error :=
  detailsState.ReloadDetailsLoop (db.iterate (baseDetailsPrefix E)) d

def NewDetailstate (E : Env) (db : Database) : detailsState × Option Error :=
  detailsState.ReloadDetails E ⟨GoMap.empty, GoMap.empty, GoMap.empty⟩ db

/-! ## SubscriberRegistry (`users_status.go`) -/

def UsersCacheSize : Nat := 8096

def PrefixUsersKey (E : Env) (address : Address) : List Nat :=
  [E.usersPrefix, E.ByteDelimiter] ++ bytesBE 20 address

/-- The subscriber registry. The library cache `curUsers` is an associative
map with `Get`, `Put` and `Evict`; its capacity eviction is not modelled. -/
structure usersState where
  curUsers : GoMap Address UserMeta
  pendingUsersAdd : GoMap Address UserMeta
  pendingUsersDel : GoMap Address UserMeta
  deriving DecidableEq

/-- The result of `GetUserMeta`: the cached record, else the stored one. -/
def usersState.GetUserMeta (E : Env) (s : usersState) (db : Database) (address : Address) :
    Except Error (Option UserMeta) :=
  match s.curUsers.get address with
  | some award => Except.ok (some award)
  | none =>
    match db.Get (PrefixUsersKey E address) with
    | none => Except.ok none
    | some (DbValue.user pmeta) => Except.ok (some pmeta)
    | some _ => Except.error (Error.lib "unmarshal")

def usersState.PutUser (E : Env) (s : usersState) (db : Database) (pmeta : UserMeta) :
    Res usersState :=
  let address := pmeta.Address
  ⟨{ s with pendingUsersDel := s.pendingUsersDel.del address,
            pendingUsersAdd := s.pendingUsersAdd.put address pmeta },
    db.Put (PrefixUsersKey E address) (DbValue.user pmeta), none⟩

def usersState.DelUser (E : Env) (s : usersState) (db : Database) (address : Address) :
    Res usersState :=
  ⟨{ s with pendingUsersAdd := s.pendingUsersAdd.del address,
            pendingUsersDel := s.pendingUsersDel.put address UserMeta.zero },
    db.Delete (PrefixUsersKey E address), none⟩

def usersState.CacheUsersCommit (s : usersState) : usersState :=
  { curUsers := (s.curUsers.mergeAdd s.pendingUsersAdd).mergeDel s.pendingUsersDel,
    pendingUsersAdd := s.pendingUsersAdd.clear,
    pendingUsersDel := s.pendingUsersDel.clear }

def usersState.CacheUsersAbort (s : usersState) : usersState :=
  { s with pendingUsersAdd := s.pendingUsersAdd.clear,
           pendingUsersDel := s.pendingUsersDel.clear }

/-! ## The aggregate ledger (`state.go`) -/

structure samaState where
  SysParams : sysParams
  StakerState : stakerState
  RewardState : rewardState
  PowState : powState
  YieldsState : yieldsState
  UsersState : usersState
  DetailsState : detailsState
  ActionsState : actionsState
  UserTypesState : userTypesState
  deriving DecidableEq

/-- The ledger after `Commit`; every sub-ledger commit returns `nil`. -/
def samaState.Commit (E : Env) (s : samaState) : samaState :=
  let s := { s with RewardState := s.RewardState.CacheRewardsCommit }
  let s := { s with StakerState := s.StakerState.CacheStakersCommit E }
  let s := { s with DetailsState := s.DetailsState.CacheDetailsCommit }
  let s := { s with ActionsState := s.ActionsState.CacheActionsCommit }
  let s := { s with UsersState := s.UsersState.CacheUsersCommit }
  let s := { s with PowState := s.PowState.CachePowsCommit E }
  let s := { s with YieldsState := s.YieldsState.CacheYieldsCommit }
  let s := { s with SysParams := s.SysParams.CacheParamsCommit }
  { s with UserTypesState := s.UserTypesState.CacheUserTypesCommit }

/-- The ledger after `Abort`; every sub-ledger abort returns `nil`. -/
def samaState.Abort (E : Env) (s : samaState) : samaState :=
  let s := { s with RewardState := s.RewardState.CacheRewardsAbort }
  let s := { s with ActionsState := s.ActionsState.CacheActionsAbort }
  let s := { s with UsersState := s.UsersState.CacheUsersAbort }
  let s := { s with DetailsState := s.DetailsState.CacheDetailsAbort }
  let s := { s with PowState := s.PowState.CachePowsAbort E }
  let s := { s with SysParams := s.SysParams.CacheParamsAbort }
  let s := { s with YieldsState := s.YieldsState.CacheYieldsAbort }
  let s := { s with UserTypesState := s.UserTypesState.CacheUserTypesAbort }
  { s with StakerState := s.StakerState.CacheStakersAbort E }

/-- A call of one of the sub-ledger mutators on the ledger. -/
inductive Mutator where
  | PutStaker (pmeta : StakerMeta)
  | DelStaker (stakerType : Nat) (address : Address)
  | PutAction (actionID : ShortID) (pmeta : ActionMeta)
  | DelAction (actionID : ShortID)
  | PutDetail (address : Address) (pmeta : DetailMeta)
  | DelDetail (address : Address)
  | AddUserType (pmeta : UserType)
  | DelUserType (id : Nat)
  | UpdateOwner (pmeta : RewardMeta)
  | DelReward (address : Address)
  | PutPow (powType : Nat) (proof : ProofMeta)
  | DelPow (powType : Nat) (address : Address)
  | ModifyParams (key : String) (newValue : String) (txID : ID) (updateTime : Nat)
  | ModifyYields (yield : Nat) (txID : ID) (blkTime : Nat)

/-- Running one mutator on the ledger. -/
def samaState.mutate (E : Env) (x : Res samaState) : Mutator → Res samaState
  | Mutator.PutStaker pmeta =>
    let r := x.st.StakerState.PutStaker E x.db pmeta
    ⟨{ x.st with StakerState := r.st }, r.db, r.err⟩
  | Mutator.DelStaker stakerType address =>
    let r := x.st.StakerState.DelStaker E x.db stakerType address
    ⟨{ x.st with StakerState := r.st }, r.db, r.err⟩
  | Mutator.PutAction actionID pmeta =>
    let r := x.st.ActionsState.PutAction E x.db actionID pmeta
    ⟨{ x.st with ActionsState := r.st }, r.db, r.err⟩
  | Mutator.DelAction actionID =>
    let r := x.st.ActionsState.DelAction E x.db actionID
    ⟨{ x.st with ActionsState := r.st }, r.db, r.err⟩
  | Mutator.PutDetail address pmeta =>
    let r := x.st.DetailsState.PutDetail E x.db address pmeta
    ⟨{ x.st with DetailsState := r.st }, r.db, r.err⟩
  | Mutator.DelDetail address =>
    let r := x.st.DetailsState.DelDetail E x.db address
    ⟨{ x.st with DetailsState := r.st }, r.db, r.err⟩
  | Mutator.AddUserType pmeta =>
    let r := x.st.UserTypesState.AddUserType E x.db pmeta
    ⟨{ x.st with UserTypesState := r.st }, r.db, r.err⟩
  | Mutator.DelUserType id =>
    let r := x.st.UserTypesState.DelUserType E x.db id
    ⟨{ x.st with UserTypesState := r.st }, r.db, r.err⟩
  | Mutator.UpdateOwner pmeta =>
    let r := x.st.RewardState.UpdateOwner E x.db pmeta
    ⟨{ x.st with RewardState := r.st }, r.db, r.err⟩
  | Mutator.DelReward address =>
    let r := x.st.RewardState.DelReward E x.db address
    ⟨{ x.st with RewardState := r.st }, r.db, r.err⟩
  | Mutator.PutPow powType proof =>
    let r := x.st.PowState.PutPow E x.db powType proof
    ⟨{ x.st with PowState := r.st }, r.db, r.err⟩
  | Mutator.DelPow powType address =>
    let r := x.st.PowState.DelPow E x.db powType address
    ⟨{ x.st with PowState := r.st }, r.db, r.err⟩
  | Mutator.ModifyParams key newValue txID updateTime =>
    let r := x.st.SysParams.ModifyParams E x.db key newValue txID updateTime
    ⟨{ x.st with SysParams := r.st }, r.db, r.err⟩
  | Mutator.ModifyYields yield txID blkTime =>
    let r := x.st.YieldsState.ModifyYields E x.db yield txID blkTime
    ⟨{ x.st with YieldsState := r.st }, r.db, r.err⟩

/-- Running the mutators in order. -/
def samaState.mutates (E : Env) (s : samaState) (db : Database) (ms : List Mutator) :
    Res samaState :=
  ms.foldl (samaState.mutate E) ⟨s, db, none⟩

/-! ## Quorum (`state.go`) -/

def samaState.StakePercentage (E : Env) (s : samaState) (stakerType : Nat) : Nat :=
  if stakerType = stakerTypeRoute E then s.SysParams.GetPercRoute
  else if stakerType = stakerTypeSer E then s.SysParams.GetPercSer
  else if stakerType = stakerTypeValidator E then s.SysParams.GetPercValidator
  else 0

def samaState.StakersNum (E : Env) (s : samaState) (stakerType : Nat) : Nat :=
  if stakerType = stakerTypeRoute E then s.StakerState.GetStakersNum.1
  else if stakerType = stakerTypeSer E then s.StakerState.GetStakersNum.2.1
  else if stakerType = stakerTypeValidator E then s.StakerState.GetStakersNum.2.2
  else 0

/-- The loop `for _, voter := range action.Voters` that looks for the root
address. -/
def rootVoted (E : Env) (sroot : String) (voters : List Address) : Bool :=
  voters.any (fun voter => decide (voter = E.HexToAddress sroot))

/-- The triple `IsBeConfirmed` returns: the flag, the action id and the error. -/
def samaState.IsBeConfirmed (E : Env) (s : samaState) (now : Time) (actionType : Nat)
    (key : String) : Bool × ShortID × Option Error :=
  match s.ActionsState.GetVotersNum actionType key with
  | Except.error err => (false, 0, some err)
  | Except.ok (votersNum, actionID) =>
    let routeNum := s.StakersNum E (stakerTypeRoute E)
    if routeNum < 3 then
      match s.ActionsState.GetActionMeta now actionID with
      | Except.error err => (false, 0, some err)
      | Except.ok none => (false, 0, some (Error.panic "nil pointer dereference"))
      | Except.ok (some action) =>
        if rootVoted E s.SysParams.GetRootAddress action.Voters then (true, actionID, none)
        else (false, 0, none)
    else
      if votersNum ≥ routeNum * 2 / 3 then (true, actionID, none)
      else (false, 0, none)

/-- The pair `ProposalStatus` returns: the flag and the error. -/
def samaState.ProposalStatus (E : Env) (s : samaState) (now : Time) (actionID : ShortID) :
    Bool × Option Error :=
  match s.ActionsState.GetActionMeta now actionID with
  | Except.error err => (false, some err)
  | Except.ok none => (false, some (Error.Errorf "not found"))
  | Except.ok (some action) =>
    let votersNum := action.Voters.length
    let routeNum := s.StakersNum E (stakerTypeRoute E)
    if routeNum < 3 then
      match s.ActionsState.GetActionMeta now actionID with
      | Except.error err => (false, some err)
      | Except.ok none => (false, some (Error.panic "nil pointer dereference"))
      | Except.ok (some action) =>
        if rootVoted E s.SysParams.GetRootAddress action.Voters then (true, none)
        else (false, none)
    else
      if votersNum ≥ routeNum * 2 / 3 then (true, none)
      else (false, none)

/-! ## Rewards (`state.go`) -/

/-- The result of `RewardCurYear`. The quotient `totalYears/changeYears` is an
integer division (a panic when the divisor is 0); the floating-point part,
`uint64(float64(totalTokens) * quota / float64(total))`, is the host function
`RewardFloat` of the loop bound, the token amount and the index. -/
def samaState.RewardCurYear (E : Env) (s : samaState) (index : Nat) : Except Error Nat :=
  let totalYears := s.SysParams.GetTotalYears
  let changeYears := s.SysParams.GetRateSustainYears
  let totalTokens := s.SysParams.GetChainTokenAmount
  if changeYears = 0 then Except.error (Error.panic "integer divide by zero")
  else Except.ok (E.RewardFloat (totalYears / changeYears) totalTokens index)

def samaState.StakePowMinutes (E : Env) (s : samaState) (stakerType : Nat)
    (address : Address) : Nat :=
  match s.PowState.GetPowMeta E stakerType address with
  | none => 0
  | some pow => pow.TotalTime

def samaState.ChainTotalPowMinutes (E : Env) (s : samaState) (stakerType : Nat) : Nat :=
  s.PowState.TotalPowTime E stakerType

/-- The running totals of the yearly loop of `StakerReword`. -/
structure RewardAcc where
  baseReward : Nat
  meritReward : Nat
  meritInc : Nat
  deriving DecidableEq, Repr

/-- The seconds of `[startTime, endTime]` that fall in the year slice
`[tmpStart, tmpEnd]`, as the loops of `StakerReword` and `FoundationReword`
compute them. -/
def workSecsOf (startTime endTime tmpStart tmpEnd : Nat) : Nat :=
  if tmpEnd < endTime then
    if tmpStart > startTime then sub64 tmpEnd tmpStart else sub64 tmpEnd startTime
  else
    if tmpStart > startTime then sub64 endTime tmpStart else sub64 endTime startTime

/-- Integer division of `uint64` values, a panic when the divisor is 0. -/
def div64 (a b : Nat) : Except Error Nat :=
  if b = 0 then Except.error (Error.panic "integer divide by zero") else Except.ok (a / b)

/-- One round of the yearly loop of `StakerReword`, for the year index `i`. -/
def samaState.StakerRewordYear (E : Env) (s : samaState) (stakerType : Nat) (roleNum : Nat)
    (address : Address) (startTime endTime : Nat) (percBase percMerit : Nat)
    (acc : RewardAcc) (i : Nat) : Except Error RewardAcc :=
  let createTime := s.SysParams.GetChainCreateTime
  let tmpStart := add64 createTime (mul64 i SecondsYear)
  let tmpEnd := add64 createTime (mul64 (add64 i 1) SecondsYear)
  match s.RewardCurYear E (toUint32 i) with
  | Except.error err => Except.error err
  | Except.ok totalRewardYear =>
    let roleTotalYear := mul64 totalRewardYear (s.StakePercentage E stakerType) / 100
    let workSecs := workSecsOf startTime endTime tmpStart tmpEnd
    let stepped : Except Error RewardAcc :=
      if stakerType = stakerTypeValidator E then
        match div64 roleTotalYear (mul64 roleNum SecondsYear) with
        | Except.error err => Except.error err
        | Except.ok q =>
          Except.ok { acc with baseReward := add64 acc.baseReward (mul64 q workSecs),
                               meritReward := 0 }
      else
        let baseTotal := mul64 roleTotalYear percBase / 100
        let meritTotal := mul64 roleTotalYear percMerit / 100
        let meritInc := add64 acc.meritInc (mul64 (meritTotal / SecondsYear) workSecs)
        match div64 baseTotal (mul64 roleNum SecondsYear) with
        | Except.error err => Except.error err
        | Except.ok q =>
          Except.ok { acc with meritInc := meritInc,
                               baseReward := add64 acc.baseReward (mul64 q workSecs) }
    match stepped with
    | Except.error err => Except.error err
    | Except.ok acc =>
      if stakerType ≠ stakerTypeValidator E then
        let totalTime := s.ChainTotalPowMinutes E stakerType
        let userTime := s.StakePowMinutes E stakerType address
        if totalTime ≠ 0 then
          Except.ok { acc with
            meritReward := add64 acc.meritReward (mul64 acc.meritInc userTime / totalTime) }
        else Except.ok acc
      else Except.ok acc

/-- The yearly loop of `StakerReword` over the year indices in order. -/
def samaState.StakerRewordLoop (E : Env) (s : samaState) (stakerType : Nat) (roleNum : Nat)
    (address : Address) (startTime endTime : Nat) (percBase percMerit : Nat) :
    List Nat → RewardAcc → Except Error RewardAcc
  | [], acc => Except.ok acc
  | i :: rest, acc =>
    match s.StakerRewordYear E stakerType roleNum address startTime endTime percBase percMerit
        acc i with
    | Except.error err => Except.error err
    | Except.ok acc1 =>
      samaState.StakerRewordLoop E s stakerType roleNum address startTime endTime percBase
        percMerit rest acc1

/-- The triple `(base, merit, yield)` of `StakerReword`, or the panic of a
division by zero. -/
def samaState.StakerReword (E : Env) (s : samaState) (stakerType : Nat) (roleNum : Nat)
    (address : Address) (stakeTime endTime : Nat) : Except Error (Nat × Nat × Nat) :=
  let percBase :=
    if stakerType = stakerTypeRoute E then s.SysParams.GetRoutePercBase
    else if stakerType = stakerTypeSer E then s.SysParams.GetSerPercBase
    else if stakerType = stakerTypeValidator E then 100
    else 0
  let percMerit :=
    if stakerType = stakerTypeRoute E then s.SysParams.GetRoutePercMerit
    else if stakerType = stakerTypeSer E then s.SysParams.GetSerPercMerit
    else 0
  let prior := s.RewardState.GetRewardMeta address
  let startTime := match prior with
    | some reward => reward.LastOprTime
    | none => stakeTime
  let baseReward := match prior with
    | some reward => reward.BaseReward
    | none => 0
  let meritReward := match prior with
    | some reward => reward.MeritReward
    | none => 0
  let yieldReward := match prior with
    | some reward => reward.YieldReward
    | none => 0
  let totalYields := s.YieldsState.GetChainYields
  let roleYields := mul64 totalYields (s.StakePercentage E stakerType) / 100
  match div64 roleYields (roleNum % 2 ^ 64) with
  | Except.error err => Except.error err
  | Except.ok share =>
    let yieldReward := add64 yieldReward share
    let createTime := s.SysParams.GetChainCreateTime
    let sYear := sub64 startTime createTime / SecondsYear
    let eYear := sub64 endTime createTime / SecondsYear
    match samaState.StakerRewordLoop E s stakerType roleNum address startTime endTime
        percBase percMerit (List.range' sYear (eYear + 1 - sYear)) ⟨baseReward, meritReward, 0⟩ with
    | Except.error err => Except.error err
    | Except.ok acc => Except.ok (acc.baseReward, acc.meritReward, yieldReward)

/-- The loop of `UpdateStakerReward` over the stakers of the role. -/
def samaState.UpdateStakerRewardLoop (E : Env) (roleNum : Nat) (address : Address) (txID : ID)
    (endTime : Nat) : List StakerMeta → Res samaState → Res samaState
  | [], x => x
  | staker :: rest, x =>
    if staker.StakeTime ≥ endTime then
      samaState.UpdateStakerRewardLoop E roleNum address txID endTime rest x
    else
      let computed : Except Error (Nat × Nat × Nat) :=
        if address ≠ staker.StakerAddr then
          x.st.StakerReword E (toByte staker.StakerType) roleNum staker.StakerAddr
            staker.StakeTime endTime
        else Except.ok (0, 0, 0)
      match computed with
      | Except.error err => ⟨x.st, x.db, some err⟩
      | Except.ok (base, merit, yield) =>
        let r := x.st.RewardState.UpdateOwner E x.db
          { BaseReward := base,
            MeritReward := merit,
            YieldReward := yield,
            LastOprTime := endTime,
            LastOprTXID := txID,
            LastClaimTime := endTime,
            LastClaimTXID := txID,
            RewardAddr := staker.StakerAddr }
        samaState.UpdateStakerRewardLoop E roleNum address txID endTime rest
          ⟨{ x.st with RewardState := r.st }, r.db, none⟩

def samaState.UpdateStakerReward (E : Env) (s : samaState) (db : Database) (stakerType : Nat)
    (address : Address) (txID : ID) (endTime : Nat) : Res samaState :=
  let lastTime := s.RewardState.GetLastUpdateTime
  if lastTime > endTime then ⟨s, db, some Error.ErrEndTimeTooEarly⟩
  else if lastTime = endTime then ⟨s, db, none⟩
  else
    let roleNum := s.StakersNum E stakerType
    if roleNum = 0 then ⟨s, db, none⟩
    else
      let stakers := s.StakerState.GetStakers E stakerType
      let x := samaState.UpdateStakerRewardLoop E roleNum address txID endTime stakers
        ⟨s, db, none⟩
      match x.err with
      | some err => ⟨x.st, x.db, some err⟩
      | none =>
        let g := x.st.RewardState.UpdateGlobal E x.db
          { LastOprTime := endTime, LastOprTXID := txID }
        let y := x.st.YieldsState.ModifyYields E g.db 0 txID endTime
        ⟨{ x.st with RewardState := g.st, YieldsState := y.st }, y.db, none⟩

/-- The yearly loop of `FoundationReword`, which sums `fReward`. -/
def samaState.FoundationRewordLoop (E : Env) (s : samaState) (startTime endTime : Nat) :
    List Nat → Nat → Except Error Nat
  | [], fReward => Except.ok fReward
  | i :: rest, fReward =>
    let createTime := s.SysParams.GetChainCreateTime
    let tmpStart := add64 createTime (mul64 i SecondsYear)
    let tmpEnd := add64 createTime (mul64 (add64 i 1) SecondsYear)
    match s.RewardCurYear E (toUint32 i) with
    | Except.error err => Except.error err
    | Except.ok totalRewardYear =>
      let roleTotalYear := mul64 totalRewardYear s.SysParams.GetPercFoundation / 100
      let workSecs := workSecsOf startTime endTime tmpStart tmpEnd
      samaState.FoundationRewordLoop E s startTime endTime rest
        (add64 fReward (mul64 (roleTotalYear / SecondsYear) workSecs))

/-- The value `FoundationReword` returns: after the loop it returns 0. -/
def samaState.FoundationReword (E : Env) (s : samaState) (address : Address) (endTime : Nat) :
    Except Error Nat :=
  let createTime := s.SysParams.GetChainCreateTime
  let startTime := match s.RewardState.GetRewardMeta address with
    | some reward => reward.LastClaimTime
    | none => createTime
  if endTime < startTime then Except.error (Error.Errorf "end time err")
  else
    let sYear := sub64 startTime createTime / SecondsYear
    let eYear := sub64 endTime createTime / SecondsYear
    match samaState.FoundationRewordLoop E s startTime endTime
        (List.range' sYear (eYear + 1 - sYear)) 0 with
    | Except.error err => Except.error err
    | Except.ok _ => Except.ok 0

def samaState.UpdateFoundationReward (E : Env) (s : samaState) (db : Database)
    (address : Address) (txID : ID) (endTime : Nat) : Res samaState :=
  let lastTime := s.RewardState.GetLastUpdateTime
  if lastTime > endTime then ⟨s, db, some Error.ErrEndTimeTooEarly⟩
  else if lastTime = endTime then ⟨s, db, none⟩
  else
    match s.FoundationReword E address endTime with
    | Except.error err => ⟨s, db, some err⟩
    | Except.ok base =>
      let r := s.RewardState.UpdateOwner E db
        { BaseReward := base,
          MeritReward := 0,
          YieldReward := 0,
          LastOprTime := endTime,
          LastOprTXID := txID,
          LastClaimTime := endTime,
          LastClaimTXID := txID,
          RewardAddr := address }
      ⟨{ s with RewardState := r.st }, r.db, none⟩

/-- The sum of `RewardCurYear(i)` over the year indices `i < TotalYears`. -/
def samaState.emissionSum (E : Env) (s : samaState) : Nat :=
  ((List.range s.SysParams.GetTotalYears).map (fun i =>
    match s.RewardCurYear E (toUint32 i) with
    | Except.ok v => v
    | Except.error _ => 0)).sum

def samaState.CalcReward (E : Env) (s : samaState) (claimerType : Nat) (address : Address)
    (endTime : Nat) : Except Error (Nat × Nat × Nat) :=
  if claimerType = 0 then
    let foundation := s.SysParams.GetFoundationAddress
    if address ≠ E.HexToAddress foundation then
      Except.error (Error.Errorf "address or claimer type  err")
    else
      match s.FoundationReword E address endTime with
      | Except.error err => Except.error err
      | Except.ok base => Except.ok (base, 0, 0)
  else
    match s.StakerState.GetStakerMeta E claimerType address with
    | none => Except.error (Error.Errorf "GetStakerMeta err")
    | some staker =>
      if endTime < staker.StakeTime then
        Except.error
          (Error.Errorf ("endTime err " ++ toString endTime ++ " " ++ toString staker.StakeTime))
      else
        let stakeNum := s.StakersNum E claimerType
        s.StakerReword E (toByte staker.StakerType) stakeNum staker.StakerAddr staker.StakeTime
          endTime

def samaState.DealStakeTx (E : Env) (s : samaState) (db : Database) (staker : StakerMeta) :
    Res samaState :=
  let u := s.UpdateStakerReward E db (toByte staker.StakerType) staker.StakerAddr staker.TxID
    staker.StakeTime
  match u.err with
  | some err => ⟨u.st, u.db, some err⟩
  | none =>
    let r := u.st.StakerState.PutStaker E u.db staker
    ⟨{ u.st with StakerState := r.st }, r.db, r.err⟩

def samaState.DealUnStakeTx (E : Env) (s : samaState) (db : Database) (stakerType : Nat)
    (address : Address) (txID : ID) (endTime : Nat) : Res samaState :=
  let u := s.UpdateStakerReward E db stakerType address txID endTime
  match u.err with
  | some err => ⟨u.st, u.db, some err⟩
  | none =>
    let r := u.st.StakerState.DelStaker E u.db stakerType address
    ⟨{ u.st with StakerState := r.st }, r.db, r.err⟩

/-- The loop of `IsValidWorkAddress` over the node details. -/
def samaState.IsValidWorkAddressLoop (E : Env) (s : samaState) (address : Address) :
    List DetailMeta → Bool × Nat × Option Error
  | [] => (false, 0, none)
  | node :: rest =>
    match E.WorkKeyAddress node.WorkKey with
    | Except.error err => (false, 0, some err)
    | Except.ok addr =>
      if addr = address then
        if node.StakerType = stakerTypeRoute E then
          (s.StakerState.IsRoute E node.StakeAddress, toByte node.StakerType, none)
        else if node.StakerType = stakerTypeSer E then
          (s.StakerState.IsSer E node.StakeAddress, toByte node.StakerType, none)
        else (false, 0, some (Error.Errorf "type err"))
      else samaState.IsValidWorkAddressLoop E s address rest

/-- The triple `IsValidWorkAddress` returns; `WorkKeyAddress` is the address
recovered from the hex work key (hex decoding, `UnmarshalPubkey`,
`PubkeyToAddress`). -/
def samaState.IsValidWorkAddress (E : Env) (s : samaState) (address : Address) :
    Bool × Nat × Option Error :=
  s.IsValidWorkAddressLoop E address s.DetailsState.GetDetails

def samaState.CheckPayAmount (s : samaState) (userType : Nat) (amount : Nat)
    (startTime : Nat) (endTime : Nat) : Bool :=
  if sub64 endTime startTime % SecondsMonth ≠ 0 then false
  else
    match s.UserTypesState.GetUserType userType with
    | none => false
    | some pmeta => if amount = pmeta.FeeUnits then true else false

def samaState.DealAddUserTx (E : Env) (s : samaState) (db : Database) (txID : ID)
    (blkTime : Nat) (user : UserMeta) : Res samaState :=
  match s.UsersState.GetUserMeta E db user.Address with
  | Except.error err => ⟨s, db, some err⟩
  | Except.ok found =>
    let checked : Except Error UserMeta :=
      match found with
      | some pmate =>
        if user.StartTime > add64 pmate.EndTime SecondsMinute ∨
            user.StartTime < sub64 pmate.EndTime SecondsMinute then
          Except.error (Error.Errorf "start time err")
        else Except.ok { user with StartTime := pmate.StartTime, TxsID := pmate.TxsID }
      | none => Except.ok user
    match checked with
    | Except.error err => ⟨s, db, some err⟩
    | Except.ok user =>
      let user := { user with TxsID := user.TxsID ++ [txID] }
      let r := s.UsersState.PutUser E db user
      let perc := s.SysParams.GetPercBurn
      let yield := mul64 user.PayAmount (sub32From100 perc) / 100
      let y := s.YieldsState.ModifyYields E r.db yield txID blkTime
      ⟨{ s with UsersState := r.st, YieldsState := y.st }, y.db, y.err⟩

def samaState.UpdateNodeParams (E : Env) (s : samaState) (db : Database)
    (detail : DetailMeta) : Res samaState :=
  let r := s.DetailsState.PutDetail E db detail.WorkAddress detail
  ⟨{ s with DetailsState := r.st }, r.db, none⟩

/-! ### The yearly walk of `StakerReword` in closed form -/

/-- The seconds `workSecs` that the yearly loops count for the year slice `i`
of the interval `[startTime, endTime]`. -/
def samaState.yearSecs (s : samaState) (startTime endTime i : Nat) : Nat :=
  workSecsOf startTime endTime
    (add64 s.SysParams.GetChainCreateTime (mul64 i SecondsYear))
    (add64 s.SysParams.GetChainCreateTime (mul64 (add64 i 1) SecondsYear))

/-- The value `roleTotalYear` of the loop of `StakerReword` in year `i`,
when `RewardCurYear` does not panic. -/
def samaState.roleTotalYear (E : Env) (s : samaState) (stakerType i : Nat) : Nat :=
  mul64 (E.RewardFloat (s.SysParams.GetTotalYears / s.SysParams.GetRateSustainYears)
    s.SysParams.GetChainTokenAmount (toUint32 i)) (s.StakePercentage E stakerType) / 100

/-- The base reward per second of one staker in year `i`:
`roleTotalYear / (roleNum * SecondsYear)` for a validator,
`baseTotal / (roleNum * SecondsYear)` otherwise. -/
def samaState.baseRate (E : Env) (s : samaState) (stakerType roleNum percBase i : Nat) : Nat :=
  if stakerType = stakerTypeValidator E then
    s.roleTotalYear E stakerType i / mul64 roleNum SecondsYear
  else mul64 (s.roleTotalYear E stakerType i) percBase / 100 / mul64 roleNum SecondsYear

/-- The merit pool per second in year `i`: `meritTotal / SecondsYear`. -/
def samaState.meritRate (E : Env) (s : samaState) (stakerType percMerit i : Nat) : Nat :=
  mul64 (s.roleTotalYear E stakerType i) percMerit / 100 / SecondsYear

/-- One round of the yearly loop of `StakerReword` when no division panics. -/
def samaState.yearStep (E : Env) (s : samaState) (stakerType roleNum : Nat) (address : Address)
    (startTime endTime percBase percMerit : Nat) (acc : RewardAcc) (i : Nat) : RewardAcc :=
  let base := add64 acc.baseReward
    (mul64 (s.baseRate E stakerType roleNum percBase i) (s.yearSecs startTime endTime i))
  if stakerType = stakerTypeValidator E then
    { baseReward := base, meritReward := 0, meritInc := acc.meritInc }
  else
    let inc := add64 acc.meritInc
      (mul64 (s.meritRate E stakerType percMerit i) (s.yearSecs startTime endTime i))
    { baseReward := base,
      meritReward :=
        if s.ChainTotalPowMinutes E stakerType ≠ 0 then
          add64 acc.meritReward (mul64 inc (s.StakePowMinutes E stakerType address) /
            s.ChainTotalPowMinutes E stakerType)
        else acc.meritReward,
      meritInc := inc }

/-- The base percentage `percBase` that `StakerReword` uses for the role. -/
def samaState.rolePercBase (E : Env) (s : samaState) (stakerType : Nat) : Nat :=
  if stakerType = stakerTypeRoute E then s.SysParams.GetRoutePercBase
  else if stakerType = stakerTypeSer E then s.SysParams.GetSerPercBase
  else if stakerType = stakerTypeValidator E then 100
  else 0

/-- The merit percentage `percMerit` that `StakerReword` uses for the role. -/
def samaState.rolePercMerit (E : Env) (s : samaState) (stakerType : Nat) : Nat :=
  if stakerType = stakerTypeRoute E then s.SysParams.GetRoutePercMerit
  else if stakerType = stakerTypeSer E then s.SysParams.GetSerPercMerit
  else 0

/-- The reward record that `StakerReword` starts from: the address's record,
or the zero record when it has none. -/
def samaState.priorReward (s : samaState) (address : Address) : RewardMeta :=
  match s.RewardState.GetRewardMeta address with
  | some reward => reward
  | none => RewardMeta.zero

/-- The start time of `StakerReword`: the record's `LastOprTime`, or the
stake time when the address has no record. -/
def samaState.rewardStart (s : samaState) (address : Address) (stakeTime : Nat) : Nat :=
  match s.RewardState.GetRewardMeta address with
  | some reward => reward.LastOprTime
  | none => stakeTime

/-- The year indices `sYear, ..., eYear` that the loops walk. -/
def samaState.rewardYears (s : samaState) (startTime endTime : Nat) : List Nat :=
  List.range' (sub64 startTime s.SysParams.GetChainCreateTime / SecondsYear)
    (sub64 endTime s.SysParams.GetChainCreateTime / SecondsYear + 1 -
      sub64 startTime s.SysParams.GetChainCreateTime / SecondsYear)

/-- The share of the yield pool that one call of `StakerReword` adds. -/
def samaState.yieldShare (E : Env) (s : samaState) (stakerType roleNum : Nat) : Nat :=
  s.YieldsState.GetChainYields * s.StakePercentage E stakerType / 100 / roleNum

/-- The sum over the years of (base rate) * (seconds of the interval in the
year), in unbounded arithmetic. -/
def samaState.baseSum (E : Env) (s : samaState) (stakerType roleNum percBase : Nat)
    (startTime endTime : Nat) (years : List Nat) : Nat :=
  (years.map (fun i =>
    s.baseRate E stakerType roleNum percBase i * s.yearSecs startTime endTime i)).sum

/-- The merit increments of the years, (merit rate) * (seconds in the year),
in unbounded arithmetic. -/
def samaState.meritIncs (E : Env) (s : samaState) (stakerType percMerit : Nat)
    (startTime endTime : Nat) (years : List Nat) : List Nat :=
  years.map (fun i => s.meritRate E stakerType percMerit i * s.yearSecs startTime endTime i)

/-- The merit that the loop adds: each year the running total of the
increments so far, times `userTime / totalTime`, in unbounded arithmetic. -/
def meritSum (userTime totalTime : Nat) : List Nat → Nat → Nat
  | [], _ => 0
  | x :: rest, inc =>
    (inc + x) * userTime / totalTime + meritSum userTime totalTime rest (inc + x)

/-- The ledger in which the address's current reward record is replaced by the
given totals, stamped with the time `t`. -/
def samaState.storeReward (s : samaState) (address : Address) (base merit yield t : Nat)
    (txID : ID) : samaState :=
  { s with RewardState := { s.RewardState with
      curRewards := s.RewardState.curRewards.put address
        { BaseReward := base,
          MeritReward := merit,
          YieldReward := yield,
          LastOprTime := t,
          LastOprTXID := txID,
          LastClaimTime := t,
          LastClaimTXID := txID,
          RewardAddr := address } } }


/-- The ledger with the given pending reward buffers and everything else as in
`s`. -/
def samaState.withPendingRewards (s : samaState) (pendingAdd pendingDel : GoMap Address RewardMeta) :
    samaState :=
  { s with RewardState := { s.RewardState with
      pendingRewardsAdd := pendingAdd, pendingRewardsDel := pendingDel } }

/-- No division of the `StakerReword` run panics and none of its additions and
multiplications overflows 64 bits: `RateSustainYears` is not 0, and
`n * SecondsYear`, the yield product and sum, and the unbounded yearly sums
added to the prior totals all stay below 2^64. -/
def samaState.exactRun (E : Env) (s : samaState) (stakerType n : Nat) (address : Address)
    (stakeTime endTime : Nat) : Prop :=
  s.SysParams.GetRateSustainYears ≠ 0 ∧
  n * SecondsYear < 2 ^ 64 ∧
  s.YieldsState.GetChainYields * s.StakePercentage E stakerType < 2 ^ 64 ∧
  (s.priorReward address).YieldReward + s.yieldShare E stakerType n < 2 ^ 64 ∧
  (s.priorReward address).BaseReward +
    s.baseSum E stakerType n (s.rolePercBase E stakerType) (s.rewardStart address stakeTime)
      endTime (s.rewardYears (s.rewardStart address stakeTime) endTime) < 2 ^ 64 ∧
  (s.meritIncs E stakerType (s.rolePercMerit E stakerType) (s.rewardStart address stakeTime)
    endTime (s.rewardYears (s.rewardStart address stakeTime) endTime)).sum < 2 ^ 64 ∧
  (s.meritIncs E stakerType (s.rolePercMerit E stakerType) (s.rewardStart address stakeTime)
    endTime (s.rewardYears (s.rewardStart address stakeTime) endTime)).sum *
      s.StakePowMinutes E stakerType address < 2 ^ 64 ∧
  (s.priorReward address).MeritReward +
    meritSum (s.StakePowMinutes E stakerType address) (s.ChainTotalPowMinutes E stakerType)
      (s.meritIncs E stakerType (s.rolePercMerit E stakerType)
        (s.rewardStart address stakeTime) endTime
        (s.rewardYears (s.rewardStart address stakeTime) endTime)) 0 < 2 ^ 64

instance (E : Env) (s : samaState) (stakerType n : Nat) (address : Address)
    (stakeTime endTime : Nat) : Decidable (s.exactRun E stakerType n address stakeTime endTime) := by
  unfold samaState.exactRun
  infer_instance

/-- The reward record `new` is not below the record `old`: base, yield and
last-operation time, and the merit when `withMerit` holds. -/
def RewardMeta.notBelow (withMerit : Prop) (old new : RewardMeta) : Prop :=
  old.BaseReward ≤ new.BaseReward ∧ old.YieldReward ≤ new.YieldReward ∧
    (withMerit → old.MeritReward ≤ new.MeritReward) ∧ old.LastOprTime ≤ new.LastOprTime


/-! ### The foundation reward as the claim words it -/

/-- The run of `RewardCurYear`. -/
def samaState.RewardCurYearRun (E : Env) (s : samaState) (index : Nat) :
    samaState × Except Error Nat :=
  let totalYears := s.SysParams.GetTotalYears
  let changeYears := s.SysParams.GetRateSustainYears
  let totalTokens := s.SysParams.GetChainTokenAmount
  if changeYears = 0 then (s, Except.error (Error.panic "integer divide by zero"))
  else (s, Except.ok (E.RewardFloat (totalYears / changeYears) totalTokens index))

/-- The run of one round of the yearly loop of `StakerReword`. -/
def samaState.StakerRewordYearRun (E : Env) (s : samaState) (stakerType : Nat) (roleNum : Nat)
    (address : Address) (startTime endTime : Nat) (percBase percMerit : Nat)
    (acc : RewardAcc) (i : Nat) : samaState × Except Error RewardAcc :=
  let createTime := s.SysParams.GetChainCreateTime
  let tmpStart := add64 createTime (mul64 i SecondsYear)
  let tmpEnd := add64 createTime (mul64 (add64 i 1) SecondsYear)
  match s.RewardCurYearRun E (toUint32 i) with
  | (s, Except.error err) => (s, Except.error err)
  | (s, Except.ok totalRewardYear) =>
    let roleTotalYear := mul64 totalRewardYear (s.StakePercentage E stakerType) / 100
    let workSecs := workSecsOf startTime endTime tmpStart tmpEnd
    let stepped : Except Error RewardAcc :=
      if stakerType = stakerTypeValidator E then
        match div64 roleTotalYear (mul64 roleNum SecondsYear) with
        | Except.error err => Except.error err
        | Except.ok q =>
          Except.ok { acc with baseReward := add64 acc.baseReward (mul64 q workSecs),
                               meritReward := 0 }
      else
        let baseTotal := mul64 roleTotalYear percBase / 100
        let meritTotal := mul64 roleTotalYear percMerit / 100
        let meritInc := add64 acc.meritInc (mul64 (meritTotal / SecondsYear) workSecs)
        match div64 baseTotal (mul64 roleNum SecondsYear) with
        | Except.error err => Except.error err
        | Except.ok q =>
          Except.ok { acc with meritInc := meritInc,
                               baseReward := add64 acc.baseReward (mul64 q workSecs) }
    match stepped with
    | Except.error err => (s, Except.error err)
    | Except.ok acc =>
      if stakerType ≠ stakerTypeValidator E then
        let totalTime := s.ChainTotalPowMinutes E stakerType
        let userTime := s.StakePowMinutes E stakerType address
        if totalTime ≠ 0 then
          (s, Except.ok { acc with
            meritReward := add64 acc.meritReward (mul64 acc.meritInc userTime / totalTime) })
        else (s, Except.ok acc)
      else (s, Except.ok acc)

/-- The run of the yearly loop of `StakerReword`. -/
def samaState.StakerRewordLoopRun (E : Env) (stakerType : Nat) (roleNum : Nat)
    (address : Address) (startTime endTime : Nat) (percBase percMerit : Nat) :
    List Nat → samaState → RewardAcc → samaState × Except Error RewardAcc
  | [], s, acc => (s, Except.ok acc)
  | i :: rest, s, acc =>
    match s.StakerRewordYearRun E stakerType roleNum address startTime endTime percBase percMerit
        acc i with
    | (s, Except.error err) => (s, Except.error err)
    | (s, Except.ok acc1) =>
      samaState.StakerRewordLoopRun E stakerType roleNum address startTime endTime percBase
        percMerit rest s acc1

/-- The run of `StakerReword`. -/
def samaState.StakerRewordRun (E : Env) (s : samaState) (stakerType : Nat) (roleNum : Nat)
    (address : Address) (stakeTime endTime : Nat) :
    samaState × Except Error (Nat × Nat × Nat) :=
  let percBase :=
    if stakerType = stakerTypeRoute E then s.SysParams.GetRoutePercBase
    else if stakerType = stakerTypeSer E then s.SysParams.GetSerPercBase
    else if stakerType = stakerTypeValidator E then 100
    else 0
  let percMerit :=
    if stakerType = stakerTypeRoute E then s.SysParams.GetRoutePercMerit
    else if stakerType = stakerTypeSer E then s.SysParams.GetSerPercMerit
    else 0
  let prior := s.RewardState.GetRewardMeta address
  let startTime := match prior with
    | some reward => reward.LastOprTime
    | none => stakeTime
  let baseReward := match prior with
    | some reward => reward.BaseReward
    | none => 0
  let meritReward := match prior with
    | some reward => reward.MeritReward
    | none => 0
  let yieldReward := match prior with
    | some reward => reward.YieldReward
    | none => 0
  let totalYields := s.YieldsState.GetChainYields
  let roleYields := mul64 totalYields (s.StakePercentage E stakerType) / 100
  match div64 roleYields (roleNum % 2 ^ 64) with
  | Except.error err => (s, Except.error err)
  | Except.ok share =>
    let yieldReward := add64 yieldReward share
    let createTime := s.SysParams.GetChainCreateTime
    let sYear := sub64 startTime createTime / SecondsYear
    let eYear := sub64 endTime createTime / SecondsYear
    match samaState.StakerRewordLoopRun E stakerType roleNum address startTime endTime
        percBase percMerit (List.range' sYear (eYear + 1 - sYear)) s
        ⟨baseReward, meritReward, 0⟩ with
    | (s, Except.error err) => (s, Except.error err)
    | (s, Except.ok acc) => (s, Except.ok (acc.baseReward, acc.meritReward, yieldReward))

/-- The run of the yearly loop of `FoundationReword`. -/
def samaState.FoundationRewordLoopRun (E : Env) (startTime endTime : Nat) :
    List Nat → samaState → Nat → samaState × Except Error Nat
  | [], s, fReward => (s, Except.ok fReward)
  | i :: rest, s, fReward =>
    let createTime := s.SysParams.GetChainCreateTime
    let tmpStart := add64 createTime (mul64 i SecondsYear)
    let tmpEnd := add64 createTime (mul64 (add64 i 1) SecondsYear)
    match s.RewardCurYearRun E (toUint32 i) with
    | (s, Except.error err) => (s, Except.error err)
    | (s, Except.ok totalRewardYear) =>
      let roleTotalYear := mul64 totalRewardYear s.SysParams.GetPercFoundation / 100
      let workSecs := workSecsOf startTime endTime tmpStart tmpEnd
      samaState.FoundationRewordLoopRun E startTime endTime rest s
        (add64 fReward (mul64 (roleTotalYear / SecondsYear) workSecs))

/-- The run of `FoundationReword`. -/
def samaState.FoundationRewordRun (E : Env) (s : samaState) (address : Address)
    (endTime : Nat) : samaState × Except Error Nat :=
  let createTime := s.SysParams.GetChainCreateTime
  let startTime := match s.RewardState.GetRewardMeta address with
    | some reward => reward.LastClaimTime
    | none => createTime
  if endTime < startTime then (s, Except.error (Error.Errorf "end time err"))
  else
    let sYear := sub64 startTime createTime / SecondsYear
    let eYear := sub64 endTime createTime / SecondsYear
    match samaState.FoundationRewordLoopRun E startTime endTime
        (List.range' sYear (eYear + 1 - sYear)) s 0 with
    | (s, Except.error err) => (s, Except.error err)
    | (s, Except.ok _) => (s, Except.ok 0)

/-- The run of `CalcReward`: the ledger it leaves and what it returns. -/
def samaState.CalcRewardRun (E : Env) (s : samaState) (claimerType : Nat) (address : Address)
    (endTime : Nat) : samaState × Except Error (Nat × Nat × Nat) :=
  if claimerType = 0 then
    let foundation := s.SysParams.GetFoundationAddress
    if address ≠ E.HexToAddress foundation then
      (s, Except.error (Error.Errorf "address or claimer type  err"))
    else
      match s.FoundationRewordRun E address endTime with
      | (s, Except.error err) => (s, Except.error err)
      | (s, Except.ok base) => (s, Except.ok (base, 0, 0))
  else
    match s.StakerState.GetStakerMeta E claimerType address with
    | none => (s, Except.error (Error.Errorf "GetStakerMeta err"))
    | some staker =>
      if endTime < staker.StakeTime then
        (s, Except.error
          (Error.Errorf ("endTime err " ++ toString endTime ++ " " ++ toString staker.StakeTime)))
      else
        let stakeNum := s.StakersNum E claimerType
        s.StakerRewordRun E (toByte staker.StakerType) stakeNum staker.StakerAddr
          staker.StakeTime endTime


def samaState.CheckClaimAddress (E : Env) (s : samaState) (address : Address) : Bool × Nat :=
  let r := s.StakerState.IsStaker E address
  if r.1 then (true, r.2)
  else if address = E.HexToAddress s.SysParams.GetFoundationAddress then (true, 0)
  else (false, 0)

/-! ## Transactions -/

/-- The envelope shared by the transactions (declared outside the files at
hand; its fields are those the decoder fills). -/
structure BaseTx where
  BlockID : ID
  Magic : Nat
  Price : Nat
  deriving DecidableEq, Repr

/-- What `Execute` reads from its context: genesis, store, block time,
transaction id, sender, and the ledger behind `t.vm.SamaState()`. -/
structure TransactionContext where
  Genesis : Genesis
  Database : Database
  BlockTime : Nat
  TxID : ID
  Sender : Address
  State : samaState

/-! ### Govern (`govern_tx.go`) -/

structure GovernTx where
  BaseTx : BaseTx
  ActionID : ShortID
  deriving DecidableEq, Repr

/-- The first part of `GovernTx.Execute`, up to and with the confirmation
check: the action when every check passes, else the error returned. -/
def GovernTx.confirm (E : Env) (g : GovernTx) (t : TransactionContext) (now : Time) :
    Except Error ActionMeta :=
  let samaState := t.State
  match samaState.ActionsState.GetActionMeta now g.ActionID with
  | Except.error err => Except.error err
  | Except.ok none => Except.error (Error.Errorf "action not found")
  | Except.ok (some action) =>
    if now.Unix > add64 action.EndTime Seconds7Day then
      Except.error (Error.Errorf "need < 14 days")
    else
      let votersNum := action.Voters.length
      let routeNum := samaState.StakerState.GetStakersNum.1
      let isBeConfirmed :=
        if routeNum < 3 then rootVoted E samaState.SysParams.GetRootAddress action.Voters
        else decide (votersNum ≥ routeNum * 2 / 3)
      if !isBeConfirmed then Except.error (Error.Errorf "action not be confirmed")
      else Except.ok action

/-- The second part of `GovernTx.Execute`: the switch on the action type. -/
def GovernTx.dispatch (E : Env) (t : TransactionContext) (action : ActionMeta) :
    Res samaState :=
  let samaState := t.State
  let key := action.Key
  let newValue := action.NewValue
  if action.ActionType = actionTypeModifySysParam ∨
      action.ActionType = actionTypeModifyFoundation then
    let r := samaState.SysParams.ModifyParams E t.Database key newValue t.TxID t.BlockTime
    ⟨{ samaState with SysParams := r.st }, r.db, r.err⟩
  else if action.ActionType = actionTypeAddUserType ∨
      action.ActionType = actionTypeModifyUserType then
    match ParseUint key with
    | none => ⟨samaState, t.Database, some (Error.lib "strconv.ParseUint")⟩
    | some userType =>
      match ParseUint newValue with
      | none => ⟨samaState, t.Database, some (Error.lib "strconv.ParseUint")⟩
      | some userFee =>
        let r := samaState.UserTypesState.AddUserType E t.Database
          { TypeName := "", TypeID := userType, FeeUnits := userFee }
        ⟨{ samaState with UserTypesState := r.st }, r.db, r.err⟩
  else ⟨samaState, t.Database, some (Error.Errorf "action type err")⟩

def GovernTx.Execute (E : Env) (g : GovernTx) (t : TransactionContext) (now : Time) :
    Res samaState :=
  match g.confirm E t now with
  | Except.error err => ⟨t.State, t.Database, some err⟩
  | Except.ok action => GovernTx.dispatch E t action

/-- The confirmation decision `GovernTx.Execute` computes inline (its variable
`isBeConfirmed`) for the action it has read. -/
def GovernTx.isBeConfirmed (E : Env) (samaState : samaState) (action : ActionMeta) : Bool :=
  let votersNum := action.Voters.length
  let routeNum := samaState.StakerState.GetStakersNum.1
  if routeNum < 3 then rootVoted E samaState.SysParams.GetRootAddress action.Voters
  else decide (votersNum ≥ routeNum * 2 / 3)


/-! ### Stake (`stake_tx.go`) -/

structure StakeTx where
  BaseTx : BaseTx
  StakerType : Nat
  StakeAmount : Nat
  StakerAddr : Address
  deriving DecidableEq, Repr

def StakeTx.Execute (E : Env) (s : StakeTx) (t : TransactionContext) (now : Time) :
    Res samaState :=
  let g := t.Genesis
  if s.StakerType ≠ stakerTypeRoute E ∧ s.StakerType ≠ stakerTypeSer E ∧
      s.StakerType ≠ stakerTypeValidator E then
    ⟨t.State, t.Database, some Error.ErrStakerType⟩
  else if s.StakeAmount ≠ g.RouteStake ∧ s.StakeAmount ≠ g.SerStake then
    ⟨t.State, t.Database, some Error.ErrStakeAmount⟩
  else if s.StakerAddr = 0 then ⟨t.State, t.Database, some Error.ErrNonActionable⟩
  else
    let samaState := t.State
    if (samaState.StakerState.IsStaker E s.StakerAddr).1 then
      ⟨t.State, t.Database, some (Error.Errorf "have already been staker")⟩
    else
      match samaState.IsBeConfirmed E now actionTypeAddStaker (E.Hex t.Sender) with
      | (_, _, some (Error.panic msg)) => ⟨t.State, t.Database, some (Error.panic msg)⟩
      | (ok, actionID, _) =>
        if !ok then ⟨t.State, t.Database, some (Error.Errorf "no be confirmed")⟩
        else
          let b := E.ModifyBalance t.Database t.Sender false s.StakeAmount
          match b.2 with
          | some err => ⟨t.State, b.1, some err⟩
          | none =>
            let c := E.ModifyStakeBalance b.1 t.Sender true s.StakeAmount
            match c.2 with
            | some err => ⟨t.State, c.1, some err⟩
            | none =>
              let d := samaState.DealStakeTx E c.1
                { TxID := t.TxID,
                  StakerType := s.StakerType,
                  StakerAddr := s.StakerAddr,
                  StakeAmount := s.StakeAmount,
                  StakeTime := t.BlockTime }
              match d.err with
              | some err => ⟨d.st, d.db, some err⟩
              | none =>
                let r := d.st.ActionsState.DelAction E d.db actionID
                ⟨{ d.st with ActionsState := r.st }, r.db, r.err⟩

/-! ### UnStake (`unstake_tx.go`) -/

structure UnStakeTx where
  BaseTx : BaseTx
  RewardAmount : Nat
  StakerType : Nat
  EndTime : Nat
  deriving DecidableEq, Repr

def UnStakeTx.Execute (E : Env) (u : UnStakeTx) (t : TransactionContext) (now : Time) :
    Res samaState :=
  if u.StakerType ≠ stakerTypeRoute E ∧ u.StakerType ≠ stakerTypeSer E then
    ⟨t.State, t.Database, some Error.ErrStakerType⟩
  else
    let samaState := t.State
    if now.After (toInt64 (add64 u.EndTime EffectiveSecs)) then
      ⟨t.State, t.Database, some Error.ErrEndTimeTooEarly⟩
    else if now.Before (toInt64 u.EndTime) then
      ⟨t.State, t.Database, some Error.ErrEndTimeTooLate⟩
    else
      match samaState.StakerState.GetStakerMeta E (toByte u.StakerType) t.Sender with
      | none => ⟨t.State, t.Database, some (Error.Errorf "not found")⟩
      | some staker =>
        let minTime := samaState.SysParams.GetMinStakeTime
        if now.Before (toInt64 (add64 staker.StakeTime minTime)) then
          ⟨t.State, t.Database, some (Error.Errorf "stake time must > 90 days")⟩
        else
          let b := E.ModifyStakeBalance t.Database t.Sender false staker.StakeAmount
          match b.2 with
          | some err => ⟨t.State, b.1, some err⟩
          | none =>
            match samaState.CalcReward E (toByte u.StakerType) t.Sender u.EndTime with
            | Except.error err => ⟨t.State, b.1, some err⟩
            | Except.ok (base, merit, yield) =>
              let totalReawrd := add64 (add64 base merit) yield
              if u.RewardAmount ≠ totalReawrd then
                ⟨t.State, b.1, some (Error.Errorf "reward amount is err")⟩
              else
                let c := E.ModifyBalance b.1 t.Sender true (add64 staker.StakeAmount totalReawrd)
                match c.2 with
                | some err => ⟨t.State, c.1, some err⟩
                | none =>
                  samaState.DealUnStakeTx E c.1 (toByte u.StakerType) t.Sender t.TxID u.EndTime

/-! ### Proof (`proof_tx.go`) -/

def minFlow : Nat := 1
def maxFlow : Nat := 1000
def minTime : Nat := 1
def maxTime : Nat := 60

structure ProofTx where
  BaseTx : BaseTx
  Netflow : Nat
  StartTime : Nat
  EndTime : Nat
  Ser : Address
  deriving DecidableEq, Repr

def ProofTx.Execute (E : Env) (p : ProofTx) (t : TransactionContext) (now : Time) :
    Res samaState :=
  let samaState := t.State
  match samaState.IsValidWorkAddress E t.Sender with
  | (_, _, some err) => ⟨t.State, t.Database, some err⟩
  | (ok, powType, none) =>
    if !ok then ⟨t.State, t.Database, some (Error.Errorf "sender must route or ser node")⟩
    else
      let interval := sub64 p.EndTime p.StartTime
      if p.Netflow < minFlow then ⟨t.State, t.Database, some (Error.Errorf "netflow too small")⟩
      else if p.Netflow > maxFlow then
        ⟨t.State, t.Database, some (Error.Errorf "netflow too big")⟩
      else if p.StartTime > p.EndTime then
        ⟨t.State, t.Database, some (Error.Errorf "start time > endtime")⟩
      else if p.StartTime > sub64 now.Unix 50 then
        ⟨t.State, t.Database, some (Error.Errorf "start time err")⟩
      else if p.EndTime > now.Unix then ⟨t.State, t.Database, some (Error.Errorf "endtime err")⟩
      else if interval < minTime then
        ⟨t.State, t.Database, some (Error.Errorf "interval too small")⟩
      else if interval > maxTime then
        ⟨t.State, t.Database, some (Error.Errorf "interval to big")⟩
      else
        let r := samaState.PowState.PutPow E t.Database powType
          { Netflow := p.Netflow,
            WorkTime := sub64 p.EndTime p.StartTime,
            Miner := t.Sender,
            TxID := t.TxID,
            UpdateTime := t.BlockTime }
        ⟨{ samaState with PowState := r.st }, r.db, r.err⟩

/-- A run of `PutPow` calls for one role that stops at the first call that
returns an error. -/
def powState.putAll (E : Env) (role : Nat) : Res powState → List ProofMeta → Res powState
  | x, [] => x
  | x, proof :: rest =>
    let r := x.st.PutPow E x.db role proof
    match r.err with
    | some _ => r
    | none => powState.putAll E role r rest

/-- The pending-add map of a proof role (empty for an unknown role). -/
def powState.pendingAdd (E : Env) (f : powState) (powType : Nat) : GoMap Address PowMeta :=
  match f.GetPendingPow E powType with
  | some (pendingAdd, _) => pendingAdd
  | none => GoMap.empty

/-- The pending-delete map of a proof role (empty for an unknown role). -/
def powState.pendingDel (E : Env) (f : powState) (powType : Nat) : GoMap Address PowMeta :=
  match f.GetPendingPow E powType with
  | some (_, pendingDel) => pendingDel
  | none => GoMap.empty

/-- The committed work-time of a miner, 0 when it has no record. -/
def powState.committedTime (E : Env) (f : powState) (powType : Nat) (miner : Address) : Nat :=
  match f.GetPowMeta E powType miner with
  | some pow => pow.TotalTime
  | none => 0

/-- The committed flow of a miner, 0 when it has no record. -/
def powState.committedFlow (E : Env) (f : powState) (powType : Nat) (miner : Address) : Nat :=
  match f.GetPowMeta E powType miner with
  | some pow => pow.Totalflow
  | none => 0

/-- The sum of the work-times. -/
def sumWorkTime (proofs : List ProofMeta) : Nat := (proofs.map (fun p => p.WorkTime)).sum

/-- The sum of the netflows. -/
def sumNetflow (proofs : List ProofMeta) : Nat := (proofs.map (fun p => p.Netflow)).sum

/-! ### AddUser (`add_user_tx.go`) -/

structure AddUserTx where
  BaseTx : BaseTx
  StartTime : Nat
  EndTime : Nat
  PayAmount : Nat
  Connections : Nat
  UserType : Nat
  Address : Address
  deriving DecidableEq, Repr

def AddUserTx.Execute (E : Env) (a : AddUserTx) (t : TransactionContext) (now : Time) :
    Res samaState :=
  if a.StartTime > a.EndTime then ⟨t.State, t.Database, some (Error.Errorf "start time > endtime")⟩
  else if sub64 a.EndTime a.StartTime > 31 * 24 * 60 * 60 then
    ⟨t.State, t.Database, some (Error.Errorf "time > 31 days")⟩
  else if sub64 a.EndTime a.StartTime < 28 * 24 * 60 * 60 then
    ⟨t.State, t.Database, some (Error.Errorf "time < 28 days")⟩
  else if a.StartTime < sub64 now.Unix 60 then
    ⟨t.State, t.Database, some (Error.Errorf "start time err")⟩
  else if a.Address = 0 then ⟨t.State, t.Database, some Error.ErrNonActionable⟩
  else
    let samaState := t.State
    if !samaState.UserTypesState.CheckUserType a.UserType then
      ⟨t.State, t.Database, some (Error.Errorf "user type err")⟩
    else if !samaState.CheckPayAmount a.UserType a.PayAmount a.StartTime a.EndTime then
      ⟨t.State, t.Database, some (Error.Errorf "pay amount check fail")⟩
    else
      let exists_ : Bool :=
        match samaState.UsersState.GetUserMeta E t.Database a.Address with
        | Except.ok (some _) => true
        | _ => false
      if exists_ then ⟨t.State, t.Database, some (Error.Errorf "ueser have already exist ")⟩
      else
        let b := E.ModifyBalance t.Database t.Sender false a.PayAmount
        match b.2 with
        | some err => ⟨t.State, b.1, some err⟩
        | none =>
          samaState.DealAddUserTx E b.1 t.TxID t.BlockTime
            { StartTime := a.StartTime,
              EndTime := a.EndTime,
              UserType := a.UserType,
              Connections := a.Connections,
              PayAmount := a.PayAmount,
              TxsID := [],
              Address := a.Address }

/-- The current (committed) part of the ledger, which the getters read. -/
def samaState.current (s : samaState) :=
  (s.StakerState.curRoute, s.StakerState.curSer, s.StakerState.curValidator,
    s.RewardState.curRewards, s.RewardState.curGlobal, s.PowState.curSer, s.PowState.curRoute,
    s.YieldsState.curYields, s.UsersState.curUsers, s.DetailsState.curNodes,
    s.ActionsState.curActions, s.UserTypesState.curUserTypes, s.SysParams.curParams)

/-! ### Proposal (`proposal_tx.go`) -/

structure ProposalTx where
  BaseTx : BaseTx
  ActionID : ShortID
  StartTime : Nat
  EndTime : Nat
  ActionType : Nat
  Key : String
  NewValue : String
  deriving DecidableEq, Repr

/-- The `switch p.ActionType` of `ProposalTx.Execute`: the error it returns,
`none` when the proposal goes on. -/
def ProposalTx.check (p : ProposalTx) (samaState : samaState) : Option Error :=
  if p.ActionType = actionTypeModifySysParam ∨ p.ActionType = actionTypeModifyFoundation then
    samaState.SysParams.CompCurParam p.Key p.NewValue
  else if p.ActionType = actionTypeAddUserType then
    match ParseUint p.Key with
    | none => some (Error.lib "strconv.ParseUint")
    | some newType =>
      if samaState.UserTypesState.CheckUserType newType then
        some (Error.Errorf "user type exist")
      else none
  else if p.ActionType = actionTypeModifyUserType then
    match ParseUint p.Key with
    | none => some (Error.lib "strconv.ParseUint")
    | some userType =>
      match ParseUint p.NewValue with
      | none => some (Error.lib "strconv.ParseUint")
      | some userFee =>
        if !samaState.UserTypesState.CheckUserType userType then
          some (Error.Errorf "user type not exist")
        else if samaState.UserTypesState.CheckFee userType userFee then
          some (Error.Errorf "equal")
        else none
  else some (Error.Errorf "action type not exist")

/-- The `voters` list that `ProposalTx.Execute` and `RegisterTx.Execute` build
for a new action: the sender when it is the root address and there are fewer
than 3 route stakers, or when it is a route staker; else nobody. -/
def initialVoters (E : Env) (samaState : samaState) (sender : Address) : List Address :=
  let routeNum := samaState.StakerState.GetStakersNum.1
  let sroot := samaState.SysParams.GetRootAddress
  if sender = E.HexToAddress sroot ∧ routeNum < 3 then [sender]
  else if samaState.StakerState.IsRoute E sender then [sender]
  else []

def ProposalTx.Execute (E : Env) (p : ProposalTx) (t : TransactionContext) (now : Time) :
    Res samaState :=
  let samaState := t.State
  match samaState.ActionsState.GetActionMeta now p.ActionID with
  | Except.ok (some _) => ⟨t.State, t.Database, some (Error.Errorf "action ID exist")⟩
  | _ =>
    match p.check samaState with
    | some err => ⟨t.State, t.Database, some err⟩
    | none =>
      match samaState.ActionsState.ProposalRepeat p.ActionID p.Key p.NewValue with
      | some err => ⟨t.State, t.Database, some err⟩
      | none =>
        let r := samaState.ActionsState.PutAction E t.Database p.ActionID
          { ActionID := p.ActionID,
            ActionType := p.ActionType,
            StartTime := t.BlockTime,
            Key := p.Key,
            NewValue := p.NewValue,
            EndTime := add64 t.BlockTime Seconds7Day,
            TxIDs := [t.TxID],
            Voters := initialVoters E samaState t.Sender }
        ⟨{ samaState with ActionsState := r.st }, r.db, r.err⟩

def ProposalTx.Copy (copyBase : SamaVM.BaseTx → SamaVM.BaseTx) (p : ProposalTx) : ProposalTx :=
  { BaseTx := copyBase p.BaseTx,
    ActionID := p.ActionID,
    StartTime := p.StartTime,
    EndTime := p.EndTime,
    ActionType := 0,
    Key := p.Key,
    NewValue := p.NewValue }

/-! ### Vote (`vote_tx.go`) -/

structure VoteTx where
  BaseTx : BaseTx
  ActionID : ShortID
  deriving DecidableEq, Repr

/-- The sender check that opens `VoteTx.Execute`: the error it returns, `none`
for a route staker and for the root address while there are at most 3 route
stakers. -/
def VoteTx.permitted (E : Env) (t : TransactionContext) : Option Error :=
  let samaState := t.State
  if samaState.StakerState.IsRoute E t.Sender then none
  else if t.Sender ≠ E.HexToAddress samaState.SysParams.GetRootAddress then
    some (Error.Errorf
      ("sender is not route node " ++ E.Hex t.Sender ++ " " ++ samaState.SysParams.GetRootAddress))
  else if samaState.StakerState.GetStakersNum.1 > 3 then
    some (Error.Errorf "sender do not have permission")
  else none

def VoteTx.Execute (E : Env) (v : VoteTx) (t : TransactionContext) (now : Time) :
    Res samaState :=
  let samaState := t.State
  match VoteTx.permitted E t with
  | some err => ⟨t.State, t.Database, some err⟩
  | none =>
    match samaState.ActionsState.GetActionMeta now v.ActionID with
    | Except.error err => ⟨t.State, t.Database, some err⟩
    | Except.ok none => ⟨t.State, t.Database, some (Error.Errorf "not found action")⟩
    | Except.ok (some action) =>
      if t.Sender ∈ action.Voters then
        ⟨t.State, t.Database, some (Error.Errorf "voter is exist")⟩
      else if now.Unix > action.EndTime then
        ⟨t.State, t.Database, some (Error.Errorf "action timeout")⟩
      else
        let pmate := { action with TxIDs := action.TxIDs ++ [t.TxID],
                                   Voters := action.Voters ++ [t.Sender] }
        let r := samaState.ActionsState.PutAction E t.Database v.ActionID pmate
        ⟨{ samaState with ActionsState := r.st }, r.db, none⟩

def VoteTx.Copy (copyBase : SamaVM.BaseTx → SamaVM.BaseTx) (v : VoteTx) : VoteTx :=
  { BaseTx := copyBase v.BaseTx, ActionID := v.ActionID }

/-! ### Withdrawn (`withdrawn_tx.go`) -/

structure WithdrawnTx where
  BaseTx : BaseTx
  ActionID : ShortID
  deriving DecidableEq, Repr

/-- The run of `WithdrawnTx.Execute`. `pmate` is the pointer held by the
current map, so the removal of the first occurrence of the sender and the
appended tx id change the current record where it stands, and the same record
is then put in the pending buffer. -/
def WithdrawnTx.Execute (E : Env) (w : WithdrawnTx) (t : TransactionContext) (now : Time) :
    Res samaState :=
  let samaState := t.State
  if !samaState.StakerState.IsRoute E t.Sender then
    ⟨t.State, t.Database, some (Error.Errorf "sender is not route node")⟩
  else
    match samaState.ActionsState.GetActionMeta now w.ActionID with
    | Except.error err => ⟨t.State, t.Database, some err⟩
    | Except.ok none => ⟨t.State, t.Database, some (Error.Errorf "not found action")⟩
    | Except.ok (some pmate) =>
      let pmate := { pmate with Voters := pmate.Voters.erase t.Sender,
                                TxIDs := pmate.TxIDs ++ [t.TxID] }
      let actions := { samaState.ActionsState with
        curActions := samaState.ActionsState.curActions.set w.ActionID pmate }
      let r := actions.PutAction E t.Database w.ActionID pmate
      ⟨{ samaState with ActionsState := r.st }, r.db, none⟩

def WithdrawnTx.Copy (copyBase : SamaVM.BaseTx → SamaVM.BaseTx) (w : WithdrawnTx) : WithdrawnTx :=
  { BaseTx := copyBase w.BaseTx, ActionID := w.ActionID }

/-! ### Register (`register_tx.go`) -/

structure RegisterTx where
  BaseTx : BaseTx
  ActionID : ShortID
  StakerType : Nat
  Country : String
  LocalIP : String
  PublicIP : String
  MinPort : Nat
  MaxPort : Nat
  CheckPort : Nat
  WorkKey : String
  StakerAddr : Address
  deriving DecidableEq, Repr

def IsRegistered (d : DetailMeta) (r : RegisterTx) : Bool :=
  if d.PublicIP = r.PublicIP ∧ d.WorkKey = r.WorkKey ∧ d.StakerType = r.StakerType then true
  else false

/-- The run of `RegisterTx.Execute`; the work address is recovered from the
work key by the library (`WorkKeyAddress`), whose error is handed up. -/
def RegisterTx.Execute (E : Env) (r : RegisterTx) (t : TransactionContext) (_now : Time) :
    Res samaState :=
  if r.StakerAddr = 0 then ⟨t.State, t.Database, some Error.ErrNonActionable⟩
  else
    match E.WorkKeyAddress r.WorkKey with
    | Except.error err => ⟨t.State, t.Database, some err⟩
    | Except.ok addr =>
      let samaState := t.State
      if (samaState.StakerState.IsStaker E r.StakerAddr).1 then
        ⟨t.State, t.Database, some (Error.Errorf "have already been staker")⟩
      else
        let refused : Option Error :=
          match samaState.DetailsState.GetDetailMeta addr with
          | some pmate =>
            if pmate.StakerType ≠ r.StakerType then some (Error.Errorf "staker type err")
            else if IsRegistered pmate r then some (Error.Errorf "is repeated")
            else none
          | none => none
        match refused with
        | some err => ⟨t.State, t.Database, some err⟩
        | none =>
          let a := samaState.ActionsState.PutAction E t.Database r.ActionID
            { ActionID := r.ActionID,
              ActionType := actionTypeAddStaker,
              StartTime := t.BlockTime,
              EndTime := add64 t.BlockTime Seconds7Day,
              Key := E.Hex r.StakerAddr,
              NewValue := "",
              TxIDs := [t.TxID],
              Voters := initialVoters E samaState t.Sender }
          match a.err with
          | some err => ⟨{ samaState with ActionsState := a.st }, a.db, some err⟩
          | none =>
            let samaState := { samaState with ActionsState := a.st }
            samaState.UpdateNodeParams E a.db
              { StakerType := r.StakerType,
                Country := r.Country,
                LocalIP := r.LocalIP,
                MinPort := r.MinPort,
                MaxPort := r.MaxPort,
                PublicIP := r.PublicIP,
                CheckPort := r.CheckPort,
                WorkKey := r.WorkKey,
                TxID := t.TxID,
                LastUpdateTime := t.BlockTime,
                WorkAddress := addr,
                StakeAddress := r.StakerAddr }

def RegisterTx.Copy (copyBase : SamaVM.BaseTx → SamaVM.BaseTx) (r : RegisterTx) : RegisterTx :=
  { BaseTx := copyBase r.BaseTx,
    ActionID := r.ActionID,
    StakerType := r.StakerType,
    Country := r.Country,
    WorkKey := r.WorkKey,
    LocalIP := r.LocalIP,
    MinPort := r.MinPort,
    MaxPort := r.MaxPort,
    PublicIP := r.PublicIP,
    CheckPort := r.CheckPort,
    StakerAddr := r.StakerAddr }

/-! ### Refresh (`refresh_tx.go`) -/

structure RefreshTx where
  BaseTx : BaseTx
  Country : String
  LocalIP : String
  PublicIP : String
  MinPort : Nat
  MaxPort : Nat
  CheckPort : Nat
  WorkKey : String
  deriving DecidableEq, Repr

def RefreshTx.Copy (copyBase : SamaVM.BaseTx → SamaVM.BaseTx) (r : RefreshTx) : RefreshTx :=
  { BaseTx := copyBase r.BaseTx,
    Country := r.Country,
    WorkKey := r.WorkKey,
    LocalIP := r.LocalIP,
    MinPort := r.MinPort,
    MaxPort := r.MaxPort,
    PublicIP := r.PublicIP,
    CheckPort := r.CheckPort }

/-! ### Claim (`claim_tx.go`) -/

structure ClaimTx where
  BaseTx : BaseTx
  RewardAmount : Nat
  EndTime : Nat
  deriving DecidableEq, Repr

/-- The `endTime` that `ClaimTx.Execute` computes: the last day boundary,
counted from the chain creation time, that is not after `now`. -/
def ClaimTx.dayEnd (createTime : Nat) (now : Time) : Nat :=
  add64 (mul64 (sub64 now.Unix createTime / SecondsDay) SecondsDay) createTime

/-- The end-time check of `ClaimTx.Execute`: true when it returns
"end time err". -/
def ClaimTx.endTimeErr (c : ClaimTx) (createTime : Nat) (now : Time) : Bool :=
  decide (ClaimTx.dayEnd createTime now ≠ c.EndTime ∧
    ClaimTx.dayEnd createTime now ≠ add64 c.EndTime 1)

def ClaimTx.Execute (E : Env) (c : ClaimTx) (t : TransactionContext) (now : Time) :
    Res samaState :=
  let samaState := t.State
  let claimer := samaState.CheckClaimAddress E t.Sender
  if !claimer.1 then
    ⟨t.State, t.Database, some (Error.Errorf "sender must staker or foundation")⟩
  else
    let claimerType := claimer.2
    let lastClaimTime := samaState.RewardState.GetLastClaimTime t.Sender
    if sub64 now.Unix lastClaimTime < Seconds7Day then
      ⟨t.State, t.Database, some (Error.Errorf "time interval need > 7 days")⟩
    else
      let createTime := samaState.SysParams.GetChainCreateTime
      if c.endTimeErr createTime now then
        ⟨t.State, t.Database, some (Error.Errorf "end time err")⟩
      else
        match samaState.CalcReward E claimerType t.Sender c.EndTime with
        | Except.error err => ⟨t.State, t.Database, some err⟩
        | Except.ok (base, merit, yield) =>
          let totalReawrd := add64 (add64 base merit) yield
          if c.RewardAmount ≠ totalReawrd then
            ⟨t.State, t.Database, some (Error.Errorf "reward amount is err")⟩
          else
            let b := E.ModifyBalance t.Database t.Sender true totalReawrd
            match b.2 with
            | some err => ⟨t.State, b.1, some err⟩
            | none =>
              if claimerType = 0 then
                samaState.UpdateFoundationReward E b.1 t.Sender t.TxID c.EndTime
              else samaState.UpdateStakerReward E b.1 claimerType t.Sender t.TxID c.EndTime

def ClaimTx.Copy (copyBase : SamaVM.BaseTx → SamaVM.BaseTx) (c : ClaimTx) : ClaimTx :=
  { BaseTx := copyBase c.BaseTx, RewardAmount := c.RewardAmount, EndTime := c.EndTime }

/-! ### Copy of the other transactions -/

def GovernTx.Copy (copyBase : SamaVM.BaseTx → SamaVM.BaseTx) (g : GovernTx) : GovernTx :=
  { BaseTx := copyBase g.BaseTx, ActionID := g.ActionID }

def StakeTx.Copy (copyBase : SamaVM.BaseTx → SamaVM.BaseTx) (s : StakeTx) : StakeTx :=
  { BaseTx := copyBase s.BaseTx,
    StakerType := s.StakerType,
    StakeAmount := s.StakeAmount,
    StakerAddr := s.StakerAddr }

/-- The copy that `UnStakeTx.Copy` builds: the literal names `BaseTx` and
`StakerType` only, so `RewardAmount` and `EndTime` are the zero value. -/
def UnStakeTx.Copy (copyBase : SamaVM.BaseTx → SamaVM.BaseTx) (u : UnStakeTx) : UnStakeTx :=
  { BaseTx := copyBase u.BaseTx, RewardAmount := 0, StakerType := u.StakerType, EndTime := 0 }

def ProofTx.Copy (copyBase : SamaVM.BaseTx → SamaVM.BaseTx) (p : ProofTx) : ProofTx :=
  { BaseTx := copyBase p.BaseTx,
    Netflow := p.Netflow,
    StartTime := p.StartTime,
    EndTime := p.EndTime,
    Ser := p.Ser }

def AddUserTx.Copy (copyBase : SamaVM.BaseTx → SamaVM.BaseTx) (c : AddUserTx) : AddUserTx :=
  { BaseTx := copyBase c.BaseTx,
    StartTime := c.StartTime,
    EndTime := c.EndTime,
    PayAmount := c.PayAmount,
    UserType := c.UserType,
    Connections := c.Connections,
    Address := c.Address }

/-! ### Runs of the transactions on actions -/

/-- One step of a run on the action set: a transaction with what it reads
from its context, or `Commit`, or `Abort`. -/
inductive ActionOp where
  | proposal (p : ProposalTx) (sender : Address) (txID : ID) (blockTime : Nat) (now : Time)
  | register (r : RegisterTx) (sender : Address) (txID : ID) (blockTime : Nat) (now : Time)
  | vote (v : VoteTx) (sender : Address) (txID : ID) (blockTime : Nat) (now : Time)
  | withdrawn (w : WithdrawnTx) (sender : Address) (txID : ID) (blockTime : Nat) (now : Time)
  | commit
  | abort

/-- The ledger and the store after one step; what a transaction leaves behind
is kept whether it returned an error or not. -/
def ActionOp.run (E : Env) (g : Genesis) (x : samaState × Database) :
    ActionOp → samaState × Database
  | ActionOp.proposal p sender txID blockTime now =>
    let r := p.Execute E ⟨g, x.2, blockTime, txID, sender, x.1⟩ now
    (r.st, r.db)
  | ActionOp.register r sender txID blockTime now =>
    let r := r.Execute E ⟨g, x.2, blockTime, txID, sender, x.1⟩ now
    (r.st, r.db)
  | ActionOp.vote v sender txID blockTime now =>
    let r := v.Execute E ⟨g, x.2, blockTime, txID, sender, x.1⟩ now
    (r.st, r.db)
  | ActionOp.withdrawn w sender txID blockTime now =>
    let r := w.Execute E ⟨g, x.2, blockTime, txID, sender, x.1⟩ now
    (r.st, r.db)
  | ActionOp.commit => (x.1.Commit E, x.2)
  | ActionOp.abort => (x.1.Abort E, x.2)

/-- The ledger and the store after the steps in order. -/
def runActionOps (E : Env) (g : Genesis) (x : samaState × Database) (ops : List ActionOp) :
    samaState × Database :=
  ops.foldl (ActionOp.run E g) x

/-- Every record of the current and of the pending-add action set has a voter
list without duplicates. -/
def actionsState.votersDistinct (s : actionsState) : Prop :=
  (∀ a ∈ s.curActions.elems, a.Voters.Nodup) ∧
    (∀ a ∈ s.pendingActionsAdd.elems, a.Voters.Nodup)


/-! ## A concrete environment and concrete states, for evaluation -/

/-- An environment with route = 2, ser = 1, validator = 3 and trivial host
functions. -/
def demoEnv : Env where
  routePrefix := 2
  serPrefix := 1
  validatorPrefix := 3
  stakerPrefix := 16
  powPrefix := 17
  rewardPrefix := 18
  yieldsPrefix := 19
  usersPrefix := 20
  userTypesPrefix := 21
  detailsPrefix := 22
  actionsPrefix := 23
  sysParamPrefix := 24
  ByteDelimiter := 47
  HexToAddress := fun h => h.length
  Hex := fun a => String.mk (List.replicate a 'f')
  WorkKeyAddress := fun k => Except.ok k.length
  ModifyBalance := fun db _ _ _ => (db, none)
  ModifyStakeBalance := fun db _ _ _ => (db, none)
  RewardFloat := fun _ _ _ => 0

/-- A staker registry with one committed route staker at address 7 and a
pending delete of address 8. -/
def demoStakers : stakerState where
  curRoute := ⟨[(7, ⟨1, 2, 200, 10, 7⟩)], by decide⟩
  curSer := GoMap.empty
  curValidator := GoMap.empty
  pendingRouteAdd := GoMap.empty
  pendingSerAdd := GoMap.empty
  pendingValidatorAdd := GoMap.empty
  pendingRouteDel := ⟨[(8, StakerMeta.zero)], by decide⟩
  pendingSerDel := GoMap.empty
  pendingValidatorDel := GoMap.empty

/-- System parameters of the default genesis, with the root address "root". -/
def demoParams : SysParamsMeta where
  Symbol := "SAMA"
  TotalTokens := 2100000000000
  ClaimMinUnits := 100
  ClaimMinInterval := 604800
  TotalYears := 10
  RateSustainYears := 1
  ChainCreateTime := 1668125288
  MinerPerc := 20
  FoundationPerc := 40
  RoutePerc := 30
  SerPerc := 50
  ValidatorPerc := 20
  BaseSerPerc := 20
  MeritSerPerc := 80
  BaseRoutePerc := 20
  MeritRoutePerc := 80
  RouteStakeAmount := 200000000
  SerStakeAmount := 100000000
  MinStakeTime := 7776000
  MonthCard := 100
  SeasonCard := 300
  AnnualCard := 1200
  BurnPerc := 20
  RootAddress := "root"
  FoundationAddr := "found"
  UpdateTime := 0
  UpdateTxID := 0

/-- A ledger with nothing staked, no action and one fee tier (id 1, fee 100). -/
def demoLedger : samaState where
  SysParams := ⟨demoParams, { demoParams with TotalTokens := 0 }⟩
  StakerState := ⟨GoMap.empty, GoMap.empty, GoMap.empty, GoMap.empty, GoMap.empty,
    GoMap.empty, GoMap.empty, GoMap.empty, GoMap.empty⟩
  RewardState := ⟨⟨0, 0⟩, ⟨0, 0⟩, GoMap.empty, GoMap.empty, GoMap.empty⟩
  PowState := ⟨0, GoMap.empty, GoMap.empty, GoMap.empty, GoMap.empty, GoMap.empty, GoMap.empty⟩
  YieldsState := ⟨⟨0, 0, 0, 0⟩, ⟨0, 0, 0, 0⟩⟩
  UsersState := ⟨GoMap.empty, GoMap.empty, GoMap.empty⟩
  DetailsState := ⟨GoMap.empty, GoMap.empty, GoMap.empty⟩
  ActionsState := ⟨GoMap.empty, GoMap.empty, GoMap.empty⟩
  UserTypesState := ⟨⟨[(1, ⟨"month", 1, 100⟩)], by decide⟩, GoMap.empty, GoMap.empty⟩

/-- The demo ledger with the given current actions. -/
def demoLedger.withActions (cur : GoMap ShortID ActionMeta) : samaState :=
  { demoLedger with ActionsState := ⟨cur, GoMap.empty, GoMap.empty⟩ }

/-- The demo ledger with the given current route stakers. -/
def samaState.withRoutes (s : samaState) (cur : GoMap Address StakerMeta) : samaState :=
  { s with StakerState := { s.StakerState with curRoute := cur } }

/-- Two add-staker actions opened for the same key "ffff"; the root (address
4 in the demo environment) has voted for the first only. -/
def demoTwoActions : GoMap ShortID ActionMeta :=
  ⟨[(1, ⟨1, 1, 100, 700, [11], [4], "ffff", ""⟩), (2, ⟨2, 1, 100, 700, [12], [], "ffff", ""⟩)],
    by decide⟩

/-- Four route stakers. -/
def demoRoutes4 : GoMap Address StakerMeta :=
  ⟨[(21, ⟨1, 2, 200000000, 10, 21⟩), (22, ⟨2, 2, 200000000, 10, 22⟩),
    (23, ⟨3, 2, 200000000, 10, 23⟩), (24, ⟨4, 2, 200000000, 10, 24⟩)], by decide⟩

/-- One action that sets the burn percentage to 10, with two voters. -/
def demoBurnAction : GoMap ShortID ActionMeta :=
  ⟨[(5, ⟨5, 2, 100, 700, [11, 12], [21, 22], "burn", "10"⟩)], by decide⟩

/-- A context over the given ledger with an empty store. -/
def demoContext (s : samaState) (sender : Address) : TransactionContext where
  Genesis := ⟨2100000000000, 100, 604800, 10, 1, 1668125288, 20, 40, 30, 50, 20, 20, 80, 20, 80,
    20, 200000000, 100000000, 100, 300, 1200, 7776000, "root", "found"⟩
  Database := GoMap.empty
  BlockTime := 500
  TxID := 77
  Sender := sender
  State := s

/-- The demo ledger with four route stakers and the burn action. -/
def demoGovernLedger : samaState :=
  (demoLedger.withActions demoBurnAction).withRoutes demoRoutes4

/-- The demo ledger with the two add-staker actions: the root (address 4,
whose hex form is "ffff") has its add-staker action confirmed. -/
def demoStakeLedger : samaState := demoLedger.withActions demoTwoActions

/-- The demo ledger with one route staker, address 7, staked at time 1000. -/
def demoUnstakeLedger : samaState :=
  demoLedger.withRoutes ⟨[(7, ⟨1, 2, 200000000, 1000, 7⟩)], by decide⟩

/-- The demo ledger with route staker 7 and its registered node, whose work
key "abc" recovers to the work address 3 in the demo environment. -/
def demoProofLedger : samaState :=
  { demoUnstakeLedger with
    DetailsState :=
      ⟨⟨[(3, ⟨2, "", "", "", 0, 0, 0, "abc", 0, 0, 3, 7⟩)], by decide⟩, GoMap.empty,
        GoMap.empty⟩ }

/-- A proof-meter registry where miner 3 has a committed route record of 100
seconds and 5000 units of flow. -/
def demoPows : powState where
  updateTime := 0
  curSer := GoMap.empty
  curRoute := ⟨[(3, ⟨2, 100, 5000, 400, 70, 3⟩)], by decide⟩
  pendingRouteAdd := GoMap.empty
  pendingSerAdd := GoMap.empty
  pendingRouteDel := GoMap.empty
  pendingSerDel := GoMap.empty

/-- The demo environment with the floating-point part of `RewardCurYear` read
in exact arithmetic: the loop adds `uint64(0.8^i)`, which is 1 for `i = 0`
and 0 afterwards, so `total` is 1 when the loop runs at all, and the result is
`totalTokens * 0.8^index` rounded down. (With an empty loop `total` is 0 and
the division is by zero; 0 stands for that case.) -/
def demoFloatEnv : Env :=
  { demoEnv with
    RewardFloat := fun loops totalTokens index =>
      if loops = 0 then 0 else totalTokens * 4 ^ index / 5 ^ index }

/-- The demo ledger with the global reward checkpoint at time 3000. -/
def demoCheckpointLedger : samaState :=
  { demoUnstakeLedger with
    RewardState := ⟨⟨3000, 9⟩, ⟨0, 0⟩, GoMap.empty, GoMap.empty, GoMap.empty⟩ }


/-- A subscriber record for address 5 that pays 100 for a 30-day window. -/
def demoUser : UserMeta :=
  { StartTime := 1000, EndTime := 1000 + SecondsMonth, Connections := 1, PayAmount := 100,
    TxsID := [], UserType := 1, Address := 5 }

/-- A parameter state whose current record has `TotalTokens = 0`. -/
def demoZeroTokens : sysParams :=
  ⟨{ demoParams with TotalTokens := 0 }, { demoParams with TotalTokens := 0 }⟩

/-- The demo ledger with route stakers 7 and 8 staked 1000 seconds after the
chain was created, a yield pool of 1000, and route proof totals of 1 minute
for miner 7 and 2 minutes for miner 8. -/
def demoRewardLedger : samaState :=
  { demoLedger with
    StakerState := { demoLedger.StakerState with
      curRoute := ⟨[(7, ⟨1, 2, 200000000, 1668126288, 7⟩),
        (8, ⟨2, 2, 200000000, 1668126288, 8⟩)], by decide⟩ },
    YieldsState := ⟨⟨1000, 1000, 0, 0⟩, ⟨0, 0, 0, 0⟩⟩,
    PowState := { demoLedger.PowState with
      curRoute := ⟨[(7, ⟨2, 1, 10, 0, 0, 7⟩), (8, ⟨2, 2, 10, 0, 0, 8⟩)], by decide⟩ } }


/-- The reward demo ledger in which route staker 7 has the reward record
(base 800, merit 2136, yield 150) stamped with the time 1668126290. -/
def demoRecordLedger : samaState := demoRewardLedger.storeReward 7 800 2136 150 1668126290 77


/-- A registration of the staking address 7 with the work key "abc", whose
work address is 3 in the demo environment. -/
def demoRegister : RegisterTx :=
  { BaseTx := ⟨1, 2, 3⟩, ActionID := 9, StakerType := 2, Country := "CN", LocalIP := "10.0.0.1",
    PublicIP := "1.2.3.4", MinPort := 1000, MaxPort := 2000, CheckPort := 80, WorkKey := "abc",
    StakerAddr := 7 }

/-- The govern transaction for action 5 of the demo govern ledger. -/
def demoGovern : GovernTx := ⟨⟨1, 2, 3⟩, 5⟩

/-- The demo ledger with four route stakers and no action. -/
def demoRoutesLedger : samaState := demoLedger.withRoutes demoRoutes4

/-- A run on the action set: route staker 21 proposes action 6, route staker
22 votes, 21 withdraws, 22 votes a second time, with a `Commit` after each of
the first three. -/
def demoActionOps : List ActionOp :=
  [ActionOp.proposal ⟨⟨1, 2, 3⟩, 6, 0, 0, 2, "burn", "15"⟩ 21 78 500 ⟨500, 0⟩,
    ActionOp.commit,
    ActionOp.vote ⟨⟨1, 2, 3⟩, 6⟩ 22 79 510 ⟨510, 0⟩,
    ActionOp.commit,
    ActionOp.withdrawn ⟨⟨1, 2, 3⟩, 6⟩ 21 80 520 ⟨520, 0⟩,
    ActionOp.commit,
    ActionOp.vote ⟨⟨1, 2, 3⟩, 6⟩ 22 81 530 ⟨530, 0⟩]


/-- A run on the staker registry: route staker 7 is put and deleted again,
route staker 8 is put and committed, then 8 is deleted and put again, ser
staker 9 is put, the block is aborted, and 7 is put. -/
def demoStakerOps : List StakerOp :=
  [StakerOp.put ⟨1, 2, 200000000, 10, 7⟩, StakerOp.del 2 7, StakerOp.put ⟨2, 2, 200000000, 10, 8⟩,
    StakerOp.commit, StakerOp.del 2 8, StakerOp.put ⟨3, 2, 200000000, 20, 8⟩,
    StakerOp.put ⟨4, 1, 100000000, 20, 9⟩, StakerOp.abort, StakerOp.put ⟨5, 2, 200000000, 30, 7⟩]


/-- The vote of route staker 23 for action 5 of the demo govern ledger at
`now = 600`, with the tx id 77 and an empty store. -/
def demoVoteA : Res samaState :=
  VoteTx.Execute demoEnv ⟨⟨1, 2, 3⟩, 5⟩ (demoContext demoGovernLedger 23) ⟨600, 0⟩

/-- The vote of route staker 24 for the same action, with the tx id 78, on the
ledger and the store the vote of 23 has left, without a `Commit` in between. -/
def demoVoteB : Res samaState :=
  VoteTx.Execute demoEnv ⟨⟨1, 2, 3⟩, 5⟩
    ⟨(demoContext demoGovernLedger 24).Genesis, demoVoteA.db, 500, 78, 24, demoVoteA.st⟩ ⟨600, 0⟩

/-- The withdrawal of route staker 21 from action 5 of the demo govern ledger
at `now = 600`, with the tx id 77. -/
def demoWithdraw : Res samaState :=
  WithdrawnTx.Execute demoEnv ⟨⟨1, 2, 3⟩, 5⟩ (demoContext demoGovernLedger 21) ⟨600, 0⟩

/-- The registration of the staking address 7 sent by route staker 21 under
the action id 5, which the demo govern ledger already uses for its burn
action. -/
def demoRegisterOver : Res samaState :=
  RegisterTx.Execute demoEnv { demoRegister with ActionID := 5 }
    (demoContext demoGovernLedger 21) ⟨600, 0⟩

/-- The proof of 30 seconds (netflow 500) sent from the work address 3 of the
node of route staker 7, at `now = 500`. -/
def demoProof : Res samaState :=
  ProofTx.Execute demoEnv ⟨⟨0, 0, 0⟩, 500, 440, 470, 0⟩ (demoContext demoProofLedger 3) ⟨500, 0⟩

/-- The stake of the address 9 sent by the root (address 4), whose add-staker
action the root has voted for. -/
def demoStake : Res samaState :=
  StakeTx.Execute demoEnv ⟨⟨0, 0, 0⟩, 2, 200000000, 9⟩ (demoContext demoStakeLedger 4) ⟨500, 0⟩


namespace GoMap

variable {K V : Type} [DecidableEq K]

theorem lookupList_filter (l : List (K × V)) (k a : K) :
    lookupList (l.filter (fun e => !decide (e.1 = k))) a =
      if a = k then none else lookupList l a := by
  induction l with
  | nil => simp [lookupList]
  | cons e rest ih =>
    obtain ⟨k1, v⟩ := e
    by_cases h1 : k1 = k
    · subst h1
      by_cases h2 : a = k1
      · subst h2
        simpa [List.filter, lookupList] using ih
      · have h3 : ¬ k1 = a := fun h => h2 h.symm
        simp [List.filter, lookupList, ih, h2, h3]
    · by_cases h2 : a = k
      · subst h2
        simp [List.filter, lookupList, ih, h1]
      · simp [List.filter, lookupList, ih, h1, h2]

theorem lookupList_eq_none (l : List (K × V)) (a : K) (h : a ∉ l.map Prod.fst) :
    lookupList l a = none := by
  induction l with
  | nil => rfl
  | cons e rest ih =>
    obtain ⟨k1, v⟩ := e
    simp only [List.map_cons, List.mem_cons, not_or] at h
    have h1 : ¬ k1 = a := fun h2 => h.1 h2.symm
    simp [lookupList, h1, ih h.2]

theorem lookupList_isSome (l : List (K × V)) (a : K) :
    (lookupList l a).isSome = decide (a ∈ l.map Prod.fst) := by
  induction l with
  | nil => simp [lookupList]
  | cons e rest ih =>
    obtain ⟨k1, v⟩ := e
    by_cases h1 : k1 = a
    · simp [lookupList, h1]
    · have h2 : ¬ a = k1 := fun h => h1 h.symm
      simp [lookupList, h1, h2, ih]

theorem get_empty (a : K) : (empty : GoMap K V).get a = none := rfl

theorem get_del (m : GoMap K V) (k a : K) :
    (m.del k).get a = if a = k then none else m.get a :=
  lookupList_filter m.entries k a

theorem get_put (m : GoMap K V) (k a : K) (v : V) :
    (m.put k v).get a = if a = k then some v else m.get a := by
  unfold get put
  by_cases h : a = k
  · subst h; simp [lookupList]
  · have h1 : ¬ k = a := fun h2 => h h2.symm
    simp [lookupList, h, h1, lookupList_filter]

theorem has_eq (m : GoMap K V) (a : K) : m.has a = decide (a ∈ m.keys) :=
  lookupList_isSome m.entries a

theorem get_foldl_put (l : List (K × V)) (hl : (l.map Prod.fst).Nodup) (dst : GoMap K V)
    (a : K) :
    (l.foldl (fun c e => (c.del e.1).put e.1 e.2) dst).get a =
      match lookupList l a with
      | some v => some v
      | none => dst.get a := by
  induction l generalizing dst with
  | nil => simp [lookupList]
  | cons e rest ih =>
    obtain ⟨k1, v⟩ := e
    simp only [List.map_cons, List.nodup_cons] at hl
    rw [List.foldl_cons, ih hl.2]
    by_cases h1 : k1 = a
    · subst h1
      simp [lookupList, lookupList_eq_none rest k1 hl.1, get_put]
    · have h2 : ¬ a = k1 := fun h => h1 h.symm
      simp [lookupList, h1, h2, get_put, get_del]

theorem get_mergeAdd (dst src : GoMap K V) (a : K) :
    (dst.mergeAdd src).get a =
      match src.get a with
      | some v => some v
      | none => dst.get a :=
  get_foldl_put src.entries src.nodup dst a

theorem get_foldl_del (ks : List K) (dst : GoMap K V) (a : K) :
    (ks.foldl del dst).get a = if a ∈ ks then none else dst.get a := by
  induction ks generalizing dst with
  | nil => simp
  | cons k rest ih =>
    rw [List.foldl_cons, ih]
    by_cases h1 : a ∈ rest
    · simp [h1]
    · by_cases h2 : a = k
      · simp [h1, h2, get_del]
      · simp [h1, h2, get_del]

theorem get_mergeDel (dst src : GoMap K V) (a : K) :
    (dst.mergeDel src).get a = if src.has a = true then none else dst.get a := by
  unfold mergeDel
  rw [get_foldl_del, has_eq]
  simp

theorem entries_foldl_del (ks : List K) (m : GoMap K V) :
    (ks.foldl del m).entries = m.entries.filter (fun e => !decide (e.1 ∈ ks)) := by
  induction ks generalizing m with
  | nil => simp
  | cons k rest ih =>
    rw [List.foldl_cons, ih]
    simp only [del, List.filter_filter]
    congr 1
    funext e
    by_cases h1 : e.1 = k <;> by_cases h2 : e.1 ∈ rest <;> simp [h1, h2]

theorem clear_eq_empty (m : GoMap K V) : m.clear = empty := by
  have h : m.clear.entries = [] := by
    unfold clear
    rw [entries_foldl_del, List.filter_eq_nil_iff]
    intro e he
    have : e.1 ∈ m.keys := List.mem_map.2 ⟨e, he, rfl⟩
    simp [this]
  cases hm : m.clear with
  | mk entries nodup =>
    rw [hm] at h
    simp only at h
    subst h
    rfl

end GoMap

/-! ## StakerRegistry -/

theorem stakerTypes_cases (E : Env) (r : Nat) (hr : r ∈ StakerTypes E) :
    r = E.routePrefix ∨ r = E.serPrefix ∨ r = E.validatorPrefix := by
  simpa [StakerTypes, stakerTypeRoute, stakerTypeSer, stakerTypeValidator] using hr

theorem staker_commit_role (E : Env) (hv : E.valid) (r : Nat) (hr : r ∈ StakerTypes E)
    (s : stakerState) :
    (s.CacheStakersCommit E).GetCurStakes E r =
        ((s.GetCurStakes E r).map
          (fun cur => (cur.mergeAdd (s.pendingAdd E r)).mergeDel (s.pendingDel E r))) ∧
      (s.GetCurStakes E r).isSome = true ∧
      (s.CacheStakersCommit E).GetPendingStakers E r = some (GoMap.empty, GoMap.empty) := by
  obtain ⟨_, _, _, h1, h2, h3⟩ := hv
  have h1s : E.serPrefix ≠ E.routePrefix := fun h => h1 h.symm
  have h2s : E.validatorPrefix ≠ E.routePrefix := fun h => h2 h.symm
  have h3s : E.validatorPrefix ≠ E.serPrefix := fun h => h3 h.symm
  rcases stakerTypes_cases E r hr with h | h | h <;> subst h <;>
    simp [stakerState.CacheStakersCommit, StakerTypes, stakerState.commitType,
      stakerState.GetPendingStakers, stakerState.GetCurStakes, stakerState.setCurStakes,
      stakerState.setPendingStakers, stakerTypeRoute, stakerTypeSer, stakerTypeValidator,
      stakerState.pendingAdd, stakerState.pendingDel,
      h1, h2, h3, h1s, h2s, h3s, GoMap.clear_eq_empty]

theorem staker_call_role (E : Env) (hv : E.valid) (r : Nat) (hr : r ∈ StakerTypes E)
    (c : StakerCall) (hc : c.forRole r) (x : Res stakerState) :
    (stakerState.call E r x c).st.GetCurStakes E r = x.st.GetCurStakes E r ∧
      (stakerState.call E r x c).st.pendingAdd E r = c.onAdd (x.st.pendingAdd E r) ∧
      (stakerState.call E r x c).st.pendingDel E r = c.onDel (x.st.pendingDel E r) := by
  obtain ⟨_, _, _, h1, h2, h3⟩ := hv
  have h1s : E.serPrefix ≠ E.routePrefix := fun h => h1 h.symm
  have h2s : E.validatorPrefix ≠ E.routePrefix := fun h => h2 h.symm
  have h3s : E.validatorPrefix ≠ E.serPrefix := fun h => h3 h.symm
  cases c with
  | put staker =>
    simp only [StakerCall.forRole] at hc
    rcases stakerTypes_cases E r hr with h | h | h <;> subst h <;>
      simp [stakerState.call, stakerState.PutStaker, hc, StakerCall.onAdd, StakerCall.onDel,
        stakerState.GetPendingStakers, stakerState.GetCurStakes,
        stakerState.setPendingStakers, stakerTypeRoute, stakerTypeSer, stakerTypeValidator,
        stakerState.pendingAdd, stakerState.pendingDel, h1, h2, h3, h1s, h2s, h3s]
  | del address =>
    rcases stakerTypes_cases E r hr with h | h | h <;> subst h <;>
      simp [stakerState.call, stakerState.DelStaker, StakerCall.onAdd, StakerCall.onDel,
        stakerState.GetPendingStakers, stakerState.GetCurStakes,
        stakerState.setPendingStakers, stakerTypeRoute, stakerTypeSer, stakerTypeValidator,
        stakerState.pendingAdd, stakerState.pendingDel, h1, h2, h3, h1s, h2s, h3s]

theorem staker_calls_role (E : Env) (hv : E.valid) (r : Nat) (hr : r ∈ StakerTypes E)
    (cs : List StakerCall) (hcs : ∀ c ∈ cs, c.forRole r) (x : Res stakerState) (a : Address) :
    (cs.foldl (stakerState.call E r) x).st.GetCurStakes E r = x.st.GetCurStakes E r ∧
      ((cs.foldl (stakerState.call E r) x).st.pendingAdd E r).get a =
        (match lastCall a cs with
          | some (StakerCall.put staker) => some staker
          | some (StakerCall.del _) => none
          | none => (x.st.pendingAdd E r).get a) ∧
      ((cs.foldl (stakerState.call E r) x).st.pendingDel E r).has a =
        (match lastCall a cs with
          | some (StakerCall.put _) => false
          | some (StakerCall.del _) => true
          | none => (x.st.pendingDel E r).has a) := by
  induction cs generalizing x with
  | nil => simp [lastCall]
  | cons c rest ih =>
    have hc : c.forRole r := hcs c (List.mem_cons_self _ _)
    have hrest : ∀ c1 ∈ rest, c1.forRole r := fun c1 h1 => hcs c1 (List.mem_cons_of_mem _ h1)
    obtain ⟨i1, i2, i3⟩ := ih hrest (stakerState.call E r x c)
    obtain ⟨s1, s2, s3⟩ := staker_call_role E hv r hr c hc x
    rw [List.foldl_cons, i1, i2, i3, s1, s2, s3]
    refine ⟨rfl, ?_, ?_⟩
    · cases hl : lastCall a rest with
      | some c1 => cases c1 <;> simp [lastCall, hl]
      | none =>
        cases c with
        | put staker =>
          by_cases h : staker.StakerAddr = a
          · simp [lastCall, hl, StakerCall.addr, StakerCall.onAdd, h, GoMap.get_put]
          · have h1 : ¬ a = staker.StakerAddr := fun h2 => h h2.symm
            simp [lastCall, hl, StakerCall.addr, StakerCall.onAdd, h, h1, GoMap.get_put]
        | del address =>
          by_cases h : address = a
          · simp [lastCall, hl, StakerCall.addr, StakerCall.onAdd, h, GoMap.get_del]
          · have h1 : ¬ a = address := fun h2 => h h2.symm
            simp [lastCall, hl, StakerCall.addr, StakerCall.onAdd, h, h1, GoMap.get_del]
    · cases hl : lastCall a rest with
      | some c1 => cases c1 <;> simp [lastCall, hl]
      | none =>
        cases c with
        | put staker =>
          by_cases h : staker.StakerAddr = a
          · simp [lastCall, hl, StakerCall.addr, StakerCall.onDel, h, GoMap.has, GoMap.get_del]
          · have h1 : ¬ a = staker.StakerAddr := fun h2 => h h2.symm
            simp [lastCall, hl, StakerCall.addr, StakerCall.onDel, h, h1, GoMap.has, GoMap.get_del]
        | del address =>
          by_cases h : address = a
          · simp [lastCall, hl, StakerCall.addr, StakerCall.onDel, h, GoMap.has, GoMap.get_put]
          · have h1 : ¬ a = address := fun h2 => h h2.symm
            simp [lastCall, hl, StakerCall.addr, StakerCall.onDel, h, h1, GoMap.has, GoMap.get_put]

theorem staker_commit_get (E : Env) (hv : E.valid) (role : Nat) (hr : role ∈ StakerTypes E)
    (t : stakerState) (a : Address) :
    (t.CacheStakersCommit E).GetStakerMeta E role a =
      if (t.pendingDel E role).has a = true then none
      else
        match (t.pendingAdd E role).get a with
        | some staker => some staker
        | none => t.GetStakerMeta E role a := by
  obtain ⟨c1, c2, _⟩ := staker_commit_role E hv role hr t
  obtain ⟨cur, hcur⟩ := Option.isSome_iff_exists.1 c2
  simp only [stakerState.GetStakerMeta, c1, hcur, Option.map_some', curGet,
    GoMap.get_mergeDel, GoMap.get_mergeAdd]
  split_ifs
  · rfl
  · cases (t.pendingAdd E role).get a <;> rfl

/-- C1: after any sequence of `PutStaker`/`DelStaker` calls for one role and
`CacheStakersCommit`, the role's current map is, at every address, the
pre-commit current map overridden by the pending-add entries with every
pending-delete key removed; per address the last call decides (a put leaves
its record, a delete leaves nothing, no call leaves what a commit of the
initial state leaves); both pending buffers of the role are empty. -/
theorem C1_staker_commit (E : Env) (hv : E.valid) (role : Nat) (hr : role ∈ StakerTypes E)
    (s : stakerState) (db : Database) (cs : List StakerCall)
    (hcs : ∀ c ∈ cs, c.forRole role) (a : Address) :
    (((stakerState.calls E role s db cs).st.CacheStakersCommit E).GetStakerMeta E role a =
        if ((stakerState.calls E role s db cs).st.pendingDel E role).has a = true then none
        else
          match ((stakerState.calls E role s db cs).st.pendingAdd E role).get a with
          | some staker => some staker
          | none => (stakerState.calls E role s db cs).st.GetStakerMeta E role a) ∧
      (((stakerState.calls E role s db cs).st.CacheStakersCommit E).GetStakerMeta E role a =
        match lastCall a cs with
        | some (StakerCall.put staker) => some staker
        | some (StakerCall.del _) => none
        | none => (s.CacheStakersCommit E).GetStakerMeta E role a) ∧
      ((stakerState.calls E role s db cs).st.CacheStakersCommit E).GetPendingStakers E role =
        some (GoMap.empty, GoMap.empty) := by
  have key := fun t : stakerState => staker_commit_get E hv role hr t a
  obtain ⟨k1, k2, k3⟩ := staker_calls_role E hv role hr cs hcs ⟨s, db, none⟩ a
  refine ⟨key _, ?_, (staker_commit_role E hv role hr _).2.2⟩
  rw [key, key s]
  unfold stakerState.calls
  rw [k2, k3]
  cases hl : lastCall a cs with
  | some c => cases c <;> simp
  | none => simp [stakerState.GetStakerMeta, k1]

/-- C1 at a concrete registry: route staker 7 is deleted, 9 is put, 8 is put
after a pending delete. -/
theorem C1_staker_commit_witness :
    (((stakerState.calls demoEnv 2 demoStakers GoMap.empty
          [StakerCall.del 7, StakerCall.put ⟨5, 2, 200, 30, 9⟩,
            StakerCall.put ⟨6, 2, 200, 31, 8⟩]).st.CacheStakersCommit
        demoEnv).GetStakerMeta demoEnv 2 8 =
        if ((stakerState.calls demoEnv 2 demoStakers GoMap.empty
          [StakerCall.del 7, StakerCall.put ⟨5, 2, 200, 30, 9⟩,
            StakerCall.put ⟨6, 2, 200, 31, 8⟩]).st.pendingDel demoEnv 2).has 8 = true then none
        else
          match ((stakerState.calls demoEnv 2 demoStakers GoMap.empty
            [StakerCall.del 7, StakerCall.put ⟨5, 2, 200, 30, 9⟩,
              StakerCall.put ⟨6, 2, 200, 31, 8⟩]).st.pendingAdd demoEnv 2).get 8 with
          | some staker => some staker
          | none => (stakerState.calls demoEnv 2 demoStakers GoMap.empty
            [StakerCall.del 7, StakerCall.put ⟨5, 2, 200, 30, 9⟩,
              StakerCall.put ⟨6, 2, 200, 31, 8⟩]).st.GetStakerMeta demoEnv 2 8) ∧
      (((stakerState.calls demoEnv 2 demoStakers GoMap.empty
          [StakerCall.del 7, StakerCall.put ⟨5, 2, 200, 30, 9⟩,
            StakerCall.put ⟨6, 2, 200, 31, 8⟩]).st.CacheStakersCommit
        demoEnv).GetStakerMeta demoEnv 2 8 =
        match lastCall 8 [StakerCall.del 7, StakerCall.put ⟨5, 2, 200, 30, 9⟩,
            StakerCall.put ⟨6, 2, 200, 31, 8⟩] with
        | some (StakerCall.put staker) => some staker
        | some (StakerCall.del _) => none
        | none => (demoStakers.CacheStakersCommit demoEnv).GetStakerMeta demoEnv 2 8) ∧
      ((stakerState.calls demoEnv 2 demoStakers GoMap.empty
          [StakerCall.del 7, StakerCall.put ⟨5, 2, 200, 30, 9⟩,
            StakerCall.put ⟨6, 2, 200, 31, 8⟩]).st.CacheStakersCommit
        demoEnv).GetPendingStakers demoEnv 2 = some (GoMap.empty, GoMap.empty) :=
  C1_staker_commit demoEnv (by decide) 2 (by decide) demoStakers GoMap.empty
    [StakerCall.del 7, StakerCall.put ⟨5, 2, 200, 30, 9⟩, StakerCall.put ⟨6, 2, 200, 31, 8⟩]
    (by decide) 8

/-! ## Abort -/

theorem stakers_setPending_cur (E : Env) (s : stakerState) (t : Nat)
    (add del : GoMap Address StakerMeta) :
    (s.setPendingStakers E t add del).curRoute = s.curRoute ∧
      (s.setPendingStakers E t add del).curSer = s.curSer ∧
      (s.setPendingStakers E t add del).curValidator = s.curValidator := by
  unfold stakerState.setPendingStakers
  split_ifs <;> exact ⟨rfl, rfl, rfl⟩

theorem pows_setPending_cur (E : Env) (f : powState) (t : Nat)
    (add del : GoMap Address PowMeta) :
    (f.setPendingPow E t add del).curSer = f.curSer ∧
      (f.setPendingPow E t add del).curRoute = f.curRoute := by
  unfold powState.setPendingPow
  split_ifs <;> exact ⟨rfl, rfl⟩

theorem mutate_current (E : Env) (x : Res samaState) (m : Mutator) :
    (samaState.mutate E x m).st.current = x.st.current := by
  cases m with
  | PutStaker pmeta =>
    simp only [samaState.mutate, samaState.current, stakerState.PutStaker]
    split
    · rfl
    · simp [stakers_setPending_cur]
  | DelStaker stakerType address =>
    simp only [samaState.mutate, samaState.current, stakerState.DelStaker]
    split
    · rfl
    · simp [stakers_setPending_cur]
  | PutPow powType proof =>
    simp only [samaState.mutate, samaState.current, powState.PutPow]
    split
    · rfl
    · split
      · simp [pows_setPending_cur]
      · split
        · split_ifs <;> simp [pows_setPending_cur]
        · simp [pows_setPending_cur]
  | DelPow powType address =>
    simp only [samaState.mutate, samaState.current, powState.DelPow]
    split
    · rfl
    · simp [pows_setPending_cur]
  | ModifyParams key newValue txID updateTime =>
    simp only [samaState.mutate, samaState.current, sysParams.ModifyParams]
    split
    · rfl
    · split_ifs <;> rfl
  | PutAction actionID pmeta => rfl
  | DelAction actionID => rfl
  | PutDetail address pmeta => rfl
  | DelDetail address => rfl
  | AddUserType pmeta => rfl
  | DelUserType id => rfl
  | UpdateOwner pmeta => rfl
  | DelReward address => rfl
  | ModifyYields yield txID blkTime => rfl

theorem mutates_current (E : Env) (ms : List Mutator) (x : Res samaState) :
    (ms.foldl (samaState.mutate E) x).st.current = x.st.current := by
  induction ms generalizing x with
  | nil => rfl
  | cons m rest ih => rw [List.foldl_cons, ih, mutate_current]

theorem GoMap.mergeAdd_empty {K V : Type} [DecidableEq K] (dst : GoMap K V) :
    dst.mergeAdd GoMap.empty = dst := rfl

theorem GoMap.mergeDel_empty {K V : Type} [DecidableEq K] (dst : GoMap K V) :
    dst.mergeDel GoMap.empty = dst := rfl

theorem stakers_abort_cur (E : Env) (s : stakerState) :
    (s.CacheStakersAbort E).curRoute = s.curRoute ∧
      (s.CacheStakersAbort E).curSer = s.curSer ∧
      (s.CacheStakersAbort E).curValidator = s.curValidator := by
  have h : ∀ (t : Nat) (u : stakerState), (u.abortType E t).curRoute = u.curRoute ∧
      (u.abortType E t).curSer = u.curSer ∧ (u.abortType E t).curValidator = u.curValidator := by
    intro t u
    unfold stakerState.abortType
    split
    · exact stakers_setPending_cur E u t _ _
    · exact ⟨rfl, rfl, rfl⟩
  simp only [stakerState.CacheStakersAbort, StakerTypes, List.foldl, h]
  exact ⟨trivial, trivial, trivial⟩

theorem pows_abort_cur (E : Env) (f : powState) :
    (f.CachePowsAbort E).curSer = f.curSer ∧ (f.CachePowsAbort E).curRoute = f.curRoute := by
  have h : ∀ (t : Nat) (u : powState), (u.abortType E t).curSer = u.curSer ∧
      (u.abortType E t).curRoute = u.curRoute := by
    intro t u
    unfold powState.abortType
    split
    · exact pows_setPending_cur E u t _ _
    · exact ⟨rfl, rfl⟩
  simp only [powState.CachePowsAbort, powTypes, List.foldl, h]
  exact ⟨trivial, trivial⟩

theorem abort_current (E : Env) (s : samaState) : (s.Abort E).current = s.current := by
  simp [samaState.Abort, samaState.current, stakers_abort_cur, pows_abort_cur,
    rewardState.CacheRewardsAbort, actionsState.CacheActionsAbort, usersState.CacheUsersAbort,
    detailsState.CacheDetailsAbort, sysParams.CacheParamsAbort, yieldsState.CacheYieldsAbort,
    userTypesState.CacheUserTypesAbort]

theorem stakers_commit_abort (E : Env) (s : stakerState) :
    (s.CacheStakersAbort E).CacheStakersCommit E = s.CacheStakersAbort E := by
  have c1 : (E.serPrefix = E.routePrefix) ↔ (E.routePrefix = E.serPrefix) := eq_comm
  have c2 : (E.validatorPrefix = E.routePrefix) ↔ (E.routePrefix = E.validatorPrefix) := eq_comm
  have c3 : (E.validatorPrefix = E.serPrefix) ↔ (E.serPrefix = E.validatorPrefix) := eq_comm
  by_cases h1 : E.routePrefix = E.serPrefix <;> by_cases h2 : E.routePrefix = E.validatorPrefix <;>
    by_cases h3 : E.serPrefix = E.validatorPrefix <;>
    first
    | exact absurd (h1.symm.trans h2) h3
    | exact absurd (h1.trans h3) h2
    | exact absurd (h2.trans h3.symm) h1
    | simp [stakerState.CacheStakersAbort, stakerState.CacheStakersCommit, StakerTypes,
      stakerState.abortType, stakerState.commitType, stakerState.GetPendingStakers,
      stakerState.GetCurStakes, stakerState.setPendingStakers, stakerState.setCurStakes,
      stakerTypeRoute, stakerTypeSer, stakerTypeValidator, GoMap.clear_eq_empty,
      GoMap.mergeAdd_empty, GoMap.mergeDel_empty, c1, c2, c3, h1, h2, h3]

theorem pows_commit_abort (E : Env) (f : powState) :
    (f.CachePowsAbort E).CachePowsCommit E = f.CachePowsAbort E := by
  have c1 : (E.routePrefix = E.serPrefix) ↔ (E.serPrefix = E.routePrefix) := eq_comm
  by_cases h1 : E.serPrefix = E.routePrefix <;>
    simp [powState.CachePowsAbort, powState.CachePowsCommit, powTypes,
      powState.abortType, powState.commitType, powState.GetPendingPow,
      powState.GetCurPow, powState.setPendingPow, powState.setCurPow,
      powTypeRoute, powTypeSer, GoMap.clear_eq_empty,
      GoMap.mergeAdd_empty, GoMap.mergeDel_empty, c1, h1]

theorem commit_abort (E : Env) (s : samaState) : (s.Abort E).Commit E = s.Abort E := by
  simp [samaState.Abort, samaState.Commit, stakers_commit_abort, pows_commit_abort,
    rewardState.CacheRewardsAbort, actionsState.CacheActionsAbort, usersState.CacheUsersAbort,
    detailsState.CacheDetailsAbort, sysParams.CacheParamsAbort, yieldsState.CacheYieldsAbort,
    userTypesState.CacheUserTypesAbort,
    rewardState.CacheRewardsCommit, actionsState.CacheActionsCommit, usersState.CacheUsersCommit,
    detailsState.CacheDetailsCommit, sysParams.CacheParamsCommit, yieldsState.CacheYieldsCommit,
    userTypesState.CacheUserTypesCommit, GoMap.clear_eq_empty,
    GoMap.mergeAdd_empty, GoMap.mergeDel_empty]

/-- C2: from any ledger (in particular one whose pending buffers are empty),
after any sequence of sub-ledger mutators followed by `Abort`, every
current-state getter (`GetStakerMeta`, `GetStakers`, `GetDetailMeta`,
`GetUserType`, `GetRewardMeta`, `GetPowMeta`, `GetSysParams`,
`GetChainYields`, the stored action records) returns what it returned before
the sequence, and a subsequent `Commit` leaves the ledger as it is. -/
theorem C2_abort_restores_current (E : Env) (s : samaState) (db : Database)
    (ms : List Mutator) :
    (∀ t a, ((samaState.mutates E s db ms).st.Abort E).StakerState.GetStakerMeta E t a =
        s.StakerState.GetStakerMeta E t a) ∧
      (∀ t, ((samaState.mutates E s db ms).st.Abort E).StakerState.GetStakers E t =
        s.StakerState.GetStakers E t) ∧
      (∀ a, ((samaState.mutates E s db ms).st.Abort E).DetailsState.GetDetailMeta a =
        s.DetailsState.GetDetailMeta a) ∧
      (∀ id, ((samaState.mutates E s db ms).st.Abort E).UserTypesState.GetUserType id =
        s.UserTypesState.GetUserType id) ∧
      (∀ a, ((samaState.mutates E s db ms).st.Abort E).RewardState.GetRewardMeta a =
        s.RewardState.GetRewardMeta a) ∧
      (∀ t a, ((samaState.mutates E s db ms).st.Abort E).PowState.GetPowMeta E t a =
        s.PowState.GetPowMeta E t a) ∧
      ((samaState.mutates E s db ms).st.Abort E).SysParams.GetSysParams =
        s.SysParams.GetSysParams ∧
      ((samaState.mutates E s db ms).st.Abort E).YieldsState.GetChainYields =
        s.YieldsState.GetChainYields ∧
      ((samaState.mutates E s db ms).st.Abort E).ActionsState.curActions =
        s.ActionsState.curActions ∧
      ((samaState.mutates E s db ms).st.Abort E).Commit E =
        (samaState.mutates E s db ms).st.Abort E := by
  have h := (abort_current E (samaState.mutates E s db ms).st).trans
    (mutates_current E ms ⟨s, db, none⟩)
  simp only [samaState.current, Prod.mk.injEq] at h
  obtain ⟨h1, h2, h3, h4, _, h6, h7, h8, _, h10, h11, h12, h13⟩ := h
  refine ⟨?_, ?_, ?_, ?_, ?_, ?_, ?_, ?_, h11, commit_abort E _⟩
  · intro t a
    simp only [stakerState.GetStakerMeta, stakerState.GetCurStakes, h1, h2, h3]
  · intro t
    simp only [stakerState.GetStakers, stakerState.GetCurStakes, h1, h2, h3]
  · intro a
    simp only [detailsState.GetDetailMeta, h10]
  · intro id
    simp only [userTypesState.GetUserType, h12]
  · intro a
    simp only [rewardState.GetRewardMeta, h4]
  · intro t a
    simp only [powState.GetPowMeta, powState.GetCurPow, h6, h7]
  · simp only [sysParams.GetSysParams, h13]
  · simp only [yieldsState.GetChainYields, h8]

/-! ## Quorum -/

theorem GoMap.mem_elems_of_lookup {K V : Type} [DecidableEq K] (l : List (K × V)) (k : K)
    (v : V) (h : GoMap.lookupList l k = some v) : v ∈ l.map Prod.snd := by
  induction l with
  | nil => simp [GoMap.lookupList] at h
  | cons e rest ih =>
    obtain ⟨k1, v1⟩ := e
    by_cases h1 : k1 = k
    · simp [GoMap.lookupList, h1] at h
      simp [h]
    · simp [GoMap.lookupList, h1] at h
      simp [ih h]

theorem GoMap.mem_elems_of_get {K V : Type} [DecidableEq K] (m : GoMap K V) (k : K) (v : V)
    (h : m.get k = some v) : v ∈ m.elems :=
  GoMap.mem_elems_of_lookup m.entries k v h

theorem getVotersNumLoop_unique (action : ActionMeta) (l : List ActionMeta) (hmem : action ∈ l)
    (huniq : ∀ b ∈ l, b.ActionType = action.ActionType → b.Key = action.Key → b = action) :
    GetVotersNumLoop action.ActionType action.Key l =
      Except.ok (action.Voters.length, action.ActionID) := by
  induction l with
  | nil => simp at hmem
  | cons b rest ih =>
    by_cases hb : b.ActionType = action.ActionType ∧ b.Key = action.Key
    · have := huniq b (List.mem_cons_self _ _) hb.1 hb.2
      subst this
      simp [GetVotersNumLoop]
    · have hne : b ≠ action := fun h => hb (by rw [h]; exact ⟨rfl, rfl⟩)
      have hmem1 : action ∈ rest := by
        rcases List.mem_cons.1 hmem with h | h
        · exact absurd h.symm hne
        · exact h
      simp only [GetVotersNumLoop, hb, if_false]
      exact ih hmem1 (fun c hc => huniq c (List.mem_cons_of_mem _ hc))

theorem rootVoted_iff (E : Env) (sroot : String) (voters : List Address) :
    rootVoted E sroot voters = true ↔ E.HexToAddress sroot ∈ voters := by
  simp only [rootVoted, List.any_eq_true, decide_eq_true_eq]
  constructor
  · rintro ⟨x, hx, rfl⟩
    exact hx
  · intro h
    exact ⟨_, h, rfl⟩

/-- C3 (amended): for an existing, non-expired action stored under its own id
and route-staker count `n`, `ProposalStatus` returns true (without error) iff
`n < 3` and the root address is among the voters, or `n >= 3` and
`len(voters) >= floor(2*n/3)`; `IsBeConfirmed` for the action's type and key
returns the same whenever no other current action has that type and key. -/
theorem C3_quorum_rule (E : Env) (s : samaState) (now : Time) (actionID : ShortID)
    (action : ActionMeta) (n : Nat)
    (hget : s.ActionsState.curActions.get actionID = some action)
    (hid : action.ActionID = actionID)
    (hexp : ¬ action.EndTime < now.Unix)
    (hn : s.StakersNum E (stakerTypeRoute E) = n) :
    (((s.ProposalStatus E now actionID).1 = true ↔
        (n < 3 ∧ E.HexToAddress s.SysParams.GetRootAddress ∈ action.Voters) ∨
          (3 ≤ n ∧ 2 * n / 3 ≤ action.Voters.length)) ∧
      (s.ProposalStatus E now actionID).2 = none) ∧
    ((∀ b ∈ s.ActionsState.curActions.elems,
        b.ActionType = action.ActionType → b.Key = action.Key → b = action) →
      ((s.IsBeConfirmed E now action.ActionType action.Key).1 = true ↔
        (n < 3 ∧ E.HexToAddress s.SysParams.GetRootAddress ∈ action.Voters) ∨
          (3 ≤ n ∧ 2 * n / 3 ≤ action.Voters.length)) ∧
      (s.IsBeConfirmed E now action.ActionType action.Key).2.2 = none) := by
  have hmeta : s.ActionsState.GetActionMeta now actionID = Except.ok (some action) := by
    simp [actionsState.GetActionMeta, hget, hexp]
  have hmul : n * 2 / 3 = 2 * n / 3 := by rw [Nat.mul_comm]
  constructor
  · simp only [samaState.ProposalStatus, hmeta, hn]
    by_cases h3 : n < 3
    · by_cases hr : rootVoted E s.SysParams.GetRootAddress action.Voters = true
      · have := (rootVoted_iff E _ _).1 hr
        simp [h3, hr, this]
      · have : ¬ E.HexToAddress s.SysParams.GetRootAddress ∈ action.Voters :=
          fun h => hr ((rootVoted_iff E _ _).2 h)
        simp [h3, hr, this, Nat.not_le.2 h3]
    · by_cases hv : action.Voters.length ≥ n * 2 / 3
      · simp [h3, hv, Nat.not_lt.1 h3, hmul ▸ hv]
      · have : ¬ 2 * n / 3 ≤ action.Voters.length := hmul ▸ hv
        simp [h3, hv, this]
  · intro huniq
    have hnum := getVotersNumLoop_unique action s.ActionsState.curActions.elems
      (GoMap.mem_elems_of_get _ _ _ hget) huniq
    simp only [samaState.IsBeConfirmed, actionsState.GetVotersNum, hnum, hid, hmeta, hn]
    by_cases h3 : n < 3
    · by_cases hr : rootVoted E s.SysParams.GetRootAddress action.Voters = true
      · have := (rootVoted_iff E _ _).1 hr
        simp [h3, hr, this]
      · have : ¬ E.HexToAddress s.SysParams.GetRootAddress ∈ action.Voters :=
          fun h => hr ((rootVoted_iff E _ _).2 h)
        simp [h3, hr, this, Nat.not_le.2 h3]
    · by_cases hv : action.Voters.length ≥ n * 2 / 3
      · simp [h3, hv, Nat.not_lt.1 h3, hmul ▸ hv]
      · have : ¬ 2 * n / 3 ≤ action.Voters.length := hmul ▸ hv
        simp [h3, hv, this]

/-- C3 at a concrete ledger: nothing staked, the action 1 voted by the root. -/
theorem C3_quorum_rule_witness :
    ((((demoLedger.withActions demoTwoActions).ProposalStatus demoEnv ⟨500, 0⟩ 1).1 = true ↔
        (0 < 3 ∧ demoEnv.HexToAddress
          (demoLedger.withActions demoTwoActions).SysParams.GetRootAddress ∈ [4]) ∨
          (3 ≤ 0 ∧ 2 * 0 / 3 ≤ [4].length)) ∧
      ((demoLedger.withActions demoTwoActions).ProposalStatus demoEnv ⟨500, 0⟩ 1).2 = none) ∧
    ((∀ b ∈ (demoLedger.withActions demoTwoActions).ActionsState.curActions.elems,
        b.ActionType = 1 → b.Key = "ffff" → b = ⟨1, 1, 100, 700, [11], [4], "ffff", ""⟩) →
      (((demoLedger.withActions demoTwoActions).IsBeConfirmed demoEnv ⟨500, 0⟩ 1 "ffff").1 = true ↔
        (0 < 3 ∧ demoEnv.HexToAddress
          (demoLedger.withActions demoTwoActions).SysParams.GetRootAddress ∈ [4]) ∨
          (3 ≤ 0 ∧ 2 * 0 / 3 ≤ [4].length)) ∧
      ((demoLedger.withActions demoTwoActions).IsBeConfirmed demoEnv ⟨500, 0⟩ 1 "ffff").2.2 =
        none) :=
  C3_quorum_rule demoEnv (demoLedger.withActions demoTwoActions) ⟨500, 0⟩ 1
    ⟨1, 1, 100, 700, [11], [4], "ffff", ""⟩ 0 (by decide) rfl (by decide) (by decide)

/-- C3 as stated fails: with nothing staked and two current actions of the
same type and key, the second, not voted by the root, exists and is not
expired, yet `IsBeConfirmed` for its type and key returns true. -/
theorem C3_quorum_rule_counterexample :
    (demoLedger.withActions demoTwoActions).ActionsState.curActions.get 2 =
        some ⟨2, 1, 100, 700, [12], [], "ffff", ""⟩ ∧
      ¬ (700 < (⟨500, 0⟩ : Time).Unix) ∧
      (demoLedger.withActions demoTwoActions).StakersNum demoEnv (stakerTypeRoute demoEnv) = 0 ∧
      ¬ (((demoLedger.withActions demoTwoActions).IsBeConfirmed demoEnv ⟨500, 0⟩ 1 "ffff").1 = true ↔
        (0 < 3 ∧ demoEnv.HexToAddress
          (demoLedger.withActions demoTwoActions).SysParams.GetRootAddress ∈ ([] : List Address)) ∨
          (3 ≤ 0 ∧ 2 * 0 / 3 ≤ ([] : List Address).length)) := by
  decide

/-- C4 (amended): a `GovernTx` whose execution passes the confirmation check
with route-staker count `n` acts on the stored action, whose voter list has
length at least `floor(2*n/3)` when `n >= 3` and holds the root address when
`n < 3`. -/
theorem C4_govern_confirmed_floor (E : Env) (g : GovernTx) (t : TransactionContext)
    (now : Time) (action : ActionMeta) (n : Nat)
    (hn : t.State.StakerState.GetStakersNum.1 = n)
    (hpass : g.confirm E t now = Except.ok action) :
    t.State.ActionsState.curActions.get g.ActionID = some action ∧
      (3 ≤ n → 2 * n / 3 ≤ action.Voters.length) ∧
      (n < 3 → E.HexToAddress t.State.SysParams.GetRootAddress ∈ action.Voters) := by
  unfold GovernTx.confirm at hpass
  simp only [actionsState.GetActionMeta] at hpass
  cases hget : t.State.ActionsState.curActions.get g.ActionID with
  | none => simp [hget] at hpass
  | some a =>
    simp only [hget, hn] at hpass
    by_cases h1 : a.EndTime < now.Unix
    · simp [h1] at hpass
    · by_cases h2 : now.Unix > add64 a.EndTime Seconds7Day
      · simp [h1, h2] at hpass
      · by_cases h3 : n < 3
        · by_cases h4 : rootVoted E t.State.SysParams.GetRootAddress a.Voters = true
          · simp [h1, h2, h3, h4] at hpass
            subst hpass
            exact ⟨rfl, fun h => absurd h3 (Nat.not_lt.2 h), fun _ => (rootVoted_iff E _ _).1 h4⟩
          · simp [h1, h2, h3, h4] at hpass
        · by_cases h5 : a.Voters.length ≥ n * 2 / 3
          · simp [h1, h2, h3, h5] at hpass
            subst hpass
            rw [Nat.mul_comm] at h5
            exact ⟨rfl, fun _ => h5, fun h => absurd h h3⟩
          · simp [h1, h2, h3, h5] at hpass

/-- C4 (amended) at a concrete ledger: four route stakers, two voters. -/
theorem C4_govern_confirmed_floor_witness :
    (demoContext demoGovernLedger 21).State.ActionsState.curActions.get 5 =
        some ⟨5, 2, 100, 700, [11, 12], [21, 22], "burn", "10"⟩ ∧
      (3 ≤ 4 → 2 * 4 / 3 ≤ [21, 22].length) ∧
      (4 < 3 → demoEnv.HexToAddress (demoContext demoGovernLedger 21).State.SysParams.GetRootAddress
        ∈ [21, 22]) :=
  C4_govern_confirmed_floor demoEnv ⟨⟨0, 0, 0⟩, 5⟩ (demoContext demoGovernLedger 21) ⟨500, 0⟩
    ⟨5, 2, 100, 700, [11, 12], [21, 22], "burn", "10"⟩ 4 (by decide) (by rfl)

/-- C4 as stated fails: with four route stakers a `GovernTx` on an action with
two voters passes the confirmation check and executes without error, while
`ceil(2*4/3) = 3`. -/
theorem C4_govern_ceiling_counterexample :
    (demoContext demoGovernLedger 21).State.StakerState.GetStakersNum.1 = 4 ∧
      GovernTx.confirm demoEnv ⟨⟨0, 0, 0⟩, 5⟩ (demoContext demoGovernLedger 21) ⟨500, 0⟩ =
        Except.ok ⟨5, 2, 100, 700, [11, 12], [21, 22], "burn", "10"⟩ ∧
      (GovernTx.Execute demoEnv ⟨⟨0, 0, 0⟩, 5⟩ (demoContext demoGovernLedger 21) ⟨500, 0⟩).err =
        none ∧
      ¬ ((2 * 4 + 2) / 3 ≤ [21, 22].length) := by
  refine ⟨by decide, by rfl, by decide, by decide⟩

/-! ## Stake -/

/-- C5 (amended): a `StakeTx` of a known role whose amount differs from both
genesis amounts, `RouteStake` and `SerStake`, is rejected with
`ErrStakeAmount` and changes nothing. -/
theorem C5_stake_amount_either (E : Env) (tx : StakeTx) (t : TransactionContext) (now : Time)
    (hrole : tx.StakerType = stakerTypeRoute E ∨ tx.StakerType = stakerTypeSer E ∨
      tx.StakerType = stakerTypeValidator E)
    (h1 : tx.StakeAmount ≠ t.Genesis.RouteStake) (h2 : tx.StakeAmount ≠ t.Genesis.SerStake) :
    (tx.Execute E t now).err = some Error.ErrStakeAmount ∧
      (tx.Execute E t now).st = t.State ∧ (tx.Execute E t now).db = t.Database := by
  have h0 : ¬ (tx.StakerType ≠ stakerTypeRoute E ∧ tx.StakerType ≠ stakerTypeSer E ∧
      tx.StakerType ≠ stakerTypeValidator E) := by
    rintro ⟨a, b, c⟩
    rcases hrole with h | h | h
    · exact a h
    · exact b h
    · exact c h
  simp [StakeTx.Execute, h0, h1, h2]

/-- C5 (amended) at a concrete transaction: a route stake of 5 units. -/
theorem C5_stake_amount_either_witness :
    (StakeTx.Execute demoEnv ⟨⟨0, 0, 0⟩, 2, 5, 9⟩ (demoContext demoStakeLedger 4) ⟨500, 0⟩).err =
        some Error.ErrStakeAmount ∧
      (StakeTx.Execute demoEnv ⟨⟨0, 0, 0⟩, 2, 5, 9⟩ (demoContext demoStakeLedger 4) ⟨500, 0⟩).st =
        (demoContext demoStakeLedger 4).State ∧
      (StakeTx.Execute demoEnv ⟨⟨0, 0, 0⟩, 2, 5, 9⟩ (demoContext demoStakeLedger 4) ⟨500, 0⟩).db =
        (demoContext demoStakeLedger 4).Database :=
  C5_stake_amount_either demoEnv ⟨⟨0, 0, 0⟩, 2, 5, 9⟩ (demoContext demoStakeLedger 4) ⟨500, 0⟩
    (Or.inl rfl) (by decide) (by decide)

/-- C5 as stated fails: a route stake (type 2) of the `SerStake` amount
100000000, which differs from `RouteStake` = 200000000, is not rejected with
`ErrStakeAmount`; it executes without error and, after `Commit`, the sender is
a route staker with that amount. -/
theorem C5_stake_amount_counterexample :
    (demoContext demoStakeLedger 4).Genesis.RouteStake = 200000000 ∧
      (100000000 : Nat) ≠ (demoContext demoStakeLedger 4).Genesis.RouteStake ∧
      (StakeTx.Execute demoEnv ⟨⟨0, 0, 0⟩, 2, 100000000, 9⟩ (demoContext demoStakeLedger 4)
        ⟨500, 0⟩).err = none ∧
      ((StakeTx.Execute demoEnv ⟨⟨0, 0, 0⟩, 2, 100000000, 9⟩ (demoContext demoStakeLedger 4)
        ⟨500, 0⟩).st.Commit demoEnv).StakerState.GetStakerMeta demoEnv 2 9 =
        some ⟨77, 2, 100000000, 500, 9⟩ := by
  decide

theorem updateStakerRewardLoop_frame (E : Env) (roleNum : Nat) (address : Address) (txID : ID)
    (endTime : Nat) (stakers : List StakerMeta) (x : Res samaState) :
    (samaState.UpdateStakerRewardLoop E roleNum address txID endTime stakers x).st.StakerState =
        x.st.StakerState ∧
      (samaState.UpdateStakerRewardLoop E roleNum address txID endTime stakers x).st.ActionsState =
        x.st.ActionsState := by
  induction stakers generalizing x with
  | nil => exact ⟨rfl, rfl⟩
  | cons staker rest ih =>
    simp only [samaState.UpdateStakerRewardLoop]
    by_cases h1 : staker.StakeTime ≥ endTime
    · simp only [h1, if_true]
      exact ih x
    · simp only [h1, if_false]
      split
      · exact ⟨rfl, rfl⟩
      · exact ih _

theorem updateStakerReward_frame (E : Env) (s : samaState) (db : Database) (stakerType : Nat)
    (address : Address) (txID : ID) (endTime : Nat) :
    (s.UpdateStakerReward E db stakerType address txID endTime).st.StakerState = s.StakerState ∧
      (s.UpdateStakerReward E db stakerType address txID endTime).st.ActionsState =
        s.ActionsState := by
  have h := updateStakerRewardLoop_frame E (s.StakersNum E stakerType) address txID endTime
    (s.StakerState.GetStakers E stakerType) ⟨s, db, none⟩
  simp only [samaState.UpdateStakerReward]
  split_ifs
  · exact ⟨rfl, rfl⟩
  · exact ⟨rfl, rfl⟩
  · exact ⟨rfl, rfl⟩
  · split
    · exact h
    · exact h

theorem staker_put_pending (E : Env) (hv : E.valid) (role : Nat) (hr : role ∈ StakerTypes E)
    (s : stakerState) (db : Database) (staker : StakerMeta)
    (hrole : toByte staker.StakerType = role) :
    (s.PutStaker E db staker).err = none ∧
      ((s.PutStaker E db staker).st.pendingAdd E role).get staker.StakerAddr = some staker ∧
      ((s.PutStaker E db staker).st.pendingDel E role).has staker.StakerAddr = false := by
  obtain ⟨_, h2, h3⟩ := staker_call_role E hv role hr (StakerCall.put staker) hrole ⟨s, db, none⟩
  simp only [stakerState.call] at h2 h3
  refine ⟨?_, ?_, ?_⟩
  · have hs := stakerTypes_cases E role hr
    unfold stakerState.PutStaker
    rw [hrole]
    rcases hs with h | h | h <;> subst h <;>
      simp [stakerState.GetPendingStakers, stakerTypeRoute, stakerTypeSer, stakerTypeValidator] <;>
      split_ifs <;> rfl
  · rw [h2]
    simp [StakerCall.onAdd, GoMap.get_put]
  · rw [h3]
    simp [StakerCall.onDel, GoMap.has, GoMap.get_del]

theorem commit_substates (E : Env) (s : samaState) :
    (s.Commit E).StakerState = s.StakerState.CacheStakersCommit E ∧
      (s.Commit E).ActionsState = s.ActionsState.CacheActionsCommit := ⟨rfl, rfl⟩

theorem isBeConfirmed_true_err (E : Env) (s : samaState) (now : Time) (actionType : Nat)
    (key : String) (h : (s.IsBeConfirmed E now actionType key).1 = true) :
    (s.IsBeConfirmed E now actionType key).2.2 = none := by
  unfold samaState.IsBeConfirmed at h ⊢
  cases hv : s.ActionsState.GetVotersNum actionType key with
  | error e => simp [hv] at h
  | ok p =>
    obtain ⟨votersNum, actionID⟩ := p
    simp only [hv] at h ⊢
    by_cases h1 : s.StakersNum E (stakerTypeRoute E) < 3
    · simp only [h1, if_true] at h ⊢
      cases hm : s.ActionsState.GetActionMeta now actionID with
      | error e => simp [hm] at h
      | ok o =>
        cases o with
        | none => simp [hm] at h
        | some a =>
          simp only [hm] at h ⊢
          by_cases h3 : rootVoted E s.SysParams.GetRootAddress a.Voters = true
          · simp [h3]
          · simp [h3] at h
    · simp only [h1, if_false] at h ⊢
      by_cases h4 : votersNum ≥ s.StakersNum E (stakerTypeRoute E) * 2 / 3
      · simp [h4]
      · simp [h4] at h

theorem toByte_stakerType (E : Env) (hv : E.valid) (r : Nat) (hr : r ∈ StakerTypes E) :
    toByte r = r := by
  obtain ⟨a, b, c, _⟩ := hv
  rcases stakerTypes_cases E r hr with h | h | h <;> subst h <;>
    exact Nat.mod_eq_of_lt (by assumption)

/-- C6: for a `StakeTx` of a known role with an accepted amount and a non-zero
address that is not yet staked: when `IsBeConfirmed(add-staker, sender)`
returns false, `Execute` fails with "no be confirmed" and changes neither the
ledger nor the store; when it returns true and the balance updates and the
reward update succeed, `Execute` succeeds, and after `Commit`
`GetStakerMeta(role, StakerAddr)` is the record with the amount of the
transaction and the block time as stake time, and no current action has the
confirmed id. -/
theorem C6_stake_needs_confirmation (E : Env) (hv : E.valid) (tx : StakeTx)
    (t : TransactionContext) (now : Time)
    (hrole : tx.StakerType ∈ StakerTypes E)
    (hamt : tx.StakeAmount = t.Genesis.RouteStake ∨ tx.StakeAmount = t.Genesis.SerStake)
    (hnz : tx.StakerAddr ≠ 0)
    (hnew : (t.State.StakerState.IsStaker E tx.StakerAddr).1 = false) :
    ((t.State.IsBeConfirmed E now actionTypeAddStaker (E.Hex t.Sender)).1 = false →
      (∀ msg, (t.State.IsBeConfirmed E now actionTypeAddStaker (E.Hex t.Sender)).2.2 ≠
        some (Error.panic msg)) →
      (tx.Execute E t now).err = some (Error.Errorf "no be confirmed") ∧
        (tx.Execute E t now).st = t.State ∧ (tx.Execute E t now).db = t.Database) ∧
    ((t.State.IsBeConfirmed E now actionTypeAddStaker (E.Hex t.Sender)).1 = true →
      (E.ModifyBalance t.Database t.Sender false tx.StakeAmount).2 = none →
      (E.ModifyStakeBalance (E.ModifyBalance t.Database t.Sender false tx.StakeAmount).1
        t.Sender true tx.StakeAmount).2 = none →
      (t.State.UpdateStakerReward E
        (E.ModifyStakeBalance (E.ModifyBalance t.Database t.Sender false tx.StakeAmount).1
          t.Sender true tx.StakeAmount).1
        (toByte tx.StakerType) tx.StakerAddr t.TxID t.BlockTime).err = none →
      (tx.Execute E t now).err = none ∧
        ((tx.Execute E t now).st.Commit E).StakerState.GetStakerMeta E tx.StakerType
            tx.StakerAddr =
          some ⟨t.TxID, tx.StakerType, tx.StakeAmount, t.BlockTime, tx.StakerAddr⟩ ∧
        ((tx.Execute E t now).st.Commit E).ActionsState.curActions.get
          (t.State.IsBeConfirmed E now actionTypeAddStaker (E.Hex t.Sender)).2.1 = none) := by
  have h0 : ¬ (tx.StakerType ≠ stakerTypeRoute E ∧ tx.StakerType ≠ stakerTypeSer E ∧
      tx.StakerType ≠ stakerTypeValidator E) := by
    rintro ⟨a, b, c⟩
    rcases stakerTypes_cases E _ hrole with h | h | h
    · exact a h
    · exact b h
    · exact c h
  have h1 : ¬ (tx.StakeAmount ≠ t.Genesis.RouteStake ∧ tx.StakeAmount ≠ t.Genesis.SerStake) := by
    rintro ⟨a, b⟩
    rcases hamt with h | h
    · exact a h
    · exact b h
  have hbyte := toByte_stakerType E hv tx.StakerType hrole
  constructor
  · intro hfalse hret
    rcases hc : t.State.IsBeConfirmed E now actionTypeAddStaker (E.Hex t.Sender) with
      ⟨ok, actionID, err⟩
    rw [hc] at hfalse hret
    simp only at hfalse hret
    subst hfalse
    cases err with
    | none => simp [StakeTx.Execute, h0, h1, hnz, hnew, hc]
    | some e =>
      cases e with
      | panic msg => exact absurd rfl (hret msg)
      | _ => simp [StakeTx.Execute, h0, h1, hnz, hnew, hc]
  · intro htrue hb hs hu
    have herr := isBeConfirmed_true_err E t.State now _ _ htrue
    rcases hc : t.State.IsBeConfirmed E now actionTypeAddStaker (E.Hex t.Sender) with
      ⟨ok, actionID, err⟩
    rw [hc] at htrue herr
    simp only at htrue herr
    subst htrue herr
    obtain ⟨f1, f2⟩ := updateStakerReward_frame E t.State
      (E.ModifyStakeBalance (E.ModifyBalance t.Database t.Sender false tx.StakeAmount).1
        t.Sender true tx.StakeAmount).1 (toByte tx.StakerType) tx.StakerAddr t.TxID t.BlockTime
    obtain ⟨p1, p2, p3⟩ := staker_put_pending E hv tx.StakerType hrole t.State.StakerState
      (t.State.UpdateStakerReward E
        (E.ModifyStakeBalance (E.ModifyBalance t.Database t.Sender false tx.StakeAmount).1
          t.Sender true tx.StakeAmount).1
        (toByte tx.StakerType) tx.StakerAddr t.TxID t.BlockTime).db
      ⟨t.TxID, tx.StakerType, tx.StakeAmount, t.BlockTime, tx.StakerAddr⟩ hbyte
    simp only [StakeTx.Execute, h0, h1, hnz, hnew, hc, hb, hs, samaState.DealStakeTx, hu,
      f1, p1, if_false, Bool.not_true, Bool.false_eq_true, actionsState.DelAction,
      (commit_substates E _).1, (commit_substates E _).2]
    refine ⟨trivial, ?_, ?_⟩
    · rw [staker_commit_get E hv tx.StakerType hrole, p3, p2]
      simp
    · simp [actionsState.CacheActionsCommit, GoMap.get_mergeDel, GoMap.has, GoMap.get_put]

/-- C6 at a concrete ledger: the root, whose add-staker action it has voted
itself with nothing staked yet, stakes 200000000 as a route for address 9. -/
theorem C6_stake_needs_confirmation_witness :
    (StakeTx.Execute demoEnv ⟨⟨0, 0, 0⟩, 2, 200000000, 9⟩ (demoContext demoStakeLedger 4)
        ⟨500, 0⟩).err = none ∧
      ((StakeTx.Execute demoEnv ⟨⟨0, 0, 0⟩, 2, 200000000, 9⟩ (demoContext demoStakeLedger 4)
        ⟨500, 0⟩).st.Commit demoEnv).StakerState.GetStakerMeta demoEnv 2 9 =
        some ⟨77, 2, 200000000, 500, 9⟩ ∧
      ((StakeTx.Execute demoEnv ⟨⟨0, 0, 0⟩, 2, 200000000, 9⟩ (demoContext demoStakeLedger 4)
        ⟨500, 0⟩).st.Commit demoEnv).ActionsState.curActions.get
          ((demoContext demoStakeLedger 4).State.IsBeConfirmed demoEnv ⟨500, 0⟩
            actionTypeAddStaker (demoEnv.Hex 4)).2.1 = none :=
  (C6_stake_needs_confirmation demoEnv (by decide) ⟨⟨0, 0, 0⟩, 2, 200000000, 9⟩
    (demoContext demoStakeLedger 4) ⟨500, 0⟩ (by decide) (by decide) (by decide)
    (by decide)).2 (by decide) (by decide) (by decide) (by decide)

/-! ## UnStake -/

/-- Past the seconds that `time.Unix` holds without wrapping, `Before` is
false although the argument is the later instant. -/
theorem before_wraps : Time.Before ⟨5000, 0⟩ (2 ^ 63 - 1) = false := by decide
theorem sub64_of_le (a b : Nat) (hab : b ≤ a) (ha : a < 2 ^ 64) : sub64 a b = a - b := by
  unfold sub64
  rw [Nat.mod_eq_of_lt ha, Nat.mod_eq_of_lt (lt_of_le_of_lt hab ha)]
  omega

/-- C8 (amended): for a `ProofTx` sent from a valid work address at a clock
reading `now` (at least 50, within `int64`), `Execute` succeeds only if
`1 <= Netflow <= 1000`, `1 <= EndTime - StartTime <= 60`,
`StartTime <= now - 50` (a start after `now - 50` is rejected) and
`EndTime <= now`; a `Netflow` above 1000 fails with "netflow too big" and a
`Netflow` of 0 with "netflow too small", both without any change. -/
theorem C8_proof_validation (E : Env) (p : ProofTx) (t : TransactionContext) (now : Time)
    (powType : Nat)
    (hvalid : t.State.IsValidWorkAddress E t.Sender = (true, powType, none))
    (h50 : 50 ≤ now.Unix) (hnow : now.Unix < 2 ^ 63) :
    ((p.Execute E t now).err = none →
      1 ≤ p.Netflow ∧ p.Netflow ≤ 1000 ∧ p.StartTime ≤ p.EndTime ∧
        1 ≤ p.EndTime - p.StartTime ∧ p.EndTime - p.StartTime ≤ 60 ∧
        p.StartTime + 50 ≤ now.Unix ∧ p.EndTime ≤ now.Unix) ∧
    (1000 < p.Netflow →
      (p.Execute E t now).err = some (Error.Errorf "netflow too big") ∧
        (p.Execute E t now).st = t.State ∧ (p.Execute E t now).db = t.Database) ∧
    (p.Netflow = 0 →
      (p.Execute E t now).err = some (Error.Errorf "netflow too small") ∧
        (p.Execute E t now).st = t.State ∧ (p.Execute E t now).db = t.Database) := by
  have hs : sub64 now.Unix 50 = now.Unix - 50 := sub64_of_le _ _ h50 (by omega)
  refine ⟨?_, ?_, ?_⟩
  · intro hok
    simp only [ProofTx.Execute, hvalid, Bool.not_true, Bool.false_eq_true, if_false, minFlow,
      maxFlow, minTime, maxTime, hs] at hok
    by_cases c1 : p.Netflow < 1
    · simp [c1] at hok
    · by_cases c2 : p.Netflow > 1000
      · simp [c1, c2] at hok
      · by_cases c3 : p.StartTime > p.EndTime
        · simp [c1, c2, c3] at hok
        · by_cases c4 : p.StartTime > now.Unix - 50
          · simp [c1, c2, c3, c4] at hok
          · by_cases c5 : p.EndTime > now.Unix
            · simp [c1, c2, c3, c4, c5] at hok
            · have hi : sub64 p.EndTime p.StartTime = p.EndTime - p.StartTime :=
                sub64_of_le _ _ (by omega) (by omega)
              rw [hi] at hok
              by_cases c6 : p.EndTime - p.StartTime < 1
              · simp [c1, c2, c3, c4, c5, c6] at hok
              · by_cases c7 : p.EndTime - p.StartTime > 60
                · simp [c1, c2, c3, c4, c5, c6, c7] at hok
                · omega
  · intro hbig
    have c1 : ¬ p.Netflow < 1 := by omega
    simp [ProofTx.Execute, hvalid, minFlow, maxFlow, c1, hbig]
  · intro hzero
    simp [ProofTx.Execute, hvalid, minFlow, hzero]

/-- C8 (amended) at a concrete ledger: the node with work address 3 reports a
netflow of 2000. -/
theorem C8_proof_validation_witness :
    (ProofTx.Execute demoEnv ⟨⟨0, 0, 0⟩, 2000, 440, 470, 0⟩ (demoContext demoProofLedger 3)
        ⟨500, 0⟩).err = some (Error.Errorf "netflow too big") ∧
      (ProofTx.Execute demoEnv ⟨⟨0, 0, 0⟩, 2000, 440, 470, 0⟩ (demoContext demoProofLedger 3)
        ⟨500, 0⟩).st = (demoContext demoProofLedger 3).State ∧
      (ProofTx.Execute demoEnv ⟨⟨0, 0, 0⟩, 2000, 440, 470, 0⟩ (demoContext demoProofLedger 3)
        ⟨500, 0⟩).db = (demoContext demoProofLedger 3).Database :=
  (C8_proof_validation demoEnv ⟨⟨0, 0, 0⟩, 2000, 440, 470, 0⟩ (demoContext demoProofLedger 3)
    ⟨500, 0⟩ 2 (by decide) (by decide) (by decide)).2.1 (by decide)

/-- C8 as stated fails: at `now = 500` a proof that starts at `now - 50 = 450`
(netflow 500, interval 30) is sent from a valid work address and executes
without error, although its start is not before `now - 50`. -/
theorem C8_proof_start_counterexample :
    (demoContext demoProofLedger 3).State.IsValidWorkAddress demoEnv 3 = (true, 2, none) ∧
      (ProofTx.Execute demoEnv ⟨⟨0, 0, 0⟩, 500, 450, 480, 0⟩ (demoContext demoProofLedger 3)
        ⟨500, 0⟩).err = none ∧
      ¬ (450 < (⟨500, 0⟩ : Time).Unix - 50) := by
  decide

/-! ## Proof accumulation -/

theorem powTypes_cases (E : Env) (r : Nat) (hr : r ∈ powTypes E) :
    r = E.serPrefix ∨ r = E.routePrefix := by
  simpa [powTypes, powTypeSer, powTypeRoute] using hr

theorem pow_commit_get (E : Env) (hv : E.valid) (role : Nat) (hr : role ∈ powTypes E)
    (f : powState) (a : Address) :
    (f.CachePowsCommit E).GetPowMeta E role a =
      if (f.pendingDel E role).has a = true then none
      else
        match (f.pendingAdd E role).get a with
        | some pow => some pow
        | none => f.GetPowMeta E role a := by
  obtain ⟨_, _, _, h1, _, _⟩ := hv
  have h1s : E.serPrefix ≠ E.routePrefix := fun h => h1 h.symm
  have key : ∀ cur add del : GoMap Address PowMeta,
      ((cur.mergeAdd add).mergeDel del).get a =
        if del.has a = true then none
        else
          match add.get a with
          | some pow => some pow
          | none => cur.get a := by
    intro cur add del
    rw [GoMap.get_mergeDel, GoMap.get_mergeAdd]
    split_ifs
    · rfl
    · cases add.get a <;> rfl
  rcases powTypes_cases E role hr with h | h <;> subst h <;>
    simp [powState.CachePowsCommit, powTypes, powState.commitType, powState.GetPendingPow,
      powState.GetCurPow, powState.setCurPow, powState.setPendingPow, powTypeSer, powTypeRoute,
      powState.GetPowMeta, powState.pendingAdd, powState.pendingDel, curGet, h1, h1s, key]

theorem pow_put_pending (E : Env) (hv : E.valid) (role : Nat) (hr : role ∈ powTypes E)
    (f : powState) (db : Database) (proof : ProofMeta) (m0 : PowMeta)
    (h : (f.pendingAdd E role).get proof.Miner = some m0) :
    (f.PutPow E db role proof).err = none ∧
      (f.PutPow E db role proof).st.GetCurPow E role = f.GetCurPow E role ∧
      (f.PutPow E db role proof).st.pendingAdd E role =
        (f.pendingAdd E role).put proof.Miner
          { m0 with
            Totalflow := add64 m0.Totalflow proof.Netflow,
            TotalTime := add64 m0.TotalTime proof.WorkTime,
            LastUpdateTXID := proof.TxID,
            LastUpdateTime := proof.UpdateTime } ∧
      (f.PutPow E db role proof).st.pendingDel E role =
        (f.pendingDel E role).del proof.Miner := by
  obtain ⟨_, _, _, h1, _, _⟩ := hv
  have h1s : E.serPrefix ≠ E.routePrefix := fun h => h1 h.symm
  rcases powTypes_cases E role hr with hh | hh <;> subst hh <;>
    simp only [powState.pendingAdd, powState.GetPendingPow, powTypeSer, powTypeRoute, h1, h1s,
      if_true, if_false] at h <;>
    simp [powState.PutPow, powState.GetPendingPow, powState.GetCurPow, powState.setPendingPow,
      powTypeSer, powTypeRoute, powState.pendingAdd, powState.pendingDel, h1, h1s, h]

theorem pow_put_fresh (E : Env) (hv : E.valid) (role : Nat) (hr : role ∈ powTypes E)
    (f : powState) (db : Database) (proof : ProofMeta)
    (h : (f.pendingAdd E role).get proof.Miner = none)
    (hok : (f.PutPow E db role proof).err = none) :
    (f.PutPow E db role proof).st.GetCurPow E role = f.GetCurPow E role ∧
      (f.PutPow E db role proof).st.pendingAdd E role =
        (f.pendingAdd E role).put proof.Miner
          { PowType := role,
            TotalTime :=
              match f.GetPowMeta E role proof.Miner with
              | some cur => add64 cur.TotalTime proof.WorkTime
              | none => proof.WorkTime,
            Totalflow :=
              match f.GetPowMeta E role proof.Miner with
              | some cur => add64 cur.Totalflow proof.Netflow
              | none => proof.Netflow,
            LastUpdateTime := proof.UpdateTime,
            LastUpdateTXID := proof.TxID,
            Miner := proof.Miner } ∧
      (f.PutPow E db role proof).st.pendingDel E role =
        (f.pendingDel E role).del proof.Miner := by
  obtain ⟨_, _, _, h1, _, _⟩ := hv
  have h1s : E.serPrefix ≠ E.routePrefix := fun h => h1 h.symm
  rcases powTypes_cases E role hr with hh | hh <;> subst hh
  · simp only [powState.pendingAdd, powState.GetPendingPow, powTypeSer, powTypeRoute,
      if_true] at h
    cases hc : f.curSer.get proof.Miner with
    | none =>
      simp [powState.PutPow, powState.GetPendingPow, powState.GetCurPow, powState.setPendingPow,
        powTypeSer, powTypeRoute, powState.pendingAdd, powState.pendingDel, powState.GetPowMeta,
        curGet, h1, h1s, h, hc]
    | some cur =>
      by_cases ht : cur.PowType = E.serPrefix
      · simp [powState.PutPow, powState.GetPendingPow, powState.GetCurPow,
          powState.setPendingPow, powTypeSer, powTypeRoute, powState.pendingAdd,
          powState.pendingDel, powState.GetPowMeta, curGet, h1, h1s, h, hc, ht]
      · simp [powState.PutPow, powState.GetPendingPow, powState.GetCurPow,
          powState.setPendingPow, powTypeSer, powTypeRoute, curGet, h, hc, ht] at hok
  · simp only [powState.pendingAdd, powState.GetPendingPow, powTypeSer, powTypeRoute, h1,
      if_true, if_false] at h
    cases hc : f.curRoute.get proof.Miner with
    | none =>
      simp [powState.PutPow, powState.GetPendingPow, powState.GetCurPow, powState.setPendingPow,
        powTypeSer, powTypeRoute, powState.pendingAdd, powState.pendingDel, powState.GetPowMeta,
        curGet, h1, h1s, h, hc]
    | some cur =>
      by_cases ht : cur.PowType = E.routePrefix
      · simp [powState.PutPow, powState.GetPendingPow, powState.GetCurPow,
          powState.setPendingPow, powTypeSer, powTypeRoute, powState.pendingAdd,
          powState.pendingDel, powState.GetPowMeta, curGet, h1, h1s, h, hc, ht]
      · simp [powState.PutPow, powState.GetPendingPow, powState.GetCurPow,
          powState.setPendingPow, powTypeSer, powTypeRoute, curGet, h1, h, hc, ht] at hok

theorem pow_putAll_pending (E : Env) (hv : E.valid) (role : Nat) (hr : role ∈ powTypes E)
    (miner : Address) (proofs : List ProofMeta) (hminer : ∀ p ∈ proofs, p.Miner = miner)
    (x : Res powState) (m0 : PowMeta)
    (hx : (x.st.pendingAdd E role).get miner = some m0)
    (hd : (x.st.pendingDel E role).has miner = false)
    (he : x.err = none) (ht : m0.TotalTime < 2 ^ 64) (hf : m0.Totalflow < 2 ^ 64) :
    (powState.putAll E role x proofs).err = none ∧
      (powState.putAll E role x proofs).st.GetCurPow E role = x.st.GetCurPow E role ∧
      ((powState.putAll E role x proofs).st.pendingDel E role).has miner = false ∧
      ∃ m, ((powState.putAll E role x proofs).st.pendingAdd E role).get miner = some m ∧
        m.TotalTime = (m0.TotalTime + sumWorkTime proofs) % 2 ^ 64 ∧
        m.Totalflow = (m0.Totalflow + sumNetflow proofs) % 2 ^ 64 ∧
        m.PowType = m0.PowType := by
  induction proofs generalizing x m0 with
  | nil =>
    refine ⟨he, rfl, hd, m0, hx, ?_, ?_, rfl⟩
    · simp only [sumWorkTime, List.map_nil, List.sum_nil, Nat.add_zero]
      exact (Nat.mod_eq_of_lt ht).symm
    · simp only [sumNetflow, List.map_nil, List.sum_nil, Nat.add_zero]
      exact (Nat.mod_eq_of_lt hf).symm
  | cons p rest ih =>
    have hp : p.Miner = miner := hminer p (List.mem_cons_self _ _)
    have hrest : ∀ q ∈ rest, q.Miner = miner := fun q hq => hminer q (List.mem_cons_of_mem _ hq)
    subst hp
    obtain ⟨q1, q2, q3, q4⟩ := pow_put_pending E hv role hr x.st x.db p m0 hx
    have hx1 : ((x.st.PutPow E x.db role p).st.pendingAdd E role).get p.Miner =
        some { m0 with
          Totalflow := add64 m0.Totalflow p.Netflow,
          TotalTime := add64 m0.TotalTime p.WorkTime,
          LastUpdateTXID := p.TxID,
          LastUpdateTime := p.UpdateTime } := by
      rw [q3]
      simp [GoMap.get_put]
    have hd1 : ((x.st.PutPow E x.db role p).st.pendingDel E role).has p.Miner = false := by
      rw [q4]
      simp [GoMap.has, GoMap.get_del]
    obtain ⟨r1, r2, r3, m, r4, r5, r6, r7⟩ := ih hrest (x.st.PutPow E x.db role p) _ hx1 hd1 q1
      (Nat.mod_lt _ (by norm_num)) (Nat.mod_lt _ (by norm_num))
    have hstep : powState.putAll E role x (p :: rest) =
        powState.putAll E role (x.st.PutPow E x.db role p) rest := by
      simp [powState.putAll, q1]
    rw [hstep]
    refine ⟨r1, r2.trans q2, r3, m, r4, ?_, ?_, r7⟩
    · rw [r5]
      simp only [add64, sumWorkTime, List.map_cons, List.sum_cons]
      rw [Nat.add_mod, Nat.mod_mod, ← Nat.add_mod, Nat.add_assoc]
    · rw [r6]
      simp only [add64, sumNetflow, List.map_cons, List.sum_cons]
      rw [Nat.add_mod, Nat.mod_mod, ← Nat.add_mod, Nat.add_assoc]

/-- C9: for a role of `powTypes`, a miner with no pending record, and `k >= 1`
`PutPow` calls for that role and miner that all succeed, after
`CachePowsCommit` the miner's record has `TotalTime` equal to its previous
committed `TotalTime` (0 if none) plus the sum of the work-times, and
`Totalflow` likewise plus the sum of the netflows, both modulo `2^64`, and
`PowType` equal to the role. -/
theorem C9_proof_accumulation (E : Env) (hv : E.valid) (role : Nat) (hr : role ∈ powTypes E)
    (f : powState) (db : Database) (miner : Address) (proofs : List ProofMeta)
    (hk : 1 ≤ proofs.length)
    (hminer : ∀ p ∈ proofs, p.Miner = miner)
    (htyped : ∀ p ∈ proofs, p.WorkTime < 2 ^ 64 ∧ p.Netflow < 2 ^ 64)
    (hfresh : (f.pendingAdd E role).get miner = none)
    (hok : (powState.putAll E role ⟨f, db, none⟩ proofs).err = none) :
    ∃ m, ((powState.putAll E role ⟨f, db, none⟩ proofs).st.CachePowsCommit E).GetPowMeta E role
          miner = some m ∧
      m.TotalTime = (f.committedTime E role miner + sumWorkTime proofs) % 2 ^ 64 ∧
      m.Totalflow = (f.committedFlow E role miner + sumNetflow proofs) % 2 ^ 64 ∧
      m.PowType = role := by
  cases proofs with
  | nil => simp at hk
  | cons p rest =>
    have hp : p.Miner = miner := hminer p (List.mem_cons_self _ _)
    have hrest : ∀ q ∈ rest, q.Miner = miner := fun q hq => hminer q (List.mem_cons_of_mem _ hq)
    obtain ⟨tw, tn⟩ := htyped p (List.mem_cons_self _ _)
    subst hp
    have hfirst : (f.PutPow E db role p).err = none := by
      cases he : (f.PutPow E db role p).err with
      | none => rfl
      | some e => simp [powState.putAll, he] at hok
    have hstep : powState.putAll E role ⟨f, db, none⟩ (p :: rest) =
        powState.putAll E role (f.PutPow E db role p) rest := by
      simp [powState.putAll, hfirst]
    obtain ⟨q2, q3, q4⟩ := pow_put_fresh E hv role hr f db p hfresh hfirst
    have hx1 := congrArg (fun m => GoMap.get m p.Miner) q3
    have hd1 : ((f.PutPow E db role p).st.pendingDel E role).has p.Miner = false := by
      rw [q4]
      simp [GoMap.has, GoMap.get_del]
    simp only [GoMap.get_put, if_true] at hx1
    have b1 : (match f.GetPowMeta E role p.Miner with
        | some cur => add64 cur.TotalTime p.WorkTime
        | none => p.WorkTime) = (f.committedTime E role p.Miner + p.WorkTime) % 2 ^ 64 := by
      unfold powState.committedTime
      cases f.GetPowMeta E role p.Miner with
      | none =>
        simp only [Nat.zero_add]
        exact (Nat.mod_eq_of_lt tw).symm
      | some cur => rfl
    have b2 : (match f.GetPowMeta E role p.Miner with
        | some cur => add64 cur.Totalflow p.Netflow
        | none => p.Netflow) = (f.committedFlow E role p.Miner + p.Netflow) % 2 ^ 64 := by
      unfold powState.committedFlow
      cases f.GetPowMeta E role p.Miner with
      | none =>
        simp only [Nat.zero_add]
        exact (Nat.mod_eq_of_lt tn).symm
      | some cur => rfl
    obtain ⟨_, _, r3, m, r4, r5, r6, r7⟩ := pow_putAll_pending E hv role hr p.Miner rest hrest
      (f.PutPow E db role p) _ hx1 hd1 hfirst
      (by simp only [b1]; exact Nat.mod_lt _ (by norm_num))
      (by simp only [b2]; exact Nat.mod_lt _ (by norm_num))
    refine ⟨m, ?_, ?_, ?_, r7⟩
    · rw [hstep, pow_commit_get E hv role hr, r3, r4]
      simp
    · rw [r5]
      simp only [b1, sumWorkTime, List.map_cons, List.sum_cons]
      rw [Nat.add_mod, Nat.mod_mod, ← Nat.add_mod, Nat.add_assoc]
    · rw [r6]
      simp only [b2, sumNetflow, List.map_cons, List.sum_cons]
      rw [Nat.add_mod, Nat.mod_mod, ← Nat.add_mod, Nat.add_assoc]

/-- C9 at a concrete registry: two route proofs of miner 3 (30 s and 20 s,
500 and 200 units) on top of a committed record. -/
theorem C9_proof_accumulation_witness :
    ∃ m, ((powState.putAll demoEnv 2 ⟨demoPows, GoMap.empty, none⟩
          [⟨500, 30, 3, 1, 10⟩, ⟨200, 20, 3, 2, 11⟩]).st.CachePowsCommit demoEnv).GetPowMeta
          demoEnv 2 3 = some m ∧
      m.TotalTime = (demoPows.committedTime demoEnv 2 3 +
        sumWorkTime [⟨500, 30, 3, 1, 10⟩, ⟨200, 20, 3, 2, 11⟩]) % 2 ^ 64 ∧
      m.Totalflow = (demoPows.committedFlow demoEnv 2 3 +
        sumNetflow [⟨500, 30, 3, 1, 10⟩, ⟨200, 20, 3, 2, 11⟩]) % 2 ^ 64 ∧
      m.PowType = 2 :=
  C9_proof_accumulation demoEnv (by decide) 2 (by decide) demoPows GoMap.empty 3
    [⟨500, 30, 3, 1, 10⟩, ⟨200, 20, 3, 2, 11⟩] (by decide) (by decide) (by decide) (by decide)
    (by decide)

/-! ## AddUser -/

theorem dealAddUserTx_err (E : Env) (s : samaState) (db : Database) (txID : ID)
    (blkTime : Nat) (user : UserMeta) :
    (s.DealAddUserTx E db txID blkTime user).err ≠ some (Error.Errorf "pay amount check fail") := by
  unfold samaState.DealAddUserTx
  cases hg : s.UsersState.GetUserMeta E db user.Address with
  | error e =>
    simp only []
    unfold usersState.GetUserMeta at hg
    split at hg
    · simp at hg
    · split at hg
      · simp at hg
      · simp at hg
      · simp only [Except.error.injEq] at hg
        subst hg
        simp
  | ok found =>
    cases found with
    | none => simp [yieldsState.ModifyYields]
    | some pmate =>
      simp only []
      split_ifs <;> simp [yieldsState.ModifyYields]

/-- C10 (amended): for an existing fee tier and a window with
`28 days <= EndTime - StartTime <= 31 days`, `CheckPayAmount` returns true iff
the amount equals the fee of the tier and the window is exactly 30 days; so an
`AddUserTx` with a window of exactly 30 days and the exact price does not fail
with "pay amount check fail" (unless the host's balance update returns that
very error). -/
theorem C10_pay_amount_thirty_days (E : Env) (s : samaState)
    (userType amount startTime endTime : Nat) (tier : UserType)
    (htier : s.UserTypesState.GetUserType userType = some tier)
    (hend : endTime < 2 ^ 64)
    (hlo : 28 * 24 * 60 * 60 ≤ endTime - startTime)
    (hhi : endTime - startTime ≤ 31 * 24 * 60 * 60) :
    (s.CheckPayAmount userType amount startTime endTime = true ↔
      (amount = tier.FeeUnits ∧ endTime - startTime = 30 * 24 * 60 * 60)) ∧
    (∀ (a : AddUserTx) (t : TransactionContext) (now : Time),
      t.State = s → a.UserType = userType → a.PayAmount = amount →
      a.StartTime = startTime → a.EndTime = endTime →
      amount = tier.FeeUnits → endTime - startTime = 30 * 24 * 60 * 60 →
      (E.ModifyBalance t.Database t.Sender false amount).2 ≠
        some (Error.Errorf "pay amount check fail") →
      (a.Execute E t now).err ≠ some (Error.Errorf "pay amount check fail")) := by
  have hsub : sub64 endTime startTime = endTime - startTime :=
    sub64_of_le _ _ (by omega) hend
  have hiff : s.CheckPayAmount userType amount startTime endTime = true ↔
      (amount = tier.FeeUnits ∧ endTime - startTime = 30 * 24 * 60 * 60) := by
    simp only [samaState.CheckPayAmount, hsub, htier, SecondsMonth]
    by_cases hm : (endTime - startTime) % (30 * 24 * 60 * 60) = 0
    · have h30 : endTime - startTime = 30 * 24 * 60 * 60 := by omega
      by_cases ha : amount = tier.FeeUnits
      · simp [hm, ha, h30]
      · simp [hm, ha]
    · have h30 : ¬ endTime - startTime = 30 * 24 * 60 * 60 := by
        intro h
        rw [h] at hm
        exact hm (by norm_num)
      simp [hm, h30]
  refine ⟨hiff, ?_⟩
  intro a t now hs hu hp hst hen hfee h30 hbal
  have hcheck : t.State.CheckPayAmount a.UserType a.PayAmount a.StartTime a.EndTime = true := by
    rw [hs, hu, hp, hst, hen]
    exact hiff.2 ⟨hfee, h30⟩
  rw [← hp] at hbal
  unfold AddUserTx.Execute
  simp only [hcheck, Bool.not_true, Bool.false_eq_true, if_false]
  split_ifs
  all_goals first
    | (simp; done)
    | skip
  all_goals
    cases hb : (E.ModifyBalance t.Database t.Sender false a.PayAmount).2 with
    | some e =>
      simp only []
      rw [hb] at hbal
      exact hbal
    | none => exact dealAddUserTx_err E _ _ _ _ _

/-- C10 (amended) at the demo ledger: tier 1 at its fee 100 for 30 days. -/
theorem C10_pay_amount_thirty_days_witness :
    (demoLedger.CheckPayAmount 1 100 1000 (1000 + 30 * 24 * 60 * 60) = true ↔
      ((100 : Nat) = (⟨"month", 1, 100⟩ : UserType).FeeUnits ∧
        1000 + 30 * 24 * 60 * 60 - 1000 = 30 * 24 * 60 * 60)) ∧
    (∀ (a : AddUserTx) (t : TransactionContext) (now : Time),
      t.State = demoLedger → a.UserType = 1 → a.PayAmount = 100 →
      a.StartTime = 1000 → a.EndTime = 1000 + 30 * 24 * 60 * 60 →
      (100 : Nat) = (⟨"month", 1, 100⟩ : UserType).FeeUnits →
      1000 + 30 * 24 * 60 * 60 - 1000 = 30 * 24 * 60 * 60 →
      (demoEnv.ModifyBalance t.Database t.Sender false 100).2 ≠
        some (Error.Errorf "pay amount check fail") →
      (a.Execute demoEnv t now).err ≠ some (Error.Errorf "pay amount check fail")) :=
  C10_pay_amount_thirty_days demoEnv demoLedger 1 100 1000 (1000 + 30 * 24 * 60 * 60)
    ⟨"month", 1, 100⟩ (by decide) (by decide) (by decide) (by decide)

/-- C10 as stated fails: for the existing tier 1 (fee 100) and a window of 29
days, which lies between 28 and 31 days, `CheckPayAmount` with the exact fee
returns false, and the `AddUserTx` with that window and price fails with "pay
amount check fail". -/
theorem C10_pay_amount_counterexample :
    demoLedger.UserTypesState.GetUserType 1 = some ⟨"month", 1, 100⟩ ∧
      28 * 24 * 60 * 60 ≤ 1000 + 29 * 24 * 60 * 60 - 1000 ∧
      1000 + 29 * 24 * 60 * 60 - 1000 ≤ 31 * 24 * 60 * 60 ∧
      demoLedger.CheckPayAmount 1 100 1000 (1000 + 29 * 24 * 60 * 60) = false ∧
      (AddUserTx.Execute demoEnv ⟨⟨0, 0, 0⟩, 1000, 1000 + 29 * 24 * 60 * 60, 100, 1, 1, 9⟩
        (demoContext demoLedger 4) ⟨1000, 0⟩).err =
        some (Error.Errorf "pay amount check fail") := by
  decide

/-! ## The reward-time guard -/

/-- C18: when `endTime` is not later than `GetLastUpdateTime()`, both
`UpdateStakerReward` and `UpdateFoundationReward` leave the ledger and the
store exactly as they were, and return `ErrEndTimeTooEarly` when `endTime` is
smaller and `nil` when it is equal. -/
theorem C18_reward_time_guard (E : Env) (s : samaState) (db : Database) (stakerType : Nat)
    (address : Address) (txID : ID) (endTime : Nat)
    (h : endTime ≤ s.RewardState.GetLastUpdateTime) :
    s.UpdateStakerReward E db stakerType address txID endTime =
        ⟨s, db, if endTime < s.RewardState.GetLastUpdateTime then some Error.ErrEndTimeTooEarly
          else none⟩ ∧
      s.UpdateFoundationReward E db address txID endTime =
        ⟨s, db, if endTime < s.RewardState.GetLastUpdateTime then some Error.ErrEndTimeTooEarly
          else none⟩ := by
  by_cases hlt : endTime < s.RewardState.GetLastUpdateTime
  · simp only [samaState.UpdateStakerReward, samaState.UpdateFoundationReward]
    simp [hlt]
  · have heq : s.RewardState.GetLastUpdateTime = endTime := by omega
    simp only [samaState.UpdateStakerReward, samaState.UpdateFoundationReward]
    simp [heq]

theorem C18_reward_time_guard_witness :
    (2000 ≤ demoCheckpointLedger.RewardState.GetLastUpdateTime) ∧
      (demoCheckpointLedger.UpdateStakerReward demoEnv GoMap.empty 2 7 77 2000 =
          ⟨demoCheckpointLedger, GoMap.empty,
            if 2000 < demoCheckpointLedger.RewardState.GetLastUpdateTime then
              some Error.ErrEndTimeTooEarly
            else none⟩ ∧
        demoCheckpointLedger.UpdateFoundationReward demoEnv GoMap.empty 7 77 2000 =
          ⟨demoCheckpointLedger, GoMap.empty,
            if 2000 < demoCheckpointLedger.RewardState.GetLastUpdateTime then
              some Error.ErrEndTimeTooEarly
            else none⟩) :=
  ⟨by decide, C18_reward_time_guard demoEnv demoCheckpointLedger GoMap.empty 2 7 77 2000
    (by decide)⟩


/-! ## The yield pool and the percentage parameters -/

theorem sub32From100_of_le (p : Nat) (h : p ≤ 100) : sub32From100 p = 100 - p := by
  unfold sub32From100
  omega

theorem yields_modify_commit (E : Env) (y : yieldsState) (db : Database) (yield : Nat)
    (txID : ID) (blkTime : Nat) (h : y.GetChainYields + yield < 2 ^ 64) :
    ((y.ModifyYields E db yield txID blkTime).st.CacheYieldsCommit).GetChainYields =
      y.GetChainYields + yield := by
  unfold yieldsState.GetChainYields at h ⊢
  simp only [yieldsState.ModifyYields, yieldsState.CacheYieldsCommit, add64]
  rw [Nat.mod_eq_of_lt h]
  by_cases h0 : y.curYields.Total + yield = 0
  · have h1 : y.curYields.Total = 0 := by omega
    have h2 : yield = 0 := by omega
    simp [h1, h2]
  · simp [h0]

/-- C11: when `DealAddUserTx` succeeds on a ledger whose burn percentage `p`
is at most 100, with pay amount `a`, and neither `a * (100 - p)` nor the new
pool total overflows 64 bits, then after `Commit` the value of
`GetChainYields()` is its previous value plus `a * (100 - p) / 100`. -/
theorem C11_adduser_feeds_yield (E : Env) (s : samaState) (db : Database) (txID : ID)
    (blkTime : Nat) (user : UserMeta)
    (hp : s.SysParams.GetPercBurn ≤ 100)
    (hmul : user.PayAmount * (100 - s.SysParams.GetPercBurn) < 2 ^ 64)
    (hadd : s.YieldsState.GetChainYields +
      user.PayAmount * (100 - s.SysParams.GetPercBurn) / 100 < 2 ^ 64)
    (hok : (s.DealAddUserTx E db txID blkTime user).err = none) :
    ((s.DealAddUserTx E db txID blkTime user).st.Commit E).YieldsState.GetChainYields =
      s.YieldsState.GetChainYields +
        user.PayAmount * (100 - s.SysParams.GetPercBurn) / 100 := by
  have hc : ∀ t : samaState, (t.Commit E).YieldsState = t.YieldsState.CacheYieldsCommit :=
    fun _ => rfl
  rw [hc]
  have hy : ∀ (pay : Nat) (db1 : Database), pay = user.PayAmount →
      ((s.YieldsState.ModifyYields E db1
        (mul64 pay (sub32From100 s.SysParams.GetPercBurn) / 100) txID
          blkTime).st.CacheYieldsCommit).GetChainYields =
      s.YieldsState.GetChainYields +
        user.PayAmount * (100 - s.SysParams.GetPercBurn) / 100 := by
    intro pay db1 hpay
    subst hpay
    have e : mul64 user.PayAmount (sub32From100 s.SysParams.GetPercBurn) / 100 =
        user.PayAmount * (100 - s.SysParams.GetPercBurn) / 100 := by
      rw [sub32From100_of_le _ hp]
      unfold mul64
      rw [Nat.mod_eq_of_lt hmul]
    rw [e]
    exact yields_modify_commit E _ _ _ _ _ hadd
  unfold samaState.DealAddUserTx at hok ⊢
  cases hg : s.UsersState.GetUserMeta E db user.Address with
  | error e => simp [hg] at hok
  | ok found =>
    cases found with
    | none =>
      simp only [hg]
      exact hy _ _ rfl
    | some pmate =>
      simp only [hg] at hok ⊢
      by_cases ht : user.StartTime > add64 pmate.EndTime SecondsMinute ∨
          user.StartTime < sub64 pmate.EndTime SecondsMinute
      · simp [ht] at hok
      · simp only [ht, if_false]
        exact hy _ _ rfl

theorem C11_adduser_feeds_yield_witness :
    (demoLedger.DealAddUserTx demoEnv GoMap.empty 77 500 demoUser).err = none ∧
      ((demoLedger.DealAddUserTx demoEnv GoMap.empty 77 500
        demoUser).st.Commit demoEnv).YieldsState.GetChainYields = 80 :=
  ⟨by decide, C11_adduser_feeds_yield demoEnv demoLedger GoMap.empty 77 500 demoUser
    (by decide) (by decide) (by decide) (by decide)⟩

theorem toUint32_of_lt (v : Nat) (h : v < 2 ^ 32) : toUint32 v = v := by
  unfold toUint32
  exact Nat.mod_eq_of_lt h

/-- The part of the range check that holds: an unparsable value, and a value
whose low 32 bits are outside [5,95], is refused and nothing is staged. -/
theorem modifyParams_rejects (E : Env) (s : sysParams) (db : Database) (key newValue : String)
    (txID : ID) (updateTime : Nat)
    (h : ParseUint newValue = none ∨
      ∃ v, ParseUint newValue = some v ∧ (toUint32 v < 5 ∨ 95 < toUint32 v)) :
    (s.ModifyParams E db key newValue txID updateTime).err ≠ none ∧
      (s.ModifyParams E db key newValue txID updateTime).st = s ∧
      (s.ModifyParams E db key newValue txID updateTime).db = db := by
  unfold sysParams.ModifyParams
  rcases h with h | ⟨v, h, hv⟩
  · simp [h]
  · have hc : toUint32 v > MaxPercentage ∨ toUint32 v < MinPercentage := by
      unfold MaxPercentage MinPercentage
      omega
    simp [h, hc]

/-- C12 (the code at the failing input): the value 4294967346 = 2^32 + 50 is
greater than 95, yet `ModifyParams("burn", "4294967346")` returns nil and
stages the burn percentage 50, because the range check is made on the value
truncated to 32 bits. -/
theorem C12_modify_params_truncates :
    ParseUint "4294967346" = some 4294967346 ∧
      (demoLedger.SysParams.ModifyParams demoEnv GoMap.empty "burn" "4294967346" 77 500).err
        = none ∧
      (demoLedger.SysParams.ModifyParams demoEnv GoMap.empty "burn" "4294967346" 77
        500).st.pendingParams.BurnPerc = 50 := by
  decide

/-- C13 (amended): for a parameter state whose current `TotalTokens` is not
zero and a decimal value `v` in [5,95], `ModifyParams` succeeds for each of the
seven keys and after `CacheParamsCommit` the named percentage is `v` and its
complement is `100 - v`; for "burn" the current record is the old one with
`BurnPerc = v` and the new update stamp. -/
theorem C13_modify_params_pair (E : Env) (s : sysParams) (db : Database) (newValue : String)
    (txID : ID) (updateTime v : Nat) (hparse : ParseUint newValue = some v)
    (h5 : 5 ≤ v) (h95 : v ≤ 95) (htok : s.curParams.TotalTokens ≠ 0) :
    ((s.ModifyParams E db "routePerc" newValue txID updateTime).err = none ∧
      (s.ModifyParams E db "routePerc" newValue txID updateTime).st.CacheParamsCommit.GetPercRoute
        = v ∧
      (s.ModifyParams E db "routePerc" newValue txID updateTime).st.CacheParamsCommit.GetPercSer
        = 100 - v) ∧
    ((s.ModifyParams E db "serPerc" newValue txID updateTime).err = none ∧
      (s.ModifyParams E db "serPerc" newValue txID updateTime).st.CacheParamsCommit.GetPercSer
        = v ∧
      (s.ModifyParams E db "serPerc" newValue txID updateTime).st.CacheParamsCommit.GetPercRoute
        = 100 - v) ∧
    ((s.ModifyParams E db "routeBase" newValue txID updateTime).err = none ∧
      (s.ModifyParams E db "routeBase" newValue txID
        updateTime).st.CacheParamsCommit.GetRoutePercBase = v ∧
      (s.ModifyParams E db "routeBase" newValue txID
        updateTime).st.CacheParamsCommit.GetRoutePercMerit = 100 - v) ∧
    ((s.ModifyParams E db "routeMerit" newValue txID updateTime).err = none ∧
      (s.ModifyParams E db "routeMerit" newValue txID
        updateTime).st.CacheParamsCommit.GetRoutePercMerit = v ∧
      (s.ModifyParams E db "routeMerit" newValue txID
        updateTime).st.CacheParamsCommit.GetRoutePercBase = 100 - v) ∧
    ((s.ModifyParams E db "serBase" newValue txID updateTime).err = none ∧
      (s.ModifyParams E db "serBase" newValue txID
        updateTime).st.CacheParamsCommit.GetSerPercBase = v ∧
      (s.ModifyParams E db "serBase" newValue txID
        updateTime).st.CacheParamsCommit.GetSerPercMerit = 100 - v) ∧
    ((s.ModifyParams E db "serMerit" newValue txID updateTime).err = none ∧
      (s.ModifyParams E db "serMerit" newValue txID
        updateTime).st.CacheParamsCommit.GetSerPercMerit = v ∧
      (s.ModifyParams E db "serMerit" newValue txID
        updateTime).st.CacheParamsCommit.GetSerPercBase = 100 - v) ∧
    ((s.ModifyParams E db "burn" newValue txID updateTime).err = none ∧
      (s.ModifyParams E db "burn" newValue txID updateTime).st.CacheParamsCommit.GetPercBurn
        = v ∧
      (s.ModifyParams E db "burn" newValue txID updateTime).st.CacheParamsCommit.curParams =
        { s.curParams with BurnPerc := v, UpdateTxID := txID, UpdateTime := updateTime }) := by
  have hv : toUint32 v = v := toUint32_of_lt v (by omega)
  have hs : sub32From100 v = 100 - v := sub32From100_of_le v (by omega)
  have hc : ¬ (v > MaxPercentage ∨ v < MinPercentage) := by
    unfold MaxPercentage MinPercentage
    omega
  simp [sysParams.ModifyParams, hparse, hv, hs, hc, sysParams.CacheParamsCommit, htok,
    sysParams.GetPercRoute, sysParams.GetPercSer, sysParams.GetRoutePercBase,
    sysParams.GetRoutePercMerit, sysParams.GetSerPercBase, sysParams.GetSerPercMerit,
    sysParams.GetPercBurn]

theorem C13_modify_params_pair_witness :
    ParseUint "40" = some 40 ∧ demoLedger.SysParams.curParams.TotalTokens ≠ 0 ∧
      ((demoLedger.SysParams.ModifyParams demoEnv GoMap.empty "routePerc" "40" 77 500).err
          = none ∧
        (demoLedger.SysParams.ModifyParams demoEnv GoMap.empty "routePerc" "40" 77
          500).st.CacheParamsCommit.GetPercRoute = 40 ∧
        (demoLedger.SysParams.ModifyParams demoEnv GoMap.empty "routePerc" "40" 77
          500).st.CacheParamsCommit.GetPercSer = 100 - 40) :=
  ⟨by decide, by decide,
    (C13_modify_params_pair demoEnv demoLedger.SysParams GoMap.empty "40" 77 500 40 (by decide)
      (by decide) (by decide) (by decide)).1⟩

/-- With current `TotalTokens = 0` the staged record is not applied by
`CacheParamsCommit`: after a successful `ModifyParams("routePerc", "40")` the
route percentage is still 30 and the service percentage still 50. -/
theorem C13_modify_params_pair_counterexample :
    (demoZeroTokens.ModifyParams demoEnv GoMap.empty "routePerc" "40" 77 500).err = none ∧
      (demoZeroTokens.ModifyParams demoEnv GoMap.empty "routePerc" "40" 77
        500).st.CacheParamsCommit.GetPercRoute = 30 ∧
      (demoZeroTokens.ModifyParams demoEnv GoMap.empty "routePerc" "40" 77
        500).st.CacheParamsCommit.GetPercSer = 50 := by
  decide

/-! ## Emission, the foundation reward and the reward checkpoint -/

/-- C15 (the code at the failing input): with the parameters of the default
genesis (10 years, rate sustained 1 year, 420000000000 tokens to emit), where
the floating-point part of `RewardCurYear` gives 420000000000 for index 0 and
336000000000 for index 1, the sum of `RewardCurYear(i)` over the ten years is
greater than `GetChainTokenAmount()`. -/
theorem C15_emission_exceeds_amount (E : Env)
    (h0 : E.RewardFloat 10 420000000000 0 = 420000000000)
    (h1 : E.RewardFloat 10 420000000000 1 = 336000000000) :
    demoLedger.SysParams.GetRateSustainYears = 1 ∧ demoLedger.SysParams.GetTotalYears = 10 ∧
      demoLedger.SysParams.GetChainTokenAmount = 420000000000 ∧
      demoLedger.RewardCurYear E 0 = Except.ok 420000000000 ∧
      demoLedger.RewardCurYear E 1 = Except.ok 336000000000 ∧
      demoLedger.SysParams.GetChainTokenAmount < demoLedger.emissionSum E := by
  have ht : demoLedger.SysParams.GetChainTokenAmount = 420000000000 := by decide
  have hr : ∀ i, demoLedger.RewardCurYear E i = Except.ok (E.RewardFloat 10 420000000000 i) := by
    intro i
    simp only [samaState.RewardCurYear, ht]
    rfl
  refine ⟨by decide, by decide, ht, ?_, ?_, ?_⟩
  · rw [hr, h0]
  · rw [hr, h1]
  · have hy : demoLedger.SysParams.GetTotalYears = 10 := by decide
    simp only [samaState.emissionSum, hy, hr, ht]
    simp only [List.range_succ, List.range_zero, List.nil_append, List.map_append, List.map_cons,
      List.map_nil, List.sum_append, List.sum_cons, List.sum_nil, List.cons_append]
    have e0 : toUint32 0 = 0 := by decide
    have e1 : toUint32 1 = 1 := by decide
    rw [e0, e1, h0, h1]
    omega

theorem C15_emission_exceeds_amount_witness :
    demoFloatEnv.RewardFloat 10 420000000000 0 = 420000000000 ∧
      demoFloatEnv.RewardFloat 10 420000000000 1 = 336000000000 ∧
      demoLedger.SysParams.GetChainTokenAmount < demoLedger.emissionSum demoFloatEnv :=
  ⟨by decide, by decide,
    (C15_emission_exceeds_amount demoFloatEnv (by decide) (by decide)).2.2.2.2.2⟩

/-- On the demo ledger, whose foundation percentage is written as 40 in the
parameter record itself, and for an `endTime` 100 seconds after the chain was
created, the yearly loop of `FoundationReword` sums 5341 * 100 = 534100, and
`FoundationReword` returns 0: the sum of the loop is not what is returned. -/
theorem foundationReword_discards_sum :
    demoLedger.FoundationRewordLoop demoFloatEnv 1668125288 1668125388 [0] 0
        = Except.ok 534100 ∧
      demoLedger.FoundationReword demoFloatEnv 5 1668125388 = Except.ok 0 :=
  ⟨rfl, rfl⟩

/-- C19 (the code at the failing input): on a ledger with two route stakers
and the checkpoint at 0, `UpdateStakerReward` up to time 1668130288 returns nil
and `GetLastUpdateTime()` is still 0, also after `Commit`; a later
`UpdateStakerReward` up to the smaller time 1668129288 returns nil as well. -/
theorem C19_checkpoint_not_advanced :
    demoRewardLedger.StakersNum demoFloatEnv 2 = 2 ∧
      demoRewardLedger.RewardState.GetLastUpdateTime = 0 ∧
      (demoRewardLedger.UpdateStakerReward demoFloatEnv GoMap.empty 2 9 77 1668130288).err
        = none ∧
      (demoRewardLedger.UpdateStakerReward demoFloatEnv GoMap.empty 2 9 77
        1668130288).st.RewardState.GetLastUpdateTime = 0 ∧
      ((demoRewardLedger.UpdateStakerReward demoFloatEnv GoMap.empty 2 9 77
        1668130288).st.Commit demoFloatEnv).RewardState.GetLastUpdateTime = 0 ∧
      (((demoRewardLedger.UpdateStakerReward demoFloatEnv GoMap.empty 2 9 77
        1668130288).st.Commit demoFloatEnv).UpdateStakerReward demoFloatEnv GoMap.empty 2 9 78
          1668129288).err = none := by
  decide


/-! ## The closed form of StakerReword -/

theorem stakerRewordYear_eq (E : Env) (s : samaState) (stakerType roleNum : Nat)
    (address : Address) (startTime endTime percBase percMerit : Nat) (acc : RewardAcc) (i : Nat)
    (hchange : s.SysParams.GetRateSustainYears ≠ 0) (hdiv : mul64 roleNum SecondsYear ≠ 0) :
    s.StakerRewordYear E stakerType roleNum address startTime endTime percBase percMerit acc i =
      Except.ok (s.yearStep E stakerType roleNum address startTime endTime percBase percMerit
        acc i) := by
  simp only [samaState.StakerRewordYear, samaState.RewardCurYear, hchange, if_false, div64, hdiv,
    samaState.yearStep, samaState.baseRate, samaState.meritRate, samaState.roleTotalYear,
    samaState.yearSecs]
  by_cases hv : stakerType = stakerTypeValidator E
  · simp [hv]
  · simp only [hv, if_false, ne_eq, not_false_eq_true, if_true]
    by_cases ht : s.ChainTotalPowMinutes E stakerType = 0
    · simp [ht]
    · simp [ht]

theorem stakerRewordLoop_eq (E : Env) (s : samaState) (stakerType roleNum : Nat)
    (address : Address) (startTime endTime percBase percMerit : Nat)
    (hchange : s.SysParams.GetRateSustainYears ≠ 0) (hdiv : mul64 roleNum SecondsYear ≠ 0)
    (years : List Nat) (acc : RewardAcc) :
    samaState.StakerRewordLoop E s stakerType roleNum address startTime endTime percBase
        percMerit years acc =
      Except.ok (years.foldl
        (s.yearStep E stakerType roleNum address startTime endTime percBase percMerit) acc) := by
  induction years generalizing acc with
  | nil => rfl
  | cons i rest ih =>
    simp only [samaState.StakerRewordLoop, List.foldl_cons]
    rw [stakerRewordYear_eq E s stakerType roleNum address startTime endTime percBase percMerit
      acc i hchange hdiv]
    exact ih _

theorem stakerReword_eq (E : Env) (s : samaState) (stakerType roleNum : Nat)
    (address : Address) (stakeTime endTime : Nat)
    (hchange : s.SysParams.GetRateSustainYears ≠ 0) (hdiv : mul64 roleNum SecondsYear ≠ 0)
    (hn : roleNum % 2 ^ 64 ≠ 0) :
    s.StakerReword E stakerType roleNum address stakeTime endTime =
      Except.ok
        (((s.rewardYears (s.rewardStart address stakeTime) endTime).foldl
            (s.yearStep E stakerType roleNum address (s.rewardStart address stakeTime) endTime
              (s.rolePercBase E stakerType) (s.rolePercMerit E stakerType))
            ⟨(s.priorReward address).BaseReward, (s.priorReward address).MeritReward,
              0⟩).baseReward,
          ((s.rewardYears (s.rewardStart address stakeTime) endTime).foldl
            (s.yearStep E stakerType roleNum address (s.rewardStart address stakeTime) endTime
              (s.rolePercBase E stakerType) (s.rolePercMerit E stakerType))
            ⟨(s.priorReward address).BaseReward, (s.priorReward address).MeritReward,
              0⟩).meritReward,
          add64 (s.priorReward address).YieldReward
            (mul64 s.YieldsState.GetChainYields (s.StakePercentage E stakerType) / 100 /
              (roleNum % 2 ^ 64))) := by
  simp only [samaState.StakerReword, div64, hn, if_false]
  rw [stakerRewordLoop_eq E s stakerType roleNum address _ endTime _ _ hchange hdiv]
  cases hp : s.RewardState.GetRewardMeta address with
  | none =>
    simp only [samaState.rewardYears, samaState.rewardStart, samaState.priorReward, hp,
      samaState.rolePercBase, samaState.rolePercMerit]
    rfl
  | some r =>
    simp only [samaState.rewardYears, samaState.rewardStart, samaState.priorReward, hp,
      samaState.rolePercBase, samaState.rolePercMerit]

theorem yearStep_base (E : Env) (s : samaState) (stakerType roleNum : Nat)
    (address : Address) (startTime endTime percBase percMerit : Nat) (acc : RewardAcc) (i : Nat) :
    (s.yearStep E stakerType roleNum address startTime endTime percBase percMerit
        acc i).baseReward =
      add64 acc.baseReward (mul64 (s.baseRate E stakerType roleNum percBase i)
        (s.yearSecs startTime endTime i)) := by
  unfold samaState.yearStep
  split_ifs <;> rfl

theorem baseSum_cons (E : Env) (s : samaState) (stakerType roleNum percBase : Nat)
    (startTime endTime : Nat) (i : Nat) (rest : List Nat) :
    s.baseSum E stakerType roleNum percBase startTime endTime (i :: rest) =
      s.baseRate E stakerType roleNum percBase i * s.yearSecs startTime endTime i +
        s.baseSum E stakerType roleNum percBase startTime endTime rest := by
  simp [samaState.baseSum]

theorem foldl_yearStep_base (E : Env) (s : samaState) (stakerType roleNum : Nat)
    (address : Address) (startTime endTime percBase percMerit : Nat) (years : List Nat)
    (acc : RewardAcc)
    (h : acc.baseReward + s.baseSum E stakerType roleNum percBase startTime endTime years
      < 2 ^ 64) :
    (years.foldl (s.yearStep E stakerType roleNum address startTime endTime percBase percMerit)
        acc).baseReward =
      acc.baseReward + s.baseSum E stakerType roleNum percBase startTime endTime years := by
  induction years generalizing acc with
  | nil => simp [samaState.baseSum]
  | cons i rest ih =>
    rw [baseSum_cons] at h ⊢
    rw [List.foldl_cons]
    have hb : (s.yearStep E stakerType roleNum address startTime endTime percBase percMerit
        acc i).baseReward = acc.baseReward +
          s.baseRate E stakerType roleNum percBase i * s.yearSecs startTime endTime i := by
      rw [yearStep_base]
      unfold add64 mul64
      rw [Nat.mod_eq_of_lt (by omega :
        s.baseRate E stakerType roleNum percBase i * s.yearSecs startTime endTime i < 2 ^ 64),
        Nat.mod_eq_of_lt (by omega)]
    rw [ih _ (by rw [hb]; omega), hb]
    omega

/-- The base total of the loop modulo 2^64, whatever wraps. -/
theorem foldl_yearStep_base_mod (E : Env) (s : samaState) (stakerType roleNum : Nat)
    (address : Address) (startTime endTime percBase percMerit : Nat) (years : List Nat)
    (acc : RewardAcc) :
    (years.foldl (s.yearStep E stakerType roleNum address startTime endTime percBase percMerit)
        acc).baseReward % 2 ^ 64 =
      (acc.baseReward + s.baseSum E stakerType roleNum percBase startTime endTime years)
        % 2 ^ 64 := by
  induction years generalizing acc with
  | nil => simp [samaState.baseSum]
  | cons i rest ih =>
    rw [baseSum_cons, List.foldl_cons, ih, yearStep_base]
    unfold add64 mul64
    omega

theorem foldl_yearStep_base_lt (E : Env) (s : samaState) (stakerType roleNum : Nat)
    (address : Address) (startTime endTime percBase percMerit : Nat) (years : List Nat)
    (acc : RewardAcc) (h : acc.baseReward < 2 ^ 64) :
    (years.foldl (s.yearStep E stakerType roleNum address startTime endTime percBase percMerit)
        acc).baseReward < 2 ^ 64 := by
  induction years generalizing acc with
  | nil => simpa using h
  | cons i rest ih =>
    rw [List.foldl_cons]
    apply ih
    rw [yearStep_base]
    unfold add64
    exact Nat.mod_lt _ (by norm_num)

theorem meritIncs_cons (E : Env) (s : samaState) (stakerType percMerit : Nat)
    (startTime endTime : Nat) (i : Nat) (rest : List Nat) :
    s.meritIncs E stakerType percMerit startTime endTime (i :: rest) =
      (s.meritRate E stakerType percMerit i * s.yearSecs startTime endTime i) ::
        s.meritIncs E stakerType percMerit startTime endTime rest := by
  simp [samaState.meritIncs]

theorem foldl_yearStep_merit (E : Env) (s : samaState) (stakerType roleNum : Nat)
    (address : Address) (startTime endTime percBase percMerit : Nat)
    (hv : stakerType ≠ stakerTypeValidator E) (years : List Nat) (acc : RewardAcc)
    (hinc : acc.meritInc + (s.meritIncs E stakerType percMerit startTime endTime years).sum
      < 2 ^ 64)
    (hu : (acc.meritInc + (s.meritIncs E stakerType percMerit startTime endTime years).sum) *
      s.StakePowMinutes E stakerType address < 2 ^ 64)
    (hm : acc.meritReward + meritSum (s.StakePowMinutes E stakerType address)
      (s.ChainTotalPowMinutes E stakerType)
      (s.meritIncs E stakerType percMerit startTime endTime years) acc.meritInc < 2 ^ 64) :
    (years.foldl (s.yearStep E stakerType roleNum address startTime endTime percBase percMerit)
        acc).meritReward =
      acc.meritReward + meritSum (s.StakePowMinutes E stakerType address)
        (s.ChainTotalPowMinutes E stakerType)
        (s.meritIncs E stakerType percMerit startTime endTime years) acc.meritInc := by
  induction years generalizing acc with
  | nil => simp [samaState.meritIncs, meritSum]
  | cons i rest ih =>
    rw [meritIncs_cons] at hinc hu hm ⊢
    rw [List.sum_cons] at hinc hu
    simp only [meritSum] at hm ⊢
    rw [List.foldl_cons]
    generalize hx : s.meritRate E stakerType percMerit i * s.yearSecs startTime endTime i = x
      at hinc hu hm ⊢
    generalize hU : s.StakePowMinutes E stakerType address = u at hu hm ⊢
    generalize hT : s.ChainTotalPowMinutes E stakerType = T at hm ⊢
    generalize hS : (s.meritIncs E stakerType percMerit startTime endTime rest).sum = S
      at hinc hu
    have hle : (acc.meritInc + x) * u ≤ (acc.meritInc + (x + S)) * u :=
      Nat.mul_le_mul_right u (by omega)
    have hi : (s.yearStep E stakerType roleNum address startTime endTime percBase percMerit
        acc i).meritInc = acc.meritInc + x := by
      simp only [samaState.yearStep, hv, if_false, add64, mul64, hx]
      rw [Nat.mod_eq_of_lt (by omega : x < 2 ^ 64), Nat.mod_eq_of_lt (by omega)]
    have hr : (s.yearStep E stakerType roleNum address startTime endTime percBase percMerit
        acc i).meritReward = acc.meritReward + (acc.meritInc + x) * u / T := by
      simp only [samaState.yearStep, hv, if_false, add64, mul64, hx, hU, hT]
      rw [Nat.mod_eq_of_lt (by omega : x < 2 ^ 64),
        Nat.mod_eq_of_lt (by omega : acc.meritInc + x < 2 ^ 64),
        Nat.mod_eq_of_lt (by omega : (acc.meritInc + x) * u < 2 ^ 64)]
      by_cases hT0 : T = 0
      · subst hT0
        simp
      · simp only [ne_eq, hT0, not_false_eq_true, if_true]
        exact Nat.mod_eq_of_lt (by omega)
    rw [ih _ (by rw [hi, hS]; omega) (by rw [hi, hS, hU]; rw [Nat.add_assoc]; exact hu)
      (by rw [hi, hr, hU, hT]; omega), hi, hr, hU, hT]
    omega

theorem foldl_yearStep_validator (E : Env) (s : samaState) (stakerType roleNum : Nat)
    (address : Address) (startTime endTime percBase percMerit : Nat)
    (hv : stakerType = stakerTypeValidator E) (years : List Nat) (acc : RewardAcc)
    (h : years ≠ [] ∨ acc.meritReward = 0) :
    (years.foldl (s.yearStep E stakerType roleNum address startTime endTime percBase percMerit)
        acc).meritReward = 0 := by
  induction years generalizing acc with
  | nil => simpa using h
  | cons i rest ih =>
    rw [List.foldl_cons]
    apply ih
    right
    simp [samaState.yearStep, hv]

/-- The result of `StakerReword` when no addition or multiplication of the run
overflows: the prior totals plus the unbounded sums. -/
theorem stakerReword_exact (E : Env) (s : samaState) (stakerType n : Nat)
    (address : Address) (stakeTime endTime : Nat)
    (hchange : s.SysParams.GetRateSustainYears ≠ 0)
    (hn1 : 1 ≤ n) (hn2 : n * SecondsYear < 2 ^ 64)
    (hy1 : s.YieldsState.GetChainYields * s.StakePercentage E stakerType < 2 ^ 64)
    (hy2 : (s.priorReward address).YieldReward + s.yieldShare E stakerType n < 2 ^ 64)
    (hb : (s.priorReward address).BaseReward +
      s.baseSum E stakerType n (s.rolePercBase E stakerType) (s.rewardStart address stakeTime)
        endTime (s.rewardYears (s.rewardStart address stakeTime) endTime) < 2 ^ 64)
    (hinc : (s.meritIncs E stakerType (s.rolePercMerit E stakerType)
      (s.rewardStart address stakeTime) endTime
      (s.rewardYears (s.rewardStart address stakeTime) endTime)).sum < 2 ^ 64)
    (hu : (s.meritIncs E stakerType (s.rolePercMerit E stakerType)
      (s.rewardStart address stakeTime) endTime
      (s.rewardYears (s.rewardStart address stakeTime) endTime)).sum *
        s.StakePowMinutes E stakerType address < 2 ^ 64)
    (hm : (s.priorReward address).MeritReward +
      meritSum (s.StakePowMinutes E stakerType address) (s.ChainTotalPowMinutes E stakerType)
        (s.meritIncs E stakerType (s.rolePercMerit E stakerType)
          (s.rewardStart address stakeTime) endTime
          (s.rewardYears (s.rewardStart address stakeTime) endTime)) 0 < 2 ^ 64) :
    ∃ m, s.StakerReword E stakerType n address stakeTime endTime =
        Except.ok ((s.priorReward address).BaseReward +
          s.baseSum E stakerType n (s.rolePercBase E stakerType)
            (s.rewardStart address stakeTime) endTime
            (s.rewardYears (s.rewardStart address stakeTime) endTime), m,
          (s.priorReward address).YieldReward + s.yieldShare E stakerType n) ∧
      (stakerType ≠ stakerTypeValidator E →
        m = (s.priorReward address).MeritReward +
          meritSum (s.StakePowMinutes E stakerType address)
            (s.ChainTotalPowMinutes E stakerType)
            (s.meritIncs E stakerType (s.rolePercMerit E stakerType)
              (s.rewardStart address stakeTime) endTime
              (s.rewardYears (s.rewardStart address stakeTime) endTime)) 0) := by
  have hY : SecondsYear = 31449600 := by decide
  have hnlt : n < 2 ^ 64 := by rw [hY] at hn2; omega
  have hmod : n % 2 ^ 64 = n := Nat.mod_eq_of_lt hnlt
  have hdiv : mul64 n SecondsYear ≠ 0 := by
    unfold mul64
    rw [Nat.mod_eq_of_lt hn2, hY]
    omega
  have hn : n % 2 ^ 64 ≠ 0 := by rw [hmod]; omega
  rw [stakerReword_eq E s stakerType n address stakeTime endTime hchange hdiv hn]
  have hbase := foldl_yearStep_base E s stakerType n address (s.rewardStart address stakeTime)
    endTime (s.rolePercBase E stakerType) (s.rolePercMerit E stakerType)
    (s.rewardYears (s.rewardStart address stakeTime) endTime)
    ⟨(s.priorReward address).BaseReward, (s.priorReward address).MeritReward, 0⟩ hb
  have hyield : add64 (s.priorReward address).YieldReward
      (mul64 s.YieldsState.GetChainYields (s.StakePercentage E stakerType) / 100 /
        (n % 2 ^ 64)) = (s.priorReward address).YieldReward + s.yieldShare E stakerType n := by
    unfold add64 mul64
    rw [hmod, Nat.mod_eq_of_lt hy1]
    exact Nat.mod_eq_of_lt hy2
  rw [hbase, hyield]
  exact ⟨_, rfl, fun hv =>
    foldl_yearStep_merit E s stakerType n address _ endTime _ _ hv _ _
      (by simpa using hinc) (by simpa using hu) hm⟩

/-- C16: for a role count `n >= 1` and a non-zero `RateSustainYears`, when no
addition or multiplication of the run overflows 64 bits (the yield product and
sum, `n * SecondsYear`, and the unbounded yearly sums added to the prior
totals), `StakerReword` returns a triple `(base, merit, yield)` with
`yield = prior YieldReward (0 without a record) +
(GetChainYields() * rolePercentage / 100) / n`, with `base` at least the prior
`BaseReward`, and for the route and service roles with `merit` at least the
prior `MeritReward`. -/
theorem C16_yield_and_carried_totals (E : Env) (hE : E.valid) (s : samaState)
    (stakerType n : Nat) (address : Address) (stakeTime endTime : Nat)
    (hchange : s.SysParams.GetRateSustainYears ≠ 0)
    (hn1 : 1 ≤ n) (hn2 : n * SecondsYear < 2 ^ 64)
    (hy1 : s.YieldsState.GetChainYields * s.StakePercentage E stakerType < 2 ^ 64)
    (hy2 : (s.priorReward address).YieldReward + s.yieldShare E stakerType n < 2 ^ 64)
    (hb : (s.priorReward address).BaseReward +
      s.baseSum E stakerType n (s.rolePercBase E stakerType) (s.rewardStart address stakeTime)
        endTime (s.rewardYears (s.rewardStart address stakeTime) endTime) < 2 ^ 64)
    (hinc : (s.meritIncs E stakerType (s.rolePercMerit E stakerType)
      (s.rewardStart address stakeTime) endTime
      (s.rewardYears (s.rewardStart address stakeTime) endTime)).sum < 2 ^ 64)
    (hu : (s.meritIncs E stakerType (s.rolePercMerit E stakerType)
      (s.rewardStart address stakeTime) endTime
      (s.rewardYears (s.rewardStart address stakeTime) endTime)).sum *
        s.StakePowMinutes E stakerType address < 2 ^ 64)
    (hm : (s.priorReward address).MeritReward +
      meritSum (s.StakePowMinutes E stakerType address) (s.ChainTotalPowMinutes E stakerType)
        (s.meritIncs E stakerType (s.rolePercMerit E stakerType)
          (s.rewardStart address stakeTime) endTime
          (s.rewardYears (s.rewardStart address stakeTime) endTime)) 0 < 2 ^ 64) :
    ∃ base merit yield,
      s.StakerReword E stakerType n address stakeTime endTime = Except.ok (base, merit, yield) ∧
      yield = (s.priorReward address).YieldReward +
        s.YieldsState.GetChainYields * s.StakePercentage E stakerType / 100 / n ∧
      (s.priorReward address).BaseReward ≤ base ∧
      (stakerType = stakerTypeRoute E ∨ stakerType = stakerTypeSer E →
        (s.priorReward address).MeritReward ≤ merit) := by
  obtain ⟨m, hres, hmerit⟩ := stakerReword_exact E s stakerType n address stakeTime endTime
    hchange hn1 hn2 hy1 hy2 hb hinc hu hm
  refine ⟨_, m, _, hres, rfl, Nat.le_add_right _ _, ?_⟩
  intro hrole
  have hv : stakerType ≠ stakerTypeValidator E := by
    obtain ⟨_, _, _, _, h13, h23⟩ := hE
    rcases hrole with h | h
    · rw [h]
      exact h13
    · rw [h]
      exact h23
  rw [hmerit hv]
  exact Nat.le_add_right _ _

theorem C16_yield_and_carried_totals_witness :
    ∃ base merit yield,
      demoRewardLedger.StakerReword demoFloatEnv 2 2 7 1668126288 1668130288 =
        Except.ok (base, merit, yield) ∧
      yield = (demoRewardLedger.priorReward 7).YieldReward +
        demoRewardLedger.YieldsState.GetChainYields *
          demoRewardLedger.StakePercentage demoFloatEnv 2 / 100 / 2 ∧
      (demoRewardLedger.priorReward 7).BaseReward ≤ base ∧
      (2 = stakerTypeRoute demoFloatEnv ∨ 2 = stakerTypeSer demoFloatEnv →
        (demoRewardLedger.priorReward 7).MeritReward ≤ merit) :=
  C16_yield_and_carried_totals demoFloatEnv (by decide) demoRewardLedger 2 2 7 1668126288
    1668130288 (by decide) (by decide) (by decide) (by decide) (by decide) (by decide)
    (by decide) (by decide) (by decide)


/-! ## Additivity of the base reward -/

theorem secondsYear_eq : SecondsYear = 31449600 := by decide

/-- Without wrap-around the seconds counted for a year `i` between the years
of `a` and `b` are the overlap of `[a, b]` with the year slice. -/
theorem yearSecs_eq (s : samaState) (a b i : Nat)
    (hc : s.SysParams.GetChainCreateTime ≤ a) (hab : a ≤ b) (hend : b + SecondsYear < 2 ^ 64)
    (hlo : (a - s.SysParams.GetChainCreateTime) / SecondsYear ≤ i)
    (hi : i ≤ (b - s.SysParams.GetChainCreateTime) / SecondsYear) :
    s.yearSecs a b i =
      (if s.SysParams.GetChainCreateTime + (i + 1) * SecondsYear < b then
          s.SysParams.GetChainCreateTime + (i + 1) * SecondsYear
        else b) -
        (if s.SysParams.GetChainCreateTime + i * SecondsYear > a then
          s.SysParams.GetChainCreateTime + i * SecondsYear
        else a) := by
  unfold samaState.yearSecs workSecsOf add64 mul64 sub64
  generalize s.SysParams.GetChainCreateTime = c at hc hi hlo ⊢
  rw [secondsYear_eq] at hend hi hlo ⊢
  have h1 : i * 31449600 ≤ b - c := by
    have := Nat.div_mul_le_self (b - c) 31449600
    have := Nat.mul_le_mul_right 31449600 hi
    omega
  have e1 : i * 31449600 % 2 ^ 64 = i * 31449600 := by omega
  have e2 : (i + 1) % 2 ^ 64 = i + 1 := by omega
  have e3 : (i + 1) * 31449600 % 2 ^ 64 = (i + 1) * 31449600 := by omega
  have e4 : (c + i * 31449600) % 2 ^ 64 = c + i * 31449600 := by omega
  have e5 : (c + (i + 1) * 31449600) % 2 ^ 64 = c + (i + 1) * 31449600 := by omega
  rw [e2, e1, e3, e4, e5]
  split_ifs <;> omega

theorem yearSecs_before (s : samaState) (a b d i : Nat)
    (hc : s.SysParams.GetChainCreateTime ≤ a) (hab : a ≤ b) (hbd : b ≤ d)
    (hend : d + SecondsYear < 2 ^ 64)
    (hlo : (a - s.SysParams.GetChainCreateTime) / SecondsYear ≤ i)
    (hi : i < (b - s.SysParams.GetChainCreateTime) / SecondsYear) :
    s.yearSecs a d i = s.yearSecs a b i := by
  have hi2 : i ≤ (d - s.SysParams.GetChainCreateTime) / SecondsYear :=
    le_trans (Nat.le_of_lt hi) (Nat.div_le_div_right (by omega))
  have hY := secondsYear_eq
  rw [yearSecs_eq s a d i hc (by omega) hend hlo hi2,
    yearSecs_eq s a b i hc hab (by omega) hlo (Nat.le_of_lt hi)]
  generalize s.SysParams.GetChainCreateTime = c at hc hi hi2 hlo ⊢
  rw [secondsYear_eq] at hend hi hi2 hlo ⊢
  split_ifs <;> omega

theorem yearSecs_at (s : samaState) (a b d : Nat)
    (hc : s.SysParams.GetChainCreateTime ≤ a) (hab : a ≤ b) (hbd : b ≤ d)
    (hend : d + SecondsYear < 2 ^ 64) :
    s.yearSecs a d ((b - s.SysParams.GetChainCreateTime) / SecondsYear) =
      s.yearSecs a b ((b - s.SysParams.GetChainCreateTime) / SecondsYear) +
        s.yearSecs b d ((b - s.SysParams.GetChainCreateTime) / SecondsYear) := by
  have hi1 : (a - s.SysParams.GetChainCreateTime) / SecondsYear ≤
      (b - s.SysParams.GetChainCreateTime) / SecondsYear := Nat.div_le_div_right (by omega)
  have hi2 : (b - s.SysParams.GetChainCreateTime) / SecondsYear ≤
      (d - s.SysParams.GetChainCreateTime) / SecondsYear := Nat.div_le_div_right (by omega)
  have hY := secondsYear_eq
  rw [yearSecs_eq s a d _ hc (by omega) hend hi1 hi2,
    yearSecs_eq s a b _ hc hab (by omega) hi1 (Nat.le_refl _),
    yearSecs_eq s b d _ (by omega) hbd hend (Nat.le_refl _) hi2]
  generalize s.SysParams.GetChainCreateTime = c at hc hi1 hi2 ⊢
  rw [secondsYear_eq] at hend hi1 hi2 ⊢
  split_ifs <;> omega

theorem yearSecs_after (s : samaState) (a b d i : Nat)
    (hc : s.SysParams.GetChainCreateTime ≤ a) (hab : a ≤ b) (hbd : b ≤ d)
    (hend : d + SecondsYear < 2 ^ 64)
    (hi1 : (b - s.SysParams.GetChainCreateTime) / SecondsYear < i)
    (hi2 : i ≤ (d - s.SysParams.GetChainCreateTime) / SecondsYear) :
    s.yearSecs a d i = s.yearSecs b d i := by
  have hi0 : (a - s.SysParams.GetChainCreateTime) / SecondsYear ≤
      (b - s.SysParams.GetChainCreateTime) / SecondsYear := Nat.div_le_div_right (by omega)
  have hY := secondsYear_eq
  rw [yearSecs_eq s a d i hc (by omega) hend (by omega) hi2,
    yearSecs_eq s b d i (by omega) hbd hend (by omega) hi2]
  generalize s.SysParams.GetChainCreateTime = c at hc hi0 hi1 hi2 ⊢
  rw [secondsYear_eq] at hend hi1 hi2 hi0 ⊢
  split_ifs <;> omega

theorem baseSum_append (E : Env) (s : samaState) (stakerType roleNum percBase : Nat)
    (a b : Nat) (l1 l2 : List Nat) :
    s.baseSum E stakerType roleNum percBase a b (l1 ++ l2) =
      s.baseSum E stakerType roleNum percBase a b l1 +
        s.baseSum E stakerType roleNum percBase a b l2 := by
  simp [samaState.baseSum]

theorem baseSum_congr (E : Env) (s : samaState) (stakerType roleNum percBase : Nat)
    (a b a2 b2 : Nat) (l : List Nat)
    (h : ∀ i ∈ l, s.yearSecs a b i = s.yearSecs a2 b2 i) :
    s.baseSum E stakerType roleNum percBase a b l =
      s.baseSum E stakerType roleNum percBase a2 b2 l := by
  unfold samaState.baseSum
  congr 1
  apply List.map_congr_left
  intro i hi
  rw [h i hi]

theorem rewardYears_eq (s : samaState) (a b : Nat)
    (hc : s.SysParams.GetChainCreateTime ≤ a) (hab : a ≤ b) (hend : b < 2 ^ 64) :
    s.rewardYears a b =
      List.range' ((a - s.SysParams.GetChainCreateTime) / SecondsYear)
        ((b - s.SysParams.GetChainCreateTime) / SecondsYear + 1 -
          (a - s.SysParams.GetChainCreateTime) / SecondsYear) := by
  unfold samaState.rewardYears sub64
  have e1 : (a % 2 ^ 64 + 2 ^ 64 - s.SysParams.GetChainCreateTime % 2 ^ 64) % 2 ^ 64 =
      a - s.SysParams.GetChainCreateTime := by omega
  have e2 : (b % 2 ^ 64 + 2 ^ 64 - s.SysParams.GetChainCreateTime % 2 ^ 64) % 2 ^ 64 =
      b - s.SysParams.GetChainCreateTime := by omega
  rw [e1, e2]

theorem range_split (ya yb yd : Nat) (h1 : ya ≤ yb) (h2 : yb ≤ yd) :
    List.range' ya (yd + 1 - ya) =
      List.range' ya (yb - ya) ++ (yb :: List.range' (yb + 1) (yd - yb)) ∧
    List.range' ya (yb + 1 - ya) = List.range' ya (yb - ya) ++ [yb] ∧
    List.range' yb (yd + 1 - yb) = yb :: List.range' (yb + 1) (yd - yb) := by
  have e3 : List.range' yb (yd + 1 - yb) = yb :: List.range' (yb + 1) (yd - yb) := by
    have : yd + 1 - yb = (yd - yb) + 1 := by omega
    rw [this, List.range'_succ]
  have e2 : List.range' ya (yb + 1 - ya) = List.range' ya (yb - ya) ++ [yb] := by
    have : yb + 1 - ya = (yb - ya) + 1 := by omega
    rw [this, List.range'_concat]
    congr 2
    omega
  refine ⟨?_, e2, e3⟩
  rw [← e3]
  have h := List.range'_append ya (yb - ya) (yd + 1 - yb) 1
  have e4 : ya + 1 * (yb - ya) = yb := by omega
  have e5 : yd + 1 - yb + (yb - ya) = yd + 1 - ya := by omega
  rw [e4, e5] at h
  exact h.symm

/-- The unbounded base sum over `[a, d]` is the sum over `[a, b]` plus the sum
over `[b, d]`, for `a <= b <= d` without wrap-around of the times. -/
theorem baseSum_split (E : Env) (s : samaState) (stakerType roleNum percBase : Nat)
    (a b d : Nat) (hc : s.SysParams.GetChainCreateTime ≤ a) (hab : a ≤ b) (hbd : b ≤ d)
    (hend : d + SecondsYear < 2 ^ 64) :
    s.baseSum E stakerType roleNum percBase a d (s.rewardYears a d) =
      s.baseSum E stakerType roleNum percBase a b (s.rewardYears a b) +
        s.baseSum E stakerType roleNum percBase b d (s.rewardYears b d) := by
  have hY := secondsYear_eq
  have hi1 : (a - s.SysParams.GetChainCreateTime) / SecondsYear ≤
      (b - s.SysParams.GetChainCreateTime) / SecondsYear := Nat.div_le_div_right (by omega)
  have hi2 : (b - s.SysParams.GetChainCreateTime) / SecondsYear ≤
      (d - s.SysParams.GetChainCreateTime) / SecondsYear := Nat.div_le_div_right (by omega)
  rw [rewardYears_eq s a d hc (by omega) (by omega), rewardYears_eq s a b hc hab (by omega),
    rewardYears_eq s b d (by omega) hbd (by omega)]
  obtain ⟨e1, e2, e3⟩ := range_split _ _ _ hi1 hi2
  rw [e1, e2, e3, baseSum_append, baseSum_append]
  have hbefore : s.baseSum E stakerType roleNum percBase a d
      (List.range' ((a - s.SysParams.GetChainCreateTime) / SecondsYear)
        ((b - s.SysParams.GetChainCreateTime) / SecondsYear -
          (a - s.SysParams.GetChainCreateTime) / SecondsYear)) =
      s.baseSum E stakerType roleNum percBase a b
      (List.range' ((a - s.SysParams.GetChainCreateTime) / SecondsYear)
        ((b - s.SysParams.GetChainCreateTime) / SecondsYear -
          (a - s.SysParams.GetChainCreateTime) / SecondsYear)) := by
    apply baseSum_congr
    intro i hi
    rw [List.mem_range'_1] at hi
    exact yearSecs_before s a b d i hc hab hbd hend hi.1 (by omega)
  have hafter : s.baseSum E stakerType roleNum percBase a d
      (List.range' ((b - s.SysParams.GetChainCreateTime) / SecondsYear + 1)
        ((d - s.SysParams.GetChainCreateTime) / SecondsYear -
          (b - s.SysParams.GetChainCreateTime) / SecondsYear)) =
      s.baseSum E stakerType roleNum percBase b d
      (List.range' ((b - s.SysParams.GetChainCreateTime) / SecondsYear + 1)
        ((d - s.SysParams.GetChainCreateTime) / SecondsYear -
          (b - s.SysParams.GetChainCreateTime) / SecondsYear)) := by
    apply baseSum_congr
    intro i hi
    rw [List.mem_range'_1] at hi
    exact yearSecs_after s a b d i hc hab hbd hend (by omega) (by omega)
  rw [baseSum_cons, baseSum_cons, baseSum_cons, hbefore, hafter,
    yearSecs_at s a b d hc hab hbd hend]
  simp only [samaState.baseSum, List.map_nil, List.sum_nil]
  rw [Nat.mul_add]
  omega

theorem foldl_yearStep_base_lt_of_ne_nil (E : Env) (s : samaState) (stakerType roleNum : Nat)
    (address : Address) (startTime endTime percBase percMerit : Nat) (years : List Nat)
    (acc : RewardAcc) (h : years ≠ []) :
    (years.foldl (s.yearStep E stakerType roleNum address startTime endTime percBase percMerit)
        acc).baseReward < 2 ^ 64 := by
  cases years with
  | nil => exact absurd rfl h
  | cons i rest =>
    rw [List.foldl_cons]
    apply foldl_yearStep_base_lt
    rw [yearStep_base]
    unfold add64
    exact Nat.mod_lt _ (by norm_num)

theorem rewardYears_ne_nil (s : samaState) (a b : Nat)
    (hc : s.SysParams.GetChainCreateTime ≤ a) (hab : a ≤ b) (hend : b < 2 ^ 64) :
    s.rewardYears a b ≠ [] := by
  rw [rewardYears_eq s a b hc hab hend]
  have h : (a - s.SysParams.GetChainCreateTime) / SecondsYear ≤
      (b - s.SysParams.GetChainCreateTime) / SecondsYear := Nat.div_le_div_right (by omega)
  intro h0
  have hl := congrArg List.length h0
  rw [List.length_range'] at hl
  simp only [List.length_nil] at hl
  omega

theorem storeReward_prior (s : samaState) (address : Address) (base merit yield t : Nat)
    (txID : ID) (stakeTime : Nat) :
    (s.storeReward address base merit yield t txID).priorReward address =
        ⟨yield, base, merit, t, txID, t, txID, address⟩ ∧
      (s.storeReward address base merit yield t txID).rewardStart address stakeTime = t := by
  simp [samaState.priorReward, samaState.rewardStart, samaState.storeReward,
    rewardState.GetRewardMeta, GoMap.get_put]

/-- The closed form of `StakerReword` on the ledger in which an earlier result
was stored as the address's record. -/
theorem stakerReword_storeReward (E : Env) (s : samaState) (stakerType n : Nat)
    (address : Address) (stakeTime t1 t2 b1 m1 y1 : Nat) (txID : ID)
    (hchange : s.SysParams.GetRateSustainYears ≠ 0) (hdiv : mul64 n SecondsYear ≠ 0)
    (hn : n % 2 ^ 64 ≠ 0) :
    (s.storeReward address b1 m1 y1 t1 txID).StakerReword E stakerType n address stakeTime t2 =
      Except.ok
        (((s.rewardYears t1 t2).foldl
            (s.yearStep E stakerType n address t1 t2
              (s.rolePercBase E stakerType) (s.rolePercMerit E stakerType))
            ⟨b1, m1, 0⟩).baseReward,
          ((s.rewardYears t1 t2).foldl
            (s.yearStep E stakerType n address t1 t2
              (s.rolePercBase E stakerType) (s.rolePercMerit E stakerType))
            ⟨b1, m1, 0⟩).meritReward,
          add64 y1 (mul64 s.YieldsState.GetChainYields (s.StakePercentage E stakerType) / 100 /
              (n % 2 ^ 64))) := by
  rw [stakerReword_eq E (s.storeReward address b1 m1 y1 t1 txID) stakerType n address stakeTime
    t2 hchange hdiv hn]
  obtain ⟨hp, hs⟩ := storeReward_prior s address b1 m1 y1 t1 txID stakeTime
  rw [hp, hs]
  rfl

/-- C14 (amended): for `t0 < t1 < t2` without wrap-around of the times, where
`t0` is the start time of the address, a role count `n >= 1` and a non-zero
`RateSustainYears`: `StakerReword` up to `t1`, its result stored as the
address's record with `LastOprTime = t1`, and then `StakerReword` up to `t2`
gives the same base as the single computation from `t0` up to `t2`, the same
merit for the validator role, and a yield that is the single computation's
plus one more share of the yield pool. -/
theorem C14_reward_additivity (E : Env) (s : samaState) (stakerType n : Nat)
    (address : Address) (stakeTime t1 t2 : Nat) (txID : ID)
    (hchange : s.SysParams.GetRateSustainYears ≠ 0)
    (hn1 : 1 ≤ n) (hn2 : n * SecondsYear < 2 ^ 64)
    (hc : s.SysParams.GetChainCreateTime ≤ s.rewardStart address stakeTime)
    (h01 : s.rewardStart address stakeTime < t1) (h12 : t1 < t2)
    (hend : t2 + SecondsYear < 2 ^ 64) :
    ∃ b1 m1 y1 b m y m2,
      s.StakerReword E stakerType n address stakeTime t1 = Except.ok (b1, m1, y1) ∧
      s.StakerReword E stakerType n address stakeTime t2 = Except.ok (b, m, y) ∧
      (s.storeReward address b1 m1 y1 t1 txID).StakerReword E stakerType n address stakeTime t2 =
        Except.ok (b, m2, add64 y
          (mul64 s.YieldsState.GetChainYields (s.StakePercentage E stakerType) / 100 / n)) ∧
      (stakerType = stakerTypeValidator E → m2 = m) := by
  have hY := secondsYear_eq
  have hnlt : n < 2 ^ 64 := by rw [hY] at hn2; omega
  have hmod : n % 2 ^ 64 = n := Nat.mod_eq_of_lt hnlt
  have hdiv : mul64 n SecondsYear ≠ 0 := by
    unfold mul64
    rw [Nat.mod_eq_of_lt hn2, hY]
    omega
  have hn : n % 2 ^ 64 ≠ 0 := by rw [hmod]; omega
  obtain ⟨r1, hr1⟩ : ∃ r1, r1 = (s.rewardYears (s.rewardStart address stakeTime) t1).foldl
      (s.yearStep E stakerType n address (s.rewardStart address stakeTime) t1
        (s.rolePercBase E stakerType) (s.rolePercMerit E stakerType))
      ⟨(s.priorReward address).BaseReward, (s.priorReward address).MeritReward, 0⟩ := ⟨_, rfl⟩
  have h1 := stakerReword_eq E s stakerType n address stakeTime t1 hchange hdiv hn
  rw [← hr1] at h1
  refine ⟨r1.baseReward, r1.meritReward, _, _, _, _,
    ((s.rewardYears t1 t2).foldl
      (s.yearStep E stakerType n address t1 t2
        (s.rolePercBase E stakerType) (s.rolePercMerit E stakerType))
      ⟨r1.baseReward, r1.meritReward, 0⟩).meritReward, h1,
    stakerReword_eq E s stakerType n address stakeTime t2 hchange hdiv hn, ?_, ?_⟩
  · rw [stakerReword_storeReward E s stakerType n address stakeTime t1 t2 _ _ _ txID hchange hdiv
      hn, hmod]
    congr 1
    refine Prod.ext ?_ (Prod.ext rfl ?_)
    · show _ = _
      have hne1 := rewardYears_ne_nil s (s.rewardStart address stakeTime) t1 hc (by omega)
        (by omega)
      have hne2 := rewardYears_ne_nil s (s.rewardStart address stakeTime) t2 hc (by omega)
        (by omega)
      have hne3 := rewardYears_ne_nil s t1 t2 (by omega) (by omega) (by omega)
      have l1 := foldl_yearStep_base_lt_of_ne_nil E s stakerType n address
        (s.rewardStart address stakeTime) t1 (s.rolePercBase E stakerType)
        (s.rolePercMerit E stakerType) _
        ⟨(s.priorReward address).BaseReward, (s.priorReward address).MeritReward, 0⟩ hne1
      have l2 := foldl_yearStep_base_lt_of_ne_nil E s stakerType n address
        (s.rewardStart address stakeTime) t2 (s.rolePercBase E stakerType)
        (s.rolePercMerit E stakerType) _
        ⟨(s.priorReward address).BaseReward, (s.priorReward address).MeritReward, 0⟩ hne2
      have e1 := foldl_yearStep_base_mod E s stakerType n address
        (s.rewardStart address stakeTime) t1 (s.rolePercBase E stakerType)
        (s.rolePercMerit E stakerType) (s.rewardYears (s.rewardStart address stakeTime) t1)
        ⟨(s.priorReward address).BaseReward, (s.priorReward address).MeritReward, 0⟩
      have e2 := foldl_yearStep_base_mod E s stakerType n address
        (s.rewardStart address stakeTime) t2 (s.rolePercBase E stakerType)
        (s.rolePercMerit E stakerType) (s.rewardYears (s.rewardStart address stakeTime) t2)
        ⟨(s.priorReward address).BaseReward, (s.priorReward address).MeritReward, 0⟩
      have hsplit := baseSum_split E s stakerType n (s.rolePercBase E stakerType)
        (s.rewardStart address stakeTime) t1 t2 hc (by omega) (by omega) hend
      rw [← hr1] at l1 e1
      have l3 := foldl_yearStep_base_lt_of_ne_nil E s stakerType n address t1 t2
        (s.rolePercBase E stakerType) (s.rolePercMerit E stakerType) _
        ⟨r1.baseReward, r1.meritReward, 0⟩ hne3
      have e3 := foldl_yearStep_base_mod E s stakerType n address t1 t2
        (s.rolePercBase E stakerType) (s.rolePercMerit E stakerType) (s.rewardYears t1 t2)
        ⟨r1.baseReward, r1.meritReward, 0⟩
      simp only [] at e1 e2 e3
      omega
    · rfl
  · intro hv
    have hne2 := rewardYears_ne_nil s (s.rewardStart address stakeTime) t2 hc (by omega)
      (by omega)
    have hne3 := rewardYears_ne_nil s t1 t2 (by omega) (by omega) (by omega)
    rw [foldl_yearStep_validator E s stakerType n address _ t2 _ _ hv _ _ (Or.inl hne3),
      foldl_yearStep_validator E s stakerType n address _ t2 _ _ hv _ _ (Or.inl hne2)]

theorem C14_reward_additivity_witness :
    ∃ b1 m1 y1 b m y m2,
      demoRewardLedger.StakerReword demoFloatEnv 2 2 7 1668126288 1668126290 =
        Except.ok (b1, m1, y1) ∧
      demoRewardLedger.StakerReword demoFloatEnv 2 2 7 1668126288 1668126291 =
        Except.ok (b, m, y) ∧
      (demoRewardLedger.storeReward 7 b1 m1 y1 1668126290 77).StakerReword demoFloatEnv 2 2 7
          1668126288 1668126291 =
        Except.ok (b, m2, add64 y
          (mul64 demoRewardLedger.YieldsState.GetChainYields
            (demoRewardLedger.StakePercentage demoFloatEnv 2) / 100 / 2)) ∧
      (2 = stakerTypeValidator demoFloatEnv → m2 = m) :=
  C14_reward_additivity demoFloatEnv demoRewardLedger 2 2 7 1668126288 1668126290 1668126291 77
    (by decide) (by decide) (by decide) (by decide) (by decide) (by decide) (by decide)

/-- For route staker 7 of the demo ledger, staked at 1668126288: the single
computation up to 1668126291 gives (1200, 3205, 150); the computation up to
1668126290 gives (800, 2136, 150), and with that stored as the record the
computation up to 1668126291 gives (1200, 3204, 300): the yield share is added
a second time and the merit is rounded down twice. -/
theorem C14_reward_additivity_counterexample :
    demoRewardLedger.StakerReword demoFloatEnv 2 2 7 1668126288 1668126291 =
        Except.ok (1200, 3205, 150) ∧
      demoRewardLedger.StakerReword demoFloatEnv 2 2 7 1668126288 1668126290 =
        Except.ok (800, 2136, 150) ∧
      (demoRewardLedger.storeReward 7 800 2136 150 1668126290 77).StakerReword demoFloatEnv 2 2 7
          1668126288 1668126291 = Except.ok (1200, 3204, 300) :=
  ⟨rfl, rfl, rfl⟩


/-! ## Monotone reward records -/

theorem withPendingRewards_self (s : samaState) :
    s.withPendingRewards s.RewardState.pendingRewardsAdd s.RewardState.pendingRewardsDel = s :=
  rfl

theorem exactRun_withPendingRewards (E : Env) (s : samaState)
    (pa pd : GoMap Address RewardMeta) (stakerType n : Nat) (address : Address)
    (stakeTime endTime : Nat) :
    (s.withPendingRewards pa pd).exactRun E stakerType n address stakeTime endTime =
      s.exactRun E stakerType n address stakeTime endTime := rfl

theorem stakerReword_exact_pending (E : Env) (s : samaState)
    (pa pd : GoMap Address RewardMeta) (stakerType n : Nat)
    (address : Address) (stakeTime endTime : Nat) (hn1 : 1 ≤ n)
    (h : s.exactRun E stakerType n address stakeTime endTime) :
    ∃ m, (s.withPendingRewards pa pd).StakerReword E stakerType n address stakeTime endTime =
        Except.ok ((s.priorReward address).BaseReward +
          s.baseSum E stakerType n (s.rolePercBase E stakerType)
            (s.rewardStart address stakeTime) endTime
            (s.rewardYears (s.rewardStart address stakeTime) endTime), m,
          (s.priorReward address).YieldReward + s.yieldShare E stakerType n) ∧
      (stakerType ≠ stakerTypeValidator E → (s.priorReward address).MeritReward ≤ m) := by
  rw [← exactRun_withPendingRewards E s pa pd] at h
  obtain ⟨h1, h2, h3, h4, h5, h6, h7, h8⟩ := h
  obtain ⟨m, hres, hm⟩ := stakerReword_exact E (s.withPendingRewards pa pd) stakerType n address
    stakeTime endTime h1 hn1 h2 h3 h4 h5 h6 h7 h8
  refine ⟨m, hres, ?_⟩
  intro hv
  rw [hm hv]
  exact Nat.le_add_right _ _

theorem priorReward_of_some (s : samaState) (B : Address) (old : RewardMeta)
    (hold : s.RewardState.GetRewardMeta B = some old) : s.priorReward B = old := by
  simp [samaState.priorReward, hold]

/-- The loop of `UpdateStakerReward` keeps the ledger apart from the pending
reward buffers, stages no delete for `B`, and stages for `B` nothing or a record
not below the old one. -/
theorem updateStakerRewardLoop_record (E : Env) (hE : E.valid) (s : samaState)
    (stakerType roleNum : Nat) (address : Address) (txID : ID) (endTime : Nat) (B : Address)
    (old : RewardMeta) (hold : s.RewardState.GetRewardMeta B = some old)
    (hB : B ≠ address) (htime : old.LastOprTime ≤ endTime) (hn1 : 1 ≤ roleNum)
    (stakers : List StakerMeta)
    (hst : ∀ staker ∈ stakers, staker.StakerAddr = B →
      toByte staker.StakerType = stakerType ∧
        s.exactRun E stakerType roleNum B staker.StakeTime endTime)
    (x : Res samaState) (pa pd : GoMap Address RewardMeta)
    (hx : x.st = s.withPendingRewards pa pd) (hpd : pd.get B = none)
    (hpa : pa.get B = none ∨ ∃ new, pa.get B = some new ∧
      RewardMeta.notBelow (stakerType = stakerTypeRoute E ∨ stakerType = stakerTypeSer E)
        old new)
    (hok : (samaState.UpdateStakerRewardLoop E roleNum address txID endTime stakers x).err
      = none) :
    ∃ pa2 pd2,
      (samaState.UpdateStakerRewardLoop E roleNum address txID endTime stakers x).st =
        s.withPendingRewards pa2 pd2 ∧
      pd2.get B = none ∧
      (pa2.get B = none ∨ ∃ new, pa2.get B = some new ∧
        RewardMeta.notBelow (stakerType = stakerTypeRoute E ∨ stakerType = stakerTypeSer E)
          old new) := by
  induction stakers generalizing x pa pd with
  | nil => exact ⟨pa, pd, hx, hpd, hpa⟩
  | cons staker rest ih =>
    have hrest : ∀ st ∈ rest, st.StakerAddr = B →
        toByte st.StakerType = stakerType ∧
          s.exactRun E stakerType roleNum B st.StakeTime endTime :=
      fun st hm => hst st (List.mem_cons_of_mem _ hm)
    simp only [samaState.UpdateStakerRewardLoop] at hok ⊢
    by_cases h1 : staker.StakeTime ≥ endTime
    · simp only [h1, if_true] at hok ⊢
      exact ih hrest x pa pd hx hpd hpa hok
    · simp only [h1, if_false] at hok ⊢
      by_cases ha : address = staker.StakerAddr
      · have hBs : B ≠ staker.StakerAddr := fun h => hB (h.trans ha.symm)
        rw [if_neg (not_not.mpr ha)] at hok ⊢
        simp only [] at hok ⊢
        refine ih hrest _ (pa.put staker.StakerAddr
          ⟨0, 0, 0, endTime, txID, endTime, txID, staker.StakerAddr⟩)
          (pd.del staker.StakerAddr) ?_ ?_ ?_ hok
        · simp only [hx]
          rfl
        · rw [GoMap.get_del, if_neg hBs]
          exact hpd
        · rw [GoMap.get_put, if_neg hBs]
          exact hpa
      · rw [if_pos ha] at hok ⊢
        cases hc : x.st.StakerReword E (toByte staker.StakerType) roleNum staker.StakerAddr
            staker.StakeTime endTime with
        | error e =>
          rw [hc] at hok
          simp at hok
        | ok t =>
          obtain ⟨b, m, y⟩ := t
          rw [hc] at hok
          simp only [] at hok ⊢
          refine ih hrest _ (pa.put staker.StakerAddr
            ⟨y, b, m, endTime, txID, endTime, txID, staker.StakerAddr⟩)
            (pd.del staker.StakerAddr) ?_ ?_ ?_ hok
          · simp only [hx]
            rfl
          · rw [GoMap.get_del]
            split_ifs
            · rfl
            · exact hpd
          · rw [GoMap.get_put]
            by_cases hBs : B = staker.StakerAddr
            · rw [if_pos hBs]
              right
              refine ⟨_, rfl, ?_⟩
              obtain ⟨hty, hex⟩ := hst staker (List.mem_cons_self _ _) hBs.symm
              obtain ⟨m2, hres, hm2⟩ := stakerReword_exact_pending E s pa pd stakerType roleNum B
                staker.StakeTime endTime hn1 hex
              rw [hx, hty, ← hBs, hres] at hc
              simp only [Except.ok.injEq, Prod.mk.injEq] at hc
              obtain ⟨hb, hm, hy⟩ := hc
              rw [priorReward_of_some s B old hold] at hb hy hm2
              refine ⟨?_, ?_, ?_, htime⟩
              · show old.BaseReward ≤ b
                omega
              · show old.YieldReward ≤ y
                omega
              · intro hrole
                show old.MeritReward ≤ m
                have hv : stakerType ≠ stakerTypeValidator E := by
                  obtain ⟨_, _, _, _, h13, h23⟩ := hE
                  rcases hrole with h | h
                  · rw [h]
                    exact h13
                  · rw [h]
                    exact h23
                have := hm2 hv
                omega
            · rw [if_neg hBs]
              exact hpa

theorem rewards_commit_get (r : rewardState) (B : Address)
    (hpd : r.pendingRewardsDel.get B = none) :
    r.CacheRewardsCommit.GetRewardMeta B =
      match r.pendingRewardsAdd.get B with
      | some v => some v
      | none => r.curRewards.get B := by
  have hhas : r.pendingRewardsDel.has B = false := by
    unfold GoMap.has
    rw [hpd]
    rfl
  have h : r.CacheRewardsCommit.curRewards =
      (r.curRewards.mergeAdd r.pendingRewardsAdd).mergeDel r.pendingRewardsDel := by
    unfold rewardState.CacheRewardsCommit
    split_ifs <;> rfl
  unfold rewardState.GetRewardMeta
  rw [h, GoMap.get_mergeDel, hhas, GoMap.get_mergeAdd]
  simp only [Bool.false_eq_true, if_false]
  cases r.pendingRewardsAdd.get B <;> rfl

/-- C20 (amended): for an address `B` other than the one passed to
`UpdateStakerReward`, with a reward record whose `LastOprTime` is not later
than `endTime`, with no pending reward change staged for `B`, and whose staker
entries of the role carry that role and run `StakerReword` without overflow:
after a successful `UpdateStakerReward` followed by `Commit`, the record of `B`
has `BaseReward`, `YieldReward` and `LastOprTime` not smaller than before, and
for the route and service roles `MeritReward` not smaller than before. -/
theorem C20_reward_records_monotone (E : Env) (hE : E.valid) (s : samaState) (db : Database)
    (stakerType : Nat) (address : Address) (txID : ID) (endTime : Nat) (B : Address)
    (old : RewardMeta) (hold : s.RewardState.GetRewardMeta B = some old)
    (hB : B ≠ address) (htime : old.LastOprTime ≤ endTime)
    (hpa : s.RewardState.pendingRewardsAdd.get B = none)
    (hpd : s.RewardState.pendingRewardsDel.get B = none)
    (hst : ∀ staker ∈ s.StakerState.GetStakers E stakerType, staker.StakerAddr = B →
      toByte staker.StakerType = stakerType ∧
        s.exactRun E stakerType (s.StakersNum E stakerType) B staker.StakeTime endTime)
    (hok : (s.UpdateStakerReward E db stakerType address txID endTime).err = none) :
    ∃ new,
      ((s.UpdateStakerReward E db stakerType address txID endTime).st.Commit
        E).RewardState.GetRewardMeta B = some new ∧
      old.BaseReward ≤ new.BaseReward ∧ old.YieldReward ≤ new.YieldReward ∧
      (stakerType = stakerTypeRoute E ∨ stakerType = stakerTypeSer E →
        old.MeritReward ≤ new.MeritReward) ∧
      old.LastOprTime ≤ new.LastOprTime := by
  have hc : ∀ t : samaState, (t.Commit E).RewardState = t.RewardState.CacheRewardsCommit :=
    fun _ => rfl
  have hsame : ∃ new, s.RewardState.CacheRewardsCommit.GetRewardMeta B = some new ∧
      old.BaseReward ≤ new.BaseReward ∧ old.YieldReward ≤ new.YieldReward ∧
      (stakerType = stakerTypeRoute E ∨ stakerType = stakerTypeSer E →
        old.MeritReward ≤ new.MeritReward) ∧
      old.LastOprTime ≤ new.LastOprTime := by
    refine ⟨old, ?_, Nat.le_refl _, Nat.le_refl _, fun _ => Nat.le_refl _, Nat.le_refl _⟩
    rw [rewards_commit_get _ _ hpd, hpa]
    exact hold
  rw [hc]
  simp only [samaState.UpdateStakerReward] at hok ⊢
  by_cases h1 : s.RewardState.GetLastUpdateTime > endTime
  · simp [h1] at hok
  · simp only [h1, if_false] at hok ⊢
    by_cases h2 : s.RewardState.GetLastUpdateTime = endTime
    · simp only [h2, if_true]
      exact hsame
    · simp only [h2, if_false] at hok ⊢
      by_cases h3 : s.StakersNum E stakerType = 0
      · simp only [h3, if_true]
        exact hsame
      · simp only [h3, if_false] at hok ⊢
        have hloop := updateStakerRewardLoop_record E hE s stakerType (s.StakersNum E stakerType)
          address txID endTime B old hold hB htime (by omega)
          (s.StakerState.GetStakers E stakerType) hst ⟨s, db, none⟩
          s.RewardState.pendingRewardsAdd s.RewardState.pendingRewardsDel rfl hpd (Or.inl hpa)
        cases he : (samaState.UpdateStakerRewardLoop E (s.StakersNum E stakerType) address txID
            endTime (s.StakerState.GetStakers E stakerType) ⟨s, db, none⟩).err with
        | some e =>
          rw [he] at hok
          simp at hok
        | none =>
          obtain ⟨pa2, pd2, hst2, hpd2, hpa2⟩ := hloop he
          simp only [rewardState.UpdateGlobal, hst2]
          have hr : (s.withPendingRewards pa2 pd2).RewardState.CacheRewardsCommit.GetRewardMeta B =
              match pa2.get B with
              | some v => some v
              | none => s.RewardState.curRewards.get B :=
            rewards_commit_get _ _ hpd2
          show ∃ new, (s.withPendingRewards pa2 pd2).RewardState.CacheRewardsCommit.GetRewardMeta B
            = some new ∧ _
          rw [hr]
          rcases hpa2 with h | ⟨new, h, hmono⟩
          · rw [h]
            exact ⟨old, hold, Nat.le_refl _, Nat.le_refl _, fun _ => Nat.le_refl _, Nat.le_refl _⟩
          · rw [h]
            exact ⟨new, rfl, hmono⟩

theorem C20_reward_records_monotone_witness :
    demoRecordLedger.RewardState.GetRewardMeta 7 =
        some ⟨150, 800, 2136, 1668126290, 77, 1668126290, 77, 7⟩ ∧
      (demoRecordLedger.UpdateStakerReward demoFloatEnv GoMap.empty 2 8 78 1668126291).err
        = none ∧
      ∃ new,
        ((demoRecordLedger.UpdateStakerReward demoFloatEnv GoMap.empty 2 8 78
          1668126291).st.Commit demoFloatEnv).RewardState.GetRewardMeta 7 = some new ∧
        800 ≤ new.BaseReward ∧ 150 ≤ new.YieldReward ∧
        (2 = stakerTypeRoute demoFloatEnv ∨ 2 = stakerTypeSer demoFloatEnv →
          2136 ≤ new.MeritReward) ∧
        1668126290 ≤ new.LastOprTime :=
  ⟨by decide, by decide,
    C20_reward_records_monotone demoFloatEnv (by decide) demoRecordLedger GoMap.empty 2 8 78
      1668126291 7 ⟨150, 800, 2136, 1668126290, 77, 1668126290, 77, 7⟩ (by decide) (by decide)
      (by decide) (by decide) (by decide) (by decide) (by decide)⟩

/-- Route staker 7 of the demo ledger has the record (base 800, merit 2136,
yield 150, time 1668126290). When 7 is the address passed to
`UpdateStakerReward`, the call succeeds and after `Commit` the record of 7 has
base, merit and yield 0. When 8 is passed with the earlier end time 1668126289,
the call succeeds too (the checkpoint is still 0) and after `Commit` the record
of 7 has base 400 and `LastOprTime` 1668126289. -/
theorem C20_reward_records_monotone_counterexample :
    demoRecordLedger.RewardState.GetRewardMeta 7 =
        some ⟨150, 800, 2136, 1668126290, 77, 1668126290, 77, 7⟩ ∧
      (demoRecordLedger.UpdateStakerReward demoFloatEnv GoMap.empty 2 7 78 1668126291).err
        = none ∧
      ((demoRecordLedger.UpdateStakerReward demoFloatEnv GoMap.empty 2 7 78
        1668126291).st.Commit demoFloatEnv).RewardState.GetRewardMeta 7 =
        some ⟨0, 0, 0, 1668126291, 78, 1668126291, 78, 7⟩ ∧
      (demoRecordLedger.UpdateStakerReward demoFloatEnv GoMap.empty 2 8 78 1668126289).err
        = none ∧
      ((demoRecordLedger.UpdateStakerReward demoFloatEnv GoMap.empty 2 8 78
        1668126289).st.Commit demoFloatEnv).RewardState.GetRewardMeta 7 =
        some ⟨300, 400, 6148914691236518273, 1668126289, 78, 1668126289, 78, 7⟩ := by
  decide


/-! ## Store keys and reloads -/

/-- C30 (the code at every input): the key `PrefixUserTypesKey(id)` that
`AddUserType` writes starts with `baseUsersPrefix()`, the range of the
SubscriberRegistry, for every type id, and it starts with
`baseUserTypesPrefix()` only if the two prefix constants are the same byte; in
the demo environment a fee tier written by `AddUserType` to an empty store is
not found by `ReloadUserTypes`. -/
theorem C30_fee_tier_key_in_subscriber_range (E : Env) (id : Nat) :
    baseUsersPrefix E <+: PrefixUserTypesKey E id ∧
      (baseUserTypesPrefix E <+: PrefixUserTypesKey E id → E.userTypesPrefix = E.usersPrefix) ∧
      (demoLedger.UserTypesState.AddUserType demoEnv GoMap.empty ⟨"year", 9, 1200⟩).db.Get
          (PrefixUserTypesKey demoEnv 9) = some (DbValue.userType ⟨"year", 9, 1200⟩) ∧
      (NewUserTypesState demoEnv
        (demoLedger.UserTypesState.AddUserType demoEnv GoMap.empty
          ⟨"year", 9, 1200⟩).db).1.GetUserType 9 = none := by
  refine ⟨⟨bytesBE 8 id, rfl⟩, ?_, by decide, by decide⟩
  rintro ⟨l, hl⟩
  simp only [baseUserTypesPrefix, PrefixUserTypesKey, List.cons_append, List.nil_append,
    List.cons.injEq] at hl
  exact hl.1

/-- C29 (the code at the failing input): registering the staking address 7
with a work key whose work address is 3 succeeds; after `Commit` the node
detail is answered by `GetDetailMeta(3)` and not by `GetDetailMeta(7)`, while a
registry freshly built by `ReloadDetails` from the same store answers it under
`GetDetailMeta(7)` and not under `GetDetailMeta(3)`. -/
theorem C29_detail_key_changes_on_reload :
    (demoRegister.Execute demoEnv (demoContext demoLedger 4) ⟨500, 0⟩).err = none ∧
      ((demoRegister.Execute demoEnv (demoContext demoLedger 4)
        ⟨500, 0⟩).st.Commit demoEnv).DetailsState.GetDetailMeta 3 =
        some ⟨2, "CN", "10.0.0.1", "1.2.3.4", 1000, 2000, 80, "abc", 77, 500, 3, 7⟩ ∧
      ((demoRegister.Execute demoEnv (demoContext demoLedger 4)
        ⟨500, 0⟩).st.Commit demoEnv).DetailsState.GetDetailMeta 7 = none ∧
      (NewDetailstate demoEnv (demoRegister.Execute demoEnv (demoContext demoLedger 4)
        ⟨500, 0⟩).db).2 = none ∧
      (NewDetailstate demoEnv (demoRegister.Execute demoEnv (demoContext demoLedger 4)
        ⟨500, 0⟩).db).1.GetDetailMeta 3 = none ∧
      (NewDetailstate demoEnv (demoRegister.Execute demoEnv (demoContext demoLedger 4)
        ⟨500, 0⟩).db).1.GetDetailMeta 7 =
        some ⟨2, "CN", "10.0.0.1", "1.2.3.4", 1000, 2000, 80, "abc", 77, 500, 3, 7⟩ := by
  decide

/-! ## Copy -/

/-- The copies that keep every field, when the copy of the envelope keeps it. -/
theorem copy_faithful (copyBase : BaseTx → BaseTx) (h : ∀ b, copyBase b = b) :
    (∀ x : StakeTx, x.Copy copyBase = x) ∧ (∀ x : AddUserTx, x.Copy copyBase = x) ∧
      (∀ x : ClaimTx, x.Copy copyBase = x) ∧ (∀ x : GovernTx, x.Copy copyBase = x) ∧
      (∀ x : ProofTx, x.Copy copyBase = x) ∧ (∀ x : RegisterTx, x.Copy copyBase = x) ∧
      (∀ x : RefreshTx, x.Copy copyBase = x) ∧ (∀ x : VoteTx, x.Copy copyBase = x) ∧
      (∀ x : WithdrawnTx, x.Copy copyBase = x) := by
  refine ⟨?_, ?_, ?_, ?_, ?_, ?_, ?_, ?_, ?_⟩ <;> intro x <;> cases x <;>
    simp [StakeTx.Copy, AddUserTx.Copy, ClaimTx.Copy, GovernTx.Copy, ProofTx.Copy,
      RegisterTx.Copy, RefreshTx.Copy, VoteTx.Copy, WithdrawnTx.Copy, h]

/-- C27 (the code at the failing inputs): the copy of an `UnStakeTx` with
`RewardAmount = 500` and `EndTime = 9000` has both fields 0, and the copy of a
`ProposalTx` with `ActionType = 2` has `ActionType = 0`, also when the copy of
the envelope is faithful. -/
theorem C27_copy_drops_fields :
    UnStakeTx.Copy id ⟨⟨1, 2, 3⟩, 500, 2, 9000⟩ = ⟨⟨1, 2, 3⟩, 0, 2, 0⟩ ∧
      ProposalTx.Copy id ⟨⟨1, 2, 3⟩, 5, 100, 700, 2, "burn", "10"⟩ =
        ⟨⟨1, 2, 3⟩, 5, 100, 700, 0, "burn", "10"⟩ := by
  decide

/-! ## Govern and the action it executes -/

/-- Governing an action past its end time fails in `GetActionMeta`. -/
theorem govern_overdue (E : Env) (g : GovernTx) (t : TransactionContext) (now : Time)
    (action : ActionMeta)
    (hget : t.State.ActionsState.curActions.get g.ActionID = some action)
    (hlate : action.EndTime < now.Unix) :
    (g.Execute E t now).err = some (Error.Errorf "action is overdue ") := by
  simp [GovernTx.Execute, GovernTx.confirm, actionsState.GetActionMeta, hget, hlate]

/-- `GovernTx.Execute` leaves the action registry as it was. -/
theorem govern_frame_actions (E : Env) (g : GovernTx) (t : TransactionContext) (now : Time) :
    (g.Execute E t now).st.ActionsState = t.State.ActionsState := by
  unfold GovernTx.Execute
  split
  · rfl
  · unfold GovernTx.dispatch
    simp only []
    split_ifs
    · rfl
    · split
      · rfl
      · split <;> rfl
    · rfl

/-- C22 (the code at the failing input): action 5 of the demo govern ledger
(a burn-percentage change with `EndTime = 700`, confirmed by 2 of 4 route
stakers) is executed by `GovernTx.Execute` at `now = 700`, and at `now = 701`,
inside the 7 days of grace, it fails with "action is overdue ". -/
theorem C22_govern_fails_after_end_time :
    (demoGovern.Execute demoEnv (demoContext demoGovernLedger 21) ⟨700, 0⟩).err = none ∧
      701 ≤ 700 + Seconds7Day ∧
      (demoGovern.Execute demoEnv (demoContext demoGovernLedger 21) ⟨701, 0⟩).err =
        some (Error.Errorf "action is overdue ") := by
  decide

/-- C23 as stated fails: after `GovernTx.Execute` has executed action 5 of the
demo govern ledger and `Commit` has run, the action record is still in the
current action set, and executing the same `GovernTx` again returns nil, not
"action not found". -/
theorem C23_govern_consumes_counterexample :
    (demoGovern.Execute demoEnv (demoContext demoGovernLedger 21) ⟨700, 0⟩).err = none ∧
      ((demoGovern.Execute demoEnv (demoContext demoGovernLedger 21)
        ⟨700, 0⟩).st.Commit demoEnv).ActionsState.curActions.get 5 =
        some ⟨5, 2, 100, 700, [11, 12], [21, 22], "burn", "10"⟩ ∧
      (demoGovern.Execute demoEnv
        (demoContext ((demoGovern.Execute demoEnv (demoContext demoGovernLedger 21)
          ⟨700, 0⟩).st.Commit demoEnv) 21) ⟨700, 0⟩).err = none := by
  decide

/-- The errors of `ModifyParams` are its three own messages. -/
theorem modifyParams_err (E : Env) (s : sysParams) (db : Database) (key newValue : String)
    (txID : ID) (updateTime : Nat) :
    (s.ModifyParams E db key newValue txID updateTime).err ≠
      some (Error.Errorf "action not found") := by
  unfold sysParams.ModifyParams
  simp only []
  split
  · simp
  · split_ifs <;> simp

/-- The switch of `GovernTx.Execute` never returns "action not found". -/
theorem govern_dispatch_err (E : Env) (t : TransactionContext) (action : ActionMeta) :
    (GovernTx.dispatch E t action).err ≠ some (Error.Errorf "action not found") := by
  unfold GovernTx.dispatch
  simp only []
  split_ifs
  · exact modifyParams_err E _ _ _ _ _ _
  · split
    · simp
    · split
      · simp
      · simp [userTypesState.AddUserType]
  · simp

/-- `GovernTx.Execute` fails with "action not found" only when the current
action set has no record for the id. -/
theorem govern_not_found (E : Env) (g : GovernTx) (t : TransactionContext) (now : Time)
    (action : ActionMeta)
    (hget : t.State.ActionsState.curActions.get g.ActionID = some action) :
    (g.Execute E t now).err ≠ some (Error.Errorf "action not found") := by
  unfold GovernTx.Execute
  cases hc : g.confirm E t now with
  | ok a => exact govern_dispatch_err E t a
  | error err =>
    simp only []
    unfold GovernTx.confirm actionsState.GetActionMeta at hc
    simp only [hget] at hc
    by_cases h1 : action.EndTime < now.Unix
    · simp only [h1, if_true] at hc
      cases hc
      simp
    · simp only [h1, if_false] at hc
      by_cases h2 : now.Unix > add64 action.EndTime Seconds7Day
      · simp only [h2, if_true] at hc
        cases hc
        simp
      · simp only [h2, if_false] at hc
        split_ifs at hc <;> cases hc <;> simp

/-- A successful `GovernTx.Execute` has read the record of its action from the
current action set. -/
theorem govern_ok_get (E : Env) (g : GovernTx) (t : TransactionContext) (now : Time)
    (hok : (g.Execute E t now).err = none) :
    ∃ action, t.State.ActionsState.curActions.get g.ActionID = some action := by
  cases hget : t.State.ActionsState.curActions.get g.ActionID with
  | some action => exact ⟨action, rfl⟩
  | none =>
    exfalso
    revert hok
    simp [GovernTx.Execute, GovernTx.confirm, actionsState.GetActionMeta, hget]

/-- A record of the current action set with no staged change for its id is
the current record after `Commit` as well. -/
theorem actions_commit_get (E : Env) (s : samaState) (actionID : ShortID)
    (hadd : s.ActionsState.pendingActionsAdd.has actionID = false)
    (hdel : s.ActionsState.pendingActionsDel.has actionID = false) :
    (s.Commit E).ActionsState.curActions.get actionID =
      s.ActionsState.curActions.get actionID := by
  have hnone : s.ActionsState.pendingActionsAdd.get actionID = none := by
    unfold GoMap.has at hadd
    cases h : s.ActionsState.pendingActionsAdd.get actionID with
    | none => rfl
    | some v => rw [h] at hadd; cases hadd
  rw [(commit_substates E s).2]
  unfold actionsState.CacheActionsCommit
  simp only []
  rw [GoMap.get_mergeDel, hdel, GoMap.get_mergeAdd, hnone]
  simp

/-- C23 (amended): `GovernTx.Execute` does not consume its action. It leaves
the action registry as it was on every input, and when it executes
successfully on a ledger with no staged change for the tx's `ActionID`, then
after `Commit` the action record with that id is still in the current action
set, the same record as before, and executing the same `GovernTx` again on
the committed ledger does not fail with "action not found". -/
theorem C23_govern_leaves_action (E : Env) (g : GovernTx) (t : TransactionContext) (now : Time)
    (hok : (g.Execute E t now).err = none)
    (hadd : t.State.ActionsState.pendingActionsAdd.has g.ActionID = false)
    (hdel : t.State.ActionsState.pendingActionsDel.has g.ActionID = false) :
    (g.Execute E t now).st.ActionsState = t.State.ActionsState ∧
      (∃ action, t.State.ActionsState.curActions.get g.ActionID = some action ∧
        ((g.Execute E t now).st.Commit E).ActionsState.curActions.get g.ActionID =
          some action) ∧
      ∀ t2 : TransactionContext, t2.State = (g.Execute E t now).st.Commit E →
        (g.Execute E t2 now).err ≠ some (Error.Errorf "action not found") := by
  have hframe := govern_frame_actions E g t now
  obtain ⟨action, hget⟩ := govern_ok_get E g t now hok
  have hcommit : ((g.Execute E t now).st.Commit E).ActionsState.curActions.get g.ActionID =
      some action := by
    rw [actions_commit_get E _ g.ActionID (by rw [hframe]; exact hadd)
      (by rw [hframe]; exact hdel), hframe]
    exact hget
  refine ⟨hframe, ⟨action, hget, hcommit⟩, ?_⟩
  intro t2 h2
  exact govern_not_found E g t2 now action (by rw [h2]; exact hcommit)

/-- C23 at the demo govern ledger: the burn action 5, executed at `now = 700`
by `demoGovern`, is the current record 5 after `Commit`, and a second
`Execute` on the committed ledger does not fail with "action not found". -/
theorem C23_govern_leaves_action_witness :
    (demoGovern.Execute demoEnv (demoContext demoGovernLedger 21) ⟨700, 0⟩).err = none ∧
      (demoGovern.Execute demoEnv (demoContext demoGovernLedger 21) ⟨700, 0⟩).st.ActionsState =
        demoGovernLedger.ActionsState ∧
      (∃ action, demoGovernLedger.ActionsState.curActions.get 5 = some action ∧
        ((demoGovern.Execute demoEnv (demoContext demoGovernLedger 21)
          ⟨700, 0⟩).st.Commit demoEnv).ActionsState.curActions.get 5 = some action) ∧
      (demoGovern.Execute demoEnv
        (demoContext ((demoGovern.Execute demoEnv (demoContext demoGovernLedger 21)
          ⟨700, 0⟩).st.Commit demoEnv) 21) ⟨700, 0⟩).err ≠
        some (Error.Errorf "action not found") :=
  ⟨by decide,
    (C23_govern_leaves_action demoEnv demoGovern (demoContext demoGovernLedger 21) ⟨700, 0⟩
      (by decide) (by decide) (by decide)).1,
    (C23_govern_leaves_action demoEnv demoGovern (demoContext demoGovernLedger 21) ⟨700, 0⟩
      (by decide) (by decide) (by decide)).2.1,
    (C23_govern_leaves_action demoEnv demoGovern (demoContext demoGovernLedger 21) ⟨700, 0⟩
      (by decide) (by decide) (by decide)).2.2 _ rfl⟩

/-! ## Proposals, withdrawals and claims -/

/-- What `ProposalRepeat(id, key, value)` tests: it returns an error iff the id
is in the current or the pending-add action set, or some record of the current
or the pending-add set has the same key; it takes no time and looks at no
`EndTime`. -/
theorem proposalRepeat_error_iff (s : actionsState) (actionID : ShortID) (key value : String) :
    s.ProposalRepeat actionID key value ≠ none ↔
      (s.curActions.has actionID = true ∨ (∃ a ∈ s.curActions.elems, a.Key = key) ∨
        s.pendingActionsAdd.has actionID = true ∨
        ∃ a ∈ s.pendingActionsAdd.elems, a.Key = key) := by
  unfold actionsState.ProposalRepeat
  by_cases h1 : s.curActions.has actionID = true
  · rw [if_pos h1]
    exact ⟨fun _ => Or.inl h1, fun _ => by simp⟩
  · rw [if_neg h1]
    by_cases h2 : s.curActions.elems.any (fun action => decide (action.Key = key)) = true
    · have h2e : ∃ a ∈ s.curActions.elems, a.Key = key := by
        simpa [List.any_eq_true] using h2
      rw [if_pos h2]
      exact ⟨fun _ => Or.inr (Or.inl h2e), fun _ => by simp⟩
    · have h2e : ¬ ∃ a ∈ s.curActions.elems, a.Key = key := by
        simpa [List.any_eq_true] using h2
      rw [if_neg h2]
      by_cases h3 : s.pendingActionsAdd.has actionID = true
      · rw [if_pos h3]
        exact ⟨fun _ => Or.inr (Or.inr (Or.inl h3)), fun _ => by simp⟩
      · rw [if_neg h3]
        by_cases h4 : s.pendingActionsAdd.elems.any (fun action => decide (action.Key = key))
            = true
        · have h4e : ∃ a ∈ s.pendingActionsAdd.elems, a.Key = key := by
            simpa [List.any_eq_true] using h4
          rw [if_pos h4]
          exact ⟨fun _ => Or.inr (Or.inr (Or.inr h4e)), fun _ => by simp⟩
        · have h4e : ¬ ∃ a ∈ s.pendingActionsAdd.elems, a.Key = key := by
            simpa [List.any_eq_true] using h4
          rw [if_neg h4]
          constructor
          · intro h
            exact absurd rfl h
          · rintro (h | h | h | h)
            · exact absurd h h1
            · exact absurd h h2e
            · exact absurd h h3
            · exact absurd h h4e

/-- C25 (the code at the failing input): the only action of the demo govern
ledger has the key "burn" and `EndTime = 700`, and nothing is pending; at
`now = 800` the action is past its end time (`GetActionMeta` returns "action is
overdue "), and `ProposalRepeat` for the new id 6 and the key "burn" still
returns "key exist curActions", as does `ProposalTx.Execute`, which accepts the
same proposal on the ledger without the expired action. -/
theorem C25_expired_key_blocks_proposal :
    demoGovernLedger.ActionsState.GetActions =
        [⟨5, 2, 100, 700, [11, 12], [21, 22], "burn", "10"⟩] ∧
      demoGovernLedger.ActionsState.pendingActionsAdd = GoMap.empty ∧
      demoGovernLedger.ActionsState.GetActionMeta ⟨800, 0⟩ 5 =
        Except.error (Error.Errorf "action is overdue ") ∧
      demoGovernLedger.ActionsState.ProposalRepeat 6 "burn" "15" =
        some (Error.Errorf "key exist curActions") ∧
      ((⟨⟨1, 2, 3⟩, 6, 0, 0, 2, "burn", "15"⟩ : ProposalTx).Execute demoEnv
        (demoContext demoGovernLedger 21) ⟨800, 0⟩).err =
        some (Error.Errorf "key exist curActions") ∧
      ((⟨⟨1, 2, 3⟩, 6, 0, 0, 2, "burn", "15"⟩ : ProposalTx).Execute demoEnv
        (demoContext demoRoutesLedger 21) ⟨800, 0⟩).err = none :=
  ⟨by decide, by decide, rfl, by decide, by decide, by decide⟩

/-- C26: for a sender that is a route staker and a current action that is not
past its end time and whose voter list has no duplicates,
`WithdrawnTx.Execute` returns nil and stages (in the pending-add buffer, with
no pending delete, and in the store) the action record with the sender
filtered out of `Voters`, the tx id appended to `TxIDs`, and every other field
unchanged. -/
theorem C26_withdraw_effect (E : Env) (w : WithdrawnTx) (t : TransactionContext) (now : Time)
    (action : ActionMeta)
    (hroute : t.State.StakerState.IsRoute E t.Sender = true)
    (hget : t.State.ActionsState.curActions.get w.ActionID = some action)
    (hopen : now.Unix ≤ action.EndTime) (hnodup : action.Voters.Nodup) :
    (w.Execute E t now).err = none ∧
      (w.Execute E t now).st.ActionsState.pendingActionsAdd.get w.ActionID =
        some { action with Voters := action.Voters.filter (fun v => v ≠ t.Sender),
                           TxIDs := action.TxIDs ++ [t.TxID] } ∧
      (w.Execute E t now).st.ActionsState.pendingActionsDel.has w.ActionID = false ∧
      (w.Execute E t now).db.Get (PrefixActionsKey E w.ActionID) =
        some (DbValue.action
          { action with Voters := action.Voters.filter (fun v => v ≠ t.Sender),
                        TxIDs := action.TxIDs ++ [t.TxID] }) ∧
      (t.Sender ∉ action.Voters →
        action.Voters.filter (fun v => v ≠ t.Sender) = action.Voters) := by
  have hlate : ¬ action.EndTime < now.Unix := by omega
  have herase : action.Voters.erase t.Sender = action.Voters.filter (fun v => v ≠ t.Sender) := by
    rw [hnodup.erase_eq_filter t.Sender]
    apply List.filter_congr
    intro x _
    by_cases hx : x = t.Sender <;> simp [hx]
  simp only [WithdrawnTx.Execute, hroute, actionsState.GetActionMeta, hget, hlate,
    actionsState.PutAction, Database.Put, Database.Get, herase, Bool.not_true,
    Bool.false_eq_true, if_false]
  refine ⟨trivial, ?_, ?_, ?_, ?_⟩
  · rw [GoMap.get_put, if_pos rfl]
  · unfold GoMap.has
    rw [GoMap.get_del, if_pos rfl]
    rfl
  · rw [GoMap.get_put, if_pos rfl]
  · intro hnot
    rw [List.filter_eq_self]
    intro a ha
    have : a ≠ t.Sender := fun h => hnot (h ▸ ha)
    simpa using this

/-- C26 at the demo govern ledger: route staker 21 withdraws from action 5
(voters 21 and 22, end time 700) at `now = 600` with the tx id 77. -/
theorem C26_withdraw_effect_witness :
    demoGovernLedger.StakerState.IsRoute demoEnv 21 = true ∧
      ((⟨⟨1, 2, 3⟩, 5⟩ : WithdrawnTx).Execute demoEnv (demoContext demoGovernLedger 21)
        ⟨600, 0⟩).err = none ∧
      ((⟨⟨1, 2, 3⟩, 5⟩ : WithdrawnTx).Execute demoEnv (demoContext demoGovernLedger 21)
        ⟨600, 0⟩).st.ActionsState.pendingActionsAdd.get 5 =
        some ⟨5, 2, 100, 700, [11, 12, 77], [22], "burn", "10"⟩ :=
  ⟨by decide,
    (C26_withdraw_effect demoEnv ⟨⟨1, 2, 3⟩, 5⟩ (demoContext demoGovernLedger 21) ⟨600, 0⟩
      ⟨5, 2, 100, 700, [11, 12], [21, 22], "burn", "10"⟩ (by decide) (by decide) (by decide)
      (by decide)).1,
    (C26_withdraw_effect demoEnv ⟨⟨1, 2, 3⟩, 5⟩ (demoContext demoGovernLedger 21) ⟨600, 0⟩
      ⟨5, 2, 100, 700, [11, 12], [21, 22], "burn", "10"⟩ (by decide) (by decide) (by decide)
      (by decide)).2.1⟩

theorem secondsDay_eq : SecondsDay = 86400 := by decide

/-- C28 (amended): when `now` is not before the chain creation time and
`EndTime + 1` does not overflow, a `ClaimTx` that passes the end-time check of
`Execute` (and so every `ClaimTx` for which `Execute` returns nil) has
`EndTime <= now`, and either `EndTime - chainCreateTime` or
`EndTime + 1 - chainCreateTime` is a multiple of 86400 seconds. -/
theorem C28_claim_end_time (E : Env) (c : ClaimTx) (t : TransactionContext) (now : Time)
    (h1 : t.State.SysParams.GetChainCreateTime ≤ now.Unix) (h2 : now.Unix < 2 ^ 64)
    (h3 : c.EndTime + 1 < 2 ^ 64) :
    (c.endTimeErr t.State.SysParams.GetChainCreateTime now = false →
      c.EndTime ≤ now.Unix ∧
        ((t.State.SysParams.GetChainCreateTime ≤ c.EndTime ∧
            (c.EndTime - t.State.SysParams.GetChainCreateTime) % 86400 = 0) ∨
          (t.State.SysParams.GetChainCreateTime ≤ c.EndTime + 1 ∧
            (c.EndTime + 1 - t.State.SysParams.GetChainCreateTime) % 86400 = 0))) ∧
      ((c.Execute E t now).err = none →
        c.endTimeErr t.State.SysParams.GetChainCreateTime now = false) := by
  constructor
  · generalize t.State.SysParams.GetChainCreateTime = createTime at h1 ⊢
    intro hpass
    simp only [ClaimTx.endTimeErr, ClaimTx.dayEnd, decide_eq_false_iff_not, not_and_or,
      not_not, ne_eq] at hpass
    unfold add64 mul64 sub64 at hpass
    rw [secondsDay_eq] at hpass
    have hk : (now.Unix - createTime) / 86400 * 86400 ≤ now.Unix - createTime :=
      Nat.div_mul_le_self _ _
    have e1 : (now.Unix % 2 ^ 64 + 2 ^ 64 - createTime % 2 ^ 64) % 2 ^ 64 =
        now.Unix - createTime := by omega
    rw [e1] at hpass
    have e2 : (now.Unix - createTime) / 86400 * 86400 % 2 ^ 64 =
        (now.Unix - createTime) / 86400 * 86400 := by omega
    rw [e2] at hpass
    have e3 : ((now.Unix - createTime) / 86400 * 86400 + createTime) % 2 ^ 64 =
        (now.Unix - createTime) / 86400 * 86400 + createTime := by omega
    rw [e3] at hpass
    have e4 : (c.EndTime + 1) % 2 ^ 64 = c.EndTime + 1 := by omega
    rw [e4] at hpass
    have hm : ((now.Unix - createTime) / 86400 * 86400) % 86400 = 0 := Nat.mul_mod_left _ _
    rcases hpass with h | h
    · refine ⟨by omega, Or.inl ⟨by omega, ?_⟩⟩
      have : c.EndTime - createTime = (now.Unix - createTime) / 86400 * 86400 := by omega
      rw [this]
      exact hm
    · refine ⟨by omega, Or.inr ⟨by omega, ?_⟩⟩
      have : c.EndTime + 1 - createTime = (now.Unix - createTime) / 86400 * 86400 := by omega
      rw [this]
      exact hm
  · intro hok
    unfold ClaimTx.Execute at hok
    simp only [] at hok
    by_contra hne
    have hne2 : c.endTimeErr t.State.SysParams.GetChainCreateTime now = true := by
      simpa using hne
    split_ifs at hok

/-- C28 (amended) at the demo ledger: the chain is created at 1668125288 and
`now` is 8 days and 5 seconds later; the end time at the day boundary passes. -/
theorem C28_claim_end_time_witness :
    (⟨⟨1, 2, 3⟩, 0, 1668816488⟩ : ClaimTx).endTimeErr
        (demoContext demoLedger 4).State.SysParams.GetChainCreateTime ⟨1668816493, 0⟩ = false ∧
      (1668816488 ≤ (⟨1668816493, 0⟩ : Time).Unix ∧
        (((demoContext demoLedger 4).State.SysParams.GetChainCreateTime ≤ 1668816488 ∧
            (1668816488 - (demoContext demoLedger 4).State.SysParams.GetChainCreateTime) %
              86400 = 0) ∨
          ((demoContext demoLedger 4).State.SysParams.GetChainCreateTime ≤ 1668816488 + 1 ∧
            (1668816488 + 1 - (demoContext demoLedger 4).State.SysParams.GetChainCreateTime) %
              86400 = 0))) :=
  ⟨by decide,
    (C28_claim_end_time demoEnv ⟨⟨1, 2, 3⟩, 0, 1668816488⟩ (demoContext demoLedger 4)
      ⟨1668816493, 0⟩ (by decide) (by decide) (by decide)).1 (by decide)⟩

/-- C28 as stated fails: with the chain created at 1668125288 and `now` 8 days
and 5 seconds later, the end time one second before the day boundary passes
the end-time check, and its distance from the chain creation time is not a
multiple of 86400. When `now` is one second before the chain creation time the
subtraction wraps, and the end time 1668100072, which is before the chain
creation time and 25216 seconds away from it, passes. With the chain creation
time 0 and `now = 5` the end time 2^64 - 1, later than `now`, passes, because
`EndTime + 1` wraps to 0. -/
theorem C28_claim_end_time_counterexample :
    demoLedger.SysParams.GetChainCreateTime = 1668125288 ∧
      (⟨⟨1, 2, 3⟩, 0, 1668816487⟩ : ClaimTx).endTimeErr 1668125288 ⟨1668816493, 0⟩ = false ∧
      (1668816487 - 1668125288) % 86400 = 86399 ∧
      (⟨⟨1, 2, 3⟩, 0, 1668100072⟩ : ClaimTx).endTimeErr 1668125288 ⟨1668125287, 0⟩ = false ∧
      1668125288 - 1668100072 = 25216 ∧
      (⟨⟨1, 2, 3⟩, 0, 2 ^ 64 - 1⟩ : ClaimTx).endTimeErr 0 ⟨5, 0⟩ = false ∧
      5 < 2 ^ 64 - 1 := by
  decide

/-! ## CalcReward -/

theorem lookupList_length_pos {K V : Type} [DecidableEq K] (l : List (K × V)) (k : K) (v : V)
    (h : GoMap.lookupList l k = some v) : 1 ≤ l.length := by
  cases l with
  | nil => simp [GoMap.lookupList] at h
  | cons e rest => simp

/-- A role under which an address has a staker record has at least one staker. -/
theorem stakersNum_pos (E : Env) (hE : E.valid) (s : samaState) (stakerType : Nat)
    (address : Address) (staker : StakerMeta)
    (h : s.StakerState.GetStakerMeta E stakerType address = some staker) :
    1 ≤ s.StakersNum E stakerType := by
  obtain ⟨_, _, _, h12, h13, h23⟩ := hE
  unfold stakerState.GetStakerMeta curGet stakerState.GetCurStakes at h
  unfold samaState.StakersNum stakerState.GetStakersNum
  simp only [stakerTypeSer, stakerTypeRoute, stakerTypeValidator] at h ⊢
  by_cases hs : stakerType = E.serPrefix
  · have hr : ¬ stakerType = E.routePrefix := fun e => h12 (e.symm.trans hs)
    simp only [hs, if_true] at h
    rw [if_neg hr, if_pos hs]
    exact lookupList_length_pos _ _ _ h
  · by_cases hr : stakerType = E.routePrefix
    · simp only [hs, hr, if_false, if_true] at h
      rw [if_pos hr]
      have hsr : ¬ E.routePrefix = E.serPrefix := h12
      simp only [hsr, if_false] at h
      exact lookupList_length_pos _ _ _ h
    · by_cases hv : stakerType = E.validatorPrefix
      · simp only [hs, hr, hv, if_false, if_true] at h
        rw [if_neg hr, if_neg hs, if_pos hv]
        have h1 : ¬ E.validatorPrefix = E.serPrefix := fun e => h23 e.symm
        have h2 : ¬ E.validatorPrefix = E.routePrefix := fun e => h13 e.symm
        simp only [h1, h2, if_false] at h
        exact lookupList_length_pos _ _ _ h
      · simp [hs, hr, hv] at h

theorem div64_error (a b : Nat) (e : Error) (h : div64 a b = Except.error e) :
    ∃ m, e = Error.panic m := by
  unfold div64 at h
  split_ifs at h
  cases h
  exact ⟨_, rfl⟩

theorem rewardCurYear_error (E : Env) (s : samaState) (index : Nat) (e : Error)
    (h : s.RewardCurYear E index = Except.error e) : ∃ m, e = Error.panic m := by
  unfold samaState.RewardCurYear at h
  simp only [] at h
  split_ifs at h
  cases h
  exact ⟨_, rfl⟩

theorem stakerRewordYear_error (E : Env) (s : samaState) (stakerType roleNum : Nat)
    (address : Address) (startTime endTime percBase percMerit : Nat) (acc : RewardAcc) (i : Nat)
    (e : Error)
    (h : s.StakerRewordYear E stakerType roleNum address startTime endTime percBase percMerit
      acc i = Except.error e) : ∃ m, e = Error.panic m := by
  unfold samaState.StakerRewordYear at h
  simp only [] at h
  cases hr : s.RewardCurYear E (toUint32 i) with
  | error err =>
    rw [hr] at h
    cases h
    exact rewardCurYear_error E s _ _ hr
  | ok total =>
    rw [hr] at h
    simp only [] at h
    by_cases hv : stakerType = stakerTypeValidator E
    · simp only [hv, if_true, ne_eq, not_true_eq_false, if_false] at h
      cases hd : div64 (mul64 total (s.StakePercentage E (stakerTypeValidator E)) / 100)
          (mul64 roleNum SecondsYear) with
      | error err =>
        rw [hd] at h
        cases h
        exact div64_error _ _ _ hd
      | ok q =>
        rw [hd] at h
        cases h
    · simp only [hv, if_false, ne_eq, not_false_eq_true, if_true] at h
      cases hd : div64 (mul64 (mul64 total (s.StakePercentage E stakerType) / 100) percBase / 100)
          (mul64 roleNum SecondsYear) with
      | error err =>
        rw [hd] at h
        cases h
        exact div64_error _ _ _ hd
      | ok q =>
        rw [hd] at h
        simp only [] at h
        split_ifs at h

theorem stakerRewordLoop_error (E : Env) (s : samaState) (stakerType roleNum : Nat)
    (address : Address) (startTime endTime percBase percMerit : Nat) (l : List Nat)
    (acc : RewardAcc) (e : Error)
    (h : samaState.StakerRewordLoop E s stakerType roleNum address startTime endTime percBase
      percMerit l acc = Except.error e) : ∃ m, e = Error.panic m := by
  induction l generalizing acc with
  | nil => cases h
  | cons i rest ih =>
    unfold samaState.StakerRewordLoop at h
    cases hy : s.StakerRewordYear E stakerType roleNum address startTime endTime percBase
        percMerit acc i with
    | error err =>
      rw [hy] at h
      cases h
      exact stakerRewordYear_error E s _ _ _ _ _ _ _ _ _ _ hy
    | ok acc1 =>
      rw [hy] at h
      exact ih acc1 h

/-- The only errors of `StakerReword` are the panics of a division by zero. -/
theorem stakerReword_error (E : Env) (s : samaState) (stakerType roleNum : Nat)
    (address : Address) (stakeTime endTime : Nat) (e : Error)
    (h : s.StakerReword E stakerType roleNum address stakeTime endTime = Except.error e) :
    ∃ m, e = Error.panic m := by
  unfold samaState.StakerReword at h
  simp only [] at h
  split at h
  · rename_i err hd
    cases h
    exact div64_error _ _ _ hd
  · split at h
    · rename_i err hl
      cases h
      exact stakerRewordLoop_error E s _ _ _ _ _ _ _ _ _ _ hl
    · cases h

theorem rewardCurYearRun_eq (E : Env) (s : samaState) (index : Nat) :
    s.RewardCurYearRun E index = (s, s.RewardCurYear E index) := by
  unfold samaState.RewardCurYearRun samaState.RewardCurYear
  simp only []
  split_ifs <;> rfl

theorem stakerRewordYearRun_eq (E : Env) (s : samaState) (stakerType roleNum : Nat)
    (address : Address) (startTime endTime percBase percMerit : Nat) (acc : RewardAcc) (i : Nat) :
    s.StakerRewordYearRun E stakerType roleNum address startTime endTime percBase percMerit acc i =
      (s, s.StakerRewordYear E stakerType roleNum address startTime endTime percBase percMerit
        acc i) := by
  unfold samaState.StakerRewordYearRun samaState.StakerRewordYear
  simp only [rewardCurYearRun_eq]
  cases s.RewardCurYear E (toUint32 i) with
  | error err => rfl
  | ok total =>
    simp only []
    split
    · rfl
    · split_ifs <;> rfl

theorem stakerRewordLoopRun_eq (E : Env) (s : samaState) (stakerType roleNum : Nat)
    (address : Address) (startTime endTime percBase percMerit : Nat) (l : List Nat)
    (acc : RewardAcc) :
    samaState.StakerRewordLoopRun E stakerType roleNum address startTime endTime percBase
        percMerit l s acc =
      (s, samaState.StakerRewordLoop E s stakerType roleNum address startTime endTime percBase
        percMerit l acc) := by
  induction l generalizing acc with
  | nil => rfl
  | cons i rest ih =>
    unfold samaState.StakerRewordLoopRun samaState.StakerRewordLoop
    rw [stakerRewordYearRun_eq]
    cases s.StakerRewordYear E stakerType roleNum address startTime endTime percBase percMerit
        acc i with
    | error err => rfl
    | ok acc1 => exact ih acc1

theorem stakerRewordRun_eq (E : Env) (s : samaState) (stakerType roleNum : Nat)
    (address : Address) (stakeTime endTime : Nat) :
    s.StakerRewordRun E stakerType roleNum address stakeTime endTime =
      (s, s.StakerReword E stakerType roleNum address stakeTime endTime) := by
  unfold samaState.StakerRewordRun samaState.StakerReword
  simp only [stakerRewordLoopRun_eq]
  cases div64 (mul64 s.YieldsState.GetChainYields (s.StakePercentage E stakerType) / 100)
      (roleNum % 2 ^ 64) with
  | error err => rfl
  | ok share =>
    simp only []
    split
    · rename_i heq
      simp only [Prod.mk.injEq] at heq
      obtain ⟨h1, h2⟩ := heq
      subst h1
      rw [h2]
    · rename_i heq
      simp only [Prod.mk.injEq] at heq
      obtain ⟨h1, h2⟩ := heq
      subst h1
      rw [h2]

theorem foundationRewordLoopRun_eq (E : Env) (s : samaState) (startTime endTime : Nat)
    (l : List Nat) (fReward : Nat) :
    samaState.FoundationRewordLoopRun E startTime endTime l s fReward =
      (s, samaState.FoundationRewordLoop E s startTime endTime l fReward) := by
  induction l generalizing fReward with
  | nil => rfl
  | cons i rest ih =>
    unfold samaState.FoundationRewordLoopRun samaState.FoundationRewordLoop
    simp only [rewardCurYearRun_eq]
    cases s.RewardCurYear E (toUint32 i) with
    | error err => rfl
    | ok total => exact ih _

theorem foundationRewordRun_eq (E : Env) (s : samaState) (address : Address) (endTime : Nat) :
    s.FoundationRewordRun E address endTime = (s, s.FoundationReword E address endTime) := by
  unfold samaState.FoundationRewordRun samaState.FoundationReword
  simp only [foundationRewordLoopRun_eq]
  split_ifs
  · rfl
  · split
    · rename_i heq
      simp only [Prod.mk.injEq] at heq
      obtain ⟨h1, h2⟩ := heq
      subst h1
      rw [h2]
    · rename_i heq
      simp only [Prod.mk.injEq] at heq
      obtain ⟨h1, h2⟩ := heq
      subst h1
      rw [h2]

/-- The run of `CalcReward` leaves the ledger as it found it and returns what
`CalcReward` returns. -/
theorem calcRewardRun_eq (E : Env) (s : samaState) (claimerType : Nat) (address : Address)
    (endTime : Nat) :
    s.CalcRewardRun E claimerType address endTime =
      (s, s.CalcReward E claimerType address endTime) := by
  unfold samaState.CalcRewardRun samaState.CalcReward
  simp only [foundationRewordRun_eq, stakerRewordRun_eq]
  split_ifs
  · rfl
  · split
    · rename_i heq
      simp only [Prod.mk.injEq] at heq
      obtain ⟨h1, h2⟩ := heq
      subst h1
      rw [h2]
    · rename_i heq
      simp only [Prod.mk.injEq] at heq
      obtain ⟨h1, h2⟩ := heq
      subst h1
      rw [h2]
  · split
    · rfl
    · split_ifs <;> rfl

/-- C21: `CalcReward` with a claimer type other than 0 returns an error (an
error value, as opposed to the run-time panic of a division by zero) iff there
is no current staker record for (claimerType, address) or `endTime` is smaller
than the record's `StakeTime`; with claimer type 0 it returns its error
whenever the address is not the foundation address; and for a non-zero
`RateSustainYears` and a role count `n` with `n * SecondsYear < 2^64` it does
not panic: with a record and `endTime >= StakeTime` it returns a triple. In
every case the run of `CalcReward`, in which every call hands on the ledger it
leaves, ends with the ledger it started from, so every current and pending
sub-ledger is unchanged, and it returns the value of `CalcReward`. -/
theorem C21_calc_reward_preconditions (E : Env) (s : samaState) (claimerType : Nat)
    (address : Address) (endTime : Nat) :
    (claimerType ≠ 0 →
      ((∃ e, s.CalcReward E claimerType address endTime = Except.error e ∧
          ∀ m, e ≠ Error.panic m) ↔
        (s.StakerState.GetStakerMeta E claimerType address = none ∨
          ∃ staker, s.StakerState.GetStakerMeta E claimerType address = some staker ∧
            endTime < staker.StakeTime))) ∧
      (claimerType = 0 → address ≠ E.HexToAddress s.SysParams.GetFoundationAddress →
        s.CalcReward E claimerType address endTime =
          Except.error (Error.Errorf "address or claimer type  err")) ∧
      (E.valid → s.SysParams.GetRateSustainYears ≠ 0 →
        s.StakersNum E claimerType * SecondsYear < 2 ^ 64 → claimerType ≠ 0 →
        ∀ staker, s.StakerState.GetStakerMeta E claimerType address = some staker →
          staker.StakeTime ≤ endTime →
          ∃ r, s.CalcReward E claimerType address endTime = Except.ok r) ∧
      s.CalcRewardRun E claimerType address endTime =
        (s, s.CalcReward E claimerType address endTime) := by
  refine ⟨?_, ?_, ?_, calcRewardRun_eq E s claimerType address endTime⟩
  · intro h0
    unfold samaState.CalcReward
    rw [if_neg h0]
    cases hg : s.StakerState.GetStakerMeta E claimerType address with
    | none =>
      simp
    | some staker =>
      simp only []
      by_cases ht : endTime < staker.StakeTime
      · rw [if_pos ht]
        constructor
        · intro _
          exact Or.inr ⟨staker, rfl, ht⟩
        · intro _
          refine ⟨_, rfl, ?_⟩
          intro m hm
          cases hm
      · rw [if_neg ht]
        constructor
        · rintro ⟨e, he, hnp⟩
          obtain ⟨m, hm⟩ := stakerReword_error E s _ _ _ _ _ e he
          exact absurd hm (hnp m)
        · rintro (h | ⟨st, hst, hlt⟩)
          · cases h
          · simp only [Option.some.injEq] at hst
            subst hst
            exact absurd hlt ht
  · intro h0 hne
    unfold samaState.CalcReward
    rw [if_pos h0]
    simp only []
    rw [if_pos hne]
  · intro hE hchange hn h0 staker hg hle
    have ht : ¬ endTime < staker.StakeTime := by omega
    have hpos := stakersNum_pos E hE s claimerType address staker hg
    have hY := secondsYear_eq
    have hnlt : s.StakersNum E claimerType < 2 ^ 64 := by rw [hY] at hn; omega
    have hdiv : mul64 (s.StakersNum E claimerType) SecondsYear ≠ 0 := by
      unfold mul64
      rw [Nat.mod_eq_of_lt hn, hY]
      omega
    have hmod : s.StakersNum E claimerType % 2 ^ 64 ≠ 0 := by
      rw [Nat.mod_eq_of_lt hnlt]
      omega
    unfold samaState.CalcReward
    rw [if_neg h0, hg]
    simp only []
    rw [if_neg ht, stakerReword_eq E s _ _ _ _ _ hchange hdiv hmod]
    exact ⟨_, rfl⟩

/-- C21 at the demo reward ledger: route staker 7 (staked at 1668126288) gets
the error for the end time 1668126000 and a triple for 1668126290, address 9,
which has no record, gets the error, and the run for staker 7 ends with the
demo reward ledger. -/
theorem C21_calc_reward_preconditions_witness :
    (∃ e, demoRewardLedger.CalcReward demoFloatEnv 2 7 1668126000 = Except.error e ∧
        ∀ m, e ≠ Error.panic m) ∧
      (∃ e, demoRewardLedger.CalcReward demoFloatEnv 2 9 1668126290 = Except.error e ∧
        ∀ m, e ≠ Error.panic m) ∧
      (∃ r, demoRewardLedger.CalcReward demoFloatEnv 2 7 1668126290 = Except.ok r) ∧
      demoRewardLedger.CalcRewardRun demoFloatEnv 2 7 1668126290 =
        (demoRewardLedger, demoRewardLedger.CalcReward demoFloatEnv 2 7 1668126290) :=
  ⟨((C21_calc_reward_preconditions demoFloatEnv demoRewardLedger 2 7 1668126000).1
      (by decide)).2 (Or.inr ⟨_, rfl, by decide⟩),
    ((C21_calc_reward_preconditions demoFloatEnv demoRewardLedger 2 9 1668126290).1
      (by decide)).2 (Or.inl (by decide)),
    (C21_calc_reward_preconditions demoFloatEnv demoRewardLedger 2 7 1668126290).2.2.1
      (by decide) (by decide) (by decide) (by decide) _ rfl (by decide),
    (C21_calc_reward_preconditions demoFloatEnv demoRewardLedger 2 7 1668126290).2.2.2⟩

/-! ## Voter lists -/

theorem GoMap.mem_elems_del {K V : Type} [DecidableEq K] (m : GoMap K V) (k : K) (v : V)
    (h : v ∈ (m.del k).elems) : v ∈ m.elems := by
  unfold GoMap.elems GoMap.del at *
  simp only [List.mem_map, List.mem_filter] at h ⊢
  obtain ⟨e, ⟨he, _⟩, hv⟩ := h
  exact ⟨e, he, hv⟩

theorem GoMap.mem_elems_put {K V : Type} [DecidableEq K] (m : GoMap K V) (k : K) (v w : V)
    (h : w ∈ (m.put k v).elems) : w = v ∨ w ∈ m.elems := by
  unfold GoMap.elems GoMap.put at *
  simp only [List.map_cons, List.mem_cons, List.mem_map, List.mem_filter] at h ⊢
  rcases h with h | ⟨e, ⟨he, _⟩, hv⟩
  · exact Or.inl h
  · exact Or.inr ⟨e, he, hv⟩

theorem GoMap.mem_elems_set {K V : Type} [DecidableEq K] (m : GoMap K V) (k : K) (v w : V)
    (h : w ∈ (m.set k v).elems) : w = v ∨ w ∈ m.elems := by
  unfold GoMap.elems GoMap.set at *
  simp only [List.map_map, List.mem_map, Function.comp] at h ⊢
  obtain ⟨e, he, hv⟩ := h
  by_cases hk : e.1 = k
  · rw [if_pos hk] at hv
    exact Or.inl hv.symm
  · rw [if_neg hk] at hv
    exact Or.inr ⟨e, he, hv⟩

theorem GoMap.mem_elems_foldl_put {K V : Type} [DecidableEq K] (l : List (K × V))
    (dst : GoMap K V) (w : V)
    (h : w ∈ (l.foldl (fun c e => (c.del e.1).put e.1 e.2) dst).elems) :
    w ∈ dst.elems ∨ w ∈ l.map Prod.snd := by
  induction l generalizing dst with
  | nil => exact Or.inl h
  | cons e rest ih =>
    rw [List.foldl_cons] at h
    rcases ih _ h with h1 | h1
    · rcases GoMap.mem_elems_put _ _ _ _ h1 with h2 | h2
      · exact Or.inr (by simp [h2])
      · exact Or.inl (GoMap.mem_elems_del _ _ _ h2)
    · exact Or.inr (by simp [h1])

theorem GoMap.mem_elems_mergeAdd {K V : Type} [DecidableEq K] (dst src : GoMap K V) (w : V)
    (h : w ∈ (dst.mergeAdd src).elems) : w ∈ dst.elems ∨ w ∈ src.elems :=
  GoMap.mem_elems_foldl_put src.entries dst w h

theorem GoMap.mem_elems_foldl_del {K V : Type} [DecidableEq K] (ks : List K)
    (dst : GoMap K V) (w : V) (h : w ∈ (ks.foldl GoMap.del dst).elems) : w ∈ dst.elems := by
  induction ks generalizing dst with
  | nil => exact h
  | cons k rest ih =>
    rw [List.foldl_cons] at h
    exact GoMap.mem_elems_del _ _ _ (ih _ h)

theorem GoMap.mem_elems_mergeDel {K V : Type} [DecidableEq K] (dst src : GoMap K V) (w : V)
    (h : w ∈ (dst.mergeDel src).elems) : w ∈ dst.elems :=
  GoMap.mem_elems_foldl_del src.keys dst w h

theorem initialVoters_nodup (E : Env) (s : samaState) (sender : Address) :
    (initialVoters E s sender).Nodup := by
  unfold initialVoters
  simp only []
  split_ifs <;> simp

theorem putAction_votersDistinct (E : Env) (s : actionsState) (db : Database) (id : ShortID)
    (pmeta : ActionMeta) (h : s.votersDistinct) (hp : pmeta.Voters.Nodup) :
    (s.PutAction E db id pmeta).st.votersDistinct := by
  refine ⟨h.1, ?_⟩
  intro a ha
  rcases GoMap.mem_elems_put _ _ _ _ ha with h1 | h1
  · rw [h1]
    exact hp
  · exact h.2 a h1

theorem commit_votersDistinct (s : actionsState) (h : s.votersDistinct) :
    s.CacheActionsCommit.votersDistinct := by
  refine ⟨?_, ?_⟩
  · intro a ha
    rcases GoMap.mem_elems_mergeAdd _ _ _ (GoMap.mem_elems_mergeDel _ _ _ ha) with h1 | h1
    · exact h.1 a h1
    · exact h.2 a h1
  · intro a ha
    unfold actionsState.CacheActionsCommit at ha
    simp only [GoMap.clear_eq_empty] at ha
    simp [GoMap.empty, GoMap.elems] at ha

theorem abort_votersDistinct (s : actionsState) (h : s.votersDistinct) :
    s.CacheActionsAbort.votersDistinct := by
  refine ⟨h.1, ?_⟩
  intro a ha
  unfold actionsState.CacheActionsAbort at ha
  simp only [GoMap.clear_eq_empty] at ha
  simp [GoMap.empty, GoMap.elems] at ha

theorem getActionMeta_mem (s : actionsState) (now : Time) (id : ShortID) (action : ActionMeta)
    (h : s.GetActionMeta now id = Except.ok (some action)) : action ∈ s.curActions.elems := by
  unfold actionsState.GetActionMeta at h
  cases hg : s.curActions.get id with
  | none => simp [hg] at h
  | some pmeta =>
    simp only [hg] at h
    split_ifs at h
    simp only [Except.ok.injEq, Option.some.injEq] at h
    subst h
    exact GoMap.mem_elems_of_get _ _ _ hg

theorem proposal_votersDistinct (E : Env) (p : ProposalTx) (t : TransactionContext) (now : Time)
    (h : t.State.ActionsState.votersDistinct) :
    (p.Execute E t now).st.ActionsState.votersDistinct := by
  unfold ProposalTx.Execute
  simp only []
  split
  · exact h
  · split
    · exact h
    · split
      · exact h
      · exact putAction_votersDistinct E _ t.Database _ _ h (initialVoters_nodup E _ _)

theorem register_votersDistinct (E : Env) (r : RegisterTx) (t : TransactionContext) (now : Time)
    (h : t.State.ActionsState.votersDistinct) :
    (r.Execute E t now).st.ActionsState.votersDistinct := by
  unfold RegisterTx.Execute
  split_ifs
  · exact h
  · split
    · exact h
    · simp only []
      split_ifs
      · exact h
      · split
        · exact h
        · split
          · exact putAction_votersDistinct E _ t.Database _ _ h (initialVoters_nodup E _ _)
          · exact putAction_votersDistinct E _ t.Database _ _ h (initialVoters_nodup E _ _)

theorem vote_votersDistinct (E : Env) (v : VoteTx) (t : TransactionContext) (now : Time)
    (h : t.State.ActionsState.votersDistinct) :
    (v.Execute E t now).st.ActionsState.votersDistinct := by
  unfold VoteTx.Execute
  simp only []
  split
  · exact h
  · split
    · exact h
    · exact h
    · rename_i action hget
      split_ifs with h1 h2
      · exact h
      · exact h
      · have hmem := getActionMeta_mem _ _ _ _ hget
        refine putAction_votersDistinct E _ t.Database _ _ h ?_
        show (action.Voters ++ [t.Sender]).Nodup
        rw [List.nodup_append]
        refine ⟨h.1 action hmem, by simp, ?_⟩
        intro a ha hb
        simp only [List.mem_singleton] at hb
        subst hb
        exact h1 ha

theorem withdrawn_votersDistinct (E : Env) (w : WithdrawnTx) (t : TransactionContext)
    (now : Time) (h : t.State.ActionsState.votersDistinct) :
    (w.Execute E t now).st.ActionsState.votersDistinct := by
  unfold WithdrawnTx.Execute
  simp only []
  split_ifs
  · exact h
  · split
    · exact h
    · exact h
    · rename_i pmate hget
      have hmem := getActionMeta_mem _ _ _ _ hget
      have hn : (pmate.Voters.erase t.Sender).Nodup := (h.1 pmate hmem).erase _
      refine putAction_votersDistinct E _ t.Database _ _ ⟨?_, h.2⟩ hn
      intro a ha
      rcases GoMap.mem_elems_set _ _ _ _ ha with h1 | h1
      · rw [h1]
        exact hn
      · exact h.1 a h1

theorem actionOp_votersDistinct (E : Env) (g : Genesis) (x : samaState × Database)
    (op : ActionOp) (h : x.1.ActionsState.votersDistinct) :
    (op.run E g x).1.ActionsState.votersDistinct := by
  cases op with
  | proposal p sender txID blockTime now =>
    exact proposal_votersDistinct E p ⟨g, x.2, blockTime, txID, sender, x.1⟩ now h
  | register r sender txID blockTime now =>
    exact register_votersDistinct E r ⟨g, x.2, blockTime, txID, sender, x.1⟩ now h
  | vote v sender txID blockTime now =>
    exact vote_votersDistinct E v ⟨g, x.2, blockTime, txID, sender, x.1⟩ now h
  | withdrawn w sender txID blockTime now =>
    exact withdrawn_votersDistinct E w ⟨g, x.2, blockTime, txID, sender, x.1⟩ now h
  | commit => exact commit_votersDistinct _ h
  | abort => exact abort_votersDistinct _ h

theorem runActionOps_votersDistinct (E : Env) (g : Genesis) (ops : List ActionOp)
    (x : samaState × Database) (h : x.1.ActionsState.votersDistinct) :
    (runActionOps E g x ops).1.ActionsState.votersDistinct := by
  induction ops generalizing x with
  | nil => exact h
  | cons op rest ih =>
    unfold runActionOps
    rw [List.foldl_cons]
    exact ih _ (actionOp_votersDistinct E g x op h)

/-- C24 (amended): in every ledger reached from one with empty current and
pending-add action sets by `ProposalTx`, `RegisterTx`, `VoteTx` and
`WithdrawnTx` executions (failed ones too) interleaved with `Commit` and
`Abort`, every current action has a voter list without duplicates; and
`VoteTx.Execute` never returns nil and changes nothing when the sender is
already in the current action's voter list, its error being "voter is exist"
when the sender passes the sender check and the action is not past its end
time. -/
theorem C24_voters_distinct (E : Env) (g : Genesis) (s0 : samaState) (db0 : Database)
    (ops : List ActionOp)
    (hcur : s0.ActionsState.curActions = GoMap.empty)
    (hpend : s0.ActionsState.pendingActionsAdd = GoMap.empty) :
    (∀ a ∈ (runActionOps E g (s0, db0) ops).1.ActionsState.GetActions, a.Voters.Nodup) ∧
      (∀ (v : VoteTx) (t : TransactionContext) (now : Time) (action : ActionMeta),
        t.State.ActionsState.curActions.get v.ActionID = some action →
        t.Sender ∈ action.Voters →
        (v.Execute E t now).err ≠ none ∧ (v.Execute E t now).st = t.State ∧
          (VoteTx.permitted E t = none → now.Unix ≤ action.EndTime →
            (v.Execute E t now).err = some (Error.Errorf "voter is exist"))) := by
  constructor
  · have h0 : s0.ActionsState.votersDistinct := by
      unfold actionsState.votersDistinct
      rw [hcur, hpend]
      constructor <;> intro a ha <;> simp [GoMap.empty, GoMap.elems] at ha
    exact (runActionOps_votersDistinct E g ops (s0, db0) h0).1
  · intro v t now action hget hmem
    unfold VoteTx.Execute
    simp only [actionsState.GetActionMeta, hget]
    cases hp : VoteTx.permitted E t with
    | some err => simp
    | none =>
      simp only []
      by_cases hlate : action.EndTime < now.Unix
      · simp only [hlate, if_true]
        refine ⟨by simp, trivial, ?_⟩
        intro _ hle
        omega
      · simp [hlate, hmem]

/-- C24 (amended) at the demo ledger with four route stakers: action 6 is
proposed by 21, voted by 22, committed, withdrawn from by 21, committed, and
voted by 22 again; its voter list is then 22 alone. -/
theorem C24_voters_distinct_witness :
    demoRoutesLedger.ActionsState.curActions = GoMap.empty ∧
      (runActionOps demoEnv (demoContext demoLedger 4).Genesis (demoRoutesLedger, GoMap.empty)
        demoActionOps).1.ActionsState.GetActions =
        [⟨6, 2, 500, 605300, [78, 79, 80], [22], "burn", "15"⟩] ∧
      ∀ a ∈ (runActionOps demoEnv (demoContext demoLedger 4).Genesis
        (demoRoutesLedger, GoMap.empty) demoActionOps).1.ActionsState.GetActions,
        a.Voters.Nodup :=
  ⟨by decide, by decide,
    (C24_voters_distinct demoEnv (demoContext demoLedger 4).Genesis demoRoutesLedger GoMap.empty
      demoActionOps (by decide) (by decide)).1⟩

/-- C24 as stated fails: address 21 is in the voter list of action 5. On the
ledger without route stakers `VoteTx.Execute` by 21 returns the error
"sender is not route node ..." of the sender check, and on the demo govern
ledger at a time past the end of the action it returns "action is overdue ",
not "voter is exist". -/
theorem C24_vote_error_counterexample :
    (demoLedger.withActions demoBurnAction).ActionsState.curActions.get 5 =
        some ⟨5, 2, 100, 700, [11, 12], [21, 22], "burn", "10"⟩ ∧
      ((⟨⟨1, 2, 3⟩, 5⟩ : VoteTx).Execute demoEnv
        (demoContext (demoLedger.withActions demoBurnAction) 21) ⟨500, 0⟩).err =
        some (Error.Errorf ("sender is not route node " ++ demoEnv.Hex 21 ++ " " ++
          demoLedger.SysParams.GetRootAddress)) ∧
      demoGovernLedger.ActionsState.curActions.get 5 =
        some ⟨5, 2, 100, 700, [11, 12], [21, 22], "burn", "10"⟩ ∧
      ((⟨⟨1, 2, 3⟩, 5⟩ : VoteTx).Execute demoEnv (demoContext demoGovernLedger 21)
        ⟨800, 0⟩).err = some (Error.Errorf "action is overdue ") := by
  decide


/-! ## Staging from the current record -/

theorem GoMap.lookupList_set {K V : Type} [DecidableEq K] (l : List (K × V)) (k k1 : K) (v : V) :
    GoMap.lookupList (l.map (fun e => if e.1 = k then (k, v) else e)) k1 =
      if k1 = k then (GoMap.lookupList l k).map (fun _ => v) else GoMap.lookupList l k1 := by
  induction l with
  | nil => simp [GoMap.lookupList]
  | cons e rest ih =>
    obtain ⟨a, b⟩ := e
    rw [List.map_cons]
    show GoMap.lookupList ((if a = k then (k, v) else (a, b)) :: _) k1 = _
    by_cases hak : a = k
    · rw [if_pos hak]
      subst hak
      by_cases h1 : k1 = a
      · subst h1
        simp [GoMap.lookupList]
      · have h2 : ¬ a = k1 := fun h => h1 h.symm
        simp only [GoMap.lookupList, h2, if_false, h1]
        rw [ih, if_neg h1]
    · rw [if_neg hak]
      by_cases h1 : k1 = k
      · subst h1
        simp only [GoMap.lookupList, hak, if_false, if_true]
        rw [ih, if_pos rfl]
      · by_cases h3 : a = k1
        · subst h3
          simp [GoMap.lookupList, h1]
        · simp only [GoMap.lookupList, h3, if_false, h1]
          rw [ih, if_neg h1]

/-- Reading a map after an update in place. -/
theorem GoMap.get_set {K V : Type} [DecidableEq K] (m : GoMap K V) (k k1 : K) (v : V) :
    (m.set k v).get k1 = if k1 = k then (m.get k).map (fun _ => v) else m.get k1 :=
  GoMap.lookupList_set m.entries k k1 v

/-- A withdrawal that returns nil leaves, after `Abort`, the current record
with the sender erased and the tx id appended. -/
theorem withdrawn_abort_current (E : Env) (w : WithdrawnTx) (t : TransactionContext) (now : Time)
    (action : ActionMeta)
    (hroute : t.State.StakerState.IsRoute E t.Sender = true)
    (hget : t.State.ActionsState.curActions.get w.ActionID = some action)
    (hopen : ¬ action.EndTime < now.Unix) :
    (w.Execute E t now).err = none ∧
      ((w.Execute E t now).st.Abort E).ActionsState.curActions.get w.ActionID =
        some { action with Voters := action.Voters.erase t.Sender,
                           TxIDs := action.TxIDs ++ [t.TxID] } := by
  simp only [WithdrawnTx.Execute, hroute, actionsState.GetActionMeta, hget, hopen,
    actionsState.PutAction, samaState.Abort, actionsState.CacheActionsAbort, Bool.not_true,
    Bool.false_eq_true, if_false]
  refine ⟨trivial, ?_⟩
  rw [GoMap.get_set, if_pos rfl, hget]
  rfl

/-- C31 (the code at the failing input): route staker 21 withdraws from action
5 of the demo govern ledger (voters 21 and 22, tx ids 11 and 12) at
`now = 600` with the tx id 77; after `Abort`, with no `Commit`, the pending
buffers of the action set are empty, and `GetActionMeta(5)` returns the record
with the voters 22 alone and the tx ids 11, 12 and 77. -/
theorem C31_withdraw_survives_abort :
    demoGovernLedger.ActionsState.curActions.get 5 =
        some ⟨5, 2, 100, 700, [11, 12], [21, 22], "burn", "10"⟩ ∧
      demoGovernLedger.StakerState.IsRoute demoEnv 21 = true ∧
      demoWithdraw.err = none ∧
      (demoWithdraw.st.Abort demoEnv).ActionsState.pendingActionsAdd = GoMap.empty ∧
      (demoWithdraw.st.Abort demoEnv).ActionsState.pendingActionsDel = GoMap.empty ∧
      (demoWithdraw.st.Abort demoEnv).ActionsState.GetActionMeta ⟨600, 0⟩ 5 =
        Except.ok (some ⟨5, 2, 100, 700, [11, 12, 77], [22], "burn", "10"⟩) :=
  ⟨by decide, by decide, by decide, by decide, by decide, rfl⟩

/-- A vote that returns nil stages the current record with the sender and the
tx id appended, whatever the pending buffer held for the action. -/
theorem vote_stages_from_current (E : Env) (v : VoteTx) (t : TransactionContext) (now : Time)
    (action : ActionMeta)
    (hget : t.State.ActionsState.curActions.get v.ActionID = some action)
    (hok : (v.Execute E t now).err = none) :
    (v.Execute E t now).st.ActionsState.pendingActionsAdd.get v.ActionID =
        some { action with TxIDs := action.TxIDs ++ [t.TxID],
                           Voters := action.Voters ++ [t.Sender] } ∧
      (v.Execute E t now).st.ActionsState.curActions = t.State.ActionsState.curActions := by
  unfold VoteTx.Execute at hok ⊢
  simp only [actionsState.GetActionMeta, hget] at hok ⊢
  cases hp : VoteTx.permitted E t with
  | some err => simp [hp] at hok
  | none =>
    simp only [hp] at hok ⊢
    by_cases hlate : action.EndTime < now.Unix
    · simp [hlate] at hok
    · simp only [hlate, if_false] at hok ⊢
      by_cases hmem : t.Sender ∈ action.Voters
      · simp [hmem] at hok
      · simp only [hmem, if_false] at hok ⊢
        constructor
        · simp only [actionsState.PutAction]
          rw [GoMap.get_put, if_pos rfl]
        · rfl

/-- C32 (the code at the failing input): on the demo govern ledger (route
stakers 21 to 24, action 5 with the voters 21 and 22) route staker 23 votes
and then, with no `Commit` in between, route staker 24 votes; both return nil,
and after `Commit` the voter list of action 5 is 21, 22, 24: the vote of 23 is
not in it, and the store holds the same record. -/
theorem C32_first_vote_lost :
    demoVoteA.err = none ∧
      demoVoteA.st.ActionsState.pendingActionsAdd.get 5 =
        some ⟨5, 2, 100, 700, [11, 12, 77], [21, 22, 23], "burn", "10"⟩ ∧
      demoVoteB.err = none ∧
      (demoVoteB.st.Commit demoEnv).ActionsState.GetActionMeta ⟨600, 0⟩ 5 =
        Except.ok (some ⟨5, 2, 100, 700, [11, 12, 78], [21, 22, 24], "burn", "10"⟩) ∧
      demoVoteB.db.Get (PrefixActionsKey demoEnv 5) =
        some (DbValue.action ⟨5, 2, 100, 700, [11, 12, 78], [21, 22, 24], "burn", "10"⟩) :=
  ⟨by decide, by decide, by decide, rfl, by decide⟩

/-- A registration that gets as far as `PutAction` stages its new add-staker
action under its action id, whatever record the current or the pending set
holds under that id. -/
theorem register_stages_action (E : Env) (r : RegisterTx) (t : TransactionContext) (now : Time)
    (hok : (r.Execute E t now).err = none) :
    (r.Execute E t now).st.ActionsState.pendingActionsAdd.get r.ActionID =
      some { ActionID := r.ActionID,
             ActionType := actionTypeAddStaker,
             StartTime := t.BlockTime,
             EndTime := add64 t.BlockTime Seconds7Day,
             Key := E.Hex r.StakerAddr,
             NewValue := "",
             TxIDs := [t.TxID],
             Voters := initialVoters E t.State t.Sender } := by
  unfold RegisterTx.Execute at hok ⊢
  by_cases h0 : r.StakerAddr = 0
  · simp [h0] at hok
  · simp only [h0, if_false] at hok ⊢
    cases hw : E.WorkKeyAddress r.WorkKey with
    | error err => simp [hw] at hok
    | ok addr =>
      simp only [hw] at hok ⊢
      by_cases hs : (t.State.StakerState.IsStaker E r.StakerAddr).1 = true
      · simp [hs] at hok
      · simp only [hs, Bool.false_eq_true, if_false] at hok ⊢
        cases hd : t.State.DetailsState.GetDetailMeta addr with
        | none =>
          simp only [hd, actionsState.PutAction, samaState.UpdateNodeParams,
            detailsState.PutDetail]
          rw [GoMap.get_put, if_pos rfl]
        | some pmate =>
          simp only [hd] at hok ⊢
          by_cases ht : pmate.StakerType ≠ r.StakerType
          · simp [ht] at hok
          · simp only [ht, if_false] at hok ⊢
            by_cases hr : IsRegistered pmate r = true
            · simp [hr] at hok
            · have hr1 : IsRegistered pmate r = false := by simpa using hr
              simp only [hr1, Bool.false_eq_true, if_false, actionsState.PutAction,
                samaState.UpdateNodeParams, detailsState.PutDetail]
              rw [GoMap.get_put, if_pos rfl]

/-- C40 (the code at the failing input): on the demo govern ledger, whose
current action 5 is the burn action (type 2, key "burn", voters 21 and 22), a
`RegisterTx` with the action id 5 for the staking address 7, sent by route
staker 21, returns nil; after `Commit` the record under the id 5 is the
add-staker action (type 1) for the key of address 7 with the single voter 21,
and the burn action is gone. -/
theorem C40_register_overwrites_action :
    demoGovernLedger.ActionsState.curActions.get 5 =
        some ⟨5, 2, 100, 700, [11, 12], [21, 22], "burn", "10"⟩ ∧
      demoRegisterOver.err = none ∧
      (demoRegisterOver.st.Commit demoEnv).ActionsState.curActions.get 5 =
        some ⟨5, 1, 500, 605300, [77], [21], demoEnv.Hex 7, ""⟩ ∧
      (demoRegisterOver.st.Commit demoEnv).ActionsState.GetActions =
        [⟨5, 1, 500, 605300, [77], [21], demoEnv.Hex 7, ""⟩] := by
  decide

/-! ## The yield pool, proofs, stakes and the initial parameters -/

/-- C33 (the code at every input, and at the failing input): a second
`ModifyYields` made before the commit stages the current total plus its own
amount only, so the first amount is not in what `CacheYieldsCommit` applies.
On a pool with total 1000 and undistributed 1000, the payments 50 and 70 leave
`GetChainYields() = 1070` and the undistributed amount 1070 after the commit,
not 1120. -/
theorem C33_first_yield_lost (E : Env) (y : yieldsState) (db : Database)
    (y1 y2 : Nat) (tx1 tx2 : ID) (t1 t2 : Nat) :
    ((y.ModifyYields E db y1 tx1 t1).st.ModifyYields E (y.ModifyYields E db y1 tx1 t1).db y2 tx2
        t2).st.pendingYields =
        ⟨add64 y.curYields.Total y2,
          if y2 = 0 then 0 else add64 y.curYields.Undistributed y2, t2, tx2⟩ ∧
      ((⟨⟨1000, 1000, 0, 0⟩, ⟨0, 0, 0, 0⟩⟩ : yieldsState).ModifyYields demoEnv GoMap.empty 50 77
        500).err = none ∧
      (((⟨⟨1000, 1000, 0, 0⟩, ⟨0, 0, 0, 0⟩⟩ : yieldsState).ModifyYields demoEnv GoMap.empty 50 77
        500).st.ModifyYields demoEnv GoMap.empty 70 78 500).err = none ∧
      (((⟨⟨1000, 1000, 0, 0⟩, ⟨0, 0, 0, 0⟩⟩ : yieldsState).ModifyYields demoEnv GoMap.empty 50 77
        500).st.ModifyYields demoEnv GoMap.empty 70 78 500).st.CacheYieldsCommit.GetChainYields
        = 1070 ∧
      (((⟨⟨1000, 1000, 0, 0⟩, ⟨0, 0, 0, 0⟩⟩ : yieldsState).ModifyYields demoEnv GoMap.empty 50 77
        500).st.ModifyYields demoEnv GoMap.empty 70 78
        500).st.CacheYieldsCommit.curYields.Undistributed = 1070 :=
  ⟨rfl, by decide, by decide, by decide, by decide⟩

/-- C34 (the code at the failing input): the node of route staker 7 has the
work address 3. A proof of 30 seconds sent from 3 executes without error, and
after `Commit` the work-time `StakePowMinutes(route, 7)` of the staker is 0 as
before, while the 30 seconds are recorded under the work address 3 and counted
in the total work-time of the role. -/
theorem C34_proof_credits_work_address :
    demoProofLedger.DetailsState.GetDetailMeta 3 =
        some ⟨2, "", "", "", 0, 0, 0, "abc", 0, 0, 3, 7⟩ ∧
      demoProofLedger.StakerState.IsRoute demoEnv 7 = true ∧
      demoProofLedger.StakePowMinutes demoEnv 2 7 = 0 ∧
      demoProof.err = none ∧
      (demoProof.st.Commit demoEnv).StakePowMinutes demoEnv 2 7 = 0 ∧
      (demoProof.st.Commit demoEnv).StakePowMinutes demoEnv 2 3 = 30 ∧
      (demoProof.st.Commit demoEnv).ChainTotalPowMinutes demoEnv 2 = 30 := by
  decide

/-- C35 (the code at the failing input): the root (address 4) has the
add-staker action 1, whose key is the hex form of 4, confirmed. A `StakeTx`
sent by 4 with `StakerAddr = 9` executes without error: the action it deletes
is action 1, whose key is the hex form of the sender 4 and not of 9, and the
staker record created is the one of address 9, which has no add-staker
action. -/
theorem C35_stake_confirms_sender :
    demoStakeLedger.ActionsState.curActions.get 1 =
        some ⟨1, 1, 100, 700, [11], [4], demoEnv.Hex 4, ""⟩ ∧
      demoStakeLedger.IsBeConfirmed demoEnv ⟨500, 0⟩ actionTypeAddStaker (demoEnv.Hex 9) =
        (false, 0, some (Error.Errorf "not found ")) ∧
      demoStake.err = none ∧
      demoStake.st.ActionsState.pendingActionsDel.has 1 = true ∧
      (demoStake.st.Commit demoEnv).ActionsState.curActions.get 1 = none ∧
      (demoStake.st.Commit demoEnv).StakerState.GetStakerMeta demoEnv 2 9 =
        some ⟨77, 2, 200000000, 500, 9⟩ ∧
      (demoStake.st.Commit demoEnv).StakerState.GetStakerMeta demoEnv 2 4 = none ∧
      demoEnv.Hex 9 ≠ demoEnv.Hex 4 := by
  decide

/-- C36 (the code at every input, and at the failing input): on an empty
store `NewSysParamsState` returns a state with `GetPercRoute() = g.RoutePerc`
and `GetRootAddress() = g.RootAddress`, but with `GetPercValidator() = 0`,
`GetPercFoundation() = 0` and `GetFoundationAddress() = ""` whatever the
genesis says; for the default genesis, which has `ValidatorPerc = 20`,
`FoundationPerc = 40` and a non-empty foundation address, the three differ from
the genesis. -/
theorem C36_genesis_fields_dropped (E : Env) (g : Genesis) :
    (∃ st, NewSysParamsState E GoMap.empty g = Except.ok st ∧
        st.GetPercRoute = g.RoutePerc ∧ st.GetRootAddress = g.RootAddress ∧
        st.GetPercValidator = 0 ∧ st.GetPercFoundation = 0 ∧ st.GetFoundationAddress = "") ∧
      (demoContext demoLedger 4).Genesis.ValidatorPerc = 20 ∧
      (demoContext demoLedger 4).Genesis.FoundationPerc = 40 ∧
      (demoContext demoLedger 4).Genesis.FoundationAddr = "found" :=
  ⟨⟨_, rfl, rfl, rfl, rfl, rfl, rfl⟩, by decide, by decide, by decide⟩

/-! ## The three confirmation checks -/

/-- C37: for an action stored in the current set under its own id, not past
its end time, and the only current action with its type and key, the flag of
`IsBeConfirmed(type, key)`, the flag of `ProposalStatus(actionID)` and the
decision `GovernTx.Execute` computes inline are equal, the first part of
`GovernTx.Execute` turns exactly on that decision once its time window is
passed, and when `IsBeConfirmed` returns true the id it returns is the id of
the action. -/
theorem C37_confirmation_checks_agree (E : Env) (g : GovernTx) (t : TransactionContext)
    (now : Time) (action : ActionMeta)
    (hget : t.State.ActionsState.curActions.get g.ActionID = some action)
    (hid : action.ActionID = g.ActionID)
    (hopen : now.Unix ≤ action.EndTime)
    (huniq : ∀ b ∈ t.State.ActionsState.curActions.elems,
      b.ActionType = action.ActionType → b.Key = action.Key → b = action) :
    (t.State.IsBeConfirmed E now action.ActionType action.Key).1 =
        (t.State.ProposalStatus E now g.ActionID).1 ∧
      (t.State.ProposalStatus E now g.ActionID).1 = GovernTx.isBeConfirmed E t.State action ∧
      g.confirm E t now =
        (if now.Unix > add64 action.EndTime Seconds7Day then
          Except.error (Error.Errorf "need < 14 days")
        else if GovernTx.isBeConfirmed E t.State action = true then Except.ok action
        else Except.error (Error.Errorf "action not be confirmed")) ∧
      ((t.State.IsBeConfirmed E now action.ActionType action.Key).1 = true →
        (t.State.IsBeConfirmed E now action.ActionType action.Key).2.1 = action.ActionID) := by
  have hexp : ¬ action.EndTime < now.Unix := by omega
  have hmeta : t.State.ActionsState.GetActionMeta now g.ActionID = Except.ok (some action) := by
    simp [actionsState.GetActionMeta, hget, hexp]
  have hnum := getVotersNumLoop_unique action t.State.ActionsState.curActions.elems
    (GoMap.mem_elems_of_get _ _ _ hget) huniq
  have hroute : t.State.StakersNum E (stakerTypeRoute E) = t.State.StakerState.GetStakersNum.1 := by
    simp [samaState.StakersNum]
  refine ⟨?_, ?_, ?_, ?_⟩
  · simp only [samaState.IsBeConfirmed, actionsState.GetVotersNum, hnum, hid, hmeta,
      samaState.ProposalStatus]
    by_cases h3 : t.State.StakersNum E (stakerTypeRoute E) < 3
    · simp only [h3, if_true]
      by_cases hr : rootVoted E t.State.SysParams.GetRootAddress action.Voters = true
      · simp [hr]
      · simp [hr]
    · simp only [h3, if_false]
      by_cases hv : action.Voters.length ≥ t.State.StakersNum E (stakerTypeRoute E) * 2 / 3
      · simp [hv]
      · simp [hv]
  · simp only [samaState.ProposalStatus, hmeta, GovernTx.isBeConfirmed, hroute]
    by_cases h3 : t.State.StakerState.GetStakersNum.1 < 3
    · simp only [h3, if_true]
      by_cases hr : rootVoted E t.State.SysParams.GetRootAddress action.Voters = true
      · simp [hr]
      · simp [hr]
    · simp only [h3, if_false]
      by_cases hv : action.Voters.length ≥ t.State.StakerState.GetStakersNum.1 * 2 / 3
      · simp [hv]
      · simp [hv]
  · simp only [GovernTx.confirm, hmeta, GovernTx.isBeConfirmed]
    by_cases hw : now.Unix > add64 action.EndTime Seconds7Day
    · simp [hw]
    · simp only [hw, if_false]
      by_cases h3 : t.State.StakerState.GetStakersNum.1 < 3
      · simp only [h3, if_true]
        by_cases hr : rootVoted E t.State.SysParams.GetRootAddress action.Voters = true
        · simp [hr]
        · simp [hr]
      · simp only [h3, if_false]
        by_cases hv : action.Voters.length ≥ t.State.StakerState.GetStakersNum.1 * 2 / 3
        · simp [hv]
        · simp [hv]
  · simp only [samaState.IsBeConfirmed, actionsState.GetVotersNum, hnum, hid, hmeta]
    by_cases h3 : t.State.StakersNum E (stakerTypeRoute E) < 3
    · simp only [h3, if_true]
      by_cases hr : rootVoted E t.State.SysParams.GetRootAddress action.Voters = true
      · simp [hr]
      · simp [hr]
    · simp only [h3, if_false]
      by_cases hv : action.Voters.length ≥ t.State.StakersNum E (stakerTypeRoute E) * 2 / 3
      · simp [hv]
      · simp [hv]

/-- C37 at the demo govern ledger: action 5 (two voters, four route stakers)
is confirmed by all three checks at `now = 600`. -/
theorem C37_confirmation_checks_agree_witness :
    (demoGovernLedger.IsBeConfirmed demoEnv ⟨600, 0⟩ 2 "burn").1 =
        (demoGovernLedger.ProposalStatus demoEnv ⟨600, 0⟩ 5).1 ∧
      (demoGovernLedger.ProposalStatus demoEnv ⟨600, 0⟩ 5).1 =
        GovernTx.isBeConfirmed demoEnv demoGovernLedger
          ⟨5, 2, 100, 700, [11, 12], [21, 22], "burn", "10"⟩ ∧
      GovernTx.isBeConfirmed demoEnv demoGovernLedger
          ⟨5, 2, 100, 700, [11, 12], [21, 22], "burn", "10"⟩ = true :=
  ⟨(C37_confirmation_checks_agree demoEnv demoGovern (demoContext demoGovernLedger 21) ⟨600, 0⟩
      ⟨5, 2, 100, 700, [11, 12], [21, 22], "burn", "10"⟩ (by decide) (by decide) (by decide)
      (by decide)).1,
    (C37_confirmation_checks_agree demoEnv demoGovern (demoContext demoGovernLedger 21) ⟨600, 0⟩
      ⟨5, 2, 100, 700, [11, 12], [21, 22], "burn", "10"⟩ (by decide) (by decide) (by decide)
      (by decide)).2.1,
    by decide⟩

/-! ## Proofs and the work-time of a staker -/

theorem setPendingPow_other (E : Env) (f : powState) (powType role : Nat) (a : Address)
    (add1 del1 : GoMap Address PowMeta)
    (h : ∀ add del, f.GetPendingPow E powType = some (add, del) →
      add1.get a = add.get a ∧ del1.has a = del.has a) :
    ((f.setPendingPow E powType add1 del1).pendingAdd E role).get a =
        (f.pendingAdd E role).get a ∧
      ((f.setPendingPow E powType add1 del1).pendingDel E role).has a =
        (f.pendingDel E role).has a ∧
      (f.setPendingPow E powType add1 del1).GetPowMeta E role a = f.GetPowMeta E role a := by
  by_cases h1 : powType = powTypeSer E
  · subst h1
    have h0 := h f.pendingRouteAdd f.pendingRouteDel (by simp [powState.GetPendingPow])
    by_cases r1 : role = powTypeSer E
    · subst r1
      simp [powState.pendingAdd, powState.pendingDel, powState.GetPendingPow,
        powState.setPendingPow, powState.GetPowMeta, powState.GetCurPow, h0]
    · by_cases r2 : role = powTypeRoute E
      · subst r2
        simp [powState.pendingAdd, powState.pendingDel, powState.GetPendingPow,
          powState.setPendingPow, powState.GetPowMeta, powState.GetCurPow, r1]
      · simp [powState.pendingAdd, powState.pendingDel, powState.GetPendingPow,
          powState.setPendingPow, powState.GetPowMeta, powState.GetCurPow, r1, r2]
  · by_cases h2 : powType = powTypeRoute E
    · subst h2
      have h0 := h f.pendingSerAdd f.pendingSerDel (by simp [powState.GetPendingPow, h1])
      by_cases r1 : role = powTypeSer E
      · subst r1
        simp [powState.pendingAdd, powState.pendingDel, powState.GetPendingPow,
          powState.setPendingPow, powState.GetPowMeta, powState.GetCurPow, h1]
      · by_cases r2 : role = powTypeRoute E
        · subst r2
          simp [powState.pendingAdd, powState.pendingDel, powState.GetPendingPow,
            powState.setPendingPow, powState.GetPowMeta, powState.GetCurPow, h1, h0]
        · simp [powState.pendingAdd, powState.pendingDel, powState.GetPendingPow,
            powState.setPendingPow, powState.GetPowMeta, powState.GetCurPow, r1, r2, h1]
    · simp [powState.setPendingPow, h1, h2]

/-- `PutPow` leaves what the registry holds for every other address, in both
roles: the pending entries and the current record. -/
theorem putPow_other_miner (E : Env) (f : powState) (db : Database) (powType : Nat)
    (proof : ProofMeta) (role : Nat) (a : Address) (ha : a ≠ proof.Miner) :
    ((f.PutPow E db powType proof).st.pendingAdd E role).get a = (f.pendingAdd E role).get a ∧
      ((f.PutPow E db powType proof).st.pendingDel E role).has a = (f.pendingDel E role).has a ∧
      (f.PutPow E db powType proof).st.GetPowMeta E role a = f.GetPowMeta E role a := by
  have hdel : ∀ m : GoMap Address PowMeta, (m.del proof.Miner).has a = m.has a := by
    intro m
    unfold GoMap.has
    rw [GoMap.get_del, if_neg ha]
  have hput : ∀ (m : GoMap Address PowMeta) (v : PowMeta),
      (m.put proof.Miner v).get a = m.get a := by
    intro m v
    rw [GoMap.get_put, if_neg ha]
  unfold powState.PutPow
  cases hg : f.GetPendingPow E powType with
  | none => exact ⟨rfl, rfl, rfl⟩
  | some pr =>
    obtain ⟨pendingAdd, pendingDel⟩ := pr
    have hstep : ∀ v, ∀ add del, f.GetPendingPow E powType = some (add, del) →
        (pendingAdd.put proof.Miner v).get a = add.get a ∧
          (pendingDel.del proof.Miner).has a = del.has a := by
      intro v add del hh
      rw [hg] at hh
      simp only [Option.some.injEq, Prod.mk.injEq] at hh
      rw [← hh.1, ← hh.2]
      exact ⟨hput _ _, hdel _⟩
    have hkeep : ∀ add del, f.GetPendingPow E powType = some (add, del) →
        pendingAdd.get a = add.get a ∧ (pendingDel.del proof.Miner).has a = del.has a := by
      intro add del hh
      rw [hg] at hh
      simp only [Option.some.injEq, Prod.mk.injEq] at hh
      rw [← hh.1, ← hh.2]
      exact ⟨rfl, hdel _⟩
    simp only []
    cases hp : pendingAdd.get proof.Miner with
    | some pendingMeta =>
      exact setPendingPow_other E f powType role a _ _ (hstep _)
    | none =>
      simp only []
      cases hc : curGet (f.GetCurPow E powType) proof.Miner with
      | some curMeta =>
        simp only []
        split_ifs
        · exact setPendingPow_other E f powType role a _ _ hkeep
        · exact setPendingPow_other E f powType role a _ _ (hstep _)
      | none =>
        exact setPendingPow_other E f powType role a _ _ (hstep _)

/-- A `ProofTx`, whether it fails or not, changes nothing the registry holds
for an address other than its sender. -/
theorem proofTx_other_miner (E : Env) (p : ProofTx) (t : TransactionContext) (now : Time)
    (role : Nat) (a : Address) (ha : a ≠ t.Sender) :
    ((p.Execute E t now).st.PowState.pendingAdd E role).get a =
        (t.State.PowState.pendingAdd E role).get a ∧
      ((p.Execute E t now).st.PowState.pendingDel E role).has a =
        (t.State.PowState.pendingDel E role).has a ∧
      (p.Execute E t now).st.PowState.GetPowMeta E role a =
        t.State.PowState.GetPowMeta E role a := by
  unfold ProofTx.Execute
  simp only []
  split
  · exact ⟨rfl, rfl, rfl⟩
  · split_ifs
    all_goals first
      | exact ⟨rfl, rfl, rfl⟩
      | exact putPow_other_miner E _ _ _ _ role a ha

/-- After a `ProofTx` and `Commit`, the work-time `StakePowMinutes` of every
address other than the sender is what `Commit` alone would have left. -/
theorem proofTx_commit_other_miner (E : Env) (hv : E.valid) (p : ProofTx)
    (t : TransactionContext) (now : Time) (role : Nat) (hr : role ∈ powTypes E) (a : Address)
    (ha : a ≠ t.Sender) :
    ((p.Execute E t now).st.Commit E).StakePowMinutes E role a =
      (t.State.Commit E).StakePowMinutes E role a := by
  obtain ⟨h1, h2, h3⟩ := proofTx_other_miner E p t now role a ha
  have c1 : ((p.Execute E t now).st.Commit E).PowState =
      (p.Execute E t now).st.PowState.CachePowsCommit E := rfl
  have c2 : (t.State.Commit E).PowState = t.State.PowState.CachePowsCommit E := rfl
  unfold samaState.StakePowMinutes
  rw [c1, c2, pow_commit_get E hv role hr, pow_commit_get E hv role hr, h1, h2, h3]

/-! ## Divisions in the reward computation -/

/-- The divisor `uint64(roleNum) * SecondsYear` is 0 only for a role count
that is a multiple of 2^55. -/
theorem mul64_secondsYear_ne_zero (n : Nat) (h0 : 1 ≤ n) (hn : n < 2 ^ 55) :
    mul64 n SecondsYear ≠ 0 ∧ n % 2 ^ 64 ≠ 0 := by
  unfold mul64
  rw [secondsYear_eq]
  constructor
  · intro h
    have hd : 2 ^ 64 ∣ n * 31449600 := Nat.dvd_of_mod_eq_zero h
    have e : n * 31449600 = 2 ^ 9 * (n * 61425) := by ring
    have e2 : (2 : Nat) ^ 64 = 2 ^ 9 * 2 ^ 55 := by norm_num
    rw [e, e2] at hd
    have hd2 : 2 ^ 55 ∣ n * 61425 := (Nat.mul_dvd_mul_iff_left (by norm_num)).1 hd
    have hc : Nat.Coprime (2 ^ 55) 61425 := Nat.Coprime.pow_left 55 (by decide)
    have hle := Nat.le_of_dvd h0 (hc.dvd_of_dvd_mul_right hd2)
    exact absurd hn (Nat.not_lt.2 hle)
  · have h64 : (2 : Nat) ^ 55 < 2 ^ 64 := by norm_num
    rw [Nat.mod_eq_of_lt (lt_trans hn h64)]
    exact Nat.one_le_iff_ne_zero.1 h0

theorem foundationRewordLoop_ne_error (E : Env) (s : samaState) (startTime endTime : Nat)
    (hchange : s.SysParams.GetRateSustainYears ≠ 0) (years : List Nat) (fReward : Nat)
    (err : Error) :
    samaState.FoundationRewordLoop E s startTime endTime years fReward ≠ Except.error err := by
  induction years generalizing fReward with
  | nil =>
    intro h
    cases h
  | cons i rest ih =>
    simp only [samaState.FoundationRewordLoop, samaState.RewardCurYear, hchange, if_false]
    exact ih _

/-- With a non-zero `RateSustainYears` the only error of `FoundationReword` is
"end time err". -/
theorem foundationReword_no_panic (E : Env) (s : samaState) (address : Address) (endTime : Nat)
    (hchange : s.SysParams.GetRateSustainYears ≠ 0) (m : String) :
    s.FoundationReword E address endTime ≠ Except.error (Error.panic m) := by
  unfold samaState.FoundationReword
  simp only []
  split_ifs
  · intro h
    cases h
  · split
    · rename_i err hl
      exact absurd hl (foundationRewordLoop_ne_error E s _ _ hchange _ _ _)
    · intro h
      cases h

/-- The loop of `UpdateStakerReward` returns no error when the role count it
was given makes no divisor 0. -/
theorem updateStakerRewardLoop_ok (E : Env) (roleNum : Nat) (address : Address) (txID : ID)
    (endTime : Nat) (hdiv : mul64 roleNum SecondsYear ≠ 0) (hmod : roleNum % 2 ^ 64 ≠ 0)
    (stakers : List StakerMeta) (x : Res samaState)
    (hchange : x.st.SysParams.GetRateSustainYears ≠ 0) (hx : x.err = none) :
    (samaState.UpdateStakerRewardLoop E roleNum address txID endTime stakers x).err = none := by
  induction stakers generalizing x with
  | nil => exact hx
  | cons staker rest ih =>
    simp only [samaState.UpdateStakerRewardLoop]
    by_cases h1 : staker.StakeTime ≥ endTime
    · simp only [h1, if_true]
      exact ih x hchange hx
    · simp only [h1, if_false]
      by_cases ha : address ≠ staker.StakerAddr
      · rw [if_pos ha, stakerReword_eq E x.st _ _ _ _ _ hchange hdiv hmod]
        exact ih _ hchange rfl
      · rw [if_neg ha]
        exact ih _ hchange rfl

/-- C38: with distinct role bytes, `RateSustainYears >= 1` and role counts
below 2^55 (the size at which `uint64(roleNum) * SecondsYear` first wraps to
0), `CalcReward` never ends in the panic of an integer division by zero, for
any claimer type, address and end time: the role count it hands to
`StakerReword` is at least 1, since a staker record was found in that role;
and `UpdateStakerReward` never ends in that panic either: with a role count of
0 it returns before its loop, leaving the ledger and the store as they were. -/
theorem C38_no_division_by_zero (E : Env) (hE : E.valid) (s : samaState)
    (hrate : 1 ≤ s.SysParams.GetRateSustainYears)
    (hsize : s.StakerState.GetStakersNum.1 < 2 ^ 55 ∧ s.StakerState.GetStakersNum.2.1 < 2 ^ 55 ∧
      s.StakerState.GetStakersNum.2.2 < 2 ^ 55) :
    (∀ claimerType address endTime m,
        s.CalcReward E claimerType address endTime ≠ Except.error (Error.panic m)) ∧
      (∀ claimerType address staker,
        s.StakerState.GetStakerMeta E claimerType address = some staker →
          1 ≤ s.StakersNum E claimerType) ∧
      (∀ db stakerType address txID endTime m,
        (s.UpdateStakerReward E db stakerType address txID endTime).err ≠
          some (Error.panic m)) ∧
      (∀ db stakerType address txID endTime, s.StakersNum E stakerType = 0 →
        (s.UpdateStakerReward E db stakerType address txID endTime).st = s ∧
          (s.UpdateStakerReward E db stakerType address txID endTime).db = db) := by
  have hchange : s.SysParams.GetRateSustainYears ≠ 0 := by omega
  have hbound : ∀ role, s.StakersNum E role < 2 ^ 55 := by
    intro role
    unfold samaState.StakersNum
    split_ifs
    · exact hsize.1
    · exact hsize.2.1
    · exact hsize.2.2
    · decide
  refine ⟨?_, ?_, ?_, ?_⟩
  · intro claimerType address endTime m
    unfold samaState.CalcReward
    by_cases h0 : claimerType = 0
    · rw [if_pos h0]
      simp only []
      split_ifs
      · intro h
        cases h
      · have hf := foundationReword_no_panic E s address endTime hchange
        cases hr : s.FoundationReword E address endTime with
        | error err =>
          simp only []
          intro h
          cases h
          exact hf m hr
        | ok base =>
          simp only []
          intro h
          cases h
    · rw [if_neg h0]
      cases hg : s.StakerState.GetStakerMeta E claimerType address with
      | none =>
        simp only []
        intro h
        cases h
      | some staker =>
        simp only []
        split_ifs
        · intro h
          cases h
        · have hpos := stakersNum_pos E hE s claimerType address staker hg
          obtain ⟨hdiv, hmod⟩ := mul64_secondsYear_ne_zero _ hpos (hbound claimerType)
          rw [stakerReword_eq E s _ _ _ _ _ hchange hdiv hmod]
          intro h
          cases h
  · intro claimerType address staker hg
    exact stakersNum_pos E hE s claimerType address staker hg
  · intro db stakerType address txID endTime m
    unfold samaState.UpdateStakerReward
    simp only []
    split_ifs with c1 c2 c3
    · intro h
      cases h
    · intro h
      cases h
    · intro h
      cases h
    · have hpos : 1 ≤ s.StakersNum E stakerType := by omega
      obtain ⟨hdiv, hmod⟩ := mul64_secondsYear_ne_zero _ hpos (hbound stakerType)
      have hloop := updateStakerRewardLoop_ok E (s.StakersNum E stakerType) address txID endTime
        hdiv hmod (s.StakerState.GetStakers E stakerType) ⟨s, db, none⟩ hchange rfl
      rw [hloop]
      simp only []
      intro h
      cases h
  · intro db stakerType address txID endTime h0
    unfold samaState.UpdateStakerReward
    simp only []
    split_ifs
    · exact ⟨rfl, rfl⟩
    · exact ⟨rfl, rfl⟩
    · exact ⟨rfl, rfl⟩

/-- C38 at the demo reward ledger (two route stakers, `RateSustainYears = 1`):
`CalcReward` for route staker 7 returns a triple. -/
theorem C38_no_division_by_zero_witness :
    (1 ≤ demoRewardLedger.SysParams.GetRateSustainYears) ∧
      demoRewardLedger.StakersNum demoFloatEnv 2 = 2 ∧
      ∀ m, demoRewardLedger.CalcReward demoFloatEnv 2 7 1668126290 ≠
        Except.error (Error.panic m) :=
  ⟨by decide, by decide,
    fun m => (C38_no_division_by_zero demoFloatEnv (by decide) demoRewardLedger (by decide)
      (by decide)).1 2 7 1668126290 m⟩

/-! ## The pending buffers of the staker registry -/

theorem disjoint_put {V : Type} (add del : GoMap Address V) (k : Address) (v : V)
    (h : ∀ a ∈ add.keys, del.has a = false) :
    ∀ a ∈ (add.put k v).keys, (del.del k).has a = false := by
  intro a ha
  unfold GoMap.has
  rw [GoMap.get_del]
  by_cases hk : a = k
  · rw [if_pos hk]
    rfl
  · rw [if_neg hk]
    have hmem : a ∈ add.keys := by
      have h1 : (add.put k v).has a = true := by rw [GoMap.has_eq]; simpa using ha
      unfold GoMap.has at h1
      rw [GoMap.get_put, if_neg hk] at h1
      have h2 : add.has a = true := h1
      rw [GoMap.has_eq] at h2
      simpa using h2
    exact h a hmem

theorem disjoint_del {V : Type} (add del : GoMap Address V) (k : Address) (z : V)
    (h : ∀ a ∈ add.keys, del.has a = false) :
    ∀ a ∈ (add.del k).keys, (del.put k z).has a = false := by
  intro a ha
  have h1 : (add.del k).has a = true := by rw [GoMap.has_eq]; simpa using ha
  unfold GoMap.has at h1
  rw [GoMap.get_del] at h1
  by_cases hk : a = k
  · rw [if_pos hk] at h1
    cases h1
  · rw [if_neg hk] at h1
    have h2 : add.has a = true := h1
    rw [GoMap.has_eq] at h2
    have hmem : a ∈ add.keys := by simpa using h2
    unfold GoMap.has
    rw [GoMap.get_put, if_neg hk]
    exact h a hmem

theorem disjoint_clear {V : Type} (add del : GoMap Address V) :
    ∀ a ∈ add.clear.keys, del.clear.has a = false := by
  intro a ha
  rw [GoMap.clear_eq_empty] at ha
  cases ha

theorem setPending_put_pendingDisjoint (E : Env) (s : stakerState) (ty : Nat) (k : Address)
    (v : StakerMeta) (pendingAdd pendingDel : GoMap Address StakerMeta)
    (hg : s.GetPendingStakers E ty = some (pendingAdd, pendingDel)) (h : s.pendingDisjoint) :
    (s.setPendingStakers E ty (pendingAdd.put k v) (pendingDel.del k)).pendingDisjoint ∧
      (s.setPendingStakers E ty (pendingAdd.del k) (pendingDel.put k v)).pendingDisjoint := by
  obtain ⟨hr, hs, hv⟩ := h
  unfold stakerState.GetPendingStakers at hg
  unfold stakerState.setPendingStakers
  by_cases c1 : ty = stakerTypeSer E
  · subst c1
    simp only [if_true, Option.some.injEq, Prod.mk.injEq] at hg ⊢
    rw [← hg.1, ← hg.2]
    exact ⟨⟨hr, disjoint_put _ _ _ _ hs, hv⟩, ⟨hr, disjoint_del _ _ _ _ hs, hv⟩⟩
  · by_cases c2 : ty = stakerTypeRoute E
    · subst c2
      simp only [c1, if_false, if_true, Option.some.injEq, Prod.mk.injEq] at hg ⊢
      rw [← hg.1, ← hg.2]
      exact ⟨⟨disjoint_put _ _ _ _ hr, hs, hv⟩, ⟨disjoint_del _ _ _ _ hr, hs, hv⟩⟩
    · by_cases c3 : ty = stakerTypeValidator E
      · subst c3
        simp only [c1, c2, if_false, if_true, Option.some.injEq, Prod.mk.injEq] at hg ⊢
        rw [← hg.1, ← hg.2]
        exact ⟨⟨hr, hs, disjoint_put _ _ _ _ hv⟩, ⟨hr, hs, disjoint_del _ _ _ _ hv⟩⟩
      · simp [c1, c2, c3] at hg

theorem putStaker_pendingDisjoint (E : Env) (s : stakerState) (db : Database)
    (staker : StakerMeta) (h : s.pendingDisjoint) :
    (s.PutStaker E db staker).st.pendingDisjoint := by
  unfold stakerState.PutStaker
  cases hg : s.GetPendingStakers E (toByte staker.StakerType) with
  | none => exact h
  | some pr =>
    obtain ⟨pendingAdd, pendingDel⟩ := pr
    exact (setPending_put_pendingDisjoint E s _ staker.StakerAddr staker _ _ hg h).1

theorem delStaker_pendingDisjoint (E : Env) (s : stakerState) (db : Database)
    (stakerType : Nat) (address : Address) (h : s.pendingDisjoint) :
    (s.DelStaker E db stakerType address).st.pendingDisjoint := by
  unfold stakerState.DelStaker
  cases hg : s.GetPendingStakers E stakerType with
  | none => exact h
  | some pr =>
    obtain ⟨pendingAdd, pendingDel⟩ := pr
    exact (setPending_put_pendingDisjoint E s _ address StakerMeta.zero _ _ hg h).2

theorem setPending_clear_pendingDisjoint (E : Env) (s : stakerState) (stakerType : Nat)
    (add del : GoMap Address StakerMeta) (h : s.pendingDisjoint) :
    (s.setPendingStakers E stakerType add.clear del.clear).pendingDisjoint := by
  obtain ⟨hr, hs, hv⟩ := h
  unfold stakerState.setPendingStakers
  split_ifs
  · exact ⟨hr, disjoint_clear _ _, hv⟩
  · exact ⟨disjoint_clear _ _, hs, hv⟩
  · exact ⟨hr, hs, disjoint_clear _ _⟩
  · exact ⟨hr, hs, hv⟩

theorem setCur_pendingDisjoint (E : Env) (s : stakerState) (stakerType : Nat)
    (cur : GoMap Address StakerMeta) (h : s.pendingDisjoint) :
    (s.setCurStakes E stakerType cur).pendingDisjoint := by
  unfold stakerState.setCurStakes
  split_ifs <;> exact h

theorem commitType_pendingDisjoint (E : Env) (s : stakerState) (stakerType : Nat)
    (h : s.pendingDisjoint) : (s.commitType E stakerType).pendingDisjoint := by
  unfold stakerState.commitType
  split
  · exact setPending_clear_pendingDisjoint E _ _ _ _ (setCur_pendingDisjoint E _ _ _ h)
  · exact h

theorem abortType_pendingDisjoint (E : Env) (s : stakerState) (stakerType : Nat)
    (h : s.pendingDisjoint) : (s.abortType E stakerType).pendingDisjoint := by
  unfold stakerState.abortType
  split
  · exact setPending_clear_pendingDisjoint E _ _ _ _ h
  · exact h

theorem stakerOp_pendingDisjoint (E : Env) (x : stakerState × Database) (op : StakerOp)
    (h : x.1.pendingDisjoint) : (StakerOp.run E x op).1.pendingDisjoint := by
  cases op with
  | put staker => exact putStaker_pendingDisjoint E _ _ _ h
  | del stakerType address => exact delStaker_pendingDisjoint E _ _ _ _ h
  | commit =>
    show (x.1.CacheStakersCommit E).pendingDisjoint
    unfold stakerState.CacheStakersCommit StakerTypes
    simp only [List.foldl_cons, List.foldl_nil]
    exact commitType_pendingDisjoint E _ _
      (commitType_pendingDisjoint E _ _ (commitType_pendingDisjoint E _ _ h))
  | abort =>
    show (x.1.CacheStakersAbort E).pendingDisjoint
    unfold stakerState.CacheStakersAbort StakerTypes
    simp only [List.foldl_cons, List.foldl_nil]
    exact abortType_pendingDisjoint E _ _
      (abortType_pendingDisjoint E _ _ (abortType_pendingDisjoint E _ _ h))

theorem runStakerOps_pendingDisjoint (E : Env) (ops : List StakerOp)
    (x : stakerState × Database) (h : x.1.pendingDisjoint) :
    (runStakerOps E x ops).1.pendingDisjoint := by
  induction ops generalizing x with
  | nil => exact h
  | cons op rest ih =>
    unfold runStakerOps
    rw [List.foldl_cons]
    exact ih _ (stakerOp_pendingDisjoint E x op h)

/-- Writing the pending maps of one role leaves the maps `GetPendingStakers`
and `GetCurStakes` return for every other role. -/
theorem setPending_other_role (E : Env) (s : stakerState) (role other : Nat)
    (add del : GoMap Address StakerMeta) (hne : other ≠ role) :
    (s.setPendingStakers E role add del).GetPendingStakers E other =
        s.GetPendingStakers E other ∧
      (s.setPendingStakers E role add del).GetCurStakes E other = s.GetCurStakes E other := by
  unfold stakerState.setPendingStakers stakerState.GetPendingStakers stakerState.GetCurStakes
  by_cases r1 : role = stakerTypeSer E
  · subst r1
    simp [hne]
  · by_cases r2 : role = stakerTypeRoute E
    · subst r2
      simp only [r1, if_false, if_true]
      by_cases o1 : other = stakerTypeSer E
      · simp [o1]
      · simp [o1, hne]
    · by_cases r3 : role = stakerTypeValidator E
      · subst r3
        simp only [r1, r2, if_false, if_true]
        by_cases o1 : other = stakerTypeSer E
        · simp [o1]
        · by_cases o2 : other = stakerTypeRoute E
          · simp [o1, o2]
          · simp [o1, o2, hne]
      · simp [r1, r2, r3]

/-- C39: starting from empty pending buffers, after every sequence of
`PutStaker`, `DelStaker`, `CacheStakersCommit` and `CacheStakersAbort` and for
every role, no address is a key both of the pending-add and of the
pending-delete map of the role; and a `PutStaker` or a `DelStaker` for one
role leaves the pending maps and the current map of every other role as they
were. -/
theorem C39_pending_buffers_disjoint (E : Env) (s0 : stakerState) (db0 : Database)
    (ops : List StakerOp) (hempty : s0.pendingEmpty) :
    (∀ role pendingAdd pendingDel,
        (runStakerOps E (s0, db0) ops).1.GetPendingStakers E role =
          some (pendingAdd, pendingDel) →
        ∀ a, ¬ (a ∈ pendingAdd.keys ∧ a ∈ pendingDel.keys)) ∧
      (∀ (s : stakerState) (db : Database) (staker : StakerMeta) (other : Nat),
        other ≠ toByte staker.StakerType →
        (s.PutStaker E db staker).st.GetPendingStakers E other = s.GetPendingStakers E other ∧
          (s.PutStaker E db staker).st.GetCurStakes E other = s.GetCurStakes E other) ∧
      (∀ (s : stakerState) (db : Database) (stakerType : Nat) (address : Address) (other : Nat),
        other ≠ stakerType →
        (s.DelStaker E db stakerType address).st.GetPendingStakers E other =
            s.GetPendingStakers E other ∧
          (s.DelStaker E db stakerType address).st.GetCurStakes E other =
            s.GetCurStakes E other) := by
  refine ⟨?_, ?_, ?_⟩
  · have h0 : s0.pendingDisjoint := by
      obtain ⟨e1, e2, e3, _, _, _⟩ := hempty
      unfold stakerState.pendingDisjoint
      rw [e1, e2, e3]
      refine ⟨?_, ?_, ?_⟩ <;> intro a ha <;> cases ha
    obtain ⟨hr, hs, hv⟩ := runStakerOps_pendingDisjoint E ops (s0, db0) h0
    intro role pendingAdd pendingDel hget a hboth
    have hcontra : ∀ (add del : GoMap Address StakerMeta),
        (∀ a ∈ add.keys, del.has a = false) → a ∈ add.keys → a ∈ del.keys → False := by
      intro add del hd h1 h2
      have := hd a h1
      rw [GoMap.has_eq] at this
      simp [h2] at this
    unfold stakerState.GetPendingStakers at hget
    split_ifs at hget
    · simp only [Option.some.injEq, Prod.mk.injEq] at hget
      rw [← hget.1, ← hget.2] at hboth
      exact hcontra _ _ hs hboth.1 hboth.2
    · simp only [Option.some.injEq, Prod.mk.injEq] at hget
      rw [← hget.1, ← hget.2] at hboth
      exact hcontra _ _ hr hboth.1 hboth.2
    · simp only [Option.some.injEq, Prod.mk.injEq] at hget
      rw [← hget.1, ← hget.2] at hboth
      exact hcontra _ _ hv hboth.1 hboth.2
  · intro s db staker other hne
    unfold stakerState.PutStaker
    split
    · exact ⟨rfl, rfl⟩
    · exact setPending_other_role E s _ other _ _ hne
  · intro s db stakerType address other hne
    unfold stakerState.DelStaker
    split
    · exact ⟨rfl, rfl⟩
    · exact setPending_other_role E s _ other _ _ hne

/-- C39 at the demo run on the empty registry: at its end route staker 7 is
in the pending-add map of the route role, and no address is in both pending
maps of that role. -/
theorem C39_pending_buffers_disjoint_witness :
    demoLedger.StakerState.pendingEmpty ∧
      ((runStakerOps demoEnv (demoLedger.StakerState, GoMap.empty)
        demoStakerOps).1.pendingAdd demoEnv 2).keys = [7] ∧
      ∀ role pendingAdd pendingDel,
        (runStakerOps demoEnv (demoLedger.StakerState, GoMap.empty)
          demoStakerOps).1.GetPendingStakers demoEnv role = some (pendingAdd, pendingDel) →
        ∀ a, ¬ (a ∈ pendingAdd.keys ∧ a ∈ pendingDel.keys) :=
  ⟨by decide, by decide,
    (C39_pending_buffers_disjoint demoEnv demoLedger.StakerState GoMap.empty demoStakerOps
      (by decide)).1⟩

/-! ## The foundation reward on the ledgers the program reaches -/

end SamaVM
